import Mathlib

/-! # DXBC shader parser (Src/ShaderParse.cpp): embedding and checked properties

The parser is embedded as pure functions over an explicit reader state.

Conventions of the embedding

* A failing `assert` / `assert_msg` of the source stops the parse: it is an
  `Except.error` carrying the kind of the assertion.
* A dereference of a pointer that lies outside the buffer handed to the parser
  has no defined result in the source; it is the error `OutOfBounds`.
* Machine integers are `Nat` / `Int` with explicit reductions modulo `2 ^ 32`
  or `2 ^ 64` at the places where the source truncates.
* Loops and the recursion of `ReadOp` run on a fuel argument; the public entry
  points supply a fuel that is large enough (the number of tokens that can
  still be read), and `OutOfFuel` is the artefact that marks exhaustion.
-/

set_option autoImplicit false
set_option maxRecDepth 100000

namespace DXBC

/-! ## Errors -/

/-- Kinds of failure: one constructor per family of assertions in the source,
plus the two artefacts of the embedding (`OutOfBounds`, `OutOfFuel`). -/
inductive ParseError where
  /-- Failure of `assert(tokens < tokens_end)` in `Read32`. -/
  | Truncated
  /-- Dereference outside the buffer given to the parser. -/
  | OutOfBounds
  /-- Failure of `assert(optok.op_type < SOT_COUNT)`. -/
  | UnknownOperandType
  /-- Failure of the `default:` assertions of the two component switches. -/
  | UnhandledComponents
  /-- Failure of `assert_msg(false, "Unhandled extended operand token type")`. -/
  | UnknownExtendedOperand
  /-- Failure of `assert_msg(false, "Unhandled operand index representation")`. -/
  | UnknownIndexRepr
  /-- Failure of `assert(opcode < SO_COUNT)`. -/
  | UnknownOpcode
  /-- Failure of `assert_msg(false, "Unhandled declaration")`. -/
  | UnhandledDeclaration
  /-- Failure of an assertion on the position or on a decoded record. -/
  | InvariantViolation
  /-- Failure of an assertion on a four-character chunk tag. -/
  | BadMagic
  /-- Failure of `assert(false)` at the end of `GetCBBindPoint`. -/
  | BindPointNotFound
  /-- Fuel of the embedding exhausted. -/
  | OutOfFuel
  deriving DecidableEq, Repr

/-! ## Constants and bit-fields declared in Shader.hpp -/

/-- Limits declared in the headers; their values are left open. -/
structure Limits where
  /-- Number of operand types (`SOT_COUNT`). -/
  SOT_COUNT : Nat
  /-- Number of opcodes (`SO_COUNT`). -/
  SO_COUNT : Nat
  /-- Capacity of `ShaderInstruction::ops` (`SM_MAX_OPS`). -/
  SM_MAX_OPS : Nat

/-- Bit-field `lo .. lo + width - 1` of a 32-bit token. -/
def bits (t lo width : Nat) : Nat := (t / 2 ^ lo) % 2 ^ width

/-- Modelled from the spec: field `comps_enum` of `TokenizedShaderOperand`
(Shader.hpp is not part of the sources); bits 0-1 of the DXBC operand token. -/
def optok_comps_enum (t : Nat) : Nat := bits t 0 2
/-- Modelled from the spec: field `mode` of `TokenizedShaderOperand`; bits 2-3. -/
def optok_mode (t : Nat) : Nat := bits t 2 2
/-- Modelled from the spec: field `sel` of `TokenizedShaderOperand`; bits 4-11. -/
def optok_sel (t : Nat) : Nat := bits t 4 8
/-- Modelled from the spec: field `op_type` of `TokenizedShaderOperand`; bits 12-19. -/
def optok_op_type (t : Nat) : Nat := bits t 12 8
/-- Modelled from the spec: field `num_indices` of `TokenizedShaderOperand`; bits 20-21. -/
def optok_num_indices (t : Nat) : Nat := bits t 20 2
/-- Modelled from the spec: field `index0_repr` of `TokenizedShaderOperand`; bits 22-24. -/
def optok_index0_repr (t : Nat) : Nat := bits t 22 3
/-- Modelled from the spec: field `index1_repr` of `TokenizedShaderOperand`; bits 25-27. -/
def optok_index1_repr (t : Nat) : Nat := bits t 25 3
/-- Modelled from the spec: field `index2_repr` of `TokenizedShaderOperand`; bits 28-30. -/
def optok_index2_repr (t : Nat) : Nat := bits t 28 3
/-- Modelled from the spec: field `extended` of `TokenizedShaderOperand`; bit 31. -/
def optok_extended (t : Nat) : Nat := bits t 31 1

/-- Modelled from the spec: field `type` of `TokenizedShaderOperandExtended`; bits 0-5. -/
def optokext_type (t : Nat) : Nat := bits t 0 6
/-- Modelled from the spec: field `neg` of `TokenizedShaderOperandExtended`; bit 6. -/
def optokext_neg (t : Nat) : Nat := bits t 6 1
/-- Modelled from the spec: field `abs` of `TokenizedShaderOperandExtended`; bit 7. -/
def optokext_abs (t : Nat) : Nat := bits t 7 1

/-- Modelled from the spec: macro `SM_OPERAND_SEL_MASK` (the 4-bit write mask). -/
def SM_OPERAND_SEL_MASK (sel : Nat) : Nat := sel % 16
/-- Modelled from the spec: macro `SM_OPERAND_SEL_SWZ` (the i-th 2-bit source index). -/
def SM_OPERAND_SEL_SWZ (sel i : Nat) : Nat := (sel / 2 ^ (i * 2)) % 4
/-- Modelled from the spec: macro `SM_OPERAND_SEL_SCALAR` (one 2-bit index). -/
def SM_OPERAND_SEL_SCALAR (sel : Nat) : Nat := sel % 4

/-- Modelled from the spec: enumerators of the components enum (0-comp, 1-comp, 4-comp). -/
def SONC_0 : Nat := 0
/-- Modelled from the spec: enumerator for one component. -/
def SONC_1 : Nat := 1
/-- Modelled from the spec: enumerator for four components. -/
def SONC_4 : Nat := 2

/-- Modelled from the spec: selection mode *mask*. -/
def SOSM_MASK : Nat := 0
/-- Modelled from the spec: selection mode *swizzle*. -/
def SOSM_SWIZZLE : Nat := 1
/-- Modelled from the spec: selection mode *scalar*. -/
def SOSM_SCALAR : Nat := 2

/-- Modelled from the spec: index representation IMM32. -/
def SOIP_IMM32 : Nat := 0
/-- Modelled from the spec: index representation IMM64. -/
def SOIP_IMM64 : Nat := 1
/-- Modelled from the spec: index representation RELATIVE. -/
def SOIP_RELATIVE : Nat := 2
/-- Modelled from the spec: index representation IMM32+RELATIVE. -/
def SOIP_IMM32_PLUS_RELATIVE : Nat := 3
/-- Modelled from the spec: index representation IMM64+RELATIVE. -/
def SOIP_IMM64_PLUS_RELATIVE : Nat := 4

/-- Modelled from the spec: operand type INPUT. -/
def SOT_INPUT : Nat := 1
/-- Modelled from the spec: operand type OUTPUT. -/
def SOT_OUTPUT : Nat := 2
/-- Modelled from the spec: operand type IMMEDIATE32. -/
def SOT_IMMEDIATE32 : Nat := 4
/-- Modelled from the spec: operand type IMMEDIATE64. -/
def SOT_IMMEDIATE64 : Nat := 5

/-! ## Instruction tokens and opcodes declared in Shader.hpp -/

/-- Modelled from the spec: field `opcode` of `TokenizedShaderInstruction`
(Shader.hpp is not part of the sources); bits 0-10 of the opcode token. -/
def insntok_opcode (t : Nat) : Nat := bits t 0 11
/-- Modelled from the spec: field `length` of `TokenizedShaderInstruction`, the
length of the record in tokens, opcode token included; bits 24-30. -/
def insntok_length (t : Nat) : Nat := bits t 24 7
/-- Modelled from the spec: field `extended` of `TokenizedShaderInstruction`
and of `TokenizedShaderInstructionExtended`; bit 31. -/
def insntok_extended (t : Nat) : Nat := bits t 31 1
/-- Modelled from the spec: field `type` of `TokenizedShaderInstructionExtended`; bits 0-5. -/
def exttok_type (t : Nat) : Nat := bits t 0 6

/-- Value of a signed bit-field of `width` bits. -/
def signedField (v width : Nat) : Int :=
  if v < 2 ^ (width - 1) then (v : Int) else (v : Int) - 2 ^ width

/-- Modelled from the spec: signed fields `sample_controls.offset_u/v/w` of the
extended token (4 bits each, from bit 9). -/
def exttok_sample_offsets (t : Nat) : List Int :=
  [signedField (bits t 9 4) 4, signedField (bits t 13 4) 4, signedField (bits t 17 4) 4]
/-- Modelled from the spec: field `resource_target.target` of the extended token; bits 6-10. -/
def exttok_resource_target (t : Nat) : Nat := bits t 6 5
/-- Modelled from the spec: fields `resource_return_type.x/y/z/w` of the
extended token (4 bits each, from bit 6). -/
def exttok_resource_return_type (t : Nat) : List Nat :=
  [bits t 6 4, bits t 10 4, bits t 14 4, bits t 18 4]

/-- Modelled from the spec: extended opcode type `SampleControls`. -/
def SEOP_SAMPLE_CONTROLS : Nat := 1
/-- Modelled from the spec: extended opcode type `ResourceDim`. -/
def SEOP_RESOURCE_DIM : Nat := 2
/-- Modelled from the spec: extended opcode type `ResourceReturnType`. -/
def SEOP_RESOURCE_RETURN_TYPE : Nat := 3

/-- Modelled from the spec: field `dcl_gs_input_primitive.primitive`; bits 11-16. -/
def dcltok_gs_input_primitive (t : Nat) : Nat := bits t 11 6
/-- Modelled from the spec: field
`dcl_gs_output_primitive_topology.primitive_topology`; bits 11-17. -/
def dcltok_gs_output_primitive_topology (t : Nat) : Nat := bits t 11 7
/-- Modelled from the spec: fields `dcl_tess_output_primitive.primitive`,
`dcl_tess_partitioning.partitioning` and `dcl_tess_domain.domain`; bits 11-13. -/
def dcltok_tess (t : Nat) : Nat := bits t 11 3
/-- Modelled from the spec: field `control_points` of
`dcl_input_control_point_count` and `dcl_output_control_point_count`; bits 11-16. -/
def dcltok_control_points (t : Nat) : Nat := bits t 11 6

/-- Modelled from the spec: topology `SPT_Undefined`. -/
def SPT_Undefined : Nat := 0

/-- Modelled from the spec: field `major` of the version token; bits 4-7. -/
def version_major (t : Nat) : Nat := bits t 4 4

/-- Modelled from the spec: opcode `ImmediateConstantBuffer` (custom data). -/
def SO_IMMEDIATE_CONSTANT_BUFFER : Nat := 53
/-- Modelled from the spec: opcode `DclResource`, first of the first range of declarations. -/
def SO_DCL_RESOURCE : Nat := 88
/-- Modelled from the spec: opcode `DclConstantBuffer`. -/
def SO_DCL_CONSTANT_BUFFER : Nat := 89
/-- Modelled from the spec: opcode `DclSampler`. -/
def SO_DCL_SAMPLER : Nat := 90
/-- Modelled from the spec: opcode `DclIndexRange`. -/
def SO_DCL_INDEX_RANGE : Nat := 91
/-- Modelled from the spec: opcode `DclGSOutputPrimitiveTopology`. -/
def SO_DCL_GS_OUTPUT_PRIMITIVE_TOPOLOGY : Nat := 92
/-- Modelled from the spec: opcode `DclGSInputPrimitive`. -/
def SO_DCL_GS_INPUT_PRIMITIVE : Nat := 93
/-- Modelled from the spec: opcode `DclMaxOutputVertexCount`. -/
def SO_DCL_MAX_OUTPUT_VERTEX_COUNT : Nat := 94
/-- Modelled from the spec: opcode `DclInput`. -/
def SO_DCL_INPUT : Nat := 95
/-- Modelled from the spec: opcode `DclInputSGV`. -/
def SO_DCL_INPUT_SGV : Nat := 96
/-- Modelled from the spec: opcode `DclInputSIV`. -/
def SO_DCL_INPUT_SIV : Nat := 97
/-- Modelled from the spec: opcode `DclInputPS`. -/
def SO_DCL_INPUT_PS : Nat := 98
/-- Modelled from the spec: opcode `DclInputPSSGV`. -/
def SO_DCL_INPUT_PS_SGV : Nat := 99
/-- Modelled from the spec: opcode `DclInputPSSIV`. -/
def SO_DCL_INPUT_PS_SIV : Nat := 100
/-- Modelled from the spec: opcode `DclOutput`. -/
def SO_DCL_OUTPUT : Nat := 101
/-- Modelled from the spec: opcode `DclOutputSGV`. -/
def SO_DCL_OUTPUT_SGV : Nat := 102
/-- Modelled from the spec: opcode `DclOutputSIV`. -/
def SO_DCL_OUTPUT_SIV : Nat := 103
/-- Modelled from the spec: opcode `DclTemps`. -/
def SO_DCL_TEMPS : Nat := 104
/-- Modelled from the spec: opcode `DclIndexableTemp`. -/
def SO_DCL_INDEXABLE_TEMP : Nat := 105
/-- Modelled from the spec: opcode `DclGlobalFlags`, last of the first range of declarations. -/
def SO_DCL_GLOBAL_FLAGS : Nat := 106
/-- Modelled from the spec: opcode `HSDecls`. -/
def SO_HS_DECLS : Nat := 113
/-- Modelled from the spec: opcode `HSControlPointPhase`. -/
def SO_HS_CONTROL_POINT_PHASE : Nat := 114
/-- Modelled from the spec: opcode `HSForkPhase`. -/
def SO_HS_FORK_PHASE : Nat := 115
/-- Modelled from the spec: opcode `HSJoinPhase`. -/
def SO_HS_JOIN_PHASE : Nat := 116
/-- Modelled from the spec: opcode `InterfaceCall`. -/
def SO_INTERFACE_CALL : Nat := 120
/-- Modelled from the spec: opcode `DclStream`, first of the second range of declarations. -/
def SO_DCL_STREAM : Nat := 143
/-- Modelled from the spec: opcode `DclFunctionBody`. -/
def SO_DCL_FUNCTION_BODY : Nat := 144
/-- Modelled from the spec: opcode `DclFunctionTable`. -/
def SO_DCL_FUNCTION_TABLE : Nat := 145
/-- Modelled from the spec: opcode `DclInterface`. -/
def SO_DCL_INTERFACE : Nat := 146
/-- Modelled from the spec: opcode `DclInputControlPointCount`. -/
def SO_DCL_INPUT_CONTROL_POINT_COUNT : Nat := 147
/-- Modelled from the spec: opcode `DclOutputControlPointCount`. -/
def SO_DCL_OUTPUT_CONTROL_POINT_COUNT : Nat := 148
/-- Modelled from the spec: opcode `DclTessDomain`. -/
def SO_DCL_TESS_DOMAIN : Nat := 149
/-- Modelled from the spec: opcode `DclTessPartitioning`. -/
def SO_DCL_TESS_PARTITIONING : Nat := 150
/-- Modelled from the spec: opcode `DclTessOutputPrimitive`. -/
def SO_DCL_TESS_OUTPUT_PRIMITIVE : Nat := 151
/-- Modelled from the spec: opcode `DclHSMaxTessFactor`. -/
def SO_DCL_HS_MAX_TESSFACTOR : Nat := 152
/-- Modelled from the spec: opcode `DclHSForkPhaseInstanceCount`. -/
def SO_DCL_HS_FORK_PHASE_INSTANCE_COUNT : Nat := 153
/-- Modelled from the spec: opcode `DclThreadGroup`. -/
def SO_DCL_THREAD_GROUP : Nat := 155
/-- Modelled from the spec: opcode `DclUAVTyped`. -/
def SO_DCL_UNORDERED_ACCESS_VIEW_TYPED : Nat := 156
/-- Modelled from the spec: opcode `DclUAVRaw`. -/
def SO_DCL_UNORDERED_ACCESS_VIEW_RAW : Nat := 157
/-- Modelled from the spec: opcode `DclUAVStructured`. -/
def SO_DCL_UNORDERED_ACCESS_VIEW_STRUCTURED : Nat := 158
/-- Modelled from the spec: opcode `DclTGSMRaw`. -/
def SO_DCL_THREAD_GROUP_SHARED_MEMORY_RAW : Nat := 159
/-- Modelled from the spec: opcode `DclTGSMStructured`. -/
def SO_DCL_THREAD_GROUP_SHARED_MEMORY_STRUCTURED : Nat := 160
/-- Modelled from the spec: opcode `DclResourceRaw`. -/
def SO_DCL_RESOURCE_RAW : Nat := 161
/-- Modelled from the spec: opcode `DclResourceStructured`, last of the second
range of declarations. -/
def SO_DCL_RESOURCE_STRUCTURED : Nat := 162
/-- Modelled from the spec: opcode `DclGSInstanceCount`. -/
def SO_DCL_GS_INSTANCE_COUNT : Nat := 206

/-! ## Operands -/

/-- One slot of `ShaderOperand::indices`: a signed 64-bit displacement and an
owned, possibly null, nested operand. -/
structure ShaderOperandIndex (Op : Type) where
  disp : Int
  reg : Option Op

/-- Scalar members of `ShaderOperand`. -/
structure OperandFields where
  mode : Nat
  comps : Nat
  mask : Nat
  num_indices : Nat
  swizzle : List Nat
  type : Nat
  imm_values : List Nat
  neg : Bool
  abs : Bool
  deriving DecidableEq, Repr

/-- Decoded operand (`ShaderOperand`): its scalar members and its three index
slots. -/
inductive ShaderOperand where
  | mk (f : OperandFields) (indices : List (ShaderOperandIndex ShaderOperand))

/-- Scalar members of an operand. -/
def ShaderOperand.f : ShaderOperand → OperandFields
  | .mk f _ => f

/-- Index slots of an operand. -/
def ShaderOperand.indices : ShaderOperand → List (ShaderOperandIndex ShaderOperand)
  | .mk _ ix => ix

/-- Modelled from the spec: the operand produced by
`std::make_shared<ShaderOperand>()` (constructor in Shader.hpp): every scalar
member zero, every nested operand pointer null. -/
def ShaderOperand.fresh : ShaderOperand :=
  .mk { mode := 0, comps := 0, mask := 0, num_indices := 0, swizzle := [0, 0, 0, 0],
        type := 0, imm_values := [0, 0, 0, 0], neg := false, abs := false }
      [⟨0, none⟩, ⟨0, none⟩, ⟨0, none⟩]

/-- Replace the scalar members. -/
def ShaderOperand.withF (op : ShaderOperand) (g : OperandFields → OperandFields) : ShaderOperand :=
  .mk (g op.f) op.indices

/-- Apply `g` to element `i` of a list (no effect when `i` is out of range). -/
def updAt {α : Type} (g : α → α) : Nat → List α → List α
  | _, [] => []
  | 0, x :: xs => g x :: xs
  | i + 1, x :: xs => x :: updAt g i xs

/-- Replace index slot `i`. -/
def ShaderOperand.updIndex (op : ShaderOperand) (i : Nat)
    (g : ShaderOperandIndex ShaderOperand → ShaderOperandIndex ShaderOperand) : ShaderOperand :=
  .mk op.f (updAt g i op.indices)

/-! ## Byte reader (lines 88-134) -/

/-- Token buffer of the parser: the tokens of the shader chunk (`size / 4` of
them) and the end position `tokens_end`, as a token index from the start of
the chunk payload. No function writes the tokens, and only `ParseShader` writes
`tokens_end` (once), so the buffer is a read-only argument of the functions;
the member `tokens` of the source, the current position, is the state that
they pass along, as a token index. -/
structure TokenBuf where
  mem : List Nat
  tokens_end : Nat
  deriving DecidableEq, Repr

/-- Constructor of `ShaderParser`: `tokens_end` is derived from the chunk size. -/
def TokenBuf.init (mem : List Nat) : TokenBuf :=
  { mem := mem, tokens_end := mem.length }

/-- Embedding of `Read32` at position `tokens`: the token and the new position. -/
def Read32 (b : TokenBuf) (tokens : Nat) : Except ParseError (Nat × Nat) :=
  if tokens < b.tokens_end then
    match b.mem[tokens]? with
    | some t => .ok (t % 2 ^ 32, tokens + 1)
    | none => .error .OutOfBounds
  else .error .Truncated

/-- Embedding of `Read64`: two `Read32`, low word first. -/
def Read64 (b : TokenBuf) (tokens : Nat) : Except ParseError (Nat × Nat) := do
  let (lo, tokens) ← Read32 b tokens
  let (hi, tokens) ← Read32 b tokens
  pure (lo + hi * 2 ^ 32, tokens)

/-- Embedding of `Skip`. -/
def Skip (toskip : Nat) (tokens : Nat) : Nat := tokens + toskip

/-- Conversion `static_cast<int32_t>` of a 32-bit word. -/
def toInt32 (t : Nat) : Int :=
  if t % 2 ^ 32 < 2 ^ 31 then (t % 2 ^ 32 : Nat) else (t % 2 ^ 32 : Nat) - 2 ^ 32

/-- Conversion of a 64-bit word to `int64_t`. -/
def toInt64 (t : Nat) : Int :=
  if t % 2 ^ 64 < 2 ^ 63 then (t % 2 ^ 64 : Nat) else (t % 2 ^ 64 : Nat) - 2 ^ 64

/-! ## Operand decoder `ReadOp` (lines 136-273) -/

/-- Result of a reading step: the updated operand and the new position. -/
abbrev OpResult := Except ParseError (ShaderOperand × Nat)

/-- Lines 140-188 of `ReadOp`: the operand-type assertion, the default swizzle
and mask, the component switch, then `type` and `num_indices`. -/
def readOpComps (lim : Limits) (optok : Nat) (op : ShaderOperand) :
    Except ParseError ShaderOperand := do
  if ¬ (optok_op_type optok < lim.SOT_COUNT) then throw ParseError.UnknownOperandType
  let op := op.withF fun f => { f with swizzle := [0, 1, 2, 3], mask := 0xF }
  let op ←
    if optok_comps_enum optok = SONC_0 then
      pure (op.withF fun f => { f with comps := 0 })
    else if optok_comps_enum optok = SONC_1 then
      pure (op.withF fun f =>
        { f with comps := 1, swizzle := ((f.swizzle.set 3 0).set 2 0).set 1 0 })
    else if optok_comps_enum optok = SONC_4 then
      let op := op.withF fun f => { f with comps := 4, mode := optok_mode optok }
      if optok_mode optok = SOSM_MASK then
        pure (op.withF fun f => { f with mask := SM_OPERAND_SEL_MASK (optok_sel optok) })
      else if optok_mode optok = SOSM_SWIZZLE then
        pure (op.withF fun f =>
          { f with swizzle :=
              [SM_OPERAND_SEL_SWZ (optok_sel optok) 0, SM_OPERAND_SEL_SWZ (optok_sel optok) 1,
               SM_OPERAND_SEL_SWZ (optok_sel optok) 2, SM_OPERAND_SEL_SWZ (optok_sel optok) 3] })
      else if optok_mode optok = SOSM_SCALAR then
        pure (op.withF fun f =>
          { f with swizzle :=
              [SM_OPERAND_SEL_SCALAR (optok_sel optok), SM_OPERAND_SEL_SCALAR (optok_sel optok),
               SM_OPERAND_SEL_SCALAR (optok_sel optok), SM_OPERAND_SEL_SCALAR (optok_sel optok)] })
      else throw ParseError.UnhandledComponents
    else throw ParseError.UnhandledComponents
  pure (op.withF fun f =>
    { f with type := optok_op_type optok, num_indices := optok_num_indices optok })

/-- Lines 190-206 of `ReadOp`: the extended operand token. -/
def readOpExt (b : TokenBuf) (optok : Nat) (op : ShaderOperand) (r : Nat) : OpResult :=
  if optok_extended optok ≠ 0 then do
    let (optokext, r) ← Read32 b r
    if 0 = optokext_type optokext then
      pure (op, r)
    else if 1 = optokext_type optokext then
      pure (op.withF fun f =>
        { f with neg := decide (optokext_neg optokext ≠ 0),
                 abs := decide (optokext_abs optokext ≠ 0) }, r)
    else throw ParseError.UnknownExtendedOperand
  else pure (op, r)

/-- Lines 228-256 of `ReadOp`: index slot `i` with representation `repr`; `readNested`
is the recursive call of `ReadOp` on a new operand. The `switch` has no
`default`. -/
def readOpIndex (b : TokenBuf) (readNested : Nat → OpResult) (repr i : Nat)
    (op : ShaderOperand)
    (r : Nat) : OpResult :=
  let op := op.updIndex i fun ix => { ix with disp := 0 }
  if repr = SOIP_IMM32 then do
    let (t, r) ← Read32 b r
    pure (op.updIndex i fun ix => { ix with disp := toInt32 t }, r)
  else if repr = SOIP_IMM64 then do
    let (t, r) ← Read64 b r
    pure (op.updIndex i fun ix => { ix with disp := toInt64 t }, r)
  else if repr = SOIP_RELATIVE then do
    let (reg, r) ← readNested r
    pure (op.updIndex i fun ix => { ix with reg := some reg }, r)
  else if repr = SOIP_IMM32_PLUS_RELATIVE then do
    let (t, r) ← Read32 b r
    let op := op.updIndex i fun ix => { ix with disp := toInt32 t }
    let (reg, r) ← readNested r
    pure (op.updIndex i fun ix => { ix with reg := some reg }, r)
  else if repr = SOIP_IMM64_PLUS_RELATIVE then do
    let (t, r) ← Read64 b r
    let op := op.updIndex i fun ix => { ix with disp := toInt64 t }
    let (reg, r) ← readNested r
    pure (op.updIndex i fun ix => { ix with reg := some reg }, r)
  else pure (op, r)

/-- Lines 210-227 of `ReadOp`: the representation code of index `i`. -/
def indexRepr (optok i : Nat) : Except ParseError Nat :=
  if 0 = i then pure (optok_index0_repr optok)
  else if 1 = i then pure (optok_index1_repr optok)
  else if 2 = i then pure (optok_index2_repr optok)
  else throw ParseError.UnknownIndexRepr

/-- Lines 208-257 of `ReadOp`: the loop over the indices, `k` iterations being
left and `i` being the loop counter. -/
def readOpIndices (b : TokenBuf) (readNested : Nat → OpResult) (optok : Nat) :
    Nat → Nat → ShaderOperand → Nat → OpResult
  | 0, _, op, r => pure (op, r)
  | k + 1, i, op, r => do
    let repr ← indexRepr optok i
    let (op, r) ← readOpIndex b readNested repr i op r
    readOpIndices b readNested optok k (i + 1) op r

/-- Lines 261-264 and 268-271 of `ReadOp`: the loop storing immediates read
by `read`, `k` iterations being left and `i` being the loop counter. -/
def readOpImmLoop (read : Nat → Except ParseError (Nat × Nat)) :
    Nat → Nat → ShaderOperand → Nat → OpResult
  | 0, _, op, r => pure (op, r)
  | k + 1, i, op, r => do
    let (v, r) ← read r
    readOpImmLoop read k (i + 1) (op.withF fun f => { f with imm_values := f.imm_values.set i v }) r

/-- Lines 259-272 of `ReadOp`: the immediate values. -/
def readOpImm (b : TokenBuf) (op : ShaderOperand) (r : Nat) : OpResult :=
  if SOT_IMMEDIATE32 = op.f.type then readOpImmLoop (Read32 b) op.f.comps 0 op r
  else if SOT_IMMEDIATE64 = op.f.type then readOpImmLoop (Read64 b) op.f.comps 0 op r
  else pure (op, r)

/-- Lines 208-272 of `ReadOp`: what follows the extended token, that is the
indices and then the immediate values. -/
def readOpRest (b : TokenBuf) (readNested : Nat → OpResult) (optok : Nat)
    (op : ShaderOperand)
    (r : Nat) : OpResult := do
  let (op, r) ← readOpIndices b readNested optok op.f.num_indices 0 op r
  readOpImm b op r

/-- Embedding of `ReadOp` with a bound `fuel` on the nesting depth. -/
def ReadOpF (lim : Limits) (b : TokenBuf) : Nat → ShaderOperand → Nat → OpResult
  | 0, _, _ => throw ParseError.OutOfFuel
  | fuel + 1, op, r => do
    let (optok, r) ← Read32 b r
    let op ← readOpComps lim optok op
    let (op, r) ← readOpExt b optok op r
    readOpRest b (fun r => ReadOpF lim b fuel ShaderOperand.fresh r) optok op r

/-- Embedding of `ReadOp`: every nested call comes after a successful `Read32`,
so the number of tokens before `tokens_end`, plus one, bounds the depth. -/
def ReadOp (lim : Limits) (b : TokenBuf) (op : ShaderOperand) (r : Nat) : OpResult :=
  ReadOpF lim b (b.tokens_end - r + 1) op r

/-! ## Program representation (Shader.hpp) -/

/-- Resource binding (`DXBCInputBindDesc`); `name` is the borrowed string, held
as its byte offset from the start of the resource chunk payload. -/
structure DXBCInputBindDesc where
  name : Nat
  type : Nat
  return_type : Nat
  dimension : Nat
  num_samples : Nat
  bind_point : Nat
  bind_count : Nat
  flags : Nat
  deriving DecidableEq, Repr

/-- Variable description (`DXBCShaderVariable::var_desc`); `name` and
`default_val` are pointers into the chunk, held as byte offsets. -/
structure DXBCShaderVariableDesc where
  name : Nat
  start_offset : Nat
  size : Nat
  flags : Nat
  default_val : Option Nat
  start_texture : Nat
  texture_size : Nat
  start_sampler : Nat
  sampler_size : Nat
  deriving DecidableEq, Repr

/-- Type description (`DXBCShaderVariable::type_desc`). The member `name` is
`ShaderVariableTypeName (type)`, a function of `type` alone declared outside
the sources, and is not stored. -/
structure DXBCShaderTypeDesc where
  var_class : Nat
  type : Nat
  rows : Nat
  columns : Nat
  elements : Nat
  members : Nat
  offset : Nat
  deriving DecidableEq, Repr

/-- Shader variable (`DXBCShaderVariable`). -/
structure DXBCShaderVariable where
  var_desc : DXBCShaderVariableDesc
  has_type_desc : Bool
  type_desc : DXBCShaderTypeDesc
  deriving DecidableEq, Repr

/-- Constant-buffer description (`DXBCConstantBuffer::desc`); `variables_` is
the member `variables`. -/
structure DXBCShaderBufferDesc where
  name : Nat
  size : Nat
  flags : Nat
  type : Nat
  variables_ : Nat
  deriving DecidableEq, Repr

/-- Constant buffer (`DXBCConstantBuffer`). -/
structure DXBCConstantBuffer where
  desc : DXBCShaderBufferDesc
  vars : List DXBCShaderVariable
  bind_point : Nat
  deriving DecidableEq, Repr

/-- Signature parameter (`DXBCSignatureParamDesc`); `semantic_name` is a
pointer into the signature chunk, held as a byte offset from its payload. -/
structure DXBCSignatureParamDesc where
  semantic_name : Nat
  semantic_index : Nat
  system_value_type : Nat
  component_type : Nat
  register_index : Nat
  mask : Nat
  read_write_mask : Nat
  stream : Nat
  min_precision : Nat
  deriving DecidableEq, Repr

/-- Declaration (`ShaderDecl`): the inherited opcode token `insntok`, the
operand, the members of the payload union (kept apart) and the data blob in
bytes. -/
structure ShaderDecl where
  insntok : Nat
  op : Option ShaderOperand
  num : Nat
  sv : Nat
  rrt : Nat
  structured_stride : Nat
  structured_count : Nat
  indexable_temp_num : Nat
  indexable_temp_comps : Nat
  intf_id : Nat
  intf_expected_function_table_length : Nat
  intf_table_length : Nat
  intf_array_length : Nat
  thread_group_size : List Nat
  data : List Nat

/-- Modelled from the spec: the declaration produced by
`std::make_shared<ShaderDecl>()`: every member zero, no operand, empty blob. -/
def ShaderDecl.fresh : ShaderDecl :=
  { insntok := 0, op := none, num := 0, sv := 0, rrt := 0, structured_stride := 0,
    structured_count := 0, indexable_temp_num := 0, indexable_temp_comps := 0, intf_id := 0,
    intf_expected_function_table_length := 0, intf_table_length := 0, intf_array_length := 0,
    thread_group_size := [0, 0, 0], data := [] }

/-- Opcode of a declaration (the `opcode` bit-field of the inherited token). -/
def ShaderDecl.opcode (d : ShaderDecl) : Nat := insntok_opcode d.insntok

/-- Instruction (`ShaderInstruction`): the inherited opcode token `insntok` and
the decoded members; `ops` holds the operands `ops[0 .. num_ops)`. -/
structure ShaderInstruction where
  insntok : Nat
  sample_offset : List Int
  resource_target : Nat
  resource_return_type : List Nat
  num : Nat
  num_ops : Nat
  ops : List ShaderOperand

/-- Modelled from the spec: the instruction produced by
`std::make_shared<ShaderInstruction>()`: every member zero, no operand. -/
def ShaderInstruction.fresh : ShaderInstruction :=
  { insntok := 0, sample_offset := [0, 0, 0], resource_target := 0,
    resource_return_type := [0, 0, 0, 0], num := 0, num_ops := 0, ops := [] }

/-- Opcode of an instruction. -/
def ShaderInstruction.opcode (i : ShaderInstruction) : Nat := insntok_opcode i.insntok

/-- Output aggregate (`ShaderProgram`). -/
structure ShaderProgram where
  version : Nat
  dcls : List ShaderDecl
  insns : List ShaderInstruction
  gs_input_primitive : Nat
  gs_output_topology : List Nat
  max_gs_output_vertex : Nat
  gs_instance_count : Nat
  ds_tessellator_output_primitive : Nat
  ds_tessellator_partitioning : Nat
  ds_tessellator_domain : Nat
  hs_output_control_point_count : Nat
  hs_input_control_point_count : Nat
  cs_thread_group_size : List Nat
  params_in : List DXBCSignatureParamDesc
  params_out : List DXBCSignatureParamDesc
  params_patch : List DXBCSignatureParamDesc
  cbuffers : List DXBCConstantBuffer
  resource_bindings : List DXBCInputBindDesc

/-- Modelled from the spec: the program produced by
`std::make_shared<ShaderProgram>()` in `ShaderParse`: empty lists, zero scalars. -/
def ShaderProgram.fresh : ShaderProgram :=
  { version := 0, dcls := [], insns := [], gs_input_primitive := 0, gs_output_topology := [],
    max_gs_output_vertex := 0, gs_instance_count := 0, ds_tessellator_output_primitive := 0,
    ds_tessellator_partitioning := 0, ds_tessellator_domain := 0,
    hs_output_control_point_count := 0, hs_input_control_point_count := 0,
    cs_thread_group_size := [0, 0, 0], params_in := [], params_out := [], params_patch := [],
    cbuffers := [], resource_bindings := [] }

/-! ## Instruction and declaration decoder `ParseShader` (lines 275-585) -/

/-- Little-endian bytes of a 32-bit word. -/
def le32 (t : Nat) : List Nat :=
  [t % 256, t / 256 % 256, t / 65536 % 256, t / 16777216 % 256]

/-- State of the loop of `ParseShader`: the program under construction, the
position `tokens` and the local `cur_gs_stream`. -/
structure PState where
  prog : ShaderProgram
  tokens : Nat
  cur_gs_stream : Nat

/-- Macro `READ_OP_ANY` (and `READ_OP`): a new operand is decoded into `dcl->op`. -/
def READ_OP_ANY (lim : Limits) (b : TokenBuf) (dcl : ShaderDecl) (r : Nat) :
    Except ParseError (ShaderDecl × Nat) := do
  let (op, r) ← ReadOp lim b ShaderOperand.fresh r
  pure ({ dcl with op := some op }, r)

/-- Loop `for (i = 0; i < n; ++ i) data[i] = Read32()` of the function-table and
interface declarations: the `n` words read, in order. -/
def readWords (b : TokenBuf) : Nat → Nat → Except ParseError (List Nat × Nat)
  | 0, r => pure ([], r)
  | n + 1, r => do
    let (w, r) ← Read32 b r
    let (ws, r) ← readWords b n r
    pure (w :: ws, r)

/-- Lines 327-332: walk of the chain of extended tokens of a declaration. -/
def declExtChain (b : TokenBuf) : Nat → Nat → Nat → Except ParseError Nat
  | 0, _, _ => throw ParseError.OutOfFuel
  | fuel + 1, exttok, r =>
    if insntok_extended exttok ≠ 0 then do
      let (t, r) ← Read32 b r
      declExtChain b fuel t r
    else pure r

/-- Lines 338-525: the payload `switch` of the declaration branch. -/
def declPayload (lim : Limits) (b : TokenBuf) (opcode : Nat) (dcl : ShaderDecl) (st : PState) :
    Except ParseError (ShaderDecl × PState) :=
  if opcode = SO_DCL_GLOBAL_FLAGS then pure (dcl, st)
  else if opcode = SO_DCL_RESOURCE then do
    let (dcl, r) ← READ_OP_ANY lim b dcl st.tokens
    let (t, r) ← Read32 b r
    pure ({ dcl with rrt := t }, { st with tokens := r })
  else if opcode = SO_DCL_SAMPLER then do
    let (dcl, r) ← READ_OP_ANY lim b dcl st.tokens
    pure (dcl, { st with tokens := r })
  else if opcode = SO_DCL_INPUT ∨ opcode = SO_DCL_INPUT_PS then do
    let (dcl, r) ← READ_OP_ANY lim b dcl st.tokens
    pure (dcl, { st with tokens := r })
  else if opcode = SO_DCL_INPUT_SIV ∨ opcode = SO_DCL_INPUT_SGV ∨
      opcode = SO_DCL_INPUT_PS_SIV ∨ opcode = SO_DCL_INPUT_PS_SGV then do
    let (dcl, r) ← READ_OP_ANY lim b dcl st.tokens
    let (t, r) ← Read32 b r
    pure ({ dcl with sv := t % 2 ^ 16 }, { st with tokens := r })
  else if opcode = SO_DCL_OUTPUT then do
    let (dcl, r) ← READ_OP_ANY lim b dcl st.tokens
    pure (dcl, { st with tokens := r })
  else if opcode = SO_DCL_OUTPUT_SIV ∨ opcode = SO_DCL_OUTPUT_SGV then do
    let (dcl, r) ← READ_OP_ANY lim b dcl st.tokens
    let (t, r) ← Read32 b r
    pure ({ dcl with sv := t % 2 ^ 16 }, { st with tokens := r })
  else if opcode = SO_DCL_INDEX_RANGE then do
    let (op, r) ← ReadOp lim b ShaderOperand.fresh st.tokens
    if ¬ (SOT_INPUT = op.f.type ∨ SOT_OUTPUT = op.f.type) then
      throw ParseError.InvariantViolation
    let (t, r) ← Read32 b r
    pure ({ dcl with op := some op, num := t }, { st with tokens := r })
  else if opcode = SO_DCL_TEMPS then do
    let (t, r) ← Read32 b st.tokens
    pure ({ dcl with num := t }, { st with tokens := r })
  else if opcode = SO_DCL_INDEXABLE_TEMP then do
    let (id, r) ← Read32 b st.tokens
    let op := ShaderOperand.fresh.updIndex 0 fun ix => { ix with disp := (id : Int) }
    let (n, r) ← Read32 b r
    let (c, r) ← Read32 b r
    pure ({ dcl with op := some op, indexable_temp_num := n, indexable_temp_comps := c },
      { st with tokens := r })
  else if opcode = SO_DCL_CONSTANT_BUFFER then do
    let (dcl, r) ← READ_OP_ANY lim b dcl st.tokens
    pure (dcl, { st with tokens := r })
  else if opcode = SO_DCL_GS_INPUT_PRIMITIVE then
    pure (dcl, { st with prog :=
      { st.prog with gs_input_primitive := dcltok_gs_input_primitive dcl.insntok } })
  else if opcode = SO_DCL_GS_OUTPUT_PRIMITIVE_TOPOLOGY then
    if st.cur_gs_stream < st.prog.gs_output_topology.length then
      pure (dcl, { st with prog :=
        { st.prog with gs_output_topology :=
            (st.prog.gs_output_topology.set st.cur_gs_stream
              (dcltok_gs_output_primitive_topology dcl.insntok)) } })
    else throw ParseError.OutOfBounds
  else if opcode = SO_DCL_MAX_OUTPUT_VERTEX_COUNT then do
    let (t, r) ← Read32 b st.tokens
    pure ({ dcl with num := t },
      { st with tokens := r, prog := { st.prog with max_gs_output_vertex := t } })
  else if opcode = SO_DCL_GS_INSTANCE_COUNT then do
    let (t, r) ← Read32 b st.tokens
    pure ({ dcl with num := t },
      { st with tokens := r, prog := { st.prog with gs_instance_count := t } })
  else if opcode = SO_DCL_TESS_OUTPUT_PRIMITIVE then
    pure (dcl, { st with prog :=
      { st.prog with ds_tessellator_output_primitive := dcltok_tess dcl.insntok % 8 } })
  else if opcode = SO_DCL_TESS_PARTITIONING then
    pure (dcl, { st with prog :=
      { st.prog with ds_tessellator_partitioning := dcltok_tess dcl.insntok % 8 } })
  else if opcode = SO_DCL_TESS_DOMAIN then
    pure (dcl, { st with prog :=
      { st.prog with ds_tessellator_domain := dcltok_tess dcl.insntok % 8 } })
  else if opcode = SO_DCL_OUTPUT_CONTROL_POINT_COUNT then
    pure (dcl, { st with prog :=
      { st.prog with hs_output_control_point_count := dcltok_control_points dcl.insntok } })
  else if opcode = SO_DCL_INPUT_CONTROL_POINT_COUNT then
    pure (dcl, { st with prog :=
      { st.prog with hs_input_control_point_count := dcltok_control_points dcl.insntok } })
  else if opcode = SO_DCL_HS_MAX_TESSFACTOR ∨ opcode = SO_DCL_HS_FORK_PHASE_INSTANCE_COUNT ∨
      opcode = SO_DCL_FUNCTION_BODY then do
    let (t, r) ← Read32 b st.tokens
    pure ({ dcl with num := t }, { st with tokens := r })
  else if opcode = SO_DCL_FUNCTION_TABLE then do
    let (n, r) ← Read32 b st.tokens
    let (ws, r) ← readWords b n r
    pure ({ dcl with num := n, data := ws.flatMap le32 }, { st with tokens := r })
  else if opcode = SO_DCL_INTERFACE then do
    let (id, r) ← Read32 b st.tokens
    let (e, r) ← Read32 b r
    let (v, r) ← Read32 b r
    let (ws, r) ← readWords b (v % 2 ^ 16) r
    pure ({ dcl with intf_id := id, intf_expected_function_table_length := e,
                     intf_table_length := v % 2 ^ 16, intf_array_length := v / 2 ^ 16,
                     data := ws.flatMap le32 }, { st with tokens := r })
  else if opcode = SO_DCL_THREAD_GROUP then do
    let (x, r) ← Read32 b st.tokens
    let (y, r) ← Read32 b r
    let (z, r) ← Read32 b r
    pure ({ dcl with thread_group_size := [x, y, z] },
      { st with tokens := r, prog := { st.prog with cs_thread_group_size := [x, y, z] } })
  else if opcode = SO_DCL_UNORDERED_ACCESS_VIEW_TYPED then do
    let (dcl, r) ← READ_OP_ANY lim b dcl st.tokens
    let (t, r) ← Read32 b r
    pure ({ dcl with rrt := t }, { st with tokens := r })
  else if opcode = SO_DCL_UNORDERED_ACCESS_VIEW_RAW then do
    let (dcl, r) ← READ_OP_ANY lim b dcl st.tokens
    pure (dcl, { st with tokens := r })
  else if opcode = SO_DCL_UNORDERED_ACCESS_VIEW_STRUCTURED then do
    let (dcl, r) ← READ_OP_ANY lim b dcl st.tokens
    let (t, r) ← Read32 b r
    pure ({ dcl with structured_stride := t }, { st with tokens := r })
  else if opcode = SO_DCL_THREAD_GROUP_SHARED_MEMORY_RAW then do
    let (dcl, r) ← READ_OP_ANY lim b dcl st.tokens
    let (t, r) ← Read32 b r
    pure ({ dcl with num := t }, { st with tokens := r })
  else if opcode = SO_DCL_THREAD_GROUP_SHARED_MEMORY_STRUCTURED then do
    let (dcl, r) ← READ_OP_ANY lim b dcl st.tokens
    let (s, r) ← Read32 b r
    let (c, r) ← Read32 b r
    pure ({ dcl with structured_stride := s, structured_count := c }, { st with tokens := r })
  else if opcode = SO_DCL_RESOURCE_RAW then do
    let (dcl, r) ← READ_OP_ANY lim b dcl st.tokens
    pure (dcl, { st with tokens := r })
  else if opcode = SO_DCL_RESOURCE_STRUCTURED then do
    let (dcl, r) ← READ_OP_ANY lim b dcl st.tokens
    let (t, r) ← Read32 b r
    pure ({ dcl with structured_stride := t }, { st with tokens := r })
  else if opcode = SO_DCL_STREAM then do
    let (op, r) ← ReadOp lim b ShaderOperand.fresh st.tokens
    let disp := (op.indices.headD ⟨0, none⟩).disp
    pure ({ dcl with op := some op },
      { prog := { st.prog with gs_output_topology := st.prog.gs_output_topology ++ [SPT_Undefined] },
        tokens := r, cur_gs_stream := (disp % 2 ^ 32).toNat })
  else throw ParseError.UnhandledDeclaration

/-- Lines 539-561: walk of the chain of extended tokens of an instruction, with
the three interpreted extended types. -/
def insnExtChain (b : TokenBuf) : Nat → Nat → ShaderInstruction → Nat →
    Except ParseError (ShaderInstruction × Nat)
  | 0, _, _, _ => throw ParseError.OutOfFuel
  | fuel + 1, exttok, insn, r =>
    if insntok_extended exttok ≠ 0 then do
      let (t, r) ← Read32 b r
      let insn :=
        if SEOP_SAMPLE_CONTROLS = exttok_type t then
          { insn with sample_offset := exttok_sample_offsets t }
        else if SEOP_RESOURCE_DIM = exttok_type t then
          { insn with resource_target := exttok_resource_target t }
        else if SEOP_RESOURCE_RETURN_TYPE = exttok_type t then
          { insn with resource_return_type := exttok_resource_return_type t }
        else insn
      insnExtChain b fuel t insn r
    else pure (insn, r)

/-- Lines 573-581: the operands of an instruction, read until the position is
`insn_end`; `ops` are the operands read so far (`op_num` is their number). -/
def readInsnOps (lim : Limits) (b : TokenBuf) (insn_end : Nat) :
    Nat → List ShaderOperand → Nat → Except ParseError (List ShaderOperand × Nat)
  | 0, _, _ => throw ParseError.OutOfFuel
  | fuel + 1, ops, r =>
    if r = insn_end then pure (ops, r)
    else if ¬ (r < insn_end) then throw ParseError.InvariantViolation
    else if ¬ (ops.length < lim.SM_MAX_OPS) then throw ParseError.InvariantViolation
    else do
      let (op, r) ← ReadOp lim b ShaderOperand.fresh r
      readInsnOps lim b insn_end fuel (ops ++ [op]) r

/-- Lines 323-527: the declaration branch for the opcode token `insntok`. -/
def parseDecl (lim : Limits) (b : TokenBuf) (insntok insn_end : Nat) (st : PState) :
    Except ParseError PState := do
  let dcl := { ShaderDecl.fresh with insntok := insntok }
  let r ← declExtChain b (b.tokens_end - st.tokens + 1) insntok st.tokens
  let (dcl, st) ← declPayload lim b (insntok_opcode insntok) dcl { st with tokens := r }
  if ¬ (st.tokens = insn_end) then throw ParseError.InvariantViolation
  pure { st with prog := { st.prog with dcls := st.prog.dcls ++ [dcl] } }

/-- Lines 563-571: the `switch` of the instruction branch (`InterfaceCall`
reads an extra count). -/
def insnPayload (b : TokenBuf) (opcode : Nat) (insn : ShaderInstruction) (r : Nat) :
    Except ParseError (ShaderInstruction × Nat) :=
  if opcode = SO_INTERFACE_CALL then do
    let (t, r) ← Read32 b r
    pure ({ insn with num := t }, r)
  else pure (insn, r)

/-- Lines 535-582: the instruction branch for the opcode token `insntok`. -/
def parseInsn (lim : Limits) (b : TokenBuf) (insntok insn_end : Nat) (st : PState) :
    Except ParseError PState := do
  let insn := { ShaderInstruction.fresh with insntok := insntok }
  let (insn, r) ← insnExtChain b (b.tokens_end - st.tokens + 1) insntok insn st.tokens
  let (insn, r) ← insnPayload b (insntok_opcode insntok) insn r
  let (ops, r) ← readInsnOps lim b insn_end (insn_end - r + 1) [] r
  let insn := { insn with ops := ops, num_ops := ops.length }
  pure { st with tokens := r, prog := { st.prog with insns := st.prog.insns ++ [insn] } }

/-- Lines 292-308: the immediate constant buffer, after its opcode token. -/
def parseICB (b : TokenBuf) (st : PState) : Except ParseError PState := do
  let (len, r) ← Read32 b st.tokens
  let customlen := (len + 2 ^ 32 - 2) % 2 ^ 32
  if ¬ (r + customlen ≤ b.mem.length) then throw ParseError.OutOfBounds
  let dcl := { ShaderDecl.fresh with
    insntok := SO_IMMEDIATE_CONSTANT_BUFFER, num := customlen,
    data := ((b.mem.drop r).take customlen).flatMap le32 }
  pure { st with tokens := Skip customlen r, prog := { st.prog with dcls := st.prog.dcls ++ [dcl] } }

/-- Lines 286-583: one iteration of the loop of `ParseShader`. -/
def parseRecord (lim : Limits) (b : TokenBuf) (st : PState) : Except ParseError PState := do
  let (insntok, r) ← Read32 b st.tokens
  let insn_end := r - 1 + insntok_length insntok
  let opcode := insntok_opcode insntok
  if ¬ (opcode < lim.SO_COUNT) then throw ParseError.UnknownOpcode
  let st := { st with tokens := r }
  if SO_IMMEDIATE_CONSTANT_BUFFER = opcode then parseICB b st
  else
    let st :=
      if SO_HS_FORK_PHASE = opcode ∨ SO_HS_JOIN_PHASE = opcode ∨
          SO_HS_CONTROL_POINT_PHASE = opcode ∨ SO_HS_DECLS = opcode then
        { st with prog :=
          { st.prog with dcls := st.prog.dcls ++ [{ ShaderDecl.fresh with insntok := opcode }] } }
      else st
    if (opcode ≥ SO_DCL_RESOURCE ∧ opcode ≤ SO_DCL_GLOBAL_FLAGS) ∨
        (opcode ≥ SO_DCL_STREAM ∧ opcode ≤ SO_DCL_RESOURCE_STRUCTURED) ∨
        SO_DCL_GS_INSTANCE_COUNT = opcode then
      parseDecl lim b insntok insn_end st
    else if SO_HS_DECLS = opcode then pure st
    else parseInsn lim b insntok insn_end st

/-- Span of one record of the token stream: the position of its opcode token
and the position of the reader after the record. -/
structure RecordSpan where
  start : Nat
  stop : Nat
  deriving DecidableEq, Repr

/-- Lines 284-584: the loop of `ParseShader`. The second component of the
result lists the spans of the records that the loop went through, in order; it
is a ghost value used to state properties and is not part of the source. -/
def ParseShaderLoop (lim : Limits) (b : TokenBuf) :
    Nat → PState → Except ParseError (PState × List RecordSpan)
  | 0, _ => throw ParseError.OutOfFuel
  | fuel + 1, st =>
    if st.tokens = b.tokens_end then pure (st, [])
    else do
      let st1 ← parseRecord lim b st
      let (st2, spans) ← ParseShaderLoop lim b fuel st1
      pure (st2, ⟨st.tokens, st1.tokens⟩ :: spans)

/-- Embedding of `ParseShader` on the chunk tokens `mem`, with the record spans
of the loop. The two header tokens are read against the end derived from the
chunk size; the loop runs against the end `tokens - 2 + lentok` (the buffer in
the first component of the result). Every iteration of the loop starts with a
successful `Read32`, so the number of tokens before `tokens_end`, plus one,
bounds the number of iterations. -/
def ParseShaderSpans (lim : Limits) (prog : ShaderProgram) (mem : List Nat) :
    Except ParseError (TokenBuf × PState × List RecordSpan) := do
  let b := TokenBuf.init mem
  let (version, tokens) ← Read32 b 0
  let prog := { prog with version := version }
  let (lentok, tokens) ← Read32 b tokens
  let b := { b with tokens_end := tokens - 2 + lentok }
  let (st, spans) ← ParseShaderLoop lim b (b.tokens_end - tokens + 1)
    { prog := prog, tokens := tokens, cur_gs_stream := 0 }
  pure (b, st, spans)

/-- Embedding of `ParseShader`: the final program, position and `cur_gs_stream`. -/
def ParseShader (lim : Limits) (prog : ShaderProgram) (mem : List Nat) :
    Except ParseError PState :=
  (ParseShaderSpans lim prog mem).map fun x => x.2.1

/-- Limits used when the parser is evaluated on concrete inputs. The results
on those inputs are the same for all larger limits. -/
def sampleLimits : Limits := { SOT_COUNT := 41, SO_COUNT := 256, SM_MAX_OPS := 6 }

/-! ## Predicates used to state the properties -/

/-- Property of the nested operands of one operand. -/
def RegsAll (P : ShaderOperand → Prop) (op : ShaderOperand) : Prop :=
  ∀ ix ∈ op.indices, ∀ o, ix.reg = some o → P o

/-- Shape of one operand: at most three indices, and 0, 1 or 4 components. -/
def Shape (o : ShaderOperand) : Prop :=
  o.f.num_indices ≤ 3 ∧ (o.f.comps = 0 ∨ o.f.comps = 1 ∨ o.f.comps = 4)

/-- Relation `Nested o op`: the operand `o` is `op` itself or is reached from
`op` through nested operands of index slots, at any depth. -/
inductive Nested : ShaderOperand → ShaderOperand → Prop where
  | refl (op : ShaderOperand) : Nested op op
  | step {o mid op : ShaderOperand} {ix : ShaderOperandIndex ShaderOperand} :
      ix ∈ op.indices → ix.reg = some mid → Nested o mid → Nested o op

/-- Predicate: the operand and every operand nested in it have `Shape`. -/
inductive WellShaped : ShaderOperand → Prop where
  | mk (op : ShaderOperand) : Shape op →
      (∀ ix ∈ op.indices, ∀ o, ix.reg = some o → WellShaped o) → WellShaped op

/-- Token stream of scenario S1, a minimal vertex shader: version token,
length word 14, `dcl_input v0.xyzw`, `dcl_output o0.xyzw`, `mov o0.xyzw,
v0.xyzw`, `ret`. -/
def sampleVertexShader : List Nat :=
  [0x00010040, 14, 0x0300005F, 0x001010F2, 0, 0x03000065, 0x001020F2, 0,
   0x05000036, 0x001020F2, 0, 0x00101E46, 0, 0x0100003E]

/-! ## Chunks of the container -/

/-- A chunk handed over by the caller: the tag `fourcc` of its
`DXBCChunkHeader` and the bytes of its payload, which starts right after the
8-byte header. Offsets into a chunk are byte offsets from the payload start. -/
structure DXBCChunk where
  fourcc : Nat
  data : List Nat
  deriving DecidableEq, Repr

/-- Modelled from the spec: tag `RDEF` as a little-endian four-character code. -/
def FOURCC_RDEF : Nat := 0x46454452
/-- Modelled from the spec: tag `ISGN`. -/
def FOURCC_ISGN : Nat := 0x4E475349
/-- Modelled from the spec: tag `ISG1`. -/
def FOURCC_ISG1 : Nat := 0x31475349
/-- Modelled from the spec: tag `OSGN`. -/
def FOURCC_OSGN : Nat := 0x4E47534F
/-- Modelled from the spec: tag `OSG5`. -/
def FOURCC_OSG5 : Nat := 0x3547534F
/-- Modelled from the spec: tag `OSG1`. -/
def FOURCC_OSG1 : Nat := 0x3147534F
/-- Modelled from the spec: tag `PCSG`. -/
def FOURCC_PCSG : Nat := 0x47534350
/-- Modelled from the spec: buffer type `cbuffer` (`SCBT_CBUFFER`). -/
def SCBT_CBUFFER : Nat := 0

/-- Byte at offset `off` of a chunk payload. -/
def rd8 (data : List Nat) (off : Nat) : Except ParseError Nat :=
  match data[off]? with
  | some x => .ok (x % 256)
  | none => .error .OutOfBounds

/-- Little-endian 16-bit word at byte offset `off`. -/
def rd16 (data : List Nat) (off : Nat) : Except ParseError Nat := do
  let b0 ← rd8 data off
  let b1 ← rd8 data (off + 1)
  pure (b0 + 256 * b1)

/-- Little-endian 32-bit word at byte offset `off`. -/
def rd32 (data : List Nat) (off : Nat) : Except ParseError Nat := do
  let lo ← rd16 data off
  let hi ← rd16 data (off + 2)
  pure (lo + 65536 * hi)

/-- The C string that starts at byte offset `off`: the bytes before the first
zero byte; `none` when `off` is outside the payload or no zero byte follows. -/
def cstrAt (data : List Nat) (off : Nat) : Option (List Nat) :=
  if (data.drop off).any (fun x => x % 256 == 0) then
    some (((data.drop off).takeWhile (fun x => x % 256 != 0)).map (fun x => x % 256))
  else none

/-- Library function `strcmp` on two strings of the payload: 0 when they are
equal, 1 otherwise (only the comparison with 0 is used). Its arguments must be
zero-terminated strings. -/
def strcmp (data : List Nat) (s1 s2 : Nat) : Except ParseError Nat :=
  match cstrAt data s1, cstrAt data s2 with
  | some x, some y => if x = y then .ok 0 else .ok 1
  | _, _ => .error .OutOfBounds

/-! ## Resource chunk decoder `ParseCBAndResourceBinding` (lines 635-795) -/

/-- Embedding of `GetCBBindPoint` over the resource bindings of the program. -/
def GetCBBindPoint (data : List Nat) : List DXBCInputBindDesc → Nat → Except ParseError Nat
  | [], _ => throw ParseError.BindPointNotFound
  | ibd :: rest, name => do
    let c ← strcmp data ibd.name name
    if 0 = c then pure ibd.bind_point
    else GetCBBindPoint data rest name

/-- Lines 663-680: one record of the binding table, at byte offset `off`. -/
def readBinding (data : List Nat) (off : Nat) : Except ParseError DXBCInputBindDesc := do
  let name_offset ← rd32 data off
  let type ← rd32 data (off + 4)
  let return_type ← rd32 data (off + 8)
  let dimension ← rd32 data (off + 12)
  let num_samples ← rd32 data (off + 16)
  let bind_point ← rd32 data (off + 20)
  let bind_count ← rd32 data (off + 24)
  let flags ← rd32 data (off + 28)
  pure { name := name_offset, type := type, return_type := return_type, dimension := dimension,
         num_samples := num_samples, bind_point := bind_point, bind_count := bind_count,
         flags := flags }

/-- Lines 660-681: the loop over the binding table, `n` records being left. -/
def readBindings (data : List Nat) : Nat → Nat → Except ParseError (List DXBCInputBindDesc)
  | 0, _ => pure []
  | n + 1, off => do
    let bind ← readBinding data off
    let rest ← readBindings data n (off + 32)
    pure (bind :: rest)

/-- Lines 736-761: the type record at byte offset `off`, as 16-bit words. -/
def readTypeDesc (data : List Nat) (off : Nat) : Except ParseError DXBCShaderTypeDesc := do
  let var_class ← rd16 data off
  let type ← rd16 data (off + 2)
  let rows ← rd16 data (off + 4)
  let columns ← rd16 data (off + 6)
  let elements ← rd16 data (off + 8)
  let members ← rd16 data (off + 10)
  let hi ← rd16 data (off + 12)
  let lo ← rd16 data (off + 14)
  pure { var_class := var_class, type := type, rows := rows, columns := columns,
         elements := elements, members := members, offset := (hi * 65536) % 2 ^ 32 ||| lo }

/-- Modelled from the spec: the type description of a newly made variable. -/
def DXBCShaderTypeDesc.fresh : DXBCShaderTypeDesc :=
  { var_class := 0, type := 0, rows := 0, columns := 0, elements := 0, members := 0, offset := 0 }

/-- Lines 714-725: the four words `start_texture`, `texture_size`,
`start_sampler`, `sampler_size` of a variable record, present from shader model
5 on (zero in a newly made variable otherwise), and the offset of the next
record. -/
def readVarBindings (data : List Nat) (major off : Nat) :
    Except ParseError ((Nat × Nat × Nat × Nat) × Nat) :=
  if major ≥ 5 then do
    let start_texture ← rd32 data (off + 24)
    let texture_size ← rd32 data (off + 28)
    let start_sampler ← rd32 data (off + 32)
    let sampler_size ← rd32 data (off + 36)
    pure ((start_texture, texture_size, start_sampler, sampler_size), off + 40)
  else pure ((0, 0, 0, 0), off + 24)

/-- Lines 699-766: one record of a variable table at byte offset `off`; the
result holds the variable and the offset of the next record. `major` is
`program->version.major`. -/
def readVar (data : List Nat) (major off : Nat) :
    Except ParseError (DXBCShaderVariable × Nat) := do
  let var_name_offset ← rd32 data off
  let start_offset ← rd32 data (off + 4)
  let size ← rd32 data (off + 8)
  let flags ← rd32 data (off + 12)
  let type_offset ← rd32 data (off + 16)
  let default_value_offset ← rd32 data (off + 20)
  let (tex, next) ← readVarBindings data major off
  let default_val := if default_value_offset ≠ 0 then some default_value_offset else none
  let var_desc : DXBCShaderVariableDesc :=
    { name := var_name_offset, start_offset := start_offset, size := size, flags := flags,
      default_val := default_val, start_texture := tex.1, texture_size := tex.2.1,
      start_sampler := tex.2.2.1, sampler_size := tex.2.2.2 }
  if type_offset ≠ 0 then do
    let type_desc ← readTypeDesc data type_offset
    pure ({ var_desc := var_desc, has_type_desc := true, type_desc := type_desc }, next)
  else
    pure ({ var_desc := var_desc, has_type_desc := false,
            type_desc := DXBCShaderTypeDesc.fresh }, next)

/-- Lines 697-767: the loop over a variable table, `n` records being left. -/
def readVars (data : List Nat) (major : Nat) :
    Nat → Nat → Except ParseError (List DXBCShaderVariable)
  | 0, _ => pure []
  | n + 1, off => do
    let (var, next) ← readVar data major off
    let rest ← readVars data major n next
    pure (var :: rest)

/-- Lines 688-777: one record of the constant-buffer table at byte offset
`off`, with its variables and its bind point. -/
def readCB (data : List Nat) (major : Nat) (bindings : List DXBCInputBindDesc) (off : Nat) :
    Except ParseError DXBCConstantBuffer := do
  let cb_name_offset ← rd32 data off
  let var_count ← rd32 data (off + 4)
  let var_offset ← rd32 data (off + 8)
  let vars ← readVars data major var_count var_offset
  let size ← rd32 data (off + 12)
  let flags ← rd32 data (off + 16)
  let type ← rd32 data (off + 20)
  let bind_point ← GetCBBindPoint data bindings cb_name_offset
  pure { desc := { name := cb_name_offset, size := size, flags := flags, type := type,
                   variables_ := var_count },
         vars := vars, bind_point := bind_point }

/-- Lines 686-778: the loop over the constant-buffer table, `n` records being left. -/
def readCBs (data : List Nat) (major : Nat) (bindings : List DXBCInputBindDesc) :
    Nat → Nat → Except ParseError (List DXBCConstantBuffer)
  | 0, _ => pure []
  | n + 1, off => do
    let cb ← readCB data major bindings off
    let rest ← readCBs data major bindings n (off + 24)
    pure (cb :: rest)

/-- Embedding of `ParseCBAndResourceBinding` on the resource chunk; it is called
once, on the vectors of a newly made program, so every record of the two
vectors is one decoded here. The result holds the program and `num_cb`. -/
def ParseCBAndResourceBinding (prog : ShaderProgram) (resource_chunk : DXBCChunk) :
    Except ParseError (ShaderProgram × Nat) := do
  if ¬ (FOURCC_RDEF = resource_chunk.fourcc) then throw ParseError.BadMagic
  let data := resource_chunk.data
  let num_cb ← rd32 data 0
  let cb_offset ← rd32 data 4
  let num_resource_bindings ← rd32 data 8
  let resource_binding_offset ← rd32 data 12
  let _shader_model ← rd32 data 16
  let _compile_flags ← rd32 data 20
  let bindings ← readBindings data num_resource_bindings resource_binding_offset
  let cbuffers ← readCBs data (version_major prog.version) bindings num_cb cb_offset
  pure ({ prog with resource_bindings := bindings, cbuffers := cbuffers }, num_cb)

/-! ## Signature chunk decoder `ParseSignature` (lines 797-891) -/

/-- Record of a signature element table at byte offset `off`: `lead` is the
size of what precedes `name_offset` (0, or 4 when the record starts with
`stream`) and `tail` tells whether `min_precision` follows the padding. -/
def readSigParam (data : List Nat) (lead : Nat) (tail : Bool) (off : Nat) :
    Except ParseError DXBCSignatureParamDesc := do
  let name_offset ← rd32 data (off + lead)
  let semantic_index ← rd32 data (off + lead + 4)
  let system_value_type ← rd32 data (off + lead + 8)
  let component_type ← rd32 data (off + lead + 12)
  let register_num ← rd32 data (off + lead + 16)
  let mask ← rd8 data (off + lead + 20)
  let read_write_mask ← rd8 data (off + lead + 21)
  let stream ← if lead = 0 then pure 0 else rd32 data off
  let min_precision ← if tail then rd32 data (off + lead + 24) else pure 0
  pure { semantic_name := name_offset, semantic_index := semantic_index,
         system_value_type := system_value_type, component_type := component_type,
         register_index := register_num, mask := mask, read_write_mask := read_write_mask,
         stream := stream, min_precision := min_precision }

/-- Loops of `ParseSignature`: `n` records of `size` bytes from offset `off`. -/
def readSigParams (data : List Nat) (lead : Nat) (tail : Bool) (size : Nat) :
    Nat → Nat → Except ParseError (List DXBCSignatureParamDesc)
  | 0, _ => pure []
  | n + 1, off => do
    let param ← readSigParam data lead tail off
    let rest ← readSigParams data lead tail size n (off + size)
    pure (param :: rest)

/-- Lines 830-888 of `ParseSignature`: the `count` records of the element table
at `offset`, in the layout selected by `fourcc`. -/
def readSigElements (data : List Nat) (fourcc count offset : Nat) :
    Except ParseError (List DXBCSignatureParamDesc) :=
  if FOURCC_ISG1 = fourcc ∨ FOURCC_OSG1 = fourcc then
    readSigParams data 4 true 32 count offset
  else if FOURCC_OSG5 = fourcc then
    readSigParams data 4 false 28 count offset
  else if ¬ (FOURCC_ISGN = fourcc ∨ FOURCC_OSGN = fourcc ∨ FOURCC_PCSG = fourcc) then
    throw ParseError.BadMagic
  else
    readSigParams data 0 false 24 count offset

/-- Lines 799-815 of `ParseSignature`: the list `params` selected by `fourcc`
(one of the six tags) receives the decoded parameters. -/
def storeSigParams (prog : ShaderProgram) (fourcc : Nat)
    (params : List DXBCSignatureParamDesc) : ShaderProgram :=
  if fourcc = FOURCC_ISG1 ∨ fourcc = FOURCC_ISGN then { prog with params_in := params }
  else if fourcc = FOURCC_OSG1 ∨ fourcc = FOURCC_OSG5 ∨ fourcc = FOURCC_OSGN then
    { prog with params_out := params }
  else { prog with params_patch := params }

/-- Embedding of `ParseSignature`: the chunk `sig` is decoded with the record
layout selected by the argument `fourcc`, into the list selected by `fourcc`
(any other value of `fourcc` fails the assertion of the first `switch`). In the
payload of a signature chunk, `count` is the word at offset 0 and `offset` the
word at offset 4. The result holds the program and `count`. -/
def ParseSignature (prog : ShaderProgram) (sig : DXBCChunk) (fourcc : Nat) :
    Except ParseError (ShaderProgram × Nat) := do
  if ¬ (fourcc = FOURCC_ISG1 ∨ fourcc = FOURCC_ISGN ∨ fourcc = FOURCC_OSG1 ∨
        fourcc = FOURCC_OSG5 ∨ fourcc = FOURCC_OSGN ∨ fourcc = FOURCC_PCSG) then
    throw ParseError.BadMagic
  let offset ← rd32 sig.data 4
  let count ← rd32 sig.data 0
  let params ← readSigElements sig.data fourcc count offset
  pure (storeSigParams prog fourcc params, count)

/-! ## Orchestrator `Parse` and `SortCBVars` (lines 587-633, 82-85, 893-902) -/

/-- Embedding of `SortFuncLess`. -/
def SortFuncLess (lh rh : DXBCShaderVariable) : Bool :=
  decide (lh.var_desc.start_offset < rh.var_desc.start_offset)

/-- Library function `std::sort (first, last, comp)`, modelled by insertion
sort with respect to "`comp rh lh` does not hold". The standard leaves open the
relative order of elements that `comp` does not separate. -/
def stdSort (comp : DXBCShaderVariable → DXBCShaderVariable → Bool)
    (l : List DXBCShaderVariable) : List DXBCShaderVariable :=
  l.insertionSort (fun lh rh => comp rh lh = false)

/-- Embedding of `SortCBVars`. -/
def SortCBVars (prog : ShaderProgram) : ShaderProgram :=
  { prog with cbuffers := prog.cbuffers.map fun cb =>
      if SCBT_CBUFFER = cb.desc.type then { cb with vars := stdSort SortFuncLess cb.vars }
      else cb }

/-- Input of the parser (`DXBCContainer`): the tokens of the shader chunk, whose
size field is four times their number, and the optional chunks. -/
structure DXBCContainer where
  shader_chunk : List Nat
  resource_chunk : Option DXBCChunk
  input_signature : Option DXBCChunk
  output_signature : Option DXBCChunk
  patch_constant_signature : Option DXBCChunk

/-- Lines 591-595 of `Parse`. -/
def parseResource (prog : ShaderProgram) : Option DXBCChunk → Except ParseError ShaderProgram
  | none => pure prog
  | some resource_chunk => do
    let (prog, _) ← ParseCBAndResourceBinding prog resource_chunk
    pure (SortCBVars prog)

/-- Lines 597-608 of `Parse`. -/
def parseInputSignature (prog : ShaderProgram) :
    Option DXBCChunk → Except ParseError ShaderProgram
  | none => pure prog
  | some sig =>
    if FOURCC_ISG1 = sig.fourcc then do
      let (prog, _) ← ParseSignature prog sig FOURCC_ISG1
      pure prog
    else if ¬ (FOURCC_ISGN = sig.fourcc) then throw ParseError.BadMagic
    else do
      let (prog, _) ← ParseSignature prog sig FOURCC_ISGN
      pure prog

/-- Lines 610-625 of `Parse`. -/
def parseOutputSignature (prog : ShaderProgram) :
    Option DXBCChunk → Except ParseError ShaderProgram
  | none => pure prog
  | some sig =>
    if FOURCC_OSG1 = sig.fourcc then do
      let (prog, _) ← ParseSignature prog sig FOURCC_OSG1
      pure prog
    else if FOURCC_OSG5 = sig.fourcc then do
      let (prog, _) ← ParseSignature prog sig FOURCC_OSG5
      pure prog
    else if ¬ (FOURCC_OSGN = sig.fourcc) then throw ParseError.BadMagic
    else do
      let (prog, _) ← ParseSignature prog sig FOURCC_OSGN
      pure prog

/-- Lines 627-630 of `Parse`. -/
def parsePatchSignature (prog : ShaderProgram) :
    Option DXBCChunk → Except ParseError ShaderProgram
  | none => pure prog
  | some sig => do
    let (prog, _) ← ParseSignature prog sig FOURCC_PCSG
    pure prog

/-- Embedding of `Parse` on the container `dxbc`, from the program `prog`. -/
def Parse (lim : Limits) (dxbc : DXBCContainer) (prog : ShaderProgram) :
    Except ParseError ShaderProgram := do
  let st ← ParseShader lim prog dxbc.shader_chunk
  let prog ← parseResource st.prog dxbc.resource_chunk
  let prog ← parseInputSignature prog dxbc.input_signature
  let prog ← parseOutputSignature prog dxbc.output_signature
  parsePatchSignature prog dxbc.patch_constant_signature

/-- Embedding of `ShaderParse`. -/
def ShaderParse (lim : Limits) (dxbc : DXBCContainer) : Except ParseError ShaderProgram :=
  Parse lim dxbc ShaderProgram.fresh

/-- Predicate: the only failure of a computation is `OutOfBounds`. -/
def OnlyOOB {α : Type} (x : Except ParseError α) : Prop :=
  ∀ e, x = .error e → e = ParseError.OutOfBounds

/-- Relation: the offsets `a` and `b` name equal C strings of the payload. -/
def SameName (data : List Nat) (a b : Nat) : Prop :=
  ∃ s, cstrAt data a = some s ∧ cstrAt data b = some s

/-- The C string named by record `i` of the constant-buffer table that starts
at byte offset `cb_offset` (records of 24 bytes, `name_offset` first). -/
def cbNameAt (data : List Nat) (cb_offset i : Nat) : Option (List Nat) :=
  match rd32 data (cb_offset + 24 * i) with
  | .ok name_offset => cstrAt data name_offset
  | .error _ => none

/-- The C string named by record `j` of the resource-binding table that starts
at byte offset `binding_offset` (records of 32 bytes, `name_offset` first). -/
def bindingNameAt (data : List Nat) (binding_offset j : Nat) : Option (List Nat) :=
  match rd32 data (binding_offset + 32 * j) with
  | .ok name_offset => cstrAt data name_offset
  | .error _ => none

/-- Little-endian bytes of a list of 32-bit words. -/
def words (ws : List Nat) : List Nat := ws.flatMap le32

/-- Resource chunk of scenario S4: one constant buffer `cb` of type `cbuffer`
with the variables A (offset 32), B (offset 0) and C (offset 16), in that order
in the variable table, and one binding `cb` with bind point 7. The strings
start at byte 152: `A`, `B`, `C`, `cb`. -/
def sampleResourceChunk : DXBCChunk :=
  { fourcc := FOURCC_RDEF,
    data := words [1, 24, 1, 48, 0, 0,
                   158, 3, 80, 48, 0, 0,
                   158, 0, 0, 0, 0, 7, 1, 0,
                   152, 32, 16, 0, 0, 0,
                   154, 0, 16, 0, 0, 0,
                   156, 16, 16, 0, 0, 0] ++ [65, 0, 66, 0, 67, 0, 99, 98, 0] }

/-- Resource chunk with one constant buffer `cb` and two bindings that are both
named `cb`, with bind points 1 and 2. The string starts at byte 112. -/
def sampleDuplicateBindings : DXBCChunk :=
  { fourcc := FOURCC_RDEF,
    data := words [1, 24, 2, 48, 0, 0,
                   112, 0, 0, 16, 0, 0,
                   112, 0, 0, 0, 0, 1, 1, 0,
                   112, 0, 0, 0, 0, 2, 1, 0] ++ [99, 98, 0] }

/-- Resource chunk with one constant buffer `cb` (string at byte 80) and one
binding `d` (string at byte 83). -/
def sampleMissingBinding : DXBCChunk :=
  { fourcc := FOURCC_RDEF,
    data := words [1, 24, 1, 48, 0, 0,
                   80, 0, 0, 16, 0, 0,
                   83, 0, 0, 0, 0, 1, 1, 0] ++ [99, 98, 0, 100, 0] }

/-- Container of scenario S4: a vertex shader 4.0 without records (version
token, length word 2) and the resource chunk `sampleResourceChunk`. -/
def sampleContainer : DXBCContainer :=
  { shader_chunk := [0x00010040, 2], resource_chunk := some sampleResourceChunk,
    input_signature := none, output_signature := none, patch_constant_signature := none }

/-! ## Operand encoder, used to state operand fidelity

The spec asks for "a symmetric encoder built for tests"; the sources have none.
The encoder below is a function of the decoded operand alone. It writes every
index as a 64-bit displacement (followed by the nested operand when there is
one) and always writes an extended token of type 1. -/

/-- Two tokens of a 64-bit displacement, low word first. -/
def encodeDisp (disp : Int) : List Nat :=
  [(disp % 2 ^ 64).toNat % 2 ^ 32, (disp % 2 ^ 64).toNat / 2 ^ 32]

/-- Representation code written for an index slot. -/
def encodeRepr (ix : ShaderOperandIndex ShaderOperand) : Nat :=
  match ix.reg with
  | none => SOIP_IMM64
  | some _ => SOIP_IMM64_PLUS_RELATIVE

/-- Representation code written for slot `i` of the index list `ixs` when the
operand has `n` indices (0 for an unused slot). -/
def encodeReprAt (ixs : List (ShaderOperandIndex ShaderOperand)) (n i : Nat) : Nat :=
  match ixs[i]? with
  | some ix => if i < n then encodeRepr ix else 0
  | none => 0

/-- Components enum written for a component count. -/
def encodeCompsEnum (comps : Nat) : Nat :=
  if comps = 0 then SONC_0 else if comps = 1 then SONC_1 else SONC_4

/-- Selection field written for the scalar members `f`. -/
def encodeSel (f : OperandFields) : Nat :=
  if f.comps = 4 then
    if f.mode = SOSM_MASK then f.mask
    else if f.mode = SOSM_SWIZZLE then
      f.swizzle.getD 0 0 + 4 * f.swizzle.getD 1 0 + 16 * f.swizzle.getD 2 0 +
        64 * f.swizzle.getD 3 0
    else f.swizzle.getD 0 0
  else 0

/-- Operand token written for an operand (extended bit set). -/
def encodeOpToken (f : OperandFields) (ixs : List (ShaderOperandIndex ShaderOperand)) : Nat :=
  encodeCompsEnum f.comps + 4 * (if f.comps = 4 then f.mode else 0) + 16 * encodeSel f +
    4096 * f.type + 2 ^ 20 * f.num_indices + 2 ^ 22 * encodeReprAt ixs f.num_indices 0 +
    2 ^ 25 * encodeReprAt ixs f.num_indices 1 + 2 ^ 28 * encodeReprAt ixs f.num_indices 2 +
    2 ^ 31

/-- Extended operand token of type 1 written for the flags `neg` and `abs`. -/
def encodeExtToken (f : OperandFields) : Nat :=
  1 + 64 * (if f.neg then 1 else 0) + 128 * (if f.abs then 1 else 0)

/-- Tokens written for the immediate values. -/
def encodeImm (f : OperandFields) : List Nat :=
  if SOT_IMMEDIATE32 = f.type then f.imm_values.take f.comps
  else if SOT_IMMEDIATE64 = f.type then
    (f.imm_values.take f.comps).flatMap fun v => [v % 2 ^ 32, v / 2 ^ 32]
  else []

mutual
/-- Encoder of an operand: operand token, extended token, the indices, the
immediate values. -/
def EncodeOp : ShaderOperand → List Nat
  | .mk f ixs =>
    encodeOpToken f ixs :: encodeExtToken f :: (EncodeIndices f.num_indices ixs ++ encodeImm f)
/-- Encoder of the first `n` index slots. -/
def EncodeIndices : Nat → List (ShaderOperandIndex ShaderOperand) → List Nat
  | 0, _ => []
  | _ + 1, [] => []
  | n + 1, ⟨disp, none⟩ :: rest => encodeDisp disp ++ EncodeIndices n rest
  | n + 1, ⟨disp, some o⟩ :: rest => encodeDisp disp ++ (EncodeOp o ++ EncodeIndices n rest)
end

/-- Tokens written for one used index slot. -/
def encodeSlot (ix : ShaderOperandIndex ShaderOperand) : List Nat :=
  encodeDisp ix.disp ++ (match ix.reg with
    | none => []
    | some o => EncodeOp o)

/-- Placement of tokens: the tokens `l` stand in `mem` from position `r` on. -/
def TokensAt (mem : List Nat) : Nat → List Nat → Prop
  | _, [] => True
  | r, x :: l => mem[r]? = some x ∧ TokensAt mem (r + 1) l

/-- New content of an index slot after one index step of `ReadOp`: the
displacement `d`, and the nested operand `reg` when one was read (the slot
keeps its nested operand otherwise). -/
def slotWrite (d : Int) (reg : Option ShaderOperand)
    (old : ShaderOperandIndex ShaderOperand) : ShaderOperandIndex ShaderOperand :=
  { disp := d, reg := match reg with
                      | none => old.reg
                      | some o => some o }

/-- Selection members that `ReadOp` can produce in a newly made operand. -/
def SelCanon (f : OperandFields) : Prop :=
  (f.comps = 0 ∧ f.mode = 0 ∧ f.swizzle = [0, 1, 2, 3] ∧ f.mask = 15) ∨
  (f.comps = 1 ∧ f.mode = 0 ∧ f.swizzle = [0, 0, 0, 0] ∧ f.mask = 15) ∨
  (f.comps = 4 ∧ f.mode = SOSM_MASK ∧ f.swizzle = [0, 1, 2, 3] ∧ f.mask < 16) ∨
  (f.comps = 4 ∧ f.mode = SOSM_SWIZZLE ∧ f.mask = 15 ∧
    ∃ x y z w, x < 4 ∧ y < 4 ∧ z < 4 ∧ w < 4 ∧ f.swizzle = [x, y, z, w]) ∨
  (f.comps = 4 ∧ f.mode = SOSM_SCALAR ∧ f.mask = 15 ∧
    ∃ x, x < 4 ∧ f.swizzle = [x, x, x, x])

/-- Immediate values that `ReadOp` can produce in a newly made operand: `comps`
words of 32 or 64 bits for an immediate operand, zero elsewhere. -/
def ImmCanon (f : OperandFields) : Prop :=
  ∃ v0 v1 v2 v3, f.imm_values = [v0, v1, v2, v3] ∧
    ((SOT_IMMEDIATE32 ≠ f.type ∧ SOT_IMMEDIATE64 ≠ f.type) ∨ f.comps = 0 →
      v0 = 0 ∧ v1 = 0 ∧ v2 = 0 ∧ v3 = 0) ∧
    (f.comps = 1 → v1 = 0 ∧ v2 = 0 ∧ v3 = 0) ∧
    (SOT_IMMEDIATE32 = f.type → v0 < 2 ^ 32 ∧ v1 < 2 ^ 32 ∧ v2 < 2 ^ 32 ∧ v3 < 2 ^ 32) ∧
    (SOT_IMMEDIATE64 = f.type → v0 < 2 ^ 64 ∧ v1 < 2 ^ 64 ∧ v2 < 2 ^ 64 ∧ v3 < 2 ^ 64)

/-- Predicate: the operand is one that `ReadOp` can produce in a newly made
operand, and so is every operand nested in it. Slot `j` is used when
`j < num_indices`; an unused slot is as in a newly made operand. -/
inductive Canon (lim : Limits) : ShaderOperand → Prop where
  | mk (f : OperandFields) (i0 i1 i2 : ShaderOperandIndex ShaderOperand) :
      f.type < 256 → f.type < lim.SOT_COUNT → f.num_indices ≤ 3 → SelCanon f → ImmCanon f →
      (∀ ix, (ix = i0 ∧ 0 < f.num_indices) ∨ (ix = i1 ∧ 1 < f.num_indices) ∨
          (ix = i2 ∧ 2 < f.num_indices) → -2 ^ 63 ≤ ix.disp ∧ ix.disp < 2 ^ 63) →
      (∀ ix o, (ix = i0 ∧ 0 < f.num_indices) ∨ (ix = i1 ∧ 1 < f.num_indices) ∨
          (ix = i2 ∧ 2 < f.num_indices) → ix.reg = some o → Canon lim o) →
      (f.num_indices ≤ 0 → i0 = ⟨0, none⟩) → (f.num_indices ≤ 1 → i1 = ⟨0, none⟩) →
      (f.num_indices ≤ 2 → i2 = ⟨0, none⟩) →
      Canon lim (ShaderOperand.mk f [i0, i1, i2])

/-- Operand with one index whose slot holds a nested operand: the nested
operand has one index of displacement -1. -/
def sampleNestedOperand : ShaderOperand :=
  .mk { mode := 0, comps := 0, mask := 15, num_indices := 1, swizzle := [0, 1, 2, 3],
        type := 0, imm_values := [0, 0, 0, 0], neg := false, abs := false }
      [⟨0, some (.mk { mode := 0, comps := 0, mask := 15, num_indices := 1,
                       swizzle := [0, 1, 2, 3], type := 0, imm_values := [0, 0, 0, 0],
                       neg := false, abs := false }
                     [⟨-1, none⟩, ⟨0, none⟩, ⟨0, none⟩])⟩, ⟨0, none⟩, ⟨0, none⟩]

/-! ## Token count of an operand, after the statement on token consumption

The definitions of this section follow the words of the specification, not
the source: they give the number of tokens that an operand takes, as a
function of the operand token at its position, of the decoded operand and of
the token counts of its nested operands. -/

/-- Representation code of index `i` held by the operand token. -/
def specReprOf (optok i : Nat) : Nat :=
  if i = 0 then optok_index0_repr optok
  else if i = 1 then optok_index1_repr optok
  else optok_index2_repr optok

/-- Number of tokens of the displacement of an index in representation `repr`:
one for a 32-bit immediate, two for a 64-bit immediate, none otherwise. -/
def specDispTokens (repr : Nat) : Nat :=
  if repr = SOIP_IMM32 ∨ repr = SOIP_IMM32_PLUS_RELATIVE then 1
  else if repr = SOIP_IMM64 ∨ repr = SOIP_IMM64_PLUS_RELATIVE then 2
  else 0

/-- Number `c_i` of tokens of an index in representation `repr`, `n` being the
number of tokens of its nested operand: 1 for IMM32, 2 for IMM64, `n` for
RELATIVE, `1 + n` for IMM32+RELATIVE, `2 + n` for IMM64+RELATIVE. The
statement lists these five codes; for another code the count is 0. -/
def specIndexTokens (repr n : Nat) : Nat :=
  if repr = SOIP_IMM32 then 1
  else if repr = SOIP_IMM64 then 2
  else if repr = SOIP_RELATIVE then n
  else if repr = SOIP_IMM32_PLUS_RELATIVE then 1 + n
  else if repr = SOIP_IMM64_PLUS_RELATIVE then 2 + n
  else 0

/-- Number `m` of tokens of the immediate values: `comps` for IMMEDIATE32,
`2 * comps` for IMMEDIATE64, 0 otherwise. -/
def specImmTokens (type comps : Nat) : Nat :=
  if SOT_IMMEDIATE32 = type then comps
  else if SOT_IMMEDIATE64 = type then 2 * comps
  else 0

mutual
/-- Number `1 + e + sum of the c_i + m` of tokens of the operand `op` decoded
at position `r` of the tokens `mem`. -/
def specOperandTokens (mem : List Nat) : ShaderOperand → Nat → Nat
  | .mk f ixs, r =>
    1 + (if optok_extended (mem.getD r 0 % 2 ^ 32) ≠ 0 then 1 else 0) +
      specIndicesTokens mem (mem.getD r 0 % 2 ^ 32) f.num_indices 0 ixs
        (r + 1 + (if optok_extended (mem.getD r 0 % 2 ^ 32) ≠ 0 then 1 else 0)) +
      specImmTokens f.type f.comps
/-- Sum of the `c_i` over `k` indices from index `i` on, the first of them
starting at position `p`. -/
def specIndicesTokens (mem : List Nat) (optok : Nat) :
    Nat → Nat → List (ShaderOperandIndex ShaderOperand) → Nat → Nat
  | 0, _, _, _ => 0
  | _ + 1, _, [], _ => 0
  | k + 1, i, ⟨_, none⟩ :: rest, p =>
    specIndexTokens (specReprOf optok i) 0 +
      specIndicesTokens mem optok k (i + 1) rest (p + specIndexTokens (specReprOf optok i) 0)
  | k + 1, i, ⟨_, some o⟩ :: rest, p =>
    specIndexTokens (specReprOf optok i)
        (specOperandTokens mem o (p + specDispTokens (specReprOf optok i))) +
      specIndicesTokens mem optok k (i + 1) rest
        (p + specIndexTokens (specReprOf optok i)
          (specOperandTokens mem o (p + specDispTokens (specReprOf optok i))))
end

/-- Tokens of an operand of type IMMEDIATE32 with four components and one
index in the RELATIVE representation: the operand token 0x9040F2, the nested
operand (operand token 0x100000 with one IMM32 index, displacement 7), then the
four immediate values 1, 2, 3, 4. -/
def sampleImmediateOperand : List Nat := [0x9040F2, 0x100000, 7, 1, 2, 3, 4]

/-- Token stream of scenario S2: version token, length word 8, then one
`ImmediateConstantBuffer` record: opcode token 0x1835 (whose `length` field is
0), custom length word 6 and the four data tokens 1, 2, 3, 4. -/
def sampleImmediateConstantBuffer : List Nat := [0x00010040, 8, 0x1835, 6, 1, 2, 3, 4]

/-- The seven fields of the classic signature record at byte offset `c` of the
payload, as held by the parameter `p`: five 32-bit words (`name_offset`,
`semantic_index`, `system_value_type`, `component_type`, `register_num`), then
the bytes `mask` and `read_write_mask` (two bytes of padding follow). -/
def ClassicSigRecord (data : List Nat) (c : Nat) (p : DXBCSignatureParamDesc) : Prop :=
  rd32 data c = .ok p.semantic_name ∧ rd32 data (c + 4) = .ok p.semantic_index ∧
  rd32 data (c + 8) = .ok p.system_value_type ∧ rd32 data (c + 12) = .ok p.component_type ∧
  rd32 data (c + 16) = .ok p.register_index ∧ rd8 data (c + 20) = .ok p.mask ∧
  rd8 data (c + 21) = .ok p.read_write_mask

/-- Signature chunk of scenario S6, tag `ISG1`: count 1, element table at byte
8, one record of 32 bytes (stream 0, name at byte 40, semantic index 0, system
value 0, component type 3, register 0, mask 0xF, read-write mask 0, minimum
precision 2), then the string `POSITION`. -/
def sampleSignatureChunk : DXBCChunk :=
  { fourcc := FOURCC_ISG1,
    data := words [1, 8, 0, 40, 0, 0, 3, 0, 0xF, 2] ++ [80, 79, 83, 73, 84, 73, 79, 78, 0] }

/-- Decoding of an optional signature chunk as the specification words it:
a present chunk is decoded by `ParseSignature` under its own four-character
tag. This definition follows the specification, not `Parse`. -/
def specDecodeByOwnTag (prog : ShaderProgram) :
    Option DXBCChunk → Except ParseError ShaderProgram
  | none => pure prog
  | some sig => do
    let (prog, _) ← ParseSignature prog sig sig.fourcc
    pure prog

/-- Container whose only optional chunk is a patch-constant signature chunk
tagged `ISG1` (the chunk `sampleSignatureChunk`); the shader chunk is a vertex
shader 4.0 without records. -/
def samplePatchTaggedISG1 : DXBCContainer :=
  { shader_chunk := [0x00010040, 2], resource_chunk := none, input_signature := none,
    output_signature := none, patch_constant_signature := some sampleSignatureChunk }

/-- Container whose only optional chunk is an input signature chunk tagged
`OSG5`, with no parameter. -/
def sampleInputTaggedOSG5 : DXBCContainer :=
  { shader_chunk := [0x00010040, 2], resource_chunk := none,
    input_signature := some { fourcc := FOURCC_OSG5, data := words [0, 8] },
    output_signature := none, patch_constant_signature := none }

/-- Container of scenario S6: the input signature chunk `sampleSignatureChunk`,
tagged `ISG1`. -/
def sampleSignatureContainer : DXBCContainer :=
  { shader_chunk := [0x00010040, 2], resource_chunk := none,
    input_signature := some sampleSignatureChunk, output_signature := none,
    patch_constant_signature := none }

/-- Token stream of a hull shader with phase markers: version token, length
word 5, then the three one-token records `hs_decls` (0x01000071),
`hs_fork_phase` (0x01000073) and `ret` (0x0100003E). -/
def sampleHullShader : List Nat := [0x00030050, 5, 0x01000071, 0x01000073, 0x0100003E]

/-- Relation `OperandsBetween lim b p q ops`: `ops` are the operands decoded
one after another by `ReadOp` on newly made operands, the first one at position
`p`, each at a position before `q`, the last one ending at `q`. -/
inductive OperandsBetween (lim : Limits) (b : TokenBuf) : Nat → Nat → List ShaderOperand → Prop where
  | done (q : Nat) : OperandsBetween lim b q q []
  | read {p p1 q : Nat} {o : ShaderOperand} {rest : List ShaderOperand} :
      p < q → ReadOp lim b ShaderOperand.fresh p = .ok (o, p1) →
      OperandsBetween lim b p1 q rest → OperandsBetween lim b p q (o :: rest)

/-- Classification of an opcode as the spec words it: a declaration opcode
lies in one of the ranges resource-through-global-flags and
stream-through-resource-structured, or is the GS instance count. -/
def specIsDeclOpcode (opcode : Nat) : Bool :=
  (decide (SO_DCL_RESOURCE ≤ opcode) && decide (opcode ≤ SO_DCL_GLOBAL_FLAGS)) ||
    (decide (SO_DCL_STREAM ≤ opcode) && decide (opcode ≤ SO_DCL_RESOURCE_STRUCTURED)) ||
    decide (opcode = SO_DCL_GS_INSTANCE_COUNT)

/-- Classification of an opcode as the spec words it: an instruction opcode is
one that is not the immediate constant buffer, not a declaration and not the
`HSDecls` marker. -/
def specIsInsnOpcode (opcode : Nat) : Bool :=
  !decide (opcode = SO_IMMEDIATE_CONSTANT_BUFFER) && !specIsDeclOpcode opcode &&
    !decide (opcode = SO_HS_DECLS)

/-- A record span of the stream `mem` is an instruction record when the
opcode of the token at its start is an instruction opcode. -/
def specIsInsnSpan (mem : List Nat) (sp : RecordSpan) : Bool :=
  match mem[sp.start]? with
  | some t => specIsInsnOpcode (insntok_opcode (t % 2 ^ 32))
  | none => false

/-- Number of extended tokens of the chain that starts with the first token of
`toks`, read from the tokens alone: the leading tokens whose `extended` bit
(bit 31) is set are each followed by one extended token. -/
def specExtCount : List Nat → Nat
  | [] => 0
  | t :: rest => if insntok_extended (t % 2 ^ 32) ≠ 0 then 1 + specExtCount rest else 0

/-- End of the header of the instruction whose opcode token stands at position
`s` of `mem`, as the claim words it: the opcode token, the extended tokens of
its chain, and one count word when the opcode is `InterfaceCall`. -/
def specHeaderEnd (mem : List Nat) (s opcode : Nat) : Nat :=
  s + 1 + specExtCount (mem.drop s) + (if opcode = SO_INTERFACE_CALL then 1 else 0)

/-- Relation `InsnDecodedAt lim b s insn`: `insn` carries the opcode token at
position `s`, and `insn.ops` are the operands between the end of the header,
`specHeaderEnd`, and `insn_end = s + length`. -/
def InsnDecodedAt (lim : Limits) (b : TokenBuf) (s : Nat) (insn : ShaderInstruction) : Prop :=
  ∃ t0, b.mem[s]? = some t0 ∧ insn.insntok = t0 % 2 ^ 32 ∧
    OperandsBetween lim b (specHeaderEnd b.mem s insn.opcode)
      (s + insntok_length insn.insntok) insn.ops

/-- Token stream with one `mov` record of length 15: the opcode token
0x0F000036 and seven operands of two tokens each (operand token 0x001020F2 or
0x00101E46 with one IMM32 index). -/
def sampleSevenOperands : List Nat :=
  [0x00010040, 17, 0x0F000036, 0x001020F2, 0, 0x00101E46, 0, 0x00101E46, 1, 0x00101E46, 2,
   0x00101E46, 3, 0x00101E46, 4, 0x00101E46, 5]

/-- Token stream with a `mov` record of length 7 whose opcode token
0x87000036 has the `extended` bit set: it is followed by the extended token
0x80000201 (sample controls, offset u = 1, `extended` bit set) and by the
extended token 0xC2 (resource dimension 3, `extended` bit clear), then by two
operands of two tokens each; then `ret`. -/
def sampleExtendedInstruction : List Nat :=
  [0x00010040, 10, 0x87000036, 0x80000201, 0xC2, 0x001020F2, 0, 0x00101E46, 0, 0x0100003E]

/-- Geometry-shader events of a token stream, in the order of the
declarations: a `DclStream` declaration with the displacement of the first
index of its operand, or a `DclGSOutputPrimitiveTopology` declaration with its
topology. -/
inductive GsEvent where
  | stream (disp : Int)
  | topology (t : Nat)
  deriving DecidableEq, Repr

/-- Event of a declaration, if it is one of the two geometry-shader stream
declarations. -/
def gsEvent (d : ShaderDecl) : Option GsEvent :=
  if d.opcode = SO_DCL_STREAM then
    some (.stream ((d.op.getD ShaderOperand.fresh).indices.headD ⟨0, none⟩).disp)
  else if d.opcode = SO_DCL_GS_OUTPUT_PRIMITIVE_TOPOLOGY then
    some (.topology (dcltok_gs_output_primitive_topology d.insntok))
  else none

/-- Events of a list of declarations. -/
def gsEvents (dcls : List ShaderDecl) : List GsEvent := dcls.filterMap gsEvent

/-- Effect of an event on the per-stream topology list and on `cur_gs_stream`
(lines 400-403 and 516-520): `DclStream` sets `cur_gs_stream` to the
displacement converted to `uint32_t` and appends a slot `SPT_Undefined`;
`DclGSOutputPrimitiveTopology` stores the topology in the slot `cur_gs_stream`. -/
def gsReplay (s : List Nat × Nat) : GsEvent → List Nat × Nat
  | .stream disp => (s.1 ++ [SPT_Undefined], (disp % 2 ^ 32).toNat)
  | .topology t => (s.1.set s.2 t, s.2)

/-- Property of a reading step started at position `r`: on success its
position is at least `r`. -/
def PosMono {α : Type} (x : Except ParseError (α × Nat)) (r : Nat) : Prop :=
  ∀ a r1, x = .ok (a, r1) → r ≤ r1

/-- Property of a step of the declaration branch started at position `r`: on
success the position of its state is at least `r`. -/
def TokMono (x : Except ParseError (ShaderDecl × PState)) (r : Nat) : Prop :=
  ∀ d s, x = .ok (d, s) → r ≤ s.tokens

/-- Number of 32-bit words of a variable record as the spec words it: 10 when
the major version of the program is at least 5, and 6 otherwise. -/
def specVarRecordWords (version : Nat) : Nat :=
  if version_major version ≥ 5 then 10 else 6

/-- Property of a variable `var` and the record of `W` 32-bit words at byte
offset `off` of a resource chunk payload: the name, start offset, size and
flags are the words 0 to 3, word 4 is the type offset (a type description is
there when it is not zero), word 5 is the offset of the default value (a null
pointer when it is zero); when `W = 10` the words 6 to 9 are `start_texture`,
`texture_size`, `start_sampler` and `sampler_size`, and otherwise these four
members are those of a newly made variable. -/
def VarRecordAt (data : List Nat) (W off : Nat) (var : DXBCShaderVariable) : Prop :=
  rd32 data off = .ok var.var_desc.name ∧
  rd32 data (off + 4) = .ok var.var_desc.start_offset ∧
  rd32 data (off + 8) = .ok var.var_desc.size ∧
  rd32 data (off + 12) = .ok var.var_desc.flags ∧
  (∃ t, rd32 data (off + 16) = .ok t ∧ var.has_type_desc = decide (t ≠ 0) ∧
    (t ≠ 0 → readTypeDesc data t = .ok var.type_desc)) ∧
  (∃ d, rd32 data (off + 20) = .ok d ∧
    var.var_desc.default_val = if d ≠ 0 then some d else none) ∧
  (W = 10 →
    rd32 data (off + 24) = .ok var.var_desc.start_texture ∧
    rd32 data (off + 28) = .ok var.var_desc.texture_size ∧
    rd32 data (off + 32) = .ok var.var_desc.start_sampler ∧
    rd32 data (off + 36) = .ok var.var_desc.sampler_size) ∧
  (W ≠ 10 →
    var.var_desc.start_texture = 0 ∧ var.var_desc.texture_size = 0 ∧
    var.var_desc.start_sampler = 0 ∧ var.var_desc.sampler_size = 0)

/-- Property of a type description `td` and the type record at byte offset `t`
of a resource chunk payload: class, type, rows, columns, elements and members
are the 16-bit words 0 to 5 of the record, and the member offset is made of the
words 6 (high half) and 7 (low half). -/
def TypeRecordAt (data : List Nat) (t : Nat) (td : DXBCShaderTypeDesc) : Prop :=
  rd16 data t = .ok td.var_class ∧
  rd16 data (t + 2) = .ok td.type ∧
  rd16 data (t + 4) = .ok td.rows ∧
  rd16 data (t + 6) = .ok td.columns ∧
  rd16 data (t + 8) = .ok td.elements ∧
  rd16 data (t + 10) = .ok td.members ∧
  ∃ h l, rd16 data (t + 12) = .ok h ∧ rd16 data (t + 14) = .ok l ∧
    h < 65536 ∧ l < 65536 ∧
    td.offset = (h <<< 16) ||| l ∧ td.offset = 65536 * h + l ∧ td.offset < 2 ^ 32

/-- Resource chunk with one constant buffer `cb` of two variables. The word
`shader_model` of its header is 0x0400. The variable table starts at byte 80
and holds two records of 10 words; the first variable has a type record at
byte 160, whose 16-bit words are 1, 3, 4, 4, 0, 0, 0x8001, 0x0002. The strings
start at byte 176: `cb`, `A`. -/
def sampleModel5Chunk : DXBCChunk :=
  { fourcc := FOURCC_RDEF,
    data := words [1, 24, 1, 48, 0x0400, 0,
                   176, 2, 80, 32, 0, 0,
                   176, 0, 0, 0, 0, 7, 1, 0,
                   179, 0, 16, 0, 160, 0, 1, 2, 3, 4,
                   0, 16, 16, 0, 0, 0, 5, 6, 7, 8,
                   0x00030001, 0x00040004, 0, 0x00028001] ++ [99, 98, 0, 65, 0] }

mutual
/-- Depth of a decoded operand tree: the number of operands on the longest
chain that goes from the operand down through nested operands (1 for an
operand without nested operand). -/
def opDepth : ShaderOperand → Nat
  | .mk _ ixs => 1 + ixsDepth ixs
/-- Largest depth of the operands nested in a list of index slots (0 when
there is none). -/
def ixsDepth : List (ShaderOperandIndex ShaderOperand) → Nat
  | [] => 0
  | ⟨_, none⟩ :: rest => ixsDepth rest
  | ⟨_, some o⟩ :: rest => max (opDepth o) (ixsDepth rest)
end

/-- Depth of the operand nested in one index slot (0 when there is none). -/
def slotDepth (ix : ShaderOperandIndex ShaderOperand) : Nat :=
  match ix.reg with
  | none => 0
  | some o => opDepth o

/-- Kinds of failure of `ReadOp`: the assertion of `Read32`, the assertions on
the operand token and on the extended token, and a dereference outside the
chunk, which needs an end of stream that lies beyond the chunk. -/
def OperandFailure (b : TokenBuf) (e : ParseError) : Prop :=
  e = ParseError.Truncated ∨ (e = ParseError.OutOfBounds ∧ b.mem.length < b.tokens_end) ∨
    e = ParseError.UnknownOperandType ∨ e = ParseError.UnhandledComponents ∨
    e = ParseError.UnknownExtendedOperand

/-- Property of a result of the embedding: it is not the exhaustion of the
fuel, so it is a result of the source (a value or a failed assertion). -/
def FuelOK {α : Type} (x : Except ParseError α) : Prop :=
  x ≠ .error ParseError.OutOfFuel

/-! # Properties -/

/-! ## Auxiliary lemmas -/

theorem bind_eq_ok {ε α β : Type} {x : Except ε α} {f : α → Except ε β} {b : β} :
    (x >>= f) = .ok b ↔ ∃ a, x = .ok a ∧ f a = .ok b := by
  cases x <;> simp [bind, Except.bind]

@[simp] theorem withF_f (op : ShaderOperand) (g : OperandFields → OperandFields) :
    (op.withF g).f = g op.f := rfl
@[simp] theorem withF_indices (op : ShaderOperand) (g : OperandFields → OperandFields) :
    (op.withF g).indices = op.indices := rfl
@[simp] theorem updIndex_f (op : ShaderOperand) (i : Nat) (g) :
    (op.updIndex i g).f = op.f := rfl
@[simp] theorem updIndex_indices (op : ShaderOperand) (i : Nat) (g) :
    (op.updIndex i g).indices = updAt g i op.indices := rfl

/-- Summary of the component switch. -/
theorem readOpComps_ok {lim : Limits} {optok : Nat} {op op1 : ShaderOperand}
    (h : readOpComps lim optok op = .ok op1) :
    op1.indices = op.indices ∧ op1.f.neg = op.f.neg ∧ op1.f.abs = op.f.abs ∧
    op1.f.imm_values = op.f.imm_values ∧
    op1.f.type = optok_op_type optok ∧ op1.f.num_indices = optok_num_indices optok ∧
    optok_op_type optok < lim.SOT_COUNT ∧
    ((optok_comps_enum optok = SONC_0 ∧ op1.f.comps = 0 ∧ op1.f.swizzle = [0, 1, 2, 3] ∧
        op1.f.mask = 0xF ∧ op1.f.mode = op.f.mode) ∨
     (optok_comps_enum optok = SONC_1 ∧ op1.f.comps = 1 ∧ op1.f.swizzle = [0, 0, 0, 0] ∧
        op1.f.mask = 0xF ∧ op1.f.mode = op.f.mode) ∨
     (optok_comps_enum optok = SONC_4 ∧ op1.f.comps = 4 ∧ op1.f.mode = optok_mode optok ∧
       ((optok_mode optok = SOSM_MASK ∧ op1.f.mask = SM_OPERAND_SEL_MASK (optok_sel optok) ∧
          op1.f.swizzle = [0, 1, 2, 3]) ∨
        (optok_mode optok = SOSM_SWIZZLE ∧ op1.f.mask = 0xF ∧
          op1.f.swizzle = [SM_OPERAND_SEL_SWZ (optok_sel optok) 0,
            SM_OPERAND_SEL_SWZ (optok_sel optok) 1, SM_OPERAND_SEL_SWZ (optok_sel optok) 2,
            SM_OPERAND_SEL_SWZ (optok_sel optok) 3]) ∨
        (optok_mode optok = SOSM_SCALAR ∧ op1.f.mask = 0xF ∧
          op1.f.swizzle = [SM_OPERAND_SEL_SCALAR (optok_sel optok),
            SM_OPERAND_SEL_SCALAR (optok_sel optok), SM_OPERAND_SEL_SCALAR (optok_sel optok),
            SM_OPERAND_SEL_SCALAR (optok_sel optok)])))) := by
  unfold readOpComps at h
  simp only [bind, Except.bind, pure, Except.pure, throw, throwThe, MonadExceptOf.throw] at h
  split_ifs at h with ht h0 h1 h4 m0 m1 m2 <;>
    first
    | (cases h; done)
    | (obtain rfl := Except.ok.inj h
       simp_all)

theorem Read32_ok {b : TokenBuf} {r r1 t : Nat} (h : Read32 b r = .ok (t, r1)) :
    r1 = r + 1 ∧ r < b.tokens_end ∧ ∃ t0, b.mem[r]? = some t0 ∧ t = t0 % 2 ^ 32 := by
  unfold Read32 at h
  split_ifs at h with hlt
  · split at h
    · rename_i t0 ht0
      cases h
      exact ⟨rfl, hlt, t0, ht0, rfl⟩
    · cases h

theorem Read64_ok {b : TokenBuf} {r r2 t : Nat} (h : Read64 b r = .ok (t, r2)) :
    r2 = r + 2 ∧ r + 1 < b.tokens_end := by
  unfold Read64 at h
  simp only [bind_eq_ok] at h
  obtain ⟨⟨lo, ra⟩, ha, ⟨hi, rb⟩, hb, h⟩ := h
  obtain ⟨rfl, h1, -⟩ := Read32_ok ha
  obtain ⟨rfl, h2, -⟩ := Read32_ok hb
  cases h
  exact ⟨rfl, h2⟩

/-- The extended step changes at most `neg` and `abs`. -/
theorem readOpExt_ok {b : TokenBuf} {optok : Nat} {op op1 : ShaderOperand} {r r1 : Nat}
    (h : readOpExt b optok op r = .ok (op1, r1)) :
    op1.indices = op.indices ∧ op1.f.comps = op.f.comps ∧ op1.f.swizzle = op.f.swizzle ∧
    op1.f.mask = op.f.mask ∧ op1.f.mode = op.f.mode ∧ op1.f.type = op.f.type ∧
    op1.f.num_indices = op.f.num_indices ∧ op1.f.imm_values = op.f.imm_values := by
  unfold readOpExt at h
  split_ifs at h with he
  · simp only [bind_eq_ok] at h
    obtain ⟨⟨x, r2⟩, -, h⟩ := h
    simp only [pure, Except.pure, throw, throwThe, MonadExceptOf.throw] at h
    split_ifs at h <;>
      first
      | (cases h; done)
      | (cases h; simp)
  · cases h; simp

theorem mem_updAt {α : Type} {g : α → α} {i : Nat} {l : List α} {y : α}
    (h : y ∈ updAt g i l) : y ∈ l ∨ ∃ x ∈ l, y = g x := by
  induction l generalizing i with
  | nil => simp [updAt] at h
  | cons a l ih =>
    cases i with
    | zero =>
      simp only [updAt, List.mem_cons] at h
      rcases h with h | h
      · exact Or.inr ⟨a, by simp, h⟩
      · exact Or.inl (by simp [h])
    | succ i =>
      simp only [updAt, List.mem_cons] at h
      rcases h with h | h
      · exact Or.inl (by simp [h])
      · rcases ih h with h | ⟨x, hx, rfl⟩
        · exact Or.inl (by simp [h])
        · exact Or.inr ⟨x, by simp [hx], rfl⟩

theorem RegsAll_updIndex_disp {P : ShaderOperand → Prop} {op : ShaderOperand} (i : Nat) (d : Int)
    (h : RegsAll P op) : RegsAll P (op.updIndex i fun ix => { ix with disp := d }) := by
  intro ix hix o ho
  rcases mem_updAt hix with h1 | ⟨x, hx, rfl⟩
  · exact h ix h1 o ho
  · exact h x hx o ho

theorem RegsAll_updIndex_reg {P : ShaderOperand → Prop} {op : ShaderOperand} (i : Nat)
    (reg : ShaderOperand) (hreg : P reg)
    (h : RegsAll P op) : RegsAll P (op.updIndex i fun ix => { ix with reg := some reg }) := by
  intro ix hix o ho
  rcases mem_updAt hix with h1 | ⟨x, hx, rfl⟩
  · exact h ix h1 o ho
  · simp at ho
    subst ho
    exact hreg

/-- One index step keeps the scalar members and the property of nested operands. -/
theorem readOpIndex_ok {b : TokenBuf} {P : ShaderOperand → Prop} {readNested : Nat → OpResult}
    (hn : ∀ r o r1, readNested r = .ok (o, r1) → P o)
    {repr i : Nat} {op op1 : ShaderOperand} {r r1 : Nat}
    (h : readOpIndex b readNested repr i op r = .ok (op1, r1)) :
    op1.f = op.f ∧ (RegsAll P op → RegsAll P op1) := by
  unfold readOpIndex at h
  simp only [pure, Except.pure] at h
  split_ifs at h
  · simp only [bind_eq_ok] at h
    obtain ⟨⟨t, r2⟩, -, h⟩ := h
    cases h
    exact ⟨rfl, fun hp => RegsAll_updIndex_disp _ _ (RegsAll_updIndex_disp _ _ hp)⟩
  · simp only [bind_eq_ok] at h
    obtain ⟨⟨t, r2⟩, -, h⟩ := h
    cases h
    exact ⟨rfl, fun hp => RegsAll_updIndex_disp _ _ (RegsAll_updIndex_disp _ _ hp)⟩
  · simp only [bind_eq_ok] at h
    obtain ⟨⟨o, r2⟩, ho, h⟩ := h
    cases h
    exact ⟨rfl, fun hp => RegsAll_updIndex_reg _ _ (hn _ _ _ ho) (RegsAll_updIndex_disp _ _ hp)⟩
  · simp only [bind_eq_ok] at h
    obtain ⟨⟨t, r2⟩, -, ⟨o, r3⟩, ho, h⟩ := h
    cases h
    exact ⟨rfl, fun hp => RegsAll_updIndex_reg _ _ (hn _ _ _ ho)
      (RegsAll_updIndex_disp _ _ (RegsAll_updIndex_disp _ _ hp))⟩
  · simp only [bind_eq_ok] at h
    obtain ⟨⟨t, r2⟩, -, ⟨o, r3⟩, ho, h⟩ := h
    cases h
    exact ⟨rfl, fun hp => RegsAll_updIndex_reg _ _ (hn _ _ _ ho)
      (RegsAll_updIndex_disp _ _ (RegsAll_updIndex_disp _ _ hp))⟩
  · cases h
    exact ⟨rfl, fun hp => RegsAll_updIndex_disp _ _ hp⟩

theorem readOpIndices_ok {b : TokenBuf} {P : ShaderOperand → Prop}
    {readNested : Nat → OpResult}
    (hn : ∀ r o r1, readNested r = .ok (o, r1) → P o) {optok : Nat} :
    ∀ (k i : Nat) {op op1 : ShaderOperand} {r r1 : Nat},
      readOpIndices b readNested optok k i op r = .ok (op1, r1) →
      op1.f = op.f ∧ (RegsAll P op → RegsAll P op1)
  | 0, _, op, op1, r, r1, h => by
    simp only [readOpIndices, pure, Except.pure] at h
    cases h
    exact ⟨rfl, id⟩
  | k + 1, i, op, op1, r, r1, h => by
    simp only [readOpIndices, bind_eq_ok] at h
    obtain ⟨repr, -, ⟨op2, r2⟩, h2, h3⟩ := h
    obtain ⟨hf2, hp2⟩ := readOpIndex_ok hn h2
    obtain ⟨hf3, hp3⟩ := readOpIndices_ok hn k (i + 1) h3
    exact ⟨hf3.trans hf2, fun hp => hp3 (hp2 hp)⟩

theorem readOpImmLoop_ok {read : Nat → Except ParseError (Nat × Nat)} :
    ∀ (k i : Nat) {op op1 : ShaderOperand} {r r1 : Nat},
      readOpImmLoop read k i op r = .ok (op1, r1) →
      op1.indices = op.indices ∧ op1.f.comps = op.f.comps ∧ op1.f.swizzle = op.f.swizzle ∧
      op1.f.mask = op.f.mask ∧ op1.f.mode = op.f.mode ∧ op1.f.type = op.f.type ∧
      op1.f.num_indices = op.f.num_indices ∧ op1.f.neg = op.f.neg ∧ op1.f.abs = op.f.abs
  | 0, _, op, op1, r, r1, h => by
    simp only [readOpImmLoop, pure, Except.pure] at h
    cases h
    simp
  | k + 1, i, op, op1, r, r1, h => by
    simp only [readOpImmLoop, bind_eq_ok] at h
    obtain ⟨⟨v, r2⟩, -, h3⟩ := h
    have := readOpImmLoop_ok k (i + 1) h3
    simpa using this

theorem readOpImm_ok {b : TokenBuf} {op op1 : ShaderOperand} {r r1 : Nat}
    (h : readOpImm b op r = .ok (op1, r1)) :
    op1.indices = op.indices ∧ op1.f.comps = op.f.comps ∧ op1.f.swizzle = op.f.swizzle ∧
    op1.f.mask = op.f.mask ∧ op1.f.mode = op.f.mode ∧ op1.f.type = op.f.type ∧
    op1.f.num_indices = op.f.num_indices ∧ op1.f.neg = op.f.neg ∧ op1.f.abs = op.f.abs := by
  unfold readOpImm at h
  split_ifs at h
  · exact readOpImmLoop_ok _ _ h
  · exact readOpImmLoop_ok _ _ h
  · cases h; simp

/-- What follows the extended token keeps every scalar member but `imm_values`. -/
theorem readOpRest_ok {b : TokenBuf} {P : ShaderOperand → Prop} {readNested : Nat → OpResult}
    (hn : ∀ r o r1, readNested r = .ok (o, r1) → P o) {optok : Nat}
    {op op1 : ShaderOperand} {r r1 : Nat}
    (h : readOpRest b readNested optok op r = .ok (op1, r1)) :
    (RegsAll P op → RegsAll P op1) ∧ op1.f.comps = op.f.comps ∧ op1.f.swizzle = op.f.swizzle ∧
    op1.f.mask = op.f.mask ∧ op1.f.mode = op.f.mode ∧ op1.f.type = op.f.type ∧
    op1.f.num_indices = op.f.num_indices ∧ op1.f.neg = op.f.neg ∧ op1.f.abs = op.f.abs := by
  unfold readOpRest at h
  simp only [bind_eq_ok] at h
  obtain ⟨⟨op2, r2⟩, h2, h3⟩ := h
  obtain ⟨hf, hp⟩ := readOpIndices_ok hn _ _ h2
  obtain ⟨hi, h3⟩ := readOpImm_ok h3
  refine ⟨fun hq => ?_, ?_⟩
  · intro ix hix
    rw [hi] at hix
    exact hp hq ix hix
  · rw [hf] at h3
    exact h3


theorem optok_num_indices_le (t : Nat) : optok_num_indices t ≤ 3 := by
  unfold optok_num_indices bits
  omega

theorem ReadOpF_wellShaped (lim : Limits) (b : TokenBuf) :
    ∀ (fuel : Nat) (op0 op : ShaderOperand) (r r1 : Nat),
      RegsAll WellShaped op0 → ReadOpF lim b fuel op0 r = .ok (op, r1) → WellShaped op
  | 0, _, _, _, _, _, h => by
    simp [ReadOpF, throw, throwThe, MonadExceptOf.throw] at h
  | fuel + 1, op0, op, r, r1, h0, h => by
    simp only [ReadOpF, bind_eq_ok] at h
    obtain ⟨⟨optok, ra⟩, -, opa, hc, ⟨opb, rb⟩, he, hrest⟩ := h
    have hn : ∀ x o x1, (fun x => ReadOpF lim b fuel ShaderOperand.fresh x) x = .ok (o, x1) →
        WellShaped o := by
      intro x o x1 hx
      refine ReadOpF_wellShaped lim b fuel _ _ _ _ ?_ hx
      intro ix hix o ho
      simp [ShaderOperand.fresh, ShaderOperand.indices] at hix
      subst hix
      cases ho
    obtain ⟨hci, -, -, -, -, hcn, -, hcc⟩ := readOpComps_ok hc
    obtain ⟨hei, hec, -, -, -, -, hen, -⟩ := readOpExt_ok he
    obtain ⟨hrp, hrc, -, -, -, -, hrn, -⟩ := readOpRest_ok hn hrest
    refine WellShaped.mk _ ⟨?_, ?_⟩ ?_
    · rw [hrn, hen, hcn]
      exact optok_num_indices_le _
    · rw [hrc, hec]
      rcases hcc with ⟨-, h, -⟩ | ⟨-, h, -⟩ | ⟨-, h, -⟩ <;> simp [h]
    · apply hrp
      intro ix hix
      rw [hei, hci] at hix
      exact h0 ix hix

theorem WellShaped_nested {o op : ShaderOperand} (hn : Nested o op) :
    WellShaped op → Shape o := by
  induction hn with
  | refl =>
    intro h
    cases h with
    | mk _ hs _ => exact hs
  | step hix hreg _ ih =>
    intro h
    cases h with
    | mk _ _ hr => exact ih (hr _ hix _ hreg)

theorem readOpComps_bad (lim : Limits) {optok : Nat} (op : ShaderOperand)
    (hbad : (optok_comps_enum optok ≠ SONC_0 ∧ optok_comps_enum optok ≠ SONC_1 ∧
              optok_comps_enum optok ≠ SONC_4) ∨
            (optok_comps_enum optok = SONC_4 ∧ optok_mode optok ≠ SOSM_MASK ∧
              optok_mode optok ≠ SOSM_SWIZZLE ∧ optok_mode optok ≠ SOSM_SCALAR)) :
    ∃ e, readOpComps lim optok op = .error e := by
  cases hr : readOpComps lim optok op with
  | error e => exact ⟨e, rfl⟩
  | ok op1 =>
    exfalso
    obtain ⟨-, -, -, -, -, -, -, hcc⟩ := readOpComps_ok hr
    rcases hbad with ⟨b0, b1, b4⟩ | ⟨b4, m0, m1, m2⟩
    · rcases hcc with ⟨h, -⟩ | ⟨h, -⟩ | ⟨h, -⟩ <;> contradiction
    · rcases hcc with ⟨h, -⟩ | ⟨h, -⟩ | ⟨-, -, -, hm⟩
      · rw [b4] at h; cases h
      · rw [b4] at h; cases h
      · rcases hm with ⟨h, -⟩ | ⟨h, -⟩ | ⟨h, -⟩ <;> contradiction

/-- C10: operand shape invariant. For an operand decoded by a successful
`ReadOp` into an operand whose nested pointers are null (as for every newly
made operand), the operand and every operand nested in it at any depth have
at most three indices and 0, 1 or 4 components; and an operand token whose
components enum is none of 0-comp, 1-comp, 4-comp, or whose 4-comp mode is
none of mask, swizzle, scalar, makes `ReadOp` fail. -/
theorem C10_operand_shape (lim : Limits) (b : TokenBuf) (op0 : ShaderOperand) (r : Nat)
    (h0 : ∀ ix ∈ op0.indices, ix.reg = none) :
    (∀ op r1, ReadOp lim b op0 r = .ok (op, r1) → ∀ o, Nested o op →
        o.f.num_indices ≤ 3 ∧ (o.f.comps = 0 ∨ o.f.comps = 1 ∨ o.f.comps = 4)) ∧
    (∀ optok r1, Read32 b r = .ok (optok, r1) →
        ((optok_comps_enum optok ≠ SONC_0 ∧ optok_comps_enum optok ≠ SONC_1 ∧
            optok_comps_enum optok ≠ SONC_4) ∨
         (optok_comps_enum optok = SONC_4 ∧ optok_mode optok ≠ SOSM_MASK ∧
            optok_mode optok ≠ SOSM_SWIZZLE ∧ optok_mode optok ≠ SOSM_SCALAR)) →
        ∃ e, ReadOp lim b op0 r = .error e) := by
  constructor
  · intro op r1 h o hn
    refine WellShaped_nested hn (ReadOpF_wellShaped lim b _ op0 op r r1 ?_ h)
    intro ix hix o ho
    rw [h0 ix hix] at ho
    cases ho
  · intro optok r1 hread hbad
    obtain ⟨e, he⟩ := readOpComps_bad lim op0 hbad
    refine ⟨e, ?_⟩
    simp [ReadOp, ReadOpF, hread, he, bind, Except.bind]


/-- Witness for C10: a register operand with one relative index whose nested
operand has one 32-bit immediate index, and a token with components enum 3. -/
theorem C10_operand_shape_witness :
    (∀ ix ∈ ShaderOperand.fresh.indices, ix.reg = none) ∧
    (∃ op r1 o, ReadOp sampleLimits (TokenBuf.init [0x900000, 0x100000, 0xFFFFFFFF])
        ShaderOperand.fresh 0 = .ok (op, r1) ∧
      Nested o op ∧ o.f.num_indices = 1 ∧ o.indices.map (fun ix => ix.disp) = [-1, 0, 0] ∧
      o.f.num_indices ≤ 3 ∧ (o.f.comps = 0 ∨ o.f.comps = 1 ∨ o.f.comps = 4)) ∧
    (∃ e, ReadOp sampleLimits (TokenBuf.init [3]) ShaderOperand.fresh 0 = .error e) := by
  have hfresh : ∀ ix ∈ ShaderOperand.fresh.indices, ix.reg = none := by
    intro ix hix
    simp [ShaderOperand.fresh, ShaderOperand.indices] at hix
    subst hix
    rfl
  refine ⟨hfresh, ?_, ?_⟩
  · have hrun : ReadOp sampleLimits (TokenBuf.init [0x900000, 0x100000, 0xFFFFFFFF])
        ShaderOperand.fresh 0 =
        .ok (ShaderOperand.mk ⟨0, 0, 15, 1, [0, 1, 2, 3], 0, [0, 0, 0, 0], false, false⟩
          [⟨0, some (ShaderOperand.mk ⟨0, 0, 15, 1, [0, 1, 2, 3], 0, [0, 0, 0, 0], false, false⟩
            [⟨-1, none⟩, ⟨0, none⟩, ⟨0, none⟩])⟩, ⟨0, none⟩, ⟨0, none⟩],
          3) := by rfl
    have hnest : Nested (ShaderOperand.mk ⟨0, 0, 15, 1, [0, 1, 2, 3], 0, [0, 0, 0, 0], false, false⟩
            [⟨-1, none⟩, ⟨0, none⟩, ⟨0, none⟩])
        (ShaderOperand.mk ⟨0, 0, 15, 1, [0, 1, 2, 3], 0, [0, 0, 0, 0], false, false⟩
          [⟨0, some (ShaderOperand.mk ⟨0, 0, 15, 1, [0, 1, 2, 3], 0, [0, 0, 0, 0], false, false⟩
            [⟨-1, none⟩, ⟨0, none⟩, ⟨0, none⟩])⟩, ⟨0, none⟩, ⟨0, none⟩]) :=
      Nested.step (List.mem_cons_self _ _) rfl (Nested.refl _)
    exact ⟨_, _, _, hrun, hnest, rfl, rfl,
      (C10_operand_shape sampleLimits _ ShaderOperand.fresh _ hfresh).1 _ _ hrun _ hnest⟩
  · exact (C10_operand_shape sampleLimits (TokenBuf.init [3]) ShaderOperand.fresh 0 hfresh).2 3
      1 rfl (Or.inl ⟨by decide, by decide, by decide⟩)

/-- C9: component selection decode. With `optok` the operand token and `sel`
its selection field, a successful `ReadOp` yields: for 0-comp, comps 0,
swizzle (0,1,2,3), mask 0xF; for 1-comp, comps 1, swizzle (0,0,0,0), mask 0xF;
for 4-comp in mask mode, comps 4, mask the low 4 bits of `sel`, swizzle
(0,1,2,3); in swizzle mode, comps 4, swizzle slot i the i-th 2-bit field of
`sel`, mask 0xF; in scalar mode, comps 4, all four slots the low 2 bits of
`sel`, mask 0xF. -/
theorem C9_component_selection (lim : Limits) (b : TokenBuf) (op0 op : ShaderOperand)
    (r r1 r2 : Nat)
    (optok : Nat) (hread : Read32 b r = .ok (optok, r1))
    (h : ReadOp lim b op0 r = .ok (op, r2)) :
    (optok_comps_enum optok = SONC_0 →
      op.f.comps = 0 ∧ op.f.swizzle = [0, 1, 2, 3] ∧ op.f.mask = 0xF) ∧
    (optok_comps_enum optok = SONC_1 →
      op.f.comps = 1 ∧ op.f.swizzle = [0, 0, 0, 0] ∧ op.f.mask = 0xF) ∧
    (optok_comps_enum optok = SONC_4 → optok_mode optok = SOSM_MASK →
      op.f.comps = 4 ∧ op.f.mask = optok_sel optok % 16 ∧ op.f.swizzle = [0, 1, 2, 3]) ∧
    (optok_comps_enum optok = SONC_4 → optok_mode optok = SOSM_SWIZZLE →
      op.f.comps = 4 ∧
      op.f.swizzle = [optok_sel optok % 4, optok_sel optok / 4 % 4,
                      optok_sel optok / 16 % 4, optok_sel optok / 64 % 4] ∧
      op.f.mask = 0xF) ∧
    (optok_comps_enum optok = SONC_4 → optok_mode optok = SOSM_SCALAR →
      op.f.comps = 4 ∧
      op.f.swizzle = [optok_sel optok % 4, optok_sel optok % 4,
                      optok_sel optok % 4, optok_sel optok % 4] ∧
      op.f.mask = 0xF) := by
  simp only [ReadOp, ReadOpF, bind_eq_ok] at h
  obtain ⟨⟨optok1, ra⟩, hr, opa, hc, ⟨opb, rb⟩, he, hrest⟩ := h
  rw [hread] at hr
  cases hr
  obtain ⟨-, -, -, -, -, -, -, hcc⟩ := readOpComps_ok hc
  obtain ⟨-, hec, hes, hem, -⟩ := readOpExt_ok he
  obtain ⟨-, hrc, hrs, hrm, -⟩ :=
    readOpRest_ok (P := fun _ => True) (fun _ _ _ _ => trivial) hrest
  rw [hrc, hrs, hrm, hec, hes, hem]
  have e01 : SONC_0 ≠ SONC_1 := by decide
  have e04 : SONC_0 ≠ SONC_4 := by decide
  have e14 : SONC_1 ≠ SONC_4 := by decide
  have m01 : SOSM_MASK ≠ SOSM_SWIZZLE := by decide
  have m02 : SOSM_MASK ≠ SOSM_SCALAR := by decide
  have m12 : SOSM_SWIZZLE ≠ SOSM_SCALAR := by decide
  rcases hcc with ⟨hk, h1, h2, h3, -⟩ | ⟨hk, h1, h2, h3, -⟩ | ⟨hk, h1, -, hm⟩
  · simp [hk, h1, h2, h3, e01, e04]
  · simp [hk, h1, h2, h3, e01.symm, e14]
  · rcases hm with ⟨hm, h2, h3⟩ | ⟨hm, h2, h3⟩ | ⟨hm, h2, h3⟩
    · simp [hk, hm, h1, h2, h3, e04.symm, e14.symm, m01, m02, SM_OPERAND_SEL_MASK]
    · simp [hk, hm, h1, h2, h3, e04.symm, e14.symm, m01.symm, m12, SM_OPERAND_SEL_SWZ]
    · simp [hk, hm, h1, h2, h3, e04.symm, e14.symm, m02.symm, m12.symm, SM_OPERAND_SEL_SCALAR]

/-- Witness for C9: the token 0x1B6 (4-comp, swizzle mode, sel = 0x1B) decodes
to the swizzle (3,2,1,0). -/
theorem C9_component_selection_witness :
    Read32 (TokenBuf.init [0x1B6]) 0 = .ok (0x1B6, 1) ∧
    ReadOp sampleLimits (TokenBuf.init [0x1B6]) ShaderOperand.fresh 0 =
      .ok (ShaderOperand.mk ⟨1, 4, 15, 0, [3, 2, 1, 0], 0, [0, 0, 0, 0], false, false⟩
        [⟨0, none⟩, ⟨0, none⟩, ⟨0, none⟩], 1) ∧
    ((4 : Nat) = 4 ∧ [3, 2, 1, 0] = [0x1B % 4, 0x1B / 4 % 4, 0x1B / 16 % 4, 0x1B / 64 % 4] ∧
      (15 : Nat) = 0xF) :=
  ⟨rfl, rfl,
    (C9_component_selection sampleLimits (TokenBuf.init [0x1B6]) ShaderOperand.fresh _ 0 _ _ 0x1B6
      rfl (rfl : ReadOp sampleLimits (TokenBuf.init [0x1B6]) ShaderOperand.fresh 0 =
      .ok (ShaderOperand.mk ⟨1, 4, 15, 0, [3, 2, 1, 0], 0, [0, 0, 0, 0], false, false⟩
        [⟨0, none⟩, ⟨0, none⟩, ⟨0, none⟩], 1))).2.2.2.1 rfl rfl⟩


/-- C8: extended operand token. After the operand token `optok` and the
component switch (giving `op1`), `ReadOp` reads no further token before the
indices when the extended bit is clear, and exactly one (`x`) when it is set.
For type 0 the decode goes on from the same operand `op1`, so the token changes
no member; for type 1 the flags `neg` and `abs` of the result are the bits of
`x`; for any other type `ReadOp` fails with `UnknownExtendedOperand`. -/
theorem C8_extended_operand_token (lim : Limits) (b : TokenBuf) (op0 op1 : ShaderOperand)
    (r r1 : Nat)
    (optok : Nat) (hread : Read32 b r = .ok (optok, r1))
    (hcomps : readOpComps lim optok op0 = .ok op1) :
    (optok_extended optok = 0 →
      ReadOp lim b op0 r =
        readOpRest b (fun x => ReadOpF lim b (b.tokens_end - r) ShaderOperand.fresh x)
          optok op1 r1 ∧
      ∀ op r3, ReadOp lim b op0 r = .ok (op, r3) → op.f.neg = op0.f.neg ∧ op.f.abs = op0.f.abs) ∧
    (optok_extended optok ≠ 0 → ∀ x r2, Read32 b r1 = .ok (x, r2) →
      r2 = r1 + 1 ∧
      (optokext_type x = 0 →
        ReadOp lim b op0 r =
          readOpRest b (fun x => ReadOpF lim b (b.tokens_end - r) ShaderOperand.fresh x)
            optok op1 r2 ∧
        ∀ op r3, ReadOp lim b op0 r = .ok (op, r3) →
          op.f.neg = op0.f.neg ∧ op.f.abs = op0.f.abs) ∧
      (optokext_type x = 1 →
        ReadOp lim b op0 r =
          readOpRest b (fun x => ReadOpF lim b (b.tokens_end - r) ShaderOperand.fresh x)
            optok (op1.withF fun f => { f with neg := decide (optokext_neg x ≠ 0),
                                               abs := decide (optokext_abs x ≠ 0) }) r2 ∧
        ∀ op r3, ReadOp lim b op0 r = .ok (op, r3) →
          op.f.neg = decide (optokext_neg x ≠ 0) ∧ op.f.abs = decide (optokext_abs x ≠ 0)) ∧
      (optokext_type x ≠ 0 → optokext_type x ≠ 1 →
        ReadOp lim b op0 r = .error ParseError.UnknownExtendedOperand)) := by
  obtain ⟨-, hneg, habs, -⟩ := readOpComps_ok hcomps
  have hflags : ∀ (opx : ShaderOperand) (rx : Nat) (op : ShaderOperand) (r3 : Nat),
      readOpRest b (fun x => ReadOpF lim b (b.tokens_end - r) ShaderOperand.fresh x)
        optok opx rx = .ok (op, r3) → op.f.neg = opx.f.neg ∧ op.f.abs = opx.f.abs := by
    intro opx rx op r3 h
    obtain ⟨-, -, -, -, -, -, -, h1, h2⟩ :=
      readOpRest_ok (P := fun _ => True) (fun _ _ _ _ => trivial) h
    exact ⟨h1, h2⟩
  have hstep : ReadOp lim b op0 r =
      (readOpExt b optok op1 r1 >>= fun p =>
        readOpRest b (fun x => ReadOpF lim b (b.tokens_end - r) ShaderOperand.fresh x)
          optok p.1 p.2) := by
    simp [ReadOp, ReadOpF, hread, hcomps, bind, Except.bind]
  refine ⟨fun he => ?_, fun he x r2 hx => ⟨?_, fun ht => ?_, fun ht => ?_, fun ht0 ht1 => ?_⟩⟩
  · have hext : readOpExt b optok op1 r1 = .ok (op1, r1) := by
      simp [readOpExt, he, pure, Except.pure]
    have hrun : ReadOp lim b op0 r =
        readOpRest b (fun x => ReadOpF lim b (b.tokens_end - r) ShaderOperand.fresh x)
          optok op1 r1 := by
      rw [hstep, hext]; rfl
    refine ⟨hrun, fun op r3 h => ?_⟩
    rw [hrun] at h
    obtain ⟨h1, h2⟩ := hflags _ _ _ _ h
    exact ⟨h1.trans hneg, h2.trans habs⟩
  · obtain ⟨rfl, -⟩ := Read32_ok hx
    rfl
  · have hext : readOpExt b optok op1 r1 = .ok (op1, r2) := by
      simp [readOpExt, he, hx, ht, pure, Except.pure, bind, Except.bind]
    have hrun : ReadOp lim b op0 r =
        readOpRest b (fun x => ReadOpF lim b (b.tokens_end - r) ShaderOperand.fresh x)
          optok op1 r2 := by
      rw [hstep, hext]; rfl
    refine ⟨hrun, fun op r3 h => ?_⟩
    rw [hrun] at h
    obtain ⟨h1, h2⟩ := hflags _ _ _ _ h
    exact ⟨h1.trans hneg, h2.trans habs⟩
  · have hext : readOpExt b optok op1 r1 =
        .ok (op1.withF fun f => { f with neg := decide (optokext_neg x ≠ 0),
                                         abs := decide (optokext_abs x ≠ 0) }, r2) := by
      simp [readOpExt, he, hx, ht, pure, Except.pure, bind, Except.bind]
    have hrun : ReadOp lim b op0 r =
        readOpRest b (fun x => ReadOpF lim b (b.tokens_end - r) ShaderOperand.fresh x)
          optok (op1.withF fun f => { f with neg := decide (optokext_neg x ≠ 0),
                                             abs := decide (optokext_abs x ≠ 0) }) r2 := by
      rw [hstep, hext]; rfl
    refine ⟨hrun, fun op r3 h => ?_⟩
    rw [hrun] at h
    obtain ⟨h1, h2⟩ := hflags _ _ _ _ h
    exact ⟨by simpa using h1, by simpa using h2⟩
  · have hext : readOpExt b optok op1 r1 = .error ParseError.UnknownExtendedOperand := by
      simp [readOpExt, he, hx, Ne.symm ht0, Ne.symm ht1, bind, Except.bind, throw, throwThe,
        MonadExceptOf.throw]
    rw [hstep, hext]; rfl


/-- Witness for C8: operand token with the extended bit, followed by an
extended token of type 1 with the `neg` bit set and the `abs` bit clear. -/
theorem C8_extended_operand_token_witness :
    Read32 (TokenBuf.init [0x80000000, 0x41]) 0 = .ok (0x80000000, 1) ∧
    readOpComps sampleLimits 0x80000000 ShaderOperand.fresh =
      .ok (ShaderOperand.mk ⟨0, 0, 15, 0, [0, 1, 2, 3], 0, [0, 0, 0, 0], false, false⟩
        [⟨0, none⟩, ⟨0, none⟩, ⟨0, none⟩]) ∧
    ReadOp sampleLimits (TokenBuf.init [0x80000000, 0x41]) ShaderOperand.fresh 0 =
      .ok (ShaderOperand.mk ⟨0, 0, 15, 0, [0, 1, 2, 3], 0, [0, 0, 0, 0], true, false⟩
        [⟨0, none⟩, ⟨0, none⟩, ⟨0, none⟩], 2) ∧
    (true = true ∧ false = false) :=
  ⟨rfl, rfl, rfl,
    (((C8_extended_operand_token sampleLimits (TokenBuf.init [0x80000000, 0x41])
        ShaderOperand.fresh _ 0 _ 0x80000000 rfl rfl).2 (by decide) 0x41
        2 rfl).2.2.1 rfl).2
      (ShaderOperand.mk ⟨0, 0, 15, 0, [0, 1, 2, 3], 0, [0, 0, 0, 0], true, false⟩
        [⟨0, none⟩, ⟨0, none⟩, ⟨0, none⟩]) 2 rfl⟩

/-- C7 (evaluation at the failing input): the operand token 0x1500000 has one
index whose representation code is 5, none of the five known codes; `ReadOp`
succeeds on it, leaving the index at displacement 0 with no nested operand,
and consumes that single token. -/
theorem C7_unknown_index_repr_accepted :
    optok_num_indices 0x1500000 = 1 ∧ optok_index0_repr 0x1500000 = 5 ∧
    ReadOp sampleLimits (TokenBuf.init [0x1500000]) ShaderOperand.fresh 0 =
      .ok (ShaderOperand.mk ⟨0, 0, 15, 1, [0, 1, 2, 3], 0, [0, 0, 0, 0], false, false⟩
        [⟨0, none⟩, ⟨0, none⟩, ⟨0, none⟩], 1) :=
  ⟨rfl, rfl, rfl⟩


theorem readInsnOps_stop {lim : Limits} {b : TokenBuf} {insn_end : Nat} :
    ∀ (fuel : Nat) {ops ops1 : List ShaderOperand} {r r1 : Nat},
      readInsnOps lim b insn_end fuel ops r = .ok (ops1, r1) → r1 = insn_end
  | 0, _, _, _, _, h => by
    simp [readInsnOps, throw, throwThe, MonadExceptOf.throw] at h
  | fuel + 1, ops, ops1, r, r1, h => by
    unfold readInsnOps at h
    split_ifs at h with h1 h2 h3
    · simp only [pure, Except.pure] at h
      cases h
      exact h1
    · simp only [bind_eq_ok] at h
      obtain ⟨⟨op, r2⟩, -, h⟩ := h
      exact readInsnOps_stop fuel h

theorem parseInsn_stop {lim : Limits} {b : TokenBuf} {insntok insn_end : Nat} {st st1 : PState}
    (h : parseInsn lim b insntok insn_end st = .ok st1) : st1.tokens = insn_end := by
  unfold parseInsn at h
  simp only [bind_eq_ok] at h
  obtain ⟨⟨insn, r⟩, -, ⟨insn2, r2⟩, -, ⟨ops, r3⟩, hops, h⟩ := h
  simp only [pure, Except.pure] at h
  cases h
  exact readInsnOps_stop _ hops

theorem parseDecl_stop {lim : Limits} {b : TokenBuf} {insntok insn_end : Nat} {st st1 : PState}
    (h : parseDecl lim b insntok insn_end st = .ok st1) : st1.tokens = insn_end := by
  unfold parseDecl at h
  simp only [bind_eq_ok] at h
  obtain ⟨r, -, ⟨dcl, st2⟩, -, h⟩ := h
  simp only [pure, Except.pure, throw, throwThe, MonadExceptOf.throw] at h
  split_ifs at h with hne <;> simp only [bind, Except.bind] at h <;> cases h
  exact hne

theorem parseICB_stop {b : TokenBuf} {st st1 : PState}
    (h : parseICB b st = .ok st1) :
    ∃ len r, Read32 b st.tokens = .ok (len, r) ∧
      st1.tokens = r + (len + 2 ^ 32 - 2) % 2 ^ 32 := by
  unfold parseICB at h
  simp only [bind_eq_ok] at h
  obtain ⟨⟨len, r⟩, hr, h⟩ := h
  refine ⟨len, r, hr, ?_⟩
  simp only [pure, Except.pure, throw, throwThe, MonadExceptOf.throw] at h
  split_ifs at h with hle <;> simp only [bind, Except.bind] at h <;> cases h
  rfl

/-- Extent of the record decoded by one iteration of the loop. -/
theorem parseRecord_span {lim : Limits} {b : TokenBuf} {st st1 : PState}
    (h : parseRecord lim b st = .ok st1) :
    ∃ t0, b.mem[st.tokens]? = some t0 ∧
      (insntok_opcode (t0 % 2 ^ 32) ≠ SO_IMMEDIATE_CONSTANT_BUFFER →
        insntok_opcode (t0 % 2 ^ 32) ≠ SO_HS_DECLS →
        st1.tokens = st.tokens + insntok_length (t0 % 2 ^ 32)) ∧
      (insntok_opcode (t0 % 2 ^ 32) = SO_HS_DECLS → st1.tokens = st.tokens + 1) ∧
      (insntok_opcode (t0 % 2 ^ 32) = SO_IMMEDIATE_CONSTANT_BUFFER →
        ∃ l0, b.mem[st.tokens + 1]? = some l0 ∧
          st1.tokens = st.tokens + 2 + (l0 % 2 ^ 32 + 2 ^ 32 - 2) % 2 ^ 32) := by
  unfold parseRecord at h
  simp only [bind_eq_ok] at h
  obtain ⟨⟨insntok, r⟩, hr, h⟩ := h
  obtain ⟨rfl, -, t0, ht0, rfl⟩ := Read32_ok hr
  refine ⟨t0, ht0, ?_⟩
  generalize t0 % 2 ^ 32 = insntok at h ⊢
  simp only [pure, Except.pure, throw, throwThe, MonadExceptOf.throw] at h
  by_cases hcount : insntok_opcode insntok < lim.SO_COUNT
  swap
  · simp [hcount, bind, Except.bind] at h
  simp only [hcount, not_true_eq_false, if_false, bind, Except.bind] at h
  by_cases hicb : SO_IMMEDIATE_CONSTANT_BUFFER = insntok_opcode insntok
  · simp only [hicb, if_true] at h
    obtain ⟨len, r, hr2, hst⟩ := parseICB_stop h
    obtain ⟨rfl, -, l0, hl0, rfl⟩ := Read32_ok hr2
    refine ⟨fun hne => absurd hicb.symm hne, fun hd => ?_, fun _ => ⟨l0, hl0, hst⟩⟩
    rw [hd] at hicb
    exact absurd hicb (by decide)
  · simp only [hicb, if_false] at h
    have hicb2 : insntok_opcode insntok ≠ SO_IMMEDIATE_CONSTANT_BUFFER := fun e => hicb e.symm
    by_cases hdecl : (insntok_opcode insntok ≥ SO_DCL_RESOURCE ∧
          insntok_opcode insntok ≤ SO_DCL_GLOBAL_FLAGS) ∨
        (insntok_opcode insntok ≥ SO_DCL_STREAM ∧
          insntok_opcode insntok ≤ SO_DCL_RESOURCE_STRUCTURED) ∨
        SO_DCL_GS_INSTANCE_COUNT = insntok_opcode insntok
    · simp only [hdecl, if_true] at h
      have hstop := parseDecl_stop h
      refine ⟨fun _ _ => ?_, fun hd => ?_, fun hi => absurd hi hicb2⟩
      · rw [hstop]; omega
      · exfalso
        rw [hd] at hdecl
        revert hdecl
        decide
    · simp only [hdecl, if_false] at h
      by_cases hhs : SO_HS_DECLS = insntok_opcode insntok
      · simp only [hhs, if_true] at h
        refine ⟨fun _ hne => absurd hhs.symm hne, fun _ => ?_, fun hi => absurd hi hicb2⟩
        split_ifs at h <;> (cases h; rfl)
      · simp only [hhs, if_false] at h
        have hstop := parseInsn_stop h
        refine ⟨fun _ _ => ?_, fun hd => absurd hd.symm hhs, fun hi => absurd hi hicb2⟩
        rw [hstop]; omega

theorem ParseShaderLoop_spans {lim : Limits} {b : TokenBuf} :
    ∀ (fuel : Nat) {st st1 : PState} {spans : List RecordSpan},
      ParseShaderLoop lim b fuel st = .ok (st1, spans) →
      ∀ sp ∈ spans, ∃ sa sb, parseRecord lim b sa = .ok sb ∧ sp = ⟨sa.tokens, sb.tokens⟩
  | 0, _, _, _, h => by
    simp [ParseShaderLoop, throw, throwThe, MonadExceptOf.throw] at h
  | fuel + 1, st, st1, spans, h => by
    unfold ParseShaderLoop at h
    by_cases hend : st.tokens = b.tokens_end
    · simp only [hend, if_true, pure, Except.pure] at h
      cases h
      simp
    · simp only [hend, if_false, bind_eq_ok] at h
      obtain ⟨st2, h2, ⟨st3, spans3⟩, h3, h⟩ := h
      simp only [pure, Except.pure] at h
      cases h
      intro sp hsp
      rcases List.mem_cons.1 hsp with rfl | hsp
      · exact ⟨st, st2, h2, rfl⟩
      · exact ParseShaderLoop_spans fuel h3 sp hsp

/-- C1 (as amended): length conservation. For every token stream on which
`ParseShader` succeeds and every record that its loop goes through, with `t0`
the opcode token of the record: when the opcode is neither
`ImmediateConstantBuffer` nor `HSDecls`, the position after the record is the
position of the opcode token plus its `length` field; an `HSDecls` record is
its opcode token alone; an `ImmediateConstantBuffer` record ends two tokens
plus `(L - 2) mod 2^32` tokens after the position of its opcode token, where
`L` is its custom length word, whatever the `length` field is. -/
theorem C1_length_conservation (lim : Limits) (prog : ShaderProgram) (mem : List Nat)
    (b : TokenBuf) (st : PState) (spans : List RecordSpan)
    (h : ParseShaderSpans lim prog mem = .ok (b, st, spans)) :
    ∀ sp ∈ spans, ∃ t0, mem[sp.start]? = some t0 ∧
      (insntok_opcode (t0 % 2 ^ 32) ≠ SO_IMMEDIATE_CONSTANT_BUFFER →
        insntok_opcode (t0 % 2 ^ 32) ≠ SO_HS_DECLS →
        sp.stop = sp.start + insntok_length (t0 % 2 ^ 32)) ∧
      (insntok_opcode (t0 % 2 ^ 32) = SO_HS_DECLS → sp.stop = sp.start + 1) ∧
      (insntok_opcode (t0 % 2 ^ 32) = SO_IMMEDIATE_CONSTANT_BUFFER →
        ∃ l0, mem[sp.start + 1]? = some l0 ∧
          sp.stop = sp.start + 2 + (l0 % 2 ^ 32 + 2 ^ 32 - 2) % 2 ^ 32) := by
  unfold ParseShaderSpans at h
  simp only [bind_eq_ok] at h
  obtain ⟨⟨version, r1⟩, -, ⟨lentok, r2⟩, -, ⟨st1, spans1⟩, hloop, h⟩ := h
  simp only [pure, Except.pure] at h
  cases h
  intro sp hsp
  obtain ⟨sa, sb, hrec, rfl⟩ := ParseShaderLoop_spans _ hloop sp hsp
  exact parseRecord_span hrec


/-- C1 (counterexample to the claim as stated): the stream below holds one
`ImmediateConstantBuffer` record, opcode token 0x1835 with `length` field 0,
custom length word 6 and four data tokens. `ParseShader` succeeds on it and the
record extends over 6 tokens (positions 2 to 8), not over `length` tokens. -/
theorem C1_counterexample :
    insntok_opcode 0x1835 = SO_IMMEDIATE_CONSTANT_BUFFER ∧ insntok_length 0x1835 = 0 ∧
    ∃ st, ParseShaderSpans sampleLimits ShaderProgram.fresh
        [0x00010040, 8, 0x1835, 6, 1, 2, 3, 4] =
      .ok (⟨[0x00010040, 8, 0x1835, 6, 1, 2, 3, 4], 8⟩, st, [⟨2, 8⟩]) ∧
    (8 : Nat) ≠ 2 + insntok_length 0x1835 :=
  ⟨rfl, rfl, _, rfl, by decide⟩

/-- Witness for C1 (as amended): the minimal vertex shader `dcl_input v0`,
`dcl_output o0`, `mov o0, v0`, `ret`; the `mov` record at position 8 has
`length` 5 and ends at position 13. -/
theorem C1_length_conservation_witness :
    ∃ st, ParseShaderSpans sampleLimits ShaderProgram.fresh sampleVertexShader =
      .ok (⟨sampleVertexShader, 14⟩, st, [⟨2, 5⟩, ⟨5, 8⟩, ⟨8, 13⟩, ⟨13, 14⟩]) ∧
    ∃ t0, sampleVertexShader[8]? = some t0 ∧
      (insntok_opcode (t0 % 2 ^ 32) ≠ SO_IMMEDIATE_CONSTANT_BUFFER →
        insntok_opcode (t0 % 2 ^ 32) ≠ SO_HS_DECLS →
        13 = 8 + insntok_length (t0 % 2 ^ 32)) ∧
      (insntok_opcode (t0 % 2 ^ 32) = SO_HS_DECLS → 13 = 8 + 1) ∧
      (insntok_opcode (t0 % 2 ^ 32) = SO_IMMEDIATE_CONSTANT_BUFFER →
        ∃ l0, sampleVertexShader[8 + 1]? = some l0 ∧
          13 = 8 + 2 + (l0 % 2 ^ 32 + 2 ^ 32 - 2) % 2 ^ 32) := by
  refine ⟨_, rfl, ?_⟩
  exact C1_length_conservation sampleLimits ShaderProgram.fresh sampleVertexShader
    ⟨sampleVertexShader, 14⟩ _ [⟨2, 5⟩, ⟨5, 8⟩, ⟨8, 13⟩, ⟨13, 14⟩] rfl ⟨8, 13⟩ (by simp)

/-- C2 (evaluation at the failing input): the three-token stream `version`,
length word 3, `ret` is accepted by `ParseShader`. On its two-token prefix,
given with the chunk size of two tokens, `ParseShader` replaces the end derived
from the size (2) by the length word (3) and `Read32` then reads the token at
index 2, outside the chunk: the outcome is `OutOfBounds`, not `Truncated`. -/
theorem C2_prefix_read_past_chunk_end :
    (∃ st, ParseShader sampleLimits ShaderProgram.fresh [0x00010040, 3, 0x0100003E] = .ok st) ∧
    (TokenBuf.init [0x00010040, 3]).tokens_end = 2 ∧
    ParseShader sampleLimits ShaderProgram.fresh [0x00010040, 3] =
      .error ParseError.OutOfBounds ∧
    Read32 ⟨[0x00010040, 3], 3⟩ 2 = .error ParseError.OutOfBounds :=
  ⟨⟨_, rfl⟩, rfl, rfl, rfl⟩

theorem OnlyOOB_pure {α : Type} (a : α) : OnlyOOB (pure a : Except ParseError α) := by
  intro e h
  cases h

theorem OnlyOOB_bind {α β : Type} {x : Except ParseError α} {f : α → Except ParseError β}
    (hx : OnlyOOB x) (hf : ∀ a, OnlyOOB (f a)) : OnlyOOB (x >>= f) := by
  intro e h
  cases x with
  | error e1 =>
    simp only [bind, Except.bind] at h
    cases h
    exact hx _ rfl
  | ok a => exact hf a e h

theorem rd8_only (data : List Nat) (off : Nat) : OnlyOOB (rd8 data off) := by
  intro e h
  unfold rd8 at h
  split at h
  · cases h
  · cases h
    rfl

theorem rd16_only (data : List Nat) (off : Nat) : OnlyOOB (rd16 data off) := by
  unfold rd16
  exact OnlyOOB_bind (rd8_only _ _) fun _ => OnlyOOB_bind (rd8_only _ _) fun _ => OnlyOOB_pure _

theorem rd32_only (data : List Nat) (off : Nat) : OnlyOOB (rd32 data off) := by
  unfold rd32
  exact OnlyOOB_bind (rd16_only _ _) fun _ => OnlyOOB_bind (rd16_only _ _) fun _ => OnlyOOB_pure _

theorem readTypeDesc_only (data : List Nat) (off : Nat) : OnlyOOB (readTypeDesc data off) := by
  unfold readTypeDesc
  repeat' first
    | exact OnlyOOB_pure _
    | (apply OnlyOOB_bind (rd16_only _ _); intro _)

theorem readVarBindings_only (data : List Nat) (major off : Nat) :
    OnlyOOB (readVarBindings data major off) := by
  unfold readVarBindings
  split_ifs
  · repeat' first
      | exact OnlyOOB_pure _
      | (apply OnlyOOB_bind (rd32_only _ _); intro _)
  · exact OnlyOOB_pure _

theorem readVar_only (data : List Nat) (major off : Nat) : OnlyOOB (readVar data major off) := by
  unfold readVar
  repeat' first
    | (apply OnlyOOB_bind (rd32_only _ _); intro _)
  refine OnlyOOB_bind (readVarBindings_only _ _ _) fun p => ?_
  obtain ⟨tex, next⟩ := p
  dsimp only
  split_ifs <;> first
    | exact OnlyOOB_pure _
    | exact OnlyOOB_bind (readTypeDesc_only _ _) fun _ => OnlyOOB_pure _

theorem readVars_only (data : List Nat) (major : Nat) :
    ∀ (n off : Nat), OnlyOOB (readVars data major n off)
  | 0, _ => by
    unfold readVars
    exact OnlyOOB_pure _
  | n + 1, off => by
    unfold readVars
    refine OnlyOOB_bind (readVar_only _ _ _) fun p => ?_
    obtain ⟨var, next⟩ := p
    exact OnlyOOB_bind (readVars_only data major n next) fun _ => OnlyOOB_pure _

theorem readBinding_only (data : List Nat) (off : Nat) : OnlyOOB (readBinding data off) := by
  unfold readBinding
  repeat' first
    | exact OnlyOOB_pure _
    | (apply OnlyOOB_bind (rd32_only _ _); intro _)

theorem readBindings_only (data : List Nat) :
    ∀ (n off : Nat), OnlyOOB (readBindings data n off)
  | 0, _ => by
    unfold readBindings
    exact OnlyOOB_pure _
  | n + 1, off => by
    unfold readBindings
    exact OnlyOOB_bind (readBinding_only _ _) fun _ =>
      OnlyOOB_bind (readBindings_only data n _) fun _ => OnlyOOB_pure _

theorem strcmp_zero {data : List Nat} {a b : Nat} (h : strcmp data a b = .ok 0) :
    SameName data a b := by
  unfold strcmp at h
  split at h
  · rename_i x y hx hy
    split_ifs at h with hxy
    · subst hxy
      exact ⟨x, hx, hy⟩
    · cases h
  · cases h

theorem strcmp_nonzero {data : List Nat} {a b c : Nat} (h : strcmp data a b = .ok c)
    (hc : 0 ≠ c) : ¬ SameName data a b := by
  unfold strcmp at h
  split at h
  · rename_i x y hx hy
    split_ifs at h with hxy
    · cases h
      exact absurd rfl hc
    · rintro ⟨s, h1, h2⟩
      rw [hx] at h1
      rw [hy] at h2
      cases h1
      cases h2
      exact hxy rfl
  · cases h

theorem strcmp_only (data : List Nat) (a b : Nat) : OnlyOOB (strcmp data a b) := by
  intro e h
  unfold strcmp at h
  split at h
  · split_ifs at h
  · cases h
    rfl

/-- Successful lookup: the bind point of the first binding with an equal name. -/
theorem GetCBBindPoint_ok {data : List Nat} {name bp : Nat} :
    ∀ {bs : List DXBCInputBindDesc}, GetCBBindPoint data bs name = .ok bp →
      ∃ pre ibd post, bs = pre ++ ibd :: post ∧ SameName data ibd.name name ∧
        (∀ x ∈ pre, ¬ SameName data x.name name) ∧ bp = ibd.bind_point
  | [], h => by
    simp [GetCBBindPoint, throw, throwThe, MonadExceptOf.throw] at h
  | ibd :: rest, h => by
    simp only [GetCBBindPoint, bind_eq_ok] at h
    obtain ⟨c, hc, h⟩ := h
    split_ifs at h with h0
    · simp only [pure, Except.pure] at h
      cases h
      subst h0
      exact ⟨[], ibd, rest, rfl, strcmp_zero hc, by simp, rfl⟩
    · obtain ⟨pre, ibd2, post, rfl, hs, hpre, hbp⟩ := GetCBBindPoint_ok h
      refine ⟨ibd :: pre, ibd2, post, rfl, hs, ?_, hbp⟩
      intro x hx
      rcases List.mem_cons.1 hx with rfl | hx
      · exact strcmp_nonzero hc h0
      · exact hpre x hx

/-- Failed lookup: a string could not be read, or no binding has the name. -/
theorem GetCBBindPoint_error {data : List Nat} {name : Nat} {e : ParseError} :
    ∀ {bs : List DXBCInputBindDesc}, GetCBBindPoint data bs name = .error e →
      e = ParseError.OutOfBounds ∨
      (e = ParseError.BindPointNotFound ∧ ∀ x ∈ bs, ¬ SameName data x.name name)
  | [], h => by
    simp only [GetCBBindPoint, throw, throwThe, MonadExceptOf.throw] at h
    cases h
    exact Or.inr ⟨rfl, by simp⟩
  | ibd :: rest, h => by
    simp only [GetCBBindPoint] at h
    cases hc : strcmp data ibd.name name with
    | error e1 =>
      rw [hc] at h
      simp only [bind, Except.bind] at h
      cases h
      exact Or.inl (strcmp_only _ _ _ _ hc)
    | ok c =>
      rw [hc] at h
      simp only [bind, Except.bind] at h
      split_ifs at h with h0
      · cases h
      · rcases GetCBBindPoint_error h with h1 | ⟨h1, h2⟩
        · exact Or.inl h1
        · refine Or.inr ⟨h1, ?_⟩
          intro x hx
          rcases List.mem_cons.1 hx with rfl | hx
          · exact strcmp_nonzero hc h0
          · exact h2 x hx

theorem readCB_bind {data : List Nat} {major off : Nat} {bs : List DXBCInputBindDesc}
    {cb : DXBCConstantBuffer} (h : readCB data major bs off = .ok cb) :
    rd32 data off = .ok cb.desc.name ∧
    GetCBBindPoint data bs cb.desc.name = .ok cb.bind_point := by
  unfold readCB at h
  simp only [bind_eq_ok] at h
  obtain ⟨name, hname, vc, -, vo, -, vars, -, size, -, flags, -, type, -, bp, hbp, h⟩ := h
  simp only [pure, Except.pure] at h
  cases h
  exact ⟨hname, hbp⟩

theorem readCBs_bind {data : List Nat} {major : Nat} {bs : List DXBCInputBindDesc} :
    ∀ (n off : Nat) {cbs : List DXBCConstantBuffer},
      readCBs data major bs n off = .ok cbs →
      ∀ cb ∈ cbs, GetCBBindPoint data bs cb.desc.name = .ok cb.bind_point
  | 0, _, cbs, h => by
    simp only [readCBs, pure, Except.pure] at h
    cases h
    simp
  | n + 1, off, cbs, h => by
    simp only [readCBs, bind_eq_ok] at h
    obtain ⟨cb, hcb, rest, hrest, h⟩ := h
    simp only [pure, Except.pure] at h
    cases h
    intro x hx
    rcases List.mem_cons.1 hx with rfl | hx
    · exact (readCB_bind hcb).2
    · exact readCBs_bind n _ hrest x hx

theorem ParseCBAndResourceBinding_ok {prog prog1 : ShaderProgram} {chunk : DXBCChunk} {n : Nat}
    (h : ParseCBAndResourceBinding prog chunk = .ok (prog1, n)) :
    FOURCC_RDEF = chunk.fourcc ∧
    ∃ cb_offset nb boff, rd32 chunk.data 0 = .ok n ∧ rd32 chunk.data 4 = .ok cb_offset ∧
      rd32 chunk.data 8 = .ok nb ∧ rd32 chunk.data 12 = .ok boff ∧
      readBindings chunk.data nb boff = .ok prog1.resource_bindings ∧
      readCBs chunk.data (version_major prog.version) prog1.resource_bindings n cb_offset =
        .ok prog1.cbuffers := by
  unfold ParseCBAndResourceBinding at h
  simp only [pure, Except.pure, throw, throwThe, MonadExceptOf.throw] at h
  split_ifs at h with htag
  · simp only [bind_eq_ok] at h
    obtain ⟨-, -, ncb, h0, cbo, h4, nb, h8, bo, h12, sm, -, cf, -, bs, hbs, cbs, hcbs, h⟩ := h
    cases h
    exact ⟨htag, cbo, nb, bo, h0, h4, h8, h12, hbs, hcbs⟩
  · simp only [bind, Except.bind] at h
    cases h

/-- C5 (as amended): bind-point resolution. After a successful
`ParseCBAndResourceBinding`, for every constant buffer the list of resource
bindings holds at least one binding whose name equals the buffer's name as a C
string, and the buffer's `bind_point` is the `bind_point` of the first such
binding in table order. -/
theorem C5_bind_point_resolution (prog prog1 : ShaderProgram) (chunk : DXBCChunk) (n : Nat)
    (h : ParseCBAndResourceBinding prog chunk = .ok (prog1, n)) :
    ∀ cb ∈ prog1.cbuffers, ∃ pre ibd post,
      prog1.resource_bindings = pre ++ ibd :: post ∧
      SameName chunk.data ibd.name cb.desc.name ∧
      (∀ x ∈ pre, ¬ SameName chunk.data x.name cb.desc.name) ∧
      cb.bind_point = ibd.bind_point := by
  obtain ⟨-, cbo, nb, bo, -, -, -, -, -, hcbs⟩ := ParseCBAndResourceBinding_ok h
  intro cb hcb
  exact GetCBBindPoint_ok (readCBs_bind _ _ hcbs cb hcb)

/-- C5 (counterexample to the claim as stated): in the chunk
`sampleDuplicateBindings` two bindings are named `cb` like the constant buffer.
The decode succeeds, so there is not exactly one binding with the buffer's
name; the buffer gets the bind point 1 of the first of them. -/
theorem C5_counterexample :
    ∃ prog cb, ParseCBAndResourceBinding ShaderProgram.fresh sampleDuplicateBindings =
        .ok (prog, 1) ∧
      cb ∈ prog.cbuffers ∧ cb.bind_point = 1 ∧
      ¬ ∃! ibd, ibd ∈ prog.resource_bindings ∧
          SameName sampleDuplicateBindings.data ibd.name cb.desc.name := by
  refine ⟨{ ShaderProgram.fresh with
      resource_bindings := [⟨112, 0, 0, 0, 0, 1, 1, 0⟩, ⟨112, 0, 0, 0, 0, 2, 1, 0⟩],
      cbuffers := [⟨⟨112, 16, 0, 0, 0⟩, [], 1⟩] }, ⟨⟨112, 16, 0, 0, 0⟩, [], 1⟩, rfl,
    List.mem_cons_self _ _, rfl, ?_⟩
  rintro ⟨ibd, -, huniq⟩
  have hname : SameName sampleDuplicateBindings.data 112 112 := ⟨[99, 98], rfl, rfl⟩
  have h1 := huniq ⟨112, 0, 0, 0, 0, 1, 1, 0⟩ ⟨by simp, hname⟩
  have h2 := huniq ⟨112, 0, 0, 0, 0, 2, 1, 0⟩ ⟨by simp, hname⟩
  rw [← h2] at h1
  exact absurd h1 (by decide)

/-- Witness for C5 (as amended): the chunk of scenario S4, whose buffer `cb`
gets the bind point 7 of the binding `cb`. -/
theorem C5_bind_point_resolution_witness :
    ∃ prog, ParseCBAndResourceBinding ShaderProgram.fresh sampleResourceChunk = .ok (prog, 1) ∧
      prog.cbuffers.map (fun cb => cb.bind_point) = [7] ∧
      ∀ cb ∈ prog.cbuffers, ∃ pre ibd post,
        prog.resource_bindings = pre ++ ibd :: post ∧
        SameName sampleResourceChunk.data ibd.name cb.desc.name ∧
        (∀ x ∈ pre, ¬ SameName sampleResourceChunk.data x.name cb.desc.name) ∧
        cb.bind_point = ibd.bind_point := by
  refine ⟨{ ShaderProgram.fresh with
      resource_bindings := [⟨158, 0, 0, 0, 0, 7, 1, 0⟩],
      cbuffers := [⟨⟨158, 48, 0, 0, 3⟩,
        [⟨⟨152, 32, 16, 0, none, 0, 0, 0, 0⟩, false, DXBCShaderTypeDesc.fresh⟩,
         ⟨⟨154, 0, 16, 0, none, 0, 0, 0, 0⟩, false, DXBCShaderTypeDesc.fresh⟩,
         ⟨⟨156, 16, 16, 0, none, 0, 0, 0, 0⟩, false, DXBCShaderTypeDesc.fresh⟩], 7⟩] },
    rfl, rfl, ?_⟩
  exact C5_bind_point_resolution ShaderProgram.fresh _ sampleResourceChunk 1 rfl

theorem readBinding_name {data : List Nat} {off : Nat} {ibd : DXBCInputBindDesc}
    (h : readBinding data off = .ok ibd) : rd32 data off = .ok ibd.name := by
  unfold readBinding at h
  simp only [bind_eq_ok] at h
  obtain ⟨name, hname, t, -, rt, -, d, -, ns, -, bp, -, bc, -, fl, -, h⟩ := h
  simp only [pure, Except.pure] at h
  cases h
  exact hname

theorem readBindings_names {data : List Nat} :
    ∀ (n off : Nat) {bs : List DXBCInputBindDesc}, readBindings data n off = .ok bs →
      (∀ x ∈ bs, ∃ j, j < n ∧ rd32 data (off + 32 * j) = .ok x.name) ∧
      (∀ j, j < n → ∃ x ∈ bs, rd32 data (off + 32 * j) = .ok x.name)
  | 0, _, bs, h => by
    simp only [readBindings, pure, Except.pure] at h
    cases h
    simp
  | n + 1, off, bs, h => by
    simp only [readBindings, bind_eq_ok] at h
    obtain ⟨ibd, hb, rest, hrest, h⟩ := h
    simp only [pure, Except.pure] at h
    cases h
    obtain ⟨ih1, ih2⟩ := readBindings_names n (off + 32) hrest
    constructor
    · intro x hx
      rcases List.mem_cons.1 hx with rfl | hx
      · exact ⟨0, Nat.succ_pos _, by simpa using readBinding_name hb⟩
      · obtain ⟨j, hj, hr⟩ := ih1 x hx
        refine ⟨j + 1, Nat.succ_lt_succ hj, ?_⟩
        rw [← hr]
        congr 1
        omega
    · intro j hj
      cases j with
      | zero => exact ⟨ibd, List.mem_cons_self _ _, by simpa using readBinding_name hb⟩
      | succ j =>
        obtain ⟨x, hx, hr⟩ := ih2 j (Nat.lt_of_succ_lt_succ hj)
        refine ⟨x, List.mem_cons_of_mem _ hx, ?_⟩
        rw [← hr]
        congr 1
        omega

theorem GetCBBindPoint_only_or {data : List Nat} {name : Nat} {e : ParseError}
    {bs : List DXBCInputBindDesc} (h : GetCBBindPoint data bs name = .error e) :
    e = ParseError.OutOfBounds ∨ e = ParseError.BindPointNotFound := by
  rcases GetCBBindPoint_error h with h1 | ⟨h1, -⟩
  · exact Or.inl h1
  · exact Or.inr h1

/-- Failure of one record of the constant-buffer table. -/
theorem readCB_error {data : List Nat} {major off : Nat} {bs : List DXBCInputBindDesc}
    {e : ParseError} (h : readCB data major bs off = .error e) :
    e = ParseError.OutOfBounds ∨
    (e = ParseError.BindPointNotFound ∧ ∃ name, rd32 data off = .ok name ∧
      ∀ x ∈ bs, ¬ SameName data x.name name) := by
  unfold readCB at h
  cases h1 : rd32 data off with
  | error e1 =>
    rw [h1] at h; simp only [bind, Except.bind] at h; cases h
    exact Or.inl (rd32_only _ _ _ h1)
  | ok name =>
  rw [h1] at h; simp only [bind, Except.bind] at h
  cases h2 : rd32 data (off + 4) with
  | error e1 =>
    rw [h2] at h; simp only at h; cases h
    exact Or.inl (rd32_only _ _ _ h2)
  | ok vc =>
  rw [h2] at h; simp only at h
  cases h3 : rd32 data (off + 8) with
  | error e1 =>
    rw [h3] at h; simp only at h; cases h
    exact Or.inl (rd32_only _ _ _ h3)
  | ok vo =>
  rw [h3] at h; simp only at h
  cases h4 : readVars data major vc vo with
  | error e1 =>
    rw [h4] at h; simp only at h; cases h
    exact Or.inl (readVars_only _ _ _ _ _ h4)
  | ok vars =>
  rw [h4] at h; simp only at h
  cases h5 : rd32 data (off + 12) with
  | error e1 =>
    rw [h5] at h; simp only at h; cases h
    exact Or.inl (rd32_only _ _ _ h5)
  | ok size =>
  rw [h5] at h; simp only at h
  cases h6 : rd32 data (off + 16) with
  | error e1 =>
    rw [h6] at h; simp only at h; cases h
    exact Or.inl (rd32_only _ _ _ h6)
  | ok flags =>
  rw [h6] at h; simp only at h
  cases h7 : rd32 data (off + 20) with
  | error e1 =>
    rw [h7] at h; simp only at h; cases h
    exact Or.inl (rd32_only _ _ _ h7)
  | ok type =>
  rw [h7] at h; simp only at h
  cases h8 : GetCBBindPoint data bs name with
  | error e1 =>
    rw [h8] at h; simp only at h; cases h
    rcases GetCBBindPoint_error h8 with h9 | ⟨h9, h10⟩
    · exact Or.inl h9
    · exact Or.inr ⟨h9, name, rfl, h10⟩
  | ok bp =>
    rw [h8] at h
    simp only [pure, Except.pure] at h
    cases h


theorem cbNameAt_zero {data : List Nat} {off name : Nat} (h : rd32 data off = .ok name) :
    cbNameAt data off 0 = cstrAt data name := by
  simp [cbNameAt, h]

theorem cbNameAt_succ (data : List Nat) (off i : Nat) :
    cbNameAt data off (i + 1) = cbNameAt data (off + 24) i := by
  have : off + 24 * (i + 1) = off + 24 + 24 * i := by omega
  simp [cbNameAt, this]

theorem readCBs_cons {data : List Nat} {major : Nat} {bs : List DXBCInputBindDesc}
    (n off : Nat) :
    readCBs data major bs (n + 1) off =
      (readCB data major bs off >>= fun cb =>
        readCBs data major bs n (off + 24) >>= fun rest => pure (cb :: rest)) := by
  simp [readCBs]

/-- A buffer whose name is the name of no binding makes the loop over the
constant-buffer table fail with `BindPointNotFound`, unless a read is out of
range. -/
theorem readCBs_notfound {data : List Nat} {major : Nat} {bs : List DXBCInputBindDesc} :
    ∀ (n off : Nat), readCBs data major bs n off ≠ .error ParseError.OutOfBounds →
      (∃ i, i < n ∧ ∃ s, cbNameAt data off i = some s ∧
        ∀ x ∈ bs, cstrAt data x.name ≠ some s) →
      readCBs data major bs n off = .error ParseError.BindPointNotFound
  | 0, _, _, h => by
    obtain ⟨i, hi, -⟩ := h
    exact absurd hi (Nat.not_lt_zero _)
  | n + 1, off, hr, h => by
    rw [readCBs_cons] at hr ⊢
    cases hcb : readCB data major bs off with
    | error e =>
      rw [hcb] at hr
      simp only [bind, Except.bind] at hr ⊢
      rcases readCB_error hcb with h1 | ⟨h1, -⟩
      · exact absurd (by rw [h1]) hr
      · rw [h1]
    | ok cb =>
      rw [hcb] at hr
      simp only [bind, Except.bind] at hr ⊢
      obtain ⟨hname, hbp⟩ := readCB_bind hcb
      obtain ⟨pre, ibd, post, hbs, ⟨s1, hs1, hs2⟩, -, -⟩ := GetCBBindPoint_ok hbp
      have hrest : readCBs data major bs n (off + 24) = .error ParseError.BindPointNotFound := by
        refine readCBs_notfound n (off + 24) ?_ ?_
        · intro hc
          rw [hc] at hr
          exact hr rfl
        · obtain ⟨i, hi, s, hs, hall⟩ := h
          cases i with
          | zero =>
            exfalso
            rw [cbNameAt_zero hname, hs2] at hs
            cases hs
            exact hall ibd (by rw [hbs]; simp) hs1
          | succ i =>
            rw [cbNameAt_succ] at hs
            exact ⟨i, Nat.lt_of_succ_lt_succ hi, s, hs, hall⟩
      rw [hrest]

/-- When every buffer name is the name of some binding, the loop over the
constant-buffer table succeeds, unless a read is out of range. -/
theorem readCBs_found {data : List Nat} {major : Nat} {bs : List DXBCInputBindDesc} :
    ∀ (n off : Nat), readCBs data major bs n off ≠ .error ParseError.OutOfBounds →
      (∀ i, i < n → ∃ s, cbNameAt data off i = some s ∧
        ∃ x ∈ bs, cstrAt data x.name = some s) →
      ∃ cbs, readCBs data major bs n off = .ok cbs
  | 0, _, _, _ => ⟨[], by simp [readCBs, pure, Except.pure]⟩
  | n + 1, off, hr, h => by
    rw [readCBs_cons] at hr ⊢
    cases hcb : readCB data major bs off with
    | error e =>
      exfalso
      rw [hcb] at hr
      simp only [bind, Except.bind] at hr
      rcases readCB_error hcb with h1 | ⟨-, name, hname, hall⟩
      · exact hr (by rw [h1])
      · obtain ⟨s, hs, x, hx, hxs⟩ := h 0 (Nat.succ_pos _)
        rw [cbNameAt_zero hname] at hs
        exact hall x hx ⟨s, hxs, hs⟩
    | ok cb =>
      rw [hcb] at hr
      simp only [bind, Except.bind] at hr ⊢
      have hrest : ∃ cbs, readCBs data major bs n (off + 24) = .ok cbs := by
        refine readCBs_found n (off + 24) ?_ ?_
        · intro hc
          rw [hc] at hr
          exact hr rfl
        · intro i hi
          obtain ⟨s, hs, hx⟩ := h (i + 1) (Nat.succ_lt_succ hi)
          rw [cbNameAt_succ] at hs
          exact ⟨s, hs, hx⟩
      obtain ⟨cbs, hcbs⟩ := hrest
      rw [hcbs]
      exact ⟨cb :: cbs, rfl⟩

/-- C6: BindPointNotFound. For a resource chunk with the tag `RDEF` whose
decode makes no read out of range: when the name of some constant buffer is
equal, as a C string, to the name of no entry of the resource-binding table,
`ParseCBAndResourceBinding` fails with `BindPointNotFound` (so it does not
succeed with a sentinel bind point); conversely, when every buffer name occurs
in the table, the decode and each lookup succeed. -/
theorem C6_bind_point_not_found (prog : ShaderProgram) (chunk : DXBCChunk)
    (num_cb cb_offset nb boff : Nat) (htag : FOURCC_RDEF = chunk.fourcc)
    (h0 : rd32 chunk.data 0 = .ok num_cb) (h4 : rd32 chunk.data 4 = .ok cb_offset)
    (h8 : rd32 chunk.data 8 = .ok nb) (h12 : rd32 chunk.data 12 = .ok boff)
    (hrange : ParseCBAndResourceBinding prog chunk ≠ .error ParseError.OutOfBounds) :
    ((∃ i, i < num_cb ∧ ∃ s, cbNameAt chunk.data cb_offset i = some s ∧
        ∀ j, j < nb → bindingNameAt chunk.data boff j ≠ some s) →
      ParseCBAndResourceBinding prog chunk = .error ParseError.BindPointNotFound) ∧
    ((∀ i, i < num_cb → ∃ s, cbNameAt chunk.data cb_offset i = some s ∧
        ∃ j, j < nb ∧ bindingNameAt chunk.data boff j = some s) →
      ∃ prog1, ParseCBAndResourceBinding prog chunk = .ok (prog1, num_cb) ∧
        ∀ cb ∈ prog1.cbuffers, ∃ ibd ∈ prog1.resource_bindings,
          SameName chunk.data ibd.name cb.desc.name ∧ cb.bind_point = ibd.bind_point) := by
  have hunf : ParseCBAndResourceBinding prog chunk =
      (rd32 chunk.data 16 >>= fun _ => rd32 chunk.data 20 >>= fun _ =>
        readBindings chunk.data nb boff >>= fun bindings =>
        readCBs chunk.data (version_major prog.version) bindings num_cb cb_offset >>=
          fun cbuffers =>
          pure ({ prog with resource_bindings := bindings, cbuffers := cbuffers }, num_cb)) := by
    simp [ParseCBAndResourceBinding, htag, h0, h4, h8, h12, bind, Except.bind, pure, Except.pure]
  rw [hunf] at hrange ⊢
  cases h16 : rd32 chunk.data 16 with
  | error e =>
    rw [h16] at hrange
    exact absurd (by rw [rd32_only _ _ _ h16]; rfl) hrange
  | ok sm =>
  cases h20 : rd32 chunk.data 20 with
  | error e =>
    rw [h16, h20] at hrange
    exact absurd (by rw [rd32_only _ _ _ h20]; rfl) hrange
  | ok cf =>
  cases hb : readBindings chunk.data nb boff with
  | error e =>
    rw [h16, h20, hb] at hrange
    exact absurd (by rw [readBindings_only _ _ _ _ hb]; rfl) hrange
  | ok bs =>
  rw [h16, h20, hb] at hrange
  simp only [bind, Except.bind] at hrange ⊢
  obtain ⟨hn1, hn2⟩ := readBindings_names nb boff hb
  have hr2 : readCBs chunk.data (version_major prog.version) bs num_cb cb_offset ≠
      .error ParseError.OutOfBounds := by
    intro hc
    rw [hc] at hrange
    exact hrange rfl
  constructor
  · rintro ⟨i, hi, s, hs, hall⟩
    have := readCBs_notfound num_cb cb_offset hr2 ⟨i, hi, s, hs, fun x hx => by
      obtain ⟨j, hj, hrd⟩ := hn1 x hx
      have := hall j hj
      simpa [bindingNameAt, hrd] using this⟩
    rw [this]
  · intro hall
    have hfound := readCBs_found num_cb cb_offset hr2 fun i hi => by
      obtain ⟨s, hs, j, hj, hjs⟩ := hall i hi
      obtain ⟨x, hx, hrd⟩ := hn2 j hj
      refine ⟨s, hs, x, hx, ?_⟩
      simpa [bindingNameAt, hrd] using hjs
    obtain ⟨cbs, hcbs⟩ := hfound
    rw [hcbs]
    refine ⟨_, rfl, ?_⟩
    intro cb hcb
    obtain ⟨pre, ibd, post, hbs, hs, -, hbp⟩ := GetCBBindPoint_ok (readCBs_bind _ _ hcbs cb hcb)
    exact ⟨ibd, by simp [hbs], hs, hbp⟩

/-- Witness for C6: in `sampleMissingBinding` the buffer is named `cb` and the
only binding `d`, and the decode fails with `BindPointNotFound`; in
`sampleResourceChunk` the buffer name `cb` is in the table and the decode
succeeds. -/
theorem C6_bind_point_not_found_witness :
    (FOURCC_RDEF = sampleMissingBinding.fourcc ∧
      rd32 sampleMissingBinding.data 0 = .ok 1 ∧ rd32 sampleMissingBinding.data 4 = .ok 24 ∧
      rd32 sampleMissingBinding.data 8 = .ok 1 ∧ rd32 sampleMissingBinding.data 12 = .ok 48 ∧
      ParseCBAndResourceBinding ShaderProgram.fresh sampleMissingBinding ≠
        .error ParseError.OutOfBounds ∧
      cbNameAt sampleMissingBinding.data 24 0 = some [99, 98] ∧
      bindingNameAt sampleMissingBinding.data 48 0 = some [100] ∧
      ParseCBAndResourceBinding ShaderProgram.fresh sampleMissingBinding =
        .error ParseError.BindPointNotFound) ∧
    (ParseCBAndResourceBinding ShaderProgram.fresh sampleResourceChunk ≠
        .error ParseError.OutOfBounds ∧
      ∃ prog1, ParseCBAndResourceBinding ShaderProgram.fresh sampleResourceChunk =
        .ok (prog1, 1)) := by
  have hev : ParseCBAndResourceBinding ShaderProgram.fresh sampleMissingBinding =
      .error ParseError.BindPointNotFound := rfl
  have hr1 : ParseCBAndResourceBinding ShaderProgram.fresh sampleMissingBinding ≠
      .error ParseError.OutOfBounds := by
    rw [hev]
    intro h
    cases h
  have hr2 : ParseCBAndResourceBinding ShaderProgram.fresh sampleResourceChunk ≠
      .error ParseError.OutOfBounds := by
    obtain ⟨prog, hp, -⟩ := C5_bind_point_resolution_witness
    rw [hp]
    exact fun h => nomatch h
  refine ⟨⟨rfl, rfl, rfl, rfl, rfl, hr1, rfl, rfl, ?_⟩, hr2, ?_⟩
  · refine (C6_bind_point_not_found ShaderProgram.fresh sampleMissingBinding 1 24 1 48
      rfl rfl rfl rfl rfl hr1).1 ⟨0, Nat.one_pos, [99, 98], rfl, fun j hj => ?_⟩
    obtain rfl : j = 0 := by omega
    decide
  · obtain ⟨prog1, h1, -⟩ := (C6_bind_point_not_found ShaderProgram.fresh sampleResourceChunk
      1 24 1 48 rfl rfl rfl rfl rfl hr2).2 fun i hi => by
        obtain rfl : i = 0 := by omega
        exact ⟨[99, 98], rfl, 0, Nat.one_pos, rfl⟩
    exact ⟨prog1, h1⟩

theorem storeSigParams_cbuffers (prog : ShaderProgram) (fourcc : Nat)
    (params : List DXBCSignatureParamDesc) :
    (storeSigParams prog fourcc params).cbuffers = prog.cbuffers := by
  unfold storeSigParams
  split_ifs <;> rfl

theorem ParseSignature_cbuffers {prog prog1 : ShaderProgram} {sig : DXBCChunk} {fourcc n : Nat}
    (h : ParseSignature prog sig fourcc = .ok (prog1, n)) :
    prog1.cbuffers = prog.cbuffers := by
  unfold ParseSignature at h
  simp only [pure, Except.pure, throw, throwThe, MonadExceptOf.throw] at h
  split_ifs at h with htag
  · simp only [bind_eq_ok] at h
    obtain ⟨-, -, offset, -, count, -, params, -, h⟩ := h
    cases h
    exact storeSigParams_cbuffers _ _ _
  · simp only [bind, Except.bind] at h
    cases h

theorem parseInputSignature_cbuffers {prog prog1 : ShaderProgram} {sig : Option DXBCChunk}
    (h : parseInputSignature prog sig = .ok prog1) : prog1.cbuffers = prog.cbuffers := by
  cases sig with
  | none =>
    simp only [parseInputSignature, pure, Except.pure] at h
    cases h
    rfl
  | some c =>
    simp only [parseInputSignature] at h
    split_ifs at h <;> simp only [bind_eq_ok, pure, Except.pure] at h <;>
      (obtain ⟨⟨p, n⟩, hp, h⟩ := h
       cases h
       exact ParseSignature_cbuffers hp)

theorem parseOutputSignature_cbuffers {prog prog1 : ShaderProgram} {sig : Option DXBCChunk}
    (h : parseOutputSignature prog sig = .ok prog1) : prog1.cbuffers = prog.cbuffers := by
  cases sig with
  | none =>
    simp only [parseOutputSignature, pure, Except.pure] at h
    cases h
    rfl
  | some c =>
    simp only [parseOutputSignature] at h
    split_ifs at h <;> simp only [bind_eq_ok, pure, Except.pure] at h <;>
      (obtain ⟨⟨p, n⟩, hp, h⟩ := h
       cases h
       exact ParseSignature_cbuffers hp)

theorem parsePatchSignature_cbuffers {prog prog1 : ShaderProgram} {sig : Option DXBCChunk}
    (h : parsePatchSignature prog sig = .ok prog1) : prog1.cbuffers = prog.cbuffers := by
  cases sig with
  | none =>
    simp only [parsePatchSignature, pure, Except.pure] at h
    cases h
    rfl
  | some c =>
    simp only [parsePatchSignature, bind_eq_ok, pure, Except.pure] at h
    obtain ⟨⟨p, n⟩, hp, h⟩ := h
    cases h
    exact ParseSignature_cbuffers hp

/-- Order of `std::sort` with `SortFuncLess`: non-decreasing `start_offset`. -/
theorem stdSort_sorted (l : List DXBCShaderVariable) :
    (stdSort SortFuncLess l).Pairwise
      (fun a b => a.var_desc.start_offset ≤ b.var_desc.start_offset) := by
  have hrel : (fun lh rh : DXBCShaderVariable => SortFuncLess rh lh = false) =
      (fun a b => a.var_desc.start_offset ≤ b.var_desc.start_offset) := by
    funext a b
    simp [SortFuncLess]
  unfold stdSort
  haveI : IsTotal DXBCShaderVariable
      (fun lh rh : DXBCShaderVariable => SortFuncLess rh lh = false) :=
    ⟨fun a b => by simp only [SortFuncLess, decide_eq_false_iff_not, not_lt]; exact le_total _ _⟩
  haveI : IsTrans DXBCShaderVariable
      (fun lh rh : DXBCShaderVariable => SortFuncLess rh lh = false) :=
    ⟨fun a b c hab hbc => by
      simp only [SortFuncLess, decide_eq_false_iff_not, not_lt] at hab hbc ⊢
      exact le_trans hab hbc⟩
  have := List.sorted_insertionSort
    (fun lh rh : DXBCShaderVariable => SortFuncLess rh lh = false) l
  unfold List.Sorted at this
  refine this.imp ?_
  intro a b hab
  simpa [SortFuncLess] using hab

theorem stdSort_perm (comp : DXBCShaderVariable → DXBCShaderVariable → Bool)
    (l : List DXBCShaderVariable) : (stdSort comp l).Perm l :=
  List.perm_insertionSort _ l


theorem parseResource_some {prog prog1 : ShaderProgram} {chunk : DXBCChunk}
    (h : parseResource prog (some chunk) = .ok prog1) :
    ∃ decoded n, ParseCBAndResourceBinding prog chunk = .ok (decoded, n) ∧
      prog1 = SortCBVars decoded := by
  simp only [parseResource, bind_eq_ok, pure, Except.pure] at h
  obtain ⟨⟨decoded, n⟩, hd, h⟩ := h
  cases h
  exact ⟨decoded, n, hd, rfl⟩

/-- C4: constant-buffer variable ordering. After a successful `Parse` with a
resource chunk, the constant buffers are those decoded by
`ParseCBAndResourceBinding`, in the same order and with the same description
and bind point; for every buffer of type `cbuffer` the variable list is a
permutation of the decoded variables and is in non-decreasing `start_offset`
order, and the variables of every other buffer are left as decoded. -/
theorem C4_cbuffer_variable_ordering (lim : Limits) (dxbc : DXBCContainer)
    (prog0 prog : ShaderProgram) (chunk : DXBCChunk)
    (hres : dxbc.resource_chunk = some chunk) (h : Parse lim dxbc prog0 = .ok prog) :
    ∃ st decoded n, ParseShader lim prog0 dxbc.shader_chunk = .ok st ∧
      ParseCBAndResourceBinding st.prog chunk = .ok (decoded, n) ∧
      List.Forall₂ (fun cb0 cb =>
        cb.desc = cb0.desc ∧ cb.bind_point = cb0.bind_point ∧
        (SCBT_CBUFFER = cb0.desc.type →
          cb.vars.Perm cb0.vars ∧
          cb.vars.Pairwise (fun a b => a.var_desc.start_offset ≤ b.var_desc.start_offset)) ∧
        (SCBT_CBUFFER ≠ cb0.desc.type → cb.vars = cb0.vars))
        decoded.cbuffers prog.cbuffers := by
  unfold Parse at h
  simp only [bind_eq_ok] at h
  obtain ⟨st, hst, p1, hp1, p2, hp2, p3, hp3, hp4⟩ := h
  rw [hres] at hp1
  obtain ⟨decoded, n, hdec, rfl⟩ := parseResource_some hp1
  refine ⟨st, decoded, n, hst, hdec, ?_⟩
  rw [parsePatchSignature_cbuffers hp4, parseOutputSignature_cbuffers hp3,
    parseInputSignature_cbuffers hp2]
  simp only [SortCBVars]
  have key : ∀ cb0 : DXBCConstantBuffer,
      (fun cb0 cb : DXBCConstantBuffer =>
        cb.desc = cb0.desc ∧ cb.bind_point = cb0.bind_point ∧
        (SCBT_CBUFFER = cb0.desc.type →
          cb.vars.Perm cb0.vars ∧
          cb.vars.Pairwise (fun a b => a.var_desc.start_offset ≤ b.var_desc.start_offset)) ∧
        (SCBT_CBUFFER ≠ cb0.desc.type → cb.vars = cb0.vars)) cb0
        (if SCBT_CBUFFER = cb0.desc.type then
          { cb0 with vars := stdSort SortFuncLess cb0.vars } else cb0) := by
    intro cb0
    split_ifs with ht
    · exact ⟨rfl, rfl, fun _ => ⟨stdSort_perm _ _, stdSort_sorted _⟩, fun hne => absurd ht hne⟩
    · exact ⟨rfl, rfl, fun hc => absurd hc ht, fun _ => rfl⟩
  generalize decoded.cbuffers = cbs
  induction cbs with
  | nil => exact List.Forall₂.nil
  | cons cb0 rest ih => exact List.Forall₂.cons (key cb0) ih

/-- Witness for C4 (scenario S4): the variables A (offset 32), B (offset 0),
C (offset 16), whose names are at bytes 152, 154, 156, come out as B, C, A. -/
theorem C4_cbuffer_variable_ordering_witness :
    ∃ prog, Parse sampleLimits sampleContainer ShaderProgram.fresh = .ok prog ∧
      sampleContainer.resource_chunk = some sampleResourceChunk ∧
      prog.cbuffers.map (fun cb =>
        cb.vars.map (fun v => (v.var_desc.name, v.var_desc.start_offset))) =
        [[(154, 0), (156, 16), (152, 32)]] ∧
      ∃ st decoded n,
        ParseShader sampleLimits ShaderProgram.fresh sampleContainer.shader_chunk = .ok st ∧
        ParseCBAndResourceBinding st.prog sampleResourceChunk = .ok (decoded, n) ∧
        List.Forall₂ (fun cb0 cb =>
          cb.desc = cb0.desc ∧ cb.bind_point = cb0.bind_point ∧
          (SCBT_CBUFFER = cb0.desc.type →
            cb.vars.Perm cb0.vars ∧
            cb.vars.Pairwise (fun a b => a.var_desc.start_offset ≤ b.var_desc.start_offset)) ∧
          (SCBT_CBUFFER ≠ cb0.desc.type → cb.vars = cb0.vars))
          decoded.cbuffers prog.cbuffers := by
  have hrun : ∃ prog, Parse sampleLimits sampleContainer ShaderProgram.fresh = .ok prog ∧
      prog.cbuffers.map (fun cb =>
        cb.vars.map (fun v => (v.var_desc.name, v.var_desc.start_offset))) =
        [[(154, 0), (156, 16), (152, 32)]] := ⟨_, rfl, rfl⟩
  obtain ⟨prog, hp, hnames⟩ := hrun
  exact ⟨prog, hp, rfl, hnames,
    C4_cbuffer_variable_ordering sampleLimits sampleContainer ShaderProgram.fresh prog
      sampleResourceChunk rfl hp⟩

theorem packed_fields (c m s t n r0 r1 r2 : Nat) (hc : c < 4) (hm : m < 4) (hs : s < 256)
    (ht : t < 256) (hn : n < 4) (h0 : r0 < 8) (h1 : r1 < 8) (h2 : r2 < 8) :
    (c + 4 * m + 16 * s + 4096 * t + 2 ^ 20 * n + 2 ^ 22 * r0 + 2 ^ 25 * r1 + 2 ^ 28 * r2 +
        2 ^ 31) % 2 ^ 32 =
      c + 4 * m + 16 * s + 4096 * t + 2 ^ 20 * n + 2 ^ 22 * r0 + 2 ^ 25 * r1 + 2 ^ 28 * r2 +
        2 ^ 31 ∧
    optok_comps_enum (c + 4 * m + 16 * s + 4096 * t + 2 ^ 20 * n + 2 ^ 22 * r0 + 2 ^ 25 * r1 +
        2 ^ 28 * r2 + 2 ^ 31) = c ∧
    optok_mode (c + 4 * m + 16 * s + 4096 * t + 2 ^ 20 * n + 2 ^ 22 * r0 + 2 ^ 25 * r1 +
        2 ^ 28 * r2 + 2 ^ 31) = m ∧
    optok_sel (c + 4 * m + 16 * s + 4096 * t + 2 ^ 20 * n + 2 ^ 22 * r0 + 2 ^ 25 * r1 +
        2 ^ 28 * r2 + 2 ^ 31) = s ∧
    optok_op_type (c + 4 * m + 16 * s + 4096 * t + 2 ^ 20 * n + 2 ^ 22 * r0 + 2 ^ 25 * r1 +
        2 ^ 28 * r2 + 2 ^ 31) = t ∧
    optok_num_indices (c + 4 * m + 16 * s + 4096 * t + 2 ^ 20 * n + 2 ^ 22 * r0 + 2 ^ 25 * r1 +
        2 ^ 28 * r2 + 2 ^ 31) = n ∧
    optok_index0_repr (c + 4 * m + 16 * s + 4096 * t + 2 ^ 20 * n + 2 ^ 22 * r0 + 2 ^ 25 * r1 +
        2 ^ 28 * r2 + 2 ^ 31) = r0 ∧
    optok_index1_repr (c + 4 * m + 16 * s + 4096 * t + 2 ^ 20 * n + 2 ^ 22 * r0 + 2 ^ 25 * r1 +
        2 ^ 28 * r2 + 2 ^ 31) = r1 ∧
    optok_index2_repr (c + 4 * m + 16 * s + 4096 * t + 2 ^ 20 * n + 2 ^ 22 * r0 + 2 ^ 25 * r1 +
        2 ^ 28 * r2 + 2 ^ 31) = r2 ∧
    optok_extended (c + 4 * m + 16 * s + 4096 * t + 2 ^ 20 * n + 2 ^ 22 * r0 + 2 ^ 25 * r1 +
        2 ^ 28 * r2 + 2 ^ 31) = 1 := by
  simp only [optok_comps_enum, optok_mode, optok_sel, optok_op_type, optok_num_indices,
    optok_index0_repr, optok_index1_repr, optok_index2_repr, optok_extended, bits]
  norm_num
  refine ⟨?_, ?_, ?_, ?_, ?_, ?_, ?_, ?_, ?_, ?_⟩ <;> omega

theorem ext_fields (ng ab : Nat) (hn : ng < 2) (ha : ab < 2) :
    (1 + 64 * ng + 128 * ab) % 2 ^ 32 = 1 + 64 * ng + 128 * ab ∧
    optokext_type (1 + 64 * ng + 128 * ab) = 1 ∧
    optokext_neg (1 + 64 * ng + 128 * ab) = ng ∧
    optokext_abs (1 + 64 * ng + 128 * ab) = ab := by
  simp only [optokext_type, optokext_neg, optokext_abs, bits]
  norm_num
  refine ⟨?_, ?_, ?_, ?_⟩ <;> omega

theorem toInt64_encodeDisp (d : Int) (h1 : -2 ^ 63 ≤ d) (h2 : d < 2 ^ 63) :
    toInt64 ((d % 2 ^ 64).toNat % 2 ^ 32 + (d % 2 ^ 64).toNat / 2 ^ 32 * 2 ^ 32) = d ∧
    (d % 2 ^ 64).toNat % 2 ^ 32 < 2 ^ 32 ∧ (d % 2 ^ 64).toNat / 2 ^ 32 < 2 ^ 32 := by
  unfold toInt64
  norm_num at h1 h2 ⊢
  refine ⟨?_, ?_, ?_⟩
  · split_ifs <;> omega
  · omega
  · omega

theorem toInt64_range (t : Nat) : -2 ^ 63 ≤ toInt64 t ∧ toInt64 t < 2 ^ 63 := by
  unfold toInt64
  norm_num
  split_ifs <;> constructor <;> omega

theorem toInt32_range (t : Nat) : -2 ^ 63 ≤ toInt32 t ∧ toInt32 t < 2 ^ 63 := by
  unfold toInt32
  norm_num
  split_ifs <;> constructor <;> omega

theorem ShaderOperand.eta (op : ShaderOperand) : ShaderOperand.mk op.f op.indices = op := by
  cases op
  rfl

theorem updAt_updAt {α : Type} (g1 g2 : α → α) :
    ∀ (i : Nat) (l : List α), updAt g2 i (updAt g1 i l) = updAt (fun x => g2 (g1 x)) i l
  | i, [] => by cases i <;> rfl
  | 0, _ :: _ => rfl
  | i + 1, x :: l => by
    simp only [updAt]
    rw [updAt_updAt g1 g2 i l]

theorem updIndex_updIndex (op : ShaderOperand) (i : Nat)
    (g1 g2 : ShaderOperandIndex ShaderOperand → ShaderOperandIndex ShaderOperand) :
    (op.updIndex i g1).updIndex i g2 = op.updIndex i (fun x => g2 (g1 x)) := by
  simp only [ShaderOperand.updIndex, ShaderOperand.f, ShaderOperand.indices, updAt_updAt]

/-- Effect of one index step on the operand. -/
theorem readOpIndex_slot {b : TokenBuf} {N : Nat → OpResult} {repr i : Nat}
    {op op1 : ShaderOperand} {r r1 : Nat}
    (h : readOpIndex b N repr i op r = .ok (op1, r1)) :
    ∃ d reg, -2 ^ 63 ≤ d ∧ d < 2 ^ 63 ∧ (∀ o, reg = some o → ∃ x x1, N x = .ok (o, x1)) ∧
      op1 = op.updIndex i (slotWrite d reg) := by
  unfold readOpIndex at h
  simp only [pure, Except.pure] at h
  split_ifs at h
  · simp only [bind_eq_ok] at h
    obtain ⟨⟨t, r2⟩, -, h⟩ := h
    cases h
    exact ⟨toInt32 t, none, (toInt32_range t).1, (toInt32_range t).2, by simp,
      updIndex_updIndex _ _ _ _⟩
  · simp only [bind_eq_ok] at h
    obtain ⟨⟨t, r2⟩, -, h⟩ := h
    cases h
    exact ⟨toInt64 t, none, (toInt64_range t).1, (toInt64_range t).2, by simp,
      updIndex_updIndex _ _ _ _⟩
  · simp only [bind_eq_ok] at h
    obtain ⟨⟨o, r2⟩, ho, h⟩ := h
    cases h
    refine ⟨0, some o, by norm_num, by norm_num, ?_, updIndex_updIndex _ _ _ _⟩
    intro o1 ho1
    cases ho1
    exact ⟨_, _, ho⟩
  · simp only [bind_eq_ok] at h
    obtain ⟨⟨t, r2⟩, -, ⟨o, r3⟩, ho, h⟩ := h
    cases h
    refine ⟨toInt32 t, some o, (toInt32_range t).1, (toInt32_range t).2, ?_, ?_⟩
    · intro o1 ho1
      cases ho1
      exact ⟨_, _, ho⟩
    · rw [updIndex_updIndex, updIndex_updIndex]
      rfl
  · simp only [bind_eq_ok] at h
    obtain ⟨⟨t, r2⟩, -, ⟨o, r3⟩, ho, h⟩ := h
    cases h
    refine ⟨toInt64 t, some o, (toInt64_range t).1, (toInt64_range t).2, ?_, ?_⟩
    · intro o1 ho1
      cases ho1
      exact ⟨_, _, ho⟩
    · rw [updIndex_updIndex, updIndex_updIndex]
      rfl
  · cases h
    exact ⟨0, none, by norm_num, by norm_num, by simp, rfl⟩


theorem readOpIndices_succ {b : TokenBuf} {N : Nat → OpResult} {optok k i : Nat}
    {op op1 : ShaderOperand} {r r1 : Nat}
    (h : readOpIndices b N optok (k + 1) i op r = .ok (op1, r1)) :
    ∃ repr opm rm, indexRepr optok i = .ok repr ∧
      readOpIndex b N repr i op r = .ok (opm, rm) ∧
      readOpIndices b N optok k (i + 1) opm rm = .ok (op1, r1) := by
  simp only [readOpIndices, bind_eq_ok] at h
  obtain ⟨repr, hrepr, ⟨opm, rm⟩, hm, h⟩ := h
  exact ⟨repr, opm, rm, hrepr, hm, h⟩

theorem readOpIndices_zero {b : TokenBuf} {N : Nat → OpResult} {optok i : Nat}
    {op op1 : ShaderOperand} {r r1 : Nat}
    (h : readOpIndices b N optok 0 i op r = .ok (op1, r1)) : op1 = op ∧ r1 = r := by
  simp only [readOpIndices, pure, Except.pure] at h
  cases h
  exact ⟨rfl, rfl⟩

/-- Index slots after the index loop, run on the slots of a newly made operand. -/
theorem readOpIndices_fresh {b : TokenBuf} {N : Nat → OpResult} {optok n : Nat}
    {f : OperandFields} {op1 : ShaderOperand} {r r1 : Nat} (hn : n ≤ 3)
    (h : readOpIndices b N optok n 0 (ShaderOperand.mk f [⟨0, none⟩, ⟨0, none⟩, ⟨0, none⟩]) r =
      .ok (op1, r1)) :
    ∃ i0 i1 i2, op1 = ShaderOperand.mk f [i0, i1, i2] ∧
      (∀ ix, (ix = i0 ∧ 0 < n) ∨ (ix = i1 ∧ 1 < n) ∨ (ix = i2 ∧ 2 < n) →
        -2 ^ 63 ≤ ix.disp ∧ ix.disp < 2 ^ 63) ∧
      (∀ ix o, (ix = i0 ∧ 0 < n) ∨ (ix = i1 ∧ 1 < n) ∨ (ix = i2 ∧ 2 < n) →
        ix.reg = some o → ∃ x x1, N x = .ok (o, x1)) ∧
      (n ≤ 0 → i0 = ⟨0, none⟩) ∧ (n ≤ 1 → i1 = ⟨0, none⟩) ∧ (n ≤ 2 → i2 = ⟨0, none⟩) := by
  have hw : ∀ (d : Int) (reg : Option ShaderOperand),
      (slotWrite d reg ⟨0, none⟩).disp = d ∧ (slotWrite d reg ⟨0, none⟩).reg = reg := by
    intro d reg
    cases reg <;> exact ⟨rfl, rfl⟩
  rcases n with _ | _ | _ | _ | n
  · obtain ⟨rfl, -⟩ := readOpIndices_zero h
    exact ⟨_, _, _, rfl, by simp, by simp, by simp, by simp, by simp⟩
  · obtain ⟨repr, opm, rm, -, h0, h⟩ := readOpIndices_succ h
    obtain ⟨rfl, -⟩ := readOpIndices_zero h
    obtain ⟨d0, g0, hd0, hd0', hg0, rfl⟩ := readOpIndex_slot h0
    refine ⟨slotWrite d0 g0 ⟨0, none⟩, ⟨0, none⟩, ⟨0, none⟩, rfl, ?_, ?_, by simp, by simp,
      by simp⟩
    · rintro ix (⟨rfl, -⟩ | ⟨-, hc⟩ | ⟨-, hc⟩)
      · rw [(hw d0 g0).1]; exact ⟨hd0, hd0'⟩
      · omega
      · omega
    · rintro ix o (⟨rfl, -⟩ | ⟨-, hc⟩ | ⟨-, hc⟩) ho
      · rw [(hw d0 g0).2] at ho; exact hg0 o ho
      · omega
      · omega
  · obtain ⟨repr, opm, rm, -, h0, h⟩ := readOpIndices_succ h
    obtain ⟨repr1, opm1, rm1, -, h1, h⟩ := readOpIndices_succ h
    obtain ⟨rfl, -⟩ := readOpIndices_zero h
    obtain ⟨d0, g0, hd0, hd0', hg0, rfl⟩ := readOpIndex_slot h0
    obtain ⟨d1, g1, hd1, hd1', hg1, rfl⟩ := readOpIndex_slot h1
    refine ⟨slotWrite d0 g0 ⟨0, none⟩, slotWrite d1 g1 ⟨0, none⟩, ⟨0, none⟩, rfl, ?_, ?_,
      by simp, by simp, by simp⟩
    · rintro ix (⟨rfl, -⟩ | ⟨rfl, -⟩ | ⟨-, hc⟩)
      · rw [(hw d0 g0).1]; exact ⟨hd0, hd0'⟩
      · rw [(hw d1 g1).1]; exact ⟨hd1, hd1'⟩
      · omega
    · rintro ix o (⟨rfl, -⟩ | ⟨rfl, -⟩ | ⟨-, hc⟩) ho
      · rw [(hw d0 g0).2] at ho; exact hg0 o ho
      · rw [(hw d1 g1).2] at ho; exact hg1 o ho
      · omega
  · obtain ⟨repr, opm, rm, -, h0, h⟩ := readOpIndices_succ h
    obtain ⟨repr1, opm1, rm1, -, h1, h⟩ := readOpIndices_succ h
    obtain ⟨repr2, opm2, rm2, -, h2, h⟩ := readOpIndices_succ h
    obtain ⟨rfl, -⟩ := readOpIndices_zero h
    obtain ⟨d0, g0, hd0, hd0', hg0, rfl⟩ := readOpIndex_slot h0
    obtain ⟨d1, g1, hd1, hd1', hg1, rfl⟩ := readOpIndex_slot h1
    obtain ⟨d2, g2, hd2, hd2', hg2, rfl⟩ := readOpIndex_slot h2
    refine ⟨slotWrite d0 g0 ⟨0, none⟩, slotWrite d1 g1 ⟨0, none⟩, slotWrite d2 g2 ⟨0, none⟩,
      rfl, ?_, ?_, by simp, by simp, by simp⟩
    · rintro ix (⟨rfl, -⟩ | ⟨rfl, -⟩ | ⟨rfl, -⟩)
      · rw [(hw d0 g0).1]; exact ⟨hd0, hd0'⟩
      · rw [(hw d1 g1).1]; exact ⟨hd1, hd1'⟩
      · rw [(hw d2 g2).1]; exact ⟨hd2, hd2'⟩
    · rintro ix o (⟨rfl, -⟩ | ⟨rfl, -⟩ | ⟨rfl, -⟩) ho
      · rw [(hw d0 g0).2] at ho; exact hg0 o ho
      · rw [(hw d1 g1).2] at ho; exact hg1 o ho
      · rw [(hw d2 g2).2] at ho; exact hg2 o ho
  · omega


theorem Read32_lt {b : TokenBuf} {r r1 t : Nat} (h : Read32 b r = .ok (t, r1)) : t < 2 ^ 32 := by
  obtain ⟨-, -, t0, -, rfl⟩ := Read32_ok h
  exact Nat.mod_lt _ (by norm_num)

theorem Read64_lt {b : TokenBuf} {r r1 t : Nat} (h : Read64 b r = .ok (t, r1)) : t < 2 ^ 64 := by
  unfold Read64 at h
  simp only [bind_eq_ok] at h
  obtain ⟨⟨lo, ra⟩, ha, ⟨hi, rb⟩, hb, h⟩ := h
  simp only [pure, Except.pure] at h
  cases h
  have h1 := Read32_lt ha
  have h2 := Read32_lt hb
  norm_num at h1 h2 ⊢
  omega

theorem readOpImmLoop_succ {read : Nat → Except ParseError (Nat × Nat)} {k i : Nat}
    {op op1 : ShaderOperand} {r r1 : Nat}
    (h : readOpImmLoop read (k + 1) i op r = .ok (op1, r1)) :
    ∃ v rm, read r = .ok (v, rm) ∧
      readOpImmLoop read k (i + 1)
        (op.withF fun f => { f with imm_values := f.imm_values.set i v }) rm = .ok (op1, r1) := by
  simp only [readOpImmLoop, bind_eq_ok] at h
  obtain ⟨⟨v, rm⟩, hv, h⟩ := h
  exact ⟨v, rm, hv, h⟩

theorem readOpImmLoop_zero {read : Nat → Except ParseError (Nat × Nat)} {i : Nat}
    {op op1 : ShaderOperand} {r r1 : Nat}
    (h : readOpImmLoop read 0 i op r = .ok (op1, r1)) : op1 = op ∧ r1 = r := by
  simp only [readOpImmLoop, pure, Except.pure] at h
  cases h
  exact ⟨rfl, rfl⟩

/-- Immediate values after the immediate loop, run on the values of a newly
made operand, when the loop reads values below `B`. -/
theorem readOpImmLoop_fresh {read : Nat → Except ParseError (Nat × Nat)} {B : Nat}
    (hB : ∀ r v r1, read r = .ok (v, r1) → v < B) (hB0 : 0 < B)
    {f : OperandFields} {ixs : List (ShaderOperandIndex ShaderOperand)}
    {op1 : ShaderOperand} {r r1 : Nat} (himm : f.imm_values = [0, 0, 0, 0])
    (hc : f.comps = 0 ∨ f.comps = 1 ∨ f.comps = 4)
    (h : readOpImmLoop read f.comps 0 (ShaderOperand.mk f ixs) r = .ok (op1, r1)) :
    ∃ v0 v1 v2 v3, op1 = ShaderOperand.mk { f with imm_values := [v0, v1, v2, v3] } ixs ∧
      v0 < B ∧ v1 < B ∧ v2 < B ∧ v3 < B ∧
      (f.comps = 0 → v0 = 0 ∧ v1 = 0 ∧ v2 = 0 ∧ v3 = 0) ∧
      (f.comps = 1 → v1 = 0 ∧ v2 = 0 ∧ v3 = 0) := by
  rcases hc with hc | hc | hc
  · rw [hc] at h
    obtain ⟨rfl, -⟩ := readOpImmLoop_zero h
    refine ⟨0, 0, 0, 0, ?_, hB0, hB0, hB0, hB0, fun _ => ⟨rfl, rfl, rfl, rfl⟩,
      fun _ => ⟨rfl, rfl, rfl⟩⟩
    rw [← himm]
  · rw [hc] at h
    obtain ⟨v0, rm, h0, h⟩ := readOpImmLoop_succ h
    obtain ⟨rfl, -⟩ := readOpImmLoop_zero h
    refine ⟨v0, 0, 0, 0, ?_, hB _ _ _ h0, hB0, hB0, hB0, fun h0 => ?_,
      fun _ => ⟨rfl, rfl, rfl⟩⟩
    · simp only [ShaderOperand.withF, ShaderOperand.f, ShaderOperand.indices, himm, List.set]
    · omega
  · rw [hc] at h
    obtain ⟨v0, rm0, h0, h⟩ := readOpImmLoop_succ h
    obtain ⟨v1, rm1, h1, h⟩ := readOpImmLoop_succ h
    obtain ⟨v2, rm2, h2, h⟩ := readOpImmLoop_succ h
    obtain ⟨v3, rm3, h3, h⟩ := readOpImmLoop_succ h
    obtain ⟨rfl, -⟩ := readOpImmLoop_zero h
    refine ⟨v0, v1, v2, v3, ?_, hB _ _ _ h0, hB _ _ _ h1, hB _ _ _ h2, hB _ _ _ h3,
      fun h0 => ?_, fun h0 => ?_⟩
    · simp only [ShaderOperand.withF, ShaderOperand.f, ShaderOperand.indices, himm, List.set]
    · omega
    · omega

/-- Immediate values after `readOpImm`, run on the values of a newly made operand. -/
theorem readOpImm_fresh {b : TokenBuf} {f : OperandFields}
    {ixs : List (ShaderOperandIndex ShaderOperand)} {op1 : ShaderOperand} {r r1 : Nat}
    (himm : f.imm_values = [0, 0, 0, 0]) (hc : f.comps = 0 ∨ f.comps = 1 ∨ f.comps = 4)
    (h : readOpImm b (ShaderOperand.mk f ixs) r = .ok (op1, r1)) :
    ∃ vs, op1 = ShaderOperand.mk { f with imm_values := vs } ixs ∧
      ImmCanon { f with imm_values := vs } := by
  unfold readOpImm at h
  simp only [ShaderOperand.f] at h
  split_ifs at h with h32 h64
  · obtain ⟨v0, v1, v2, v3, rfl, b0, b1, b2, b3, z0, z1⟩ :=
      readOpImmLoop_fresh (fun _ _ _ hr => Read32_lt hr) (by norm_num) himm hc h
    refine ⟨_, rfl, v0, v1, v2, v3, rfl, ?_, z1, fun _ => ⟨b0, b1, b2, b3⟩, ?_⟩
    · rintro (⟨hne, -⟩ | h0)
      · exact absurd h32 hne
      · exact z0 h0
    · intro h5
      exfalso
      rw [← h32] at h5
      revert h5
      decide
  · obtain ⟨v0, v1, v2, v3, rfl, b0, b1, b2, b3, z0, z1⟩ :=
      readOpImmLoop_fresh (fun _ _ _ hr => Read64_lt hr) (by norm_num) himm hc h
    refine ⟨_, rfl, v0, v1, v2, v3, rfl, ?_, z1, fun h4 => absurd h4 h32, fun _ => ⟨b0, b1, b2, b3⟩⟩
    rintro (⟨-, hne⟩ | h0)
    · exact absurd h64 hne
    · exact z0 h0
  · simp only [pure, Except.pure] at h
    cases h
    refine ⟨[0, 0, 0, 0], by rw [← himm], 0, 0, 0, 0, rfl, fun _ => ⟨rfl, rfl, rfl, rfl⟩,
      fun _ => ⟨rfl, rfl, rfl⟩, fun h4 => absurd h4 h32, fun h5 => absurd h5 h64⟩


theorem optok_op_type_lt (t : Nat) : optok_op_type t < 256 := by
  unfold optok_op_type bits
  omega

/-- Selection members after the component switch, run on a newly made operand. -/
theorem readOpComps_selCanon {lim : Limits} {optok : Nat} {op1 : ShaderOperand}
    (h : readOpComps lim optok ShaderOperand.fresh = .ok op1) : SelCanon op1.f := by
  obtain ⟨-, -, -, -, -, -, -, hcc⟩ := readOpComps_ok h
  have hm : ShaderOperand.fresh.f.mode = 0 := rfl
  rcases hcc with ⟨-, h1, h2, h3, h4⟩ | ⟨-, h1, h2, h3, h4⟩ | ⟨-, h1, h4, hmode⟩
  · exact Or.inl ⟨h1, h4.trans hm, h2, h3⟩
  · exact Or.inr (Or.inl ⟨h1, h4.trans hm, h2, h3⟩)
  · rcases hmode with ⟨hk, h2, h3⟩ | ⟨hk, h2, h3⟩ | ⟨hk, h2, h3⟩
    · refine Or.inr (Or.inr (Or.inl ⟨h1, h4.trans hk, h3, ?_⟩))
      rw [h2]
      unfold SM_OPERAND_SEL_MASK
      omega
    · refine Or.inr (Or.inr (Or.inr (Or.inl ⟨h1, h4.trans hk, h2, _, _, _, _, ?_, ?_, ?_, ?_, h3⟩))) <;>
        (unfold SM_OPERAND_SEL_SWZ; exact Nat.mod_lt _ (by norm_num))
    · refine Or.inr (Or.inr (Or.inr (Or.inr ⟨h1, h4.trans hk, h2, _, ?_, h3⟩)))
      unfold SM_OPERAND_SEL_SCALAR
      exact Nat.mod_lt _ (by norm_num)

theorem SelCanon_comps {f : OperandFields} (h : SelCanon f) :
    f.comps = 0 ∨ f.comps = 1 ∨ f.comps = 4 := by
  rcases h with ⟨h, -⟩ | ⟨h, -⟩ | ⟨h, -⟩ | ⟨h, -⟩ | ⟨h, -⟩
  · exact Or.inl h
  · exact Or.inr (Or.inl h)
  · exact Or.inr (Or.inr h)
  · exact Or.inr (Or.inr h)
  · exact Or.inr (Or.inr h)

theorem SelCanon_congr {f g : OperandFields} (h : SelCanon f) (h1 : g.comps = f.comps)
    (h2 : g.mode = f.mode) (h3 : g.swizzle = f.swizzle) (h4 : g.mask = f.mask) : SelCanon g := by
  unfold SelCanon at h ⊢
  rw [h1, h2, h3, h4]
  exact h

/-- Every operand that `ReadOp` decodes into a newly made operand is canonical. -/
theorem ReadOpF_canon (lim : Limits) (b : TokenBuf) :
    ∀ (fuel : Nat) (op : ShaderOperand) (r r1 : Nat),
      ReadOpF lim b fuel ShaderOperand.fresh r = .ok (op, r1) → Canon lim op
  | 0, _, _, _, h => by
    simp [ReadOpF, throw, throwThe, MonadExceptOf.throw] at h
  | fuel + 1, op, r, r1, h => by
    simp only [ReadOpF, bind_eq_ok] at h
    obtain ⟨⟨optok, ra⟩, -, opa, hc, ⟨opb, rb⟩, he, hrest⟩ := h
    obtain ⟨hci, -, -, hcimm, hct, hcn, hcs, -⟩ := readOpComps_ok hc
    have hsel := readOpComps_selCanon hc
    obtain ⟨hei, hec, hes, hem, hemo, het, hen, heimm⟩ := readOpExt_ok he
    have hselb : SelCanon opb.f := SelCanon_congr hsel hec hemo hes hem
    have hnb : opb.f.num_indices ≤ 3 := by
      rw [hen, hcn]
      exact optok_num_indices_le _
    have hib : opb.indices = [⟨0, none⟩, ⟨0, none⟩, ⟨0, none⟩] := by
      rw [hei, hci]
      rfl
    have himmb : opb.f.imm_values = [0, 0, 0, 0] := by
      rw [heimm, hcimm]
      rfl
    unfold readOpRest at hrest
    simp only [bind_eq_ok] at hrest
    obtain ⟨⟨opc, rc⟩, hidx, himm⟩ := hrest
    rw [← ShaderOperand.eta opb, hib] at hidx
    simp only [ShaderOperand.f] at hidx
    obtain ⟨i0, i1, i2, rfl, hrange, hnest, hz0, hz1, hz2⟩ := readOpIndices_fresh hnb hidx
    obtain ⟨vs, rfl, hic⟩ := readOpImm_fresh himmb (SelCanon_comps hselb) himm
    refine Canon.mk _ i0 i1 i2 ?_ ?_ hnb (SelCanon_congr hselb rfl rfl rfl rfl) hic hrange ?_
      hz0 hz1 hz2
    · show opb.f.type < 256
      rw [het, hct]
      exact optok_op_type_lt _
    · show opb.f.type < lim.SOT_COUNT
      rw [het, hct]
      exact hcs
    · intro ix o hix ho
      obtain ⟨x, x1, hx⟩ := hnest ix o hix ho
      exact ReadOpF_canon lim b fuel o x x1 hx

theorem Read32_at {b : TokenBuf} {r t : Nat} (hmem : b.mem[r]? = some t)
    (hend : r < b.tokens_end) (ht : t < 2 ^ 32) : Read32 b r = .ok (t, r + 1) := by
  unfold Read32
  rw [if_pos hend, hmem]
  simp only [Nat.mod_eq_of_lt ht]

theorem Read64_at {b : TokenBuf} {r lo hi : Nat} (h0 : b.mem[r]? = some lo)
    (h1 : b.mem[r + 1]? = some hi) (hend : r + 1 < b.tokens_end)
    (hlo : lo < 2 ^ 32) (hhi : hi < 2 ^ 32) :
    Read64 b r = .ok (lo + hi * 2 ^ 32, r + 2) := by
  unfold Read64
  rw [Read32_at h0 (by omega) hlo]
  simp only [bind, Except.bind]
  rw [Read32_at h1 hend hhi]
  rfl

theorem TokensAt_append (mem : List Nat) :
    ∀ (l1 l2 : List Nat) (r : Nat),
      TokensAt mem r (l1 ++ l2) ↔ TokensAt mem r l1 ∧ TokensAt mem (r + l1.length) l2 := by
  intro l1
  induction l1 with
  | nil => intro l2 r; simp [TokensAt]
  | cons x l1 ih =>
    intro l2 r
    have h := ih l2 (r + 1)
    have e : r + 1 + l1.length = r + (l1.length + 1) := by omega
    rw [e] at h
    show (mem[r]? = some x ∧ TokensAt mem (r + 1) (l1 ++ l2)) ↔
      (mem[r]? = some x ∧ TokensAt mem (r + 1) l1) ∧ TokensAt mem (r + (l1.length + 1)) l2
    rw [h, and_assoc]

theorem slotWrite_fresh (ix : ShaderOperandIndex ShaderOperand) :
    slotWrite ix.disp ix.reg ⟨0, none⟩ = ix := by
  obtain ⟨d, reg⟩ := ix
  cases reg <;> rfl

theorem encodeDisp_length (d : Int) : (encodeDisp d).length = 2 := rfl

/-- One index step on the tokens written for a slot. -/
theorem readOpIndex_encoded {b : TokenBuf} {N : Nat → OpResult} {i r : Nat}
    {op : ShaderOperand} {ix : ShaderOperandIndex ShaderOperand}
    (hr1 : -2 ^ 63 ≤ ix.disp) (hr2 : ix.disp < 2 ^ 63)
    (hat : TokensAt b.mem r (encodeSlot ix))
    (hend : r + (encodeSlot ix).length ≤ b.tokens_end)
    (hN : ∀ o, ix.reg = some o → N (r + 2) = .ok (o, r + 2 + (EncodeOp o).length)) :
    readOpIndex b N (encodeRepr ix) i op r =
      .ok (op.updIndex i (slotWrite ix.disp ix.reg), r + (encodeSlot ix).length) := by
  obtain ⟨d, reg⟩ := ix
  obtain ⟨hd, hlo, hhi⟩ := toInt64_encodeDisp d hr1 hr2
  have hlen : (encodeSlot ⟨d, reg⟩).length ≥ 2 := by
    simp [encodeSlot, encodeDisp]
  have h64 : Read64 b r = .ok ((d % 2 ^ 64).toNat % 2 ^ 32 +
      (d % 2 ^ 64).toNat / 2 ^ 32 * 2 ^ 32, r + 2) := by
    simp only [encodeSlot, encodeDisp, List.cons_append, List.nil_append, TokensAt] at hat
    exact Read64_at hat.1 hat.2.1 (by omega) hlo hhi
  cases reg with
  | none =>
    have e1 : ¬ (SOIP_IMM64 = SOIP_IMM32) := by decide
    simp only [readOpIndex, encodeRepr, e1, if_false, if_true, h64, bind, Except.bind, pure,
      Except.pure, hd, updIndex_updIndex]
    rfl
  | some o =>
    have e1 : ¬ (SOIP_IMM64_PLUS_RELATIVE = SOIP_IMM32) := by decide
    have e2 : ¬ (SOIP_IMM64_PLUS_RELATIVE = SOIP_IMM64) := by decide
    have e3 : ¬ (SOIP_IMM64_PLUS_RELATIVE = SOIP_RELATIVE) := by decide
    have e4 : ¬ (SOIP_IMM64_PLUS_RELATIVE = SOIP_IMM32_PLUS_RELATIVE) := by decide
    simp only [readOpIndex, encodeRepr, e1, e2, e3, e4, if_false, if_true, h64, bind,
      Except.bind, pure, Except.pure, hd, updIndex_updIndex, hN o rfl]
    simp only [encodeSlot, encodeDisp, List.cons_append, List.nil_append, List.length_cons]
    have : r + 2 + (EncodeOp o).length = r + ((EncodeOp o).length + 1 + 1) := by omega
    rw [this]
    rfl

theorem EncodeIndices_cons (n : Nat) (ix : ShaderOperandIndex ShaderOperand)
    (rest : List (ShaderOperandIndex ShaderOperand)) :
    EncodeIndices (n + 1) (ix :: rest) = encodeSlot ix ++ EncodeIndices n rest := by
  obtain ⟨d, reg⟩ := ix
  cases reg with
  | none => simp [EncodeIndices, encodeSlot]
  | some o => simp [EncodeIndices, encodeSlot]

theorem EncodeIndices_zero (l : List (ShaderOperandIndex ShaderOperand)) :
    EncodeIndices 0 l = [] := by
  cases l <;> simp [EncodeIndices]

theorem encodeSlot_length (ix : ShaderOperandIndex ShaderOperand) :
    (encodeSlot ix).length = 2 + (match ix.reg with
      | none => 0
      | some o => (EncodeOp o).length) := by
  obtain ⟨d, reg⟩ := ix
  cases reg with
  | none => rfl
  | some o =>
    simp only [encodeSlot, encodeDisp, List.cons_append, List.nil_append, List.length_cons]
    omega

theorem EncodeIndices_three (n : Nat) (i0 i1 i2 : ShaderOperandIndex ShaderOperand) :
    EncodeIndices n [i0, i1, i2] =
      (if 0 < n then encodeSlot i0 else []) ++ ((if 1 < n then encodeSlot i1 else []) ++
        (if 2 < n then encodeSlot i2 else [])) := by
  rcases n with _ | _ | _ | _ | n
  · simp [EncodeIndices_zero]
  · simp [EncodeIndices_cons, EncodeIndices_zero]
  · simp [EncodeIndices_cons, EncodeIndices_zero]
  · simp [EncodeIndices_cons, EncodeIndices_zero]
  · simp only [EncodeIndices_cons]
    have : EncodeIndices (n + 1) [] = [] := by simp [EncodeIndices]
    simp [this]

/-- One index step on the tokens written for a slot, the nested reader being
right on the tokens written for the nested operand. -/
theorem readOpIndex_step {b : TokenBuf} {N : Nat → OpResult} (i : Nat)
    (ix : ShaderOperandIndex ShaderOperand) (op : ShaderOperand) (x : Nat)
    (hr : -2 ^ 63 ≤ ix.disp ∧ ix.disp < 2 ^ 63)
    (hN : ∀ o y, ix.reg = some o → TokensAt b.mem y (EncodeOp o) →
      y + (EncodeOp o).length ≤ b.tokens_end → N y = .ok (o, y + (EncodeOp o).length))
    (hat : TokensAt b.mem x (encodeSlot ix))
    (hend : x + (encodeSlot ix).length ≤ b.tokens_end) :
    readOpIndex b N (encodeRepr ix) i op x =
      .ok (op.updIndex i (slotWrite ix.disp ix.reg), x + (encodeSlot ix).length) := by
  refine readOpIndex_encoded hr.1 hr.2 hat hend ?_
  intro o ho
  have hlen := encodeSlot_length ix
  rw [ho] at hlen
  simp only at hlen
  refine hN o (x + 2) ho ?_ (by omega)
  have e : encodeSlot ix = encodeDisp ix.disp ++ EncodeOp o := by
    simp only [encodeSlot, ho]
  rw [e, TokensAt_append] at hat
  exact hat.2

/-- The index loop on the tokens written for the index slots. -/
theorem readOpIndices_encoded {b : TokenBuf} {N : Nat → OpResult} {optok n : Nat}
    {f : OperandFields} {i0 i1 i2 : ShaderOperandIndex ShaderOperand} {r : Nat}
    (hn : n ≤ 3)
    (h0 : 0 < n → optok_index0_repr optok = encodeRepr i0)
    (h1 : 1 < n → optok_index1_repr optok = encodeRepr i1)
    (h2 : 2 < n → optok_index2_repr optok = encodeRepr i2)
    (hrange : ∀ ix, (ix = i0 ∧ 0 < n) ∨ (ix = i1 ∧ 1 < n) ∨ (ix = i2 ∧ 2 < n) →
      -2 ^ 63 ≤ ix.disp ∧ ix.disp < 2 ^ 63)
    (hN : ∀ ix o y, (ix = i0 ∧ 0 < n) ∨ (ix = i1 ∧ 1 < n) ∨ (ix = i2 ∧ 2 < n) →
      ix.reg = some o → TokensAt b.mem y (EncodeOp o) →
      y + (EncodeOp o).length ≤ b.tokens_end → N y = .ok (o, y + (EncodeOp o).length))
    (hz0 : n ≤ 0 → i0 = ⟨0, none⟩) (hz1 : n ≤ 1 → i1 = ⟨0, none⟩)
    (hz2 : n ≤ 2 → i2 = ⟨0, none⟩)
    (hat : TokensAt b.mem r (EncodeIndices n [i0, i1, i2]))
    (hend : r + (EncodeIndices n [i0, i1, i2]).length ≤ b.tokens_end) :
    readOpIndices b N optok n 0 (ShaderOperand.mk f [⟨0, none⟩, ⟨0, none⟩, ⟨0, none⟩]) r =
      .ok (ShaderOperand.mk f [i0, i1, i2], r + (EncodeIndices n [i0, i1, i2]).length) := by
  rw [EncodeIndices_three] at hat hend ⊢
  rcases n with _ | _ | _ | _ | n
  · rw [hz0 (by omega), hz1 (by omega), hz2 (by omega)]
    simp [readOpIndices, pure, Except.pure]
  · rw [hz1 (by omega), hz2 (by omega)]
    have c1 : (0 : Nat) < 0 + 1 := by omega
    have c2 : ¬ ((1 : Nat) < 0 + 1) := by omega
    have c3 : ¬ ((2 : Nat) < 0 + 1) := by omega
    simp only [c1, c2, c3, if_false, List.append_nil, if_true] at hat hend ⊢
    simp only [readOpIndices, indexRepr, if_true, pure, Except.pure, bind, Except.bind,
      h0 (by omega)]
    rw [readOpIndex_step 0 i0 _ r (hrange i0 (.inl ⟨rfl, by omega⟩))
      (fun o y => hN i0 o y (.inl ⟨rfl, by omega⟩)) hat hend]
    simp only [ShaderOperand.updIndex, updAt, ShaderOperand.f, ShaderOperand.indices,
      slotWrite_fresh]
  · rw [hz2 (by omega)]
    have c1 : (0 : Nat) < 0 + 1 + 1 := by omega
    have c2 : (1 : Nat) < 0 + 1 + 1 := by omega
    have c3 : ¬ ((2 : Nat) < 0 + 1 + 1) := by omega
    simp only [c1, c2, c3, if_false, List.append_nil, if_true] at hat hend ⊢
    rw [TokensAt_append] at hat
    rw [List.length_append] at hend ⊢
    simp only [readOpIndices, indexRepr, if_true, pure, Except.pure, bind, Except.bind,
      h0 (by omega), h1 (by omega)]
    rw [readOpIndex_step 0 i0 _ r (hrange i0 (.inl ⟨rfl, by omega⟩))
      (fun o y => hN i0 o y (.inl ⟨rfl, by omega⟩)) hat.1 (by omega)]
    simp only [zero_add, Nat.reduceEqDiff, if_false, if_true]
    rw [readOpIndex_step 1 i1 _ _ (hrange i1 (.inr (.inl ⟨rfl, by omega⟩)))
      (fun o y => hN i1 o y (.inr (.inl ⟨rfl, by omega⟩))) hat.2 (by omega)]
    simp only [ShaderOperand.updIndex, updAt, ShaderOperand.f, ShaderOperand.indices,
      slotWrite_fresh, Nat.add_assoc]
  · have c1 : (0 : Nat) < 0 + 1 + 1 + 1 := by omega
    have c2 : (1 : Nat) < 0 + 1 + 1 + 1 := by omega
    have c3 : (2 : Nat) < 0 + 1 + 1 + 1 := by omega
    simp only [c1, c2, c3, if_true] at hat hend ⊢
    rw [TokensAt_append, TokensAt_append] at hat
    rw [List.length_append, List.length_append] at hend ⊢
    simp only [readOpIndices, indexRepr, if_true, pure, Except.pure, bind, Except.bind,
      h0 (by omega), h1 (by omega), h2 (by omega)]
    rw [readOpIndex_step 0 i0 _ r (hrange i0 (.inl ⟨rfl, by omega⟩))
      (fun o y => hN i0 o y (.inl ⟨rfl, by omega⟩)) hat.1 (by omega)]
    simp only [zero_add, Nat.reduceEqDiff, if_false, if_true]
    rw [readOpIndex_step 1 i1 _ _ (hrange i1 (.inr (.inl ⟨rfl, by omega⟩)))
      (fun o y => hN i1 o y (.inr (.inl ⟨rfl, by omega⟩))) hat.2.1 (by omega)]
    simp only [Nat.reduceAdd, Nat.reduceEqDiff, if_false, if_true]
    rw [readOpIndex_step 2 i2 _ _ (hrange i2 (.inr (.inr ⟨rfl, by omega⟩)))
      (fun o y => hN i2 o y (.inr (.inr ⟨rfl, by omega⟩))) (by
        have := hat.2.2
        rwa [Nat.add_assoc] at this ⊢) (by omega)]
    simp only [ShaderOperand.updIndex, updAt, ShaderOperand.f, ShaderOperand.indices,
      slotWrite_fresh, Nat.add_assoc]
  · omega

/-- The component switch on the fields written for canonical selection members. -/
theorem readOpComps_encoded {lim : Limits} {optok : Nat} {f : OperandFields}
    (hty : optok_op_type optok = f.type) (hni : optok_num_indices optok = f.num_indices)
    (hc : optok_comps_enum optok = encodeCompsEnum f.comps)
    (hm : optok_mode optok = if f.comps = 4 then f.mode else 0)
    (hs : optok_sel optok = encodeSel f)
    (hlt : f.type < lim.SOT_COUNT) (hsel : SelCanon f) :
    readOpComps lim optok ShaderOperand.fresh =
      .ok (ShaderOperand.mk { f with imm_values := [0, 0, 0, 0], neg := false, abs := false }
        [⟨0, none⟩, ⟨0, none⟩, ⟨0, none⟩]) := by
  obtain ⟨mode, comps, mask, n, swz, type, imm, neg, abs⟩ := f
  simp only at hty hni hc hm hs hlt
  have hlt2 : optok_op_type optok < lim.SOT_COUNT := by rw [hty]; exact hlt
  unfold readOpComps
  simp only [hlt2, not_true_eq_false, if_false, pure, Except.pure, bind, Except.bind]
  rcases hsel with ⟨h1, h2, h3, h4⟩ | ⟨h1, h2, h3, h4⟩ | ⟨h1, h2, h3, h4⟩ |
    ⟨h1, h2, h3, x, y, z, w, hx, hy, hz, hw, h4⟩ | ⟨h1, h2, h3, x, hx, h4⟩
  · simp only at h1 h2 h3 h4
    subst h1 h2 h3 h4
    simp only [encodeCompsEnum, if_true] at hc
    simp [hc, hty, hni, ShaderOperand.withF, ShaderOperand.fresh, ShaderOperand.f,
      ShaderOperand.indices]
  · simp only at h1 h2 h3 h4
    subst h1 h2 h3 h4
    simp only [encodeCompsEnum, if_true, one_ne_zero, if_false] at hc
    simp [hc, hty, hni, ShaderOperand.withF, ShaderOperand.fresh, ShaderOperand.f,
      ShaderOperand.indices, SONC_0, SONC_1]
  · simp only at h1 h2 h3 h4
    subst h1 h2 h3
    simp [encodeCompsEnum] at hc
    simp [encodeSel] at hs
    simp at hm
    have hmask : SM_OPERAND_SEL_MASK mask = mask := by
      unfold SM_OPERAND_SEL_MASK; omega
    simp [hc, hm, hs, hty, hni, hmask, ShaderOperand.withF, ShaderOperand.fresh,
      ShaderOperand.f, ShaderOperand.indices, SONC_0, SONC_1, SONC_4, SOSM_MASK]
  · simp only at h1 h2 h3 h4
    subst h1 h2 h3 h4
    simp [encodeCompsEnum] at hc
    simp [encodeSel, SOSM_SWIZZLE, SOSM_MASK] at hs
    simp at hm
    have e0 : SM_OPERAND_SEL_SWZ (x + 4 * y + 16 * z + 64 * w) 0 = x := by
      unfold SM_OPERAND_SEL_SWZ; norm_num; omega
    have e1 : SM_OPERAND_SEL_SWZ (x + 4 * y + 16 * z + 64 * w) 1 = y := by
      unfold SM_OPERAND_SEL_SWZ; norm_num; omega
    have e2 : SM_OPERAND_SEL_SWZ (x + 4 * y + 16 * z + 64 * w) 2 = z := by
      unfold SM_OPERAND_SEL_SWZ; norm_num; omega
    have e3 : SM_OPERAND_SEL_SWZ (x + 4 * y + 16 * z + 64 * w) 3 = w := by
      unfold SM_OPERAND_SEL_SWZ; norm_num; omega
    simp [hc, hm, hs, hty, hni, e0, e1, e2, e3, ShaderOperand.withF, ShaderOperand.fresh,
      ShaderOperand.f, ShaderOperand.indices, SONC_0, SONC_1, SONC_4, SOSM_MASK, SOSM_SWIZZLE]
  · simp only at h1 h2 h3 h4
    subst h1 h2 h3 h4
    simp [encodeCompsEnum] at hc
    simp [encodeSel, SOSM_SWIZZLE, SOSM_MASK, SOSM_SCALAR] at hs
    simp at hm
    have e0 : SM_OPERAND_SEL_SCALAR x = x := by
      unfold SM_OPERAND_SEL_SCALAR; omega
    simp [hc, hm, hs, hty, hni, e0, ShaderOperand.withF, ShaderOperand.fresh,
      ShaderOperand.f, ShaderOperand.indices, SONC_0, SONC_1, SONC_4, SOSM_MASK, SOSM_SWIZZLE,
      SOSM_SCALAR]

/-- The extended-token step on the extended token written for the flags. -/
theorem readOpExt_encoded {b : TokenBuf} {optok r : Nat} {f : OperandFields}
    {ixs : List (ShaderOperandIndex ShaderOperand)}
    (hext : optok_extended optok = 1) (hmem : b.mem[r]? = some (encodeExtToken f))
    (hend : r < b.tokens_end) :
    readOpExt b optok
        (ShaderOperand.mk { f with imm_values := [0, 0, 0, 0], neg := false, abs := false } ixs)
        r =
      .ok (ShaderOperand.mk { f with imm_values := [0, 0, 0, 0] } ixs, r + 1) := by
  obtain ⟨hlt, ht, hng, hab⟩ := ext_fields (if f.neg then 1 else 0) (if f.abs then 1 else 0)
    (by split_ifs <;> omega) (by split_ifs <;> omega)
  have hlt2 : encodeExtToken f < 2 ^ 32 := by
    unfold encodeExtToken
    rw [← hlt]
    exact Nat.mod_lt _ (by norm_num)
  unfold readOpExt
  rw [hext, Read32_at hmem hend hlt2]
  have e1 : optokext_type (encodeExtToken f) = 1 := ht
  have e2 : optokext_neg (encodeExtToken f) = if f.neg then 1 else 0 := hng
  have e3 : optokext_abs (encodeExtToken f) = if f.abs then 1 else 0 := hab
  simp only [bind, Except.bind, e1, e2, e3, pure, Except.pure, ShaderOperand.withF,
    ShaderOperand.f, ShaderOperand.indices]
  obtain ⟨mode, comps, mask, n, swz, type, imm, neg, abs⟩ := f
  cases neg <;> cases abs <;> simp

theorem Read64_split {b : TokenBuf} {r v : Nat} (h0 : b.mem[r]? = some (v % 2 ^ 32))
    (h1 : b.mem[r + 1]? = some (v / 2 ^ 32)) (hend : r + 1 < b.tokens_end)
    (hv : v < 2 ^ 64) : Read64 b r = .ok (v, r + 2) := by
  have h := Read64_at h0 h1 hend (Nat.mod_lt _ (by norm_num)) (by omega)
  have e : v % 2 ^ 32 + v / 2 ^ 32 * 2 ^ 32 = v := by omega
  rw [e] at h
  exact h

/-- The immediate step on the tokens written for canonical immediate values. -/
theorem readOpImm_encoded {b : TokenBuf} {r : Nat} {f : OperandFields}
    {ixs : List (ShaderOperandIndex ShaderOperand)}
    (hsel : SelCanon f) (himm : ImmCanon f)
    (hat : TokensAt b.mem r (encodeImm f))
    (hend : r + (encodeImm f).length ≤ b.tokens_end) :
    readOpImm b (ShaderOperand.mk { f with imm_values := [0, 0, 0, 0] } ixs) r =
      .ok (ShaderOperand.mk f ixs, r + (encodeImm f).length) := by
  have hcomps := SelCanon_comps hsel
  obtain ⟨mode, comps, mask, n, swz, type, imm, neg, abs⟩ := f
  obtain ⟨v0, v1, v2, v3, hv, hz, h1, h32, h64⟩ := himm
  simp only at hv hz h1 h32 h64 hcomps
  subst hv
  unfold readOpImm
  unfold encodeImm at hat hend ⊢
  simp only [ShaderOperand.f] at hat hend ⊢
  by_cases t32 : SOT_IMMEDIATE32 = type
  · simp only [t32, if_true] at hat hend ⊢
    obtain ⟨b0, b1, b2, b3⟩ := h32 t32
    rcases hcomps with hc | hc | hc
    · subst hc
      obtain ⟨z0, z1, z2, z3⟩ := hz (.inr rfl)
      subst z0 z1 z2 z3
      simp [readOpImmLoop, pure, Except.pure]
    · subst hc
      obtain ⟨z1, z2, z3⟩ := h1 rfl
      subst z1 z2 z3
      simp only [List.take, TokensAt, List.length_cons, List.length_nil] at hat hend ⊢
      simp only [readOpImmLoop, bind, Except.bind, Read32_at hat.1 (by omega) b0, pure,
        Except.pure, ShaderOperand.withF, ShaderOperand.f, ShaderOperand.indices, List.set]
    · subst hc
      simp only [List.take, TokensAt, List.length_cons, List.length_nil] at hat hend ⊢
      obtain ⟨a0, a1, a2, a3, -⟩ := hat
      simp only [readOpImmLoop, bind, Except.bind, Read32_at a0 (by omega) b0,
        Read32_at a1 (by omega) b1, Read32_at a2 (by omega) b2, Read32_at a3 (by omega) b3,
        pure, Except.pure, ShaderOperand.withF, ShaderOperand.f, ShaderOperand.indices,
        List.set]
  · by_cases t64 : SOT_IMMEDIATE64 = type
    · simp only [t32, t64, if_true, if_false] at hat hend ⊢
      obtain ⟨b0, b1, b2, b3⟩ := h64 t64
      rcases hcomps with hc | hc | hc
      · subst hc
        obtain ⟨z0, z1, z2, z3⟩ := hz (.inr rfl)
        subst z0 z1 z2 z3
        simp [readOpImmLoop, pure, Except.pure]
      · subst hc
        obtain ⟨z1, z2, z3⟩ := h1 rfl
        subst z1 z2 z3
        have e : (List.take 1 [v0, 0, 0, 0]).flatMap (fun v => [v % 2 ^ 32, v / 2 ^ 32]) =
            [v0 % 2 ^ 32, v0 / 2 ^ 32] := rfl
        rw [e] at hat hend ⊢
        simp only [TokensAt, List.length_cons, List.length_nil] at hat hend ⊢
        obtain ⟨a0, a1, -⟩ := hat
        simp only [readOpImmLoop, bind, Except.bind, Read64_split a0 a1 (by omega) b0, pure,
          Except.pure, ShaderOperand.withF, ShaderOperand.f, ShaderOperand.indices, List.set]
      · subst hc
        have e : (List.take 4 [v0, v1, v2, v3]).flatMap (fun v => [v % 2 ^ 32, v / 2 ^ 32]) =
            [v0 % 2 ^ 32, v0 / 2 ^ 32, v1 % 2 ^ 32, v1 / 2 ^ 32, v2 % 2 ^ 32, v2 / 2 ^ 32,
              v3 % 2 ^ 32, v3 / 2 ^ 32] := rfl
        rw [e] at hat hend ⊢
        simp only [TokensAt, List.length_cons, List.length_nil] at hat hend ⊢
        obtain ⟨a0, a1, a2, a3, a4, a5, a6, a7, -⟩ := hat
        simp only [readOpImmLoop, bind, Except.bind, Read64_split a0 a1 (by omega) b0,
          Read64_split a2 a3 (by omega) b1, Read64_split a4 a5 (by omega) b2,
          Read64_split a6 a7 (by omega) b3,
          pure, Except.pure, ShaderOperand.withF, ShaderOperand.f, ShaderOperand.indices,
          List.set]
    · simp only [t32, t64, if_false] at hat hend ⊢
      obtain ⟨z0, z1, z2, z3⟩ := hz (.inl ⟨t32, t64⟩)
      subst z0 z1 z2 z3
      simp [pure, Except.pure]

theorem encodeRepr_lt (ix : ShaderOperandIndex ShaderOperand) : encodeRepr ix < 8 := by
  obtain ⟨d, reg⟩ := ix
  cases reg <;> simp [encodeRepr, SOIP_IMM64, SOIP_IMM64_PLUS_RELATIVE]

theorem encodeReprAt_lt (ixs : List (ShaderOperandIndex ShaderOperand)) (n i : Nat) :
    encodeReprAt ixs n i < 8 := by
  unfold encodeReprAt
  split
  · split_ifs
    · exact encodeRepr_lt _
    · omega
  · omega

theorem encodeCompsEnum_lt (c : Nat) : encodeCompsEnum c < 4 := by
  unfold encodeCompsEnum
  split_ifs <;> simp [SONC_0, SONC_1, SONC_4]

theorem encodeSel_lt {f : OperandFields} (h : SelCanon f) : encodeSel f < 256 := by
  obtain ⟨mode, comps, mask, n, swz, type, imm, neg, abs⟩ := f
  rcases h with ⟨h1, h2, h3, h4⟩ | ⟨h1, h2, h3, h4⟩ | ⟨h1, h2, h3, h4⟩ |
    ⟨h1, h2, h3, x, y, z, w, hx, hy, hz, hw, h4⟩ | ⟨h1, h2, h3, x, hx, h4⟩ <;>
    simp only at h1 h2 h3 h4 <;> subst h1 h2 h3 <;>
    simp [encodeSel, SOSM_MASK, SOSM_SWIZZLE, SOSM_SCALAR] <;> (try subst h4) <;>
    (try simp) <;> omega

theorem encodeMode_lt {f : OperandFields} (h : SelCanon f) :
    (if f.comps = 4 then f.mode else 0) < 4 := by
  rcases h with ⟨h1, h2, -⟩ | ⟨h1, h2, -⟩ | ⟨h1, h2, -⟩ | ⟨h1, h2, -⟩ | ⟨h1, h2, -⟩ <;>
    rw [h1, h2] <;> simp [SOSM_MASK, SOSM_SWIZZLE, SOSM_SCALAR]

/-- A nested operand of a used slot takes fewer tokens than the index slots. -/
theorem nested_length_le {n : Nat} {i0 i1 i2 ix : ShaderOperandIndex ShaderOperand}
    {o : ShaderOperand}
    (hu : (ix = i0 ∧ 0 < n) ∨ (ix = i1 ∧ 1 < n) ∨ (ix = i2 ∧ 2 < n)) (ho : ix.reg = some o) :
    (EncodeOp o).length + 2 ≤ (EncodeIndices n [i0, i1, i2]).length := by
  have hl := encodeSlot_length ix
  rw [ho] at hl
  simp only at hl
  rw [EncodeIndices_three]
  simp only [List.length_append]
  rcases hu with ⟨e, h⟩ | ⟨e, h⟩ | ⟨e, h⟩
  · subst e; rw [if_pos h]; omega
  · subst e; rw [if_pos h]; omega
  · subst e; rw [if_pos h]; omega

theorem ReadOpF_step {lim : Limits} {b : TokenBuf} {fuel : Nat} {op op1 op2 : ShaderOperand}
    {r r1 r2 optok : Nat} (h1 : Read32 b r = .ok (optok, r1))
    (h2 : readOpComps lim optok op = .ok op1) (h3 : readOpExt b optok op1 r1 = .ok (op2, r2)) :
    ReadOpF lim b (fuel + 1) op r =
      readOpRest b (fun r => ReadOpF lim b fuel ShaderOperand.fresh r) optok op2 r2 := by
  rw [ReadOpF, h1]
  simp only [bind, Except.bind]
  rw [h2]
  simp only
  rw [h3]

theorem readOpRest_step {b : TokenBuf} {N : Nat → OpResult} {optok : Nat}
    {op op1 : ShaderOperand} {r r1 : Nat}
    (h : readOpIndices b N optok op.f.num_indices 0 op r = .ok (op1, r1)) :
    readOpRest b N optok op r = readOpImm b op1 r1 := by
  unfold readOpRest
  simp only [bind, Except.bind]
  rw [h]

/-- Decoding of encoded operands: on the tokens that `EncodeOp` writes for a
canonical operand, `ReadOp` gives the operand back and consumes exactly these
tokens. -/
theorem decode_encode (lim : Limits) (b : TokenBuf) {op : ShaderOperand} (h : Canon lim op) :
    ∀ (r fuel : Nat), TokensAt b.mem r (EncodeOp op) →
      r + (EncodeOp op).length ≤ b.tokens_end → (EncodeOp op).length ≤ fuel →
      ReadOpF lim b fuel ShaderOperand.fresh r = .ok (op, r + (EncodeOp op).length) := by
  induction h with
  | mk f i0 i1 i2 hty hlim hn hsel himm hrange hnest hz0 hz1 hz2 ih =>
    intro r fuel hat hend hfuel
    have hE : EncodeOp (ShaderOperand.mk f [i0, i1, i2]) =
        encodeOpToken f [i0, i1, i2] :: encodeExtToken f ::
          (EncodeIndices f.num_indices [i0, i1, i2] ++ encodeImm f) := by
      simp only [EncodeOp]
    rw [hE] at hat hend hfuel ⊢
    simp only [TokensAt, List.length_cons, List.length_append] at hat hend hfuel ⊢
    obtain ⟨hH, hX, hrest⟩ := hat
    rw [TokensAt_append] at hrest
    obtain ⟨hidx, himmAt⟩ := hrest
    have b1 : r < b.tokens_end := by omega
    have b2 : r + 1 < b.tokens_end := by omega
    have b3 : r + 1 + 1 + (EncodeIndices f.num_indices [i0, i1, i2]).length ≤ b.tokens_end := by
      omega
    have b4 : r + 1 + 1 + (EncodeIndices f.num_indices [i0, i1, i2]).length +
        (encodeImm f).length ≤ b.tokens_end := by omega
    have b5 : ∀ m, m + 2 ≤ (EncodeIndices f.num_indices [i0, i1, i2]).length → fuel ≠ 0 →
        m ≤ fuel - 1 := by
      intro m hm hf
      omega
    have b6 : fuel ≠ 0 := by omega
    have b7 : f.num_indices < 4 := by omega
    have hp : encodeOpToken f [i0, i1, i2] % 2 ^ 32 = encodeOpToken f [i0, i1, i2] ∧
        optok_comps_enum (encodeOpToken f [i0, i1, i2]) = encodeCompsEnum f.comps ∧
        optok_mode (encodeOpToken f [i0, i1, i2]) = (if f.comps = 4 then f.mode else 0) ∧
        optok_sel (encodeOpToken f [i0, i1, i2]) = encodeSel f ∧
        optok_op_type (encodeOpToken f [i0, i1, i2]) = f.type ∧
        optok_num_indices (encodeOpToken f [i0, i1, i2]) = f.num_indices ∧
        optok_index0_repr (encodeOpToken f [i0, i1, i2]) =
          encodeReprAt [i0, i1, i2] f.num_indices 0 ∧
        optok_index1_repr (encodeOpToken f [i0, i1, i2]) =
          encodeReprAt [i0, i1, i2] f.num_indices 1 ∧
        optok_index2_repr (encodeOpToken f [i0, i1, i2]) =
          encodeReprAt [i0, i1, i2] f.num_indices 2 ∧
        optok_extended (encodeOpToken f [i0, i1, i2]) = 1 :=
      packed_fields (encodeCompsEnum f.comps) (if f.comps = 4 then f.mode else 0) (encodeSel f)
        f.type f.num_indices (encodeReprAt [i0, i1, i2] f.num_indices 0)
        (encodeReprAt [i0, i1, i2] f.num_indices 1) (encodeReprAt [i0, i1, i2] f.num_indices 2)
        (encodeCompsEnum_lt _) (encodeMode_lt hsel) (encodeSel_lt hsel) hty b7
        (encodeReprAt_lt _ _ _) (encodeReprAt_lt _ _ _) (encodeReprAt_lt _ _ _)
    obtain ⟨p0, p1, p2, p3, p4, p5, p6, p7, p8, p9⟩ := hp
    have q0 : encodeOpToken f [i0, i1, i2] < 2 ^ 32 := by
      rw [← p0]
      exact Nat.mod_lt _ (by norm_num)
    cases fuel with
    | zero => exact absurd rfl b6
    | succ k =>
      have s1 := readOpComps_encoded (f := f) p4 p5 p1 p2 p3 hlim hsel
      have s2 : readOpExt b (encodeOpToken f [i0, i1, i2])
          (ShaderOperand.mk { f with imm_values := [0, 0, 0, 0], neg := false, abs := false }
            [⟨0, none⟩, ⟨0, none⟩, ⟨0, none⟩]) (r + 1) = _ := readOpExt_encoded p9 hX b2
      have s3 : readOpIndices b (fun r => ReadOpF lim b k ShaderOperand.fresh r)
          (encodeOpToken f [i0, i1, i2]) f.num_indices 0
          (ShaderOperand.mk { f with imm_values := [0, 0, 0, 0] }
            [⟨0, none⟩, ⟨0, none⟩, ⟨0, none⟩]) (r + 1 + 1) = _ :=
        readOpIndices_encoded hn
          (fun hp => by rw [p6]
                        simp [encodeReprAt, hp])
          (fun hp => by rw [p7]
                        simp [encodeReprAt, hp])
          (fun hp => by rw [p8]
                        simp [encodeReprAt, hp])
          hrange
          (fun ix o y hu ho hy1 hy2 => ih ix o hu ho y k hy1 hy2
            (b5 _ (nested_length_le hu ho) (Nat.succ_ne_zero k)))
          hz0 hz1 hz2 hidx b3
      have s4 : readOpImm b (ShaderOperand.mk { f with imm_values := [0, 0, 0, 0] } [i0, i1, i2])
          (r + 1 + 1 + (EncodeIndices f.num_indices [i0, i1, i2]).length) = _ :=
        readOpImm_encoded hsel himm himmAt b4
      have e : r + ((EncodeIndices f.num_indices [i0, i1, i2]).length + (encodeImm f).length +
          1 + 1) = r + 1 + 1 + (EncodeIndices f.num_indices [i0, i1, i2]).length +
          (encodeImm f).length := by
        simp only [Nat.add_assoc, Nat.add_comm, Nat.add_left_comm]
      rw [e]
      exact (ReadOpF_step (Read32_at hH b1 q0) s1 s2).trans ((readOpRest_step s3).trans s4)

theorem TokensAt_self : ∀ (l pre : List Nat), TokensAt (pre ++ l) pre.length l := by
  intro l
  induction l with
  | nil => intro pre; trivial
  | cons x l ih =>
    intro pre
    have h0 : (pre ++ x :: l)[pre.length]? = some x := by
      rw [List.getElem?_append_right (Nat.le_refl _), Nat.sub_self]
      simp
    refine ⟨h0, ?_⟩
    have h := ih (pre ++ [x])
    simp only [List.append_assoc, List.singleton_append, List.length_append, List.length_cons,
      List.length_nil, zero_add] at h
    exact h

/-- Claim C3, counterexample: the token sequences `[0x100000, 5]` (one index in
the 32-bit immediate representation) and `[0x500000, 5, 0]` (the same index in
the 64-bit immediate representation) differ, each is completely consumed by a
successful `ReadOp`, and both are decoded to the same operand; so `ReadOp` is
not injective on the sequences it accepts, and no encoder gives the original
tokens back from the operand. -/
theorem C3_counterexample :
    ∃ op : ShaderOperand,
      ReadOp sampleLimits (TokenBuf.init [0x100000, 5]) ShaderOperand.fresh 0 = .ok (op, 2) ∧
      ReadOp sampleLimits (TokenBuf.init [0x500000, 5, 0]) ShaderOperand.fresh 0 = .ok (op, 3) ∧
      [0x100000, 5] ≠ [0x500000, 5, 0] :=
  ⟨.mk { mode := 0, comps := 0, mask := 15, num_indices := 1, swizzle := [0, 1, 2, 3],
         type := 0, imm_values := [0, 0, 0, 0], neg := false, abs := false }
       [⟨5, none⟩, ⟨0, none⟩, ⟨0, none⟩], rfl, rfl, by decide⟩

/-- The encoder is injective on canonical operands, since `ReadOp` gives the
operand back from its tokens. -/
theorem EncodeOp_injective (lim : Limits) {op1 op2 : ShaderOperand} (h1 : Canon lim op1)
    (h2 : Canon lim op2) (he : EncodeOp op1 = EncodeOp op2) : op1 = op2 := by
  have d1 := decode_encode lim (TokenBuf.init (EncodeOp op1)) h1 0
    ((EncodeOp op1).length) (TokensAt_self (EncodeOp op1) [])
    (by simp [TokenBuf.init]) (Nat.le_refl _)
  have d2 := decode_encode lim (TokenBuf.init (EncodeOp op2)) h2 0
    ((EncodeOp op2).length) (TokensAt_self (EncodeOp op2) [])
    (by simp [TokenBuf.init]) (Nat.le_refl _)
  rw [← he] at d2
  rw [d1] at d2
  cases d2
  rfl

/-- Claim C3 (amended), operand round-trip through the encoder: for every
canonical operand `op` (the predicate `Canon` describes it field by field,
without the decoder), `ReadOp` run on the tokens `EncodeOp op`, wherever they
stand in a stream, succeeds, gives exactly `op` back and consumes exactly
these tokens; so the encoder is injective on canonical operands. And the
canonical operands are all the operands that `ReadOp` decodes: what a
successful `ReadOp` returns is canonical, and decoding its re-encoding gives
it back. -/
theorem C3_operand_reencoding (lim : Limits) (op : ShaderOperand) (h : Canon lim op) :
    (∀ (b : TokenBuf) (r : Nat), TokensAt b.mem r (EncodeOp op) →
      r + (EncodeOp op).length ≤ b.tokens_end →
      ReadOp lim b ShaderOperand.fresh r = .ok (op, r + (EncodeOp op).length)) ∧
    ReadOp lim (TokenBuf.init (EncodeOp op)) ShaderOperand.fresh 0 =
      .ok (op, (EncodeOp op).length) ∧
    (∀ op2, Canon lim op2 → EncodeOp op2 = EncodeOp op → op2 = op) ∧
    (∀ (b : TokenBuf) (r r1 : Nat) (o : ShaderOperand),
      ReadOp lim b ShaderOperand.fresh r = .ok (o, r1) →
      Canon lim o ∧
        ReadOp lim (TokenBuf.init (EncodeOp o)) ShaderOperand.fresh 0 =
          .ok (o, (EncodeOp o).length)) := by
  have key : ∀ (o : ShaderOperand), Canon lim o → ∀ (b : TokenBuf) (r : Nat),
      TokensAt b.mem r (EncodeOp o) → r + (EncodeOp o).length ≤ b.tokens_end →
      ReadOp lim b ShaderOperand.fresh r = .ok (o, r + (EncodeOp o).length) := by
    intro o ho b r hat hend
    exact decode_encode lim b ho r (b.tokens_end - r + 1) hat hend (by omega)
  have self : ∀ (o : ShaderOperand), Canon lim o →
      ReadOp lim (TokenBuf.init (EncodeOp o)) ShaderOperand.fresh 0 =
        .ok (o, (EncodeOp o).length) := by
    intro o ho
    have hd := key o ho (TokenBuf.init (EncodeOp o)) 0 (TokensAt_self (EncodeOp o) [])
      (by simp [TokenBuf.init])
    rw [Nat.zero_add] at hd
    exact hd
  refine ⟨key op h, self op h, ?_, ?_⟩
  · intro op2 h2 he
    exact EncodeOp_injective lim h2 h he
  · intro b r r1 o ho
    have hc : Canon lim o := ReadOpF_canon lim b _ o r r1 ho
    exact ⟨hc, self o hc⟩

theorem sampleNestedOperand_canon : Canon sampleLimits sampleNestedOperand := by
  have hinner : Canon sampleLimits
      (.mk { mode := 0, comps := 0, mask := 15, num_indices := 1,
             swizzle := [0, 1, 2, 3], type := 0, imm_values := [0, 0, 0, 0],
             neg := false, abs := false }
        [⟨-1, none⟩, ⟨0, none⟩, ⟨0, none⟩]) := by
    refine Canon.mk _ _ _ _ (by decide) (by decide) (by decide)
      (Or.inl ⟨rfl, rfl, rfl, rfl⟩)
      ⟨0, 0, 0, 0, rfl, fun _ => ⟨rfl, rfl, rfl, rfl⟩, fun _ => ⟨rfl, rfl, rfl⟩,
        fun _ => by norm_num, fun _ => by norm_num⟩ ?_ ?_
      (fun h => absurd h (by decide)) (fun _ => rfl) (fun _ => rfl)
    · rintro ix (⟨rfl, -⟩ | ⟨-, h⟩ | ⟨-, h⟩)
      · constructor <;> norm_num
      · exact absurd h (by decide)
      · exact absurd h (by decide)
    · rintro ix o (⟨rfl, -⟩ | ⟨-, h⟩ | ⟨-, h⟩) hreg
      · cases hreg
      · exact absurd h (by decide)
      · exact absurd h (by decide)
  unfold sampleNestedOperand
  refine Canon.mk _ _ _ _ (by decide) (by decide) (by decide)
    (Or.inl ⟨rfl, rfl, rfl, rfl⟩)
    ⟨0, 0, 0, 0, rfl, fun _ => ⟨rfl, rfl, rfl, rfl⟩, fun _ => ⟨rfl, rfl, rfl⟩,
      fun _ => by norm_num, fun _ => by norm_num⟩ ?_ ?_
    (fun h => absurd h (by decide)) (fun _ => rfl) (fun _ => rfl)
  · rintro ix (⟨rfl, -⟩ | ⟨-, h⟩ | ⟨-, h⟩)
    · constructor <;> norm_num
    · exact absurd h (by decide)
    · exact absurd h (by decide)
  · rintro ix o (⟨rfl, -⟩ | ⟨-, h⟩ | ⟨-, h⟩) hreg
    · cases hreg
      exact hinner
    · exact absurd h (by decide)
    · exact absurd h (by decide)

/-- Witness for C3: the operand `sampleNestedOperand` is canonical; decoding
its encoding gives it back, also when the tokens stand at position 2 of a
longer stream; the stream `[0x900000, 0x100000, 0xFFFFFFFF]` decodes to it as
well, and differs from its encoding. -/
theorem C3_operand_reencoding_witness :
    EncodeOp sampleNestedOperand =
      [0x81100000, 1, 0, 0, 0x80500000, 1, 0xFFFFFFFF, 0xFFFFFFFF] ∧
    ReadOp sampleLimits (TokenBuf.init [0x900000, 0x100000, 0xFFFFFFFF]) ShaderOperand.fresh 0 =
      .ok (sampleNestedOperand, 3) ∧
    ReadOp sampleLimits
        (TokenBuf.init ([7, 7] ++ EncodeOp sampleNestedOperand ++ [7])) ShaderOperand.fresh 2 =
      .ok (sampleNestedOperand, 2 + (EncodeOp sampleNestedOperand).length) ∧
    ReadOp sampleLimits (TokenBuf.init (EncodeOp sampleNestedOperand)) ShaderOperand.fresh 0 =
      .ok (sampleNestedOperand, (EncodeOp sampleNestedOperand).length) :=
  ⟨by decide, rfl,
    (C3_operand_reencoding sampleLimits sampleNestedOperand sampleNestedOperand_canon).1
      (TokenBuf.init ([7, 7] ++ EncodeOp sampleNestedOperand ++ [7])) 2
      ⟨rfl, rfl, rfl, rfl, rfl, rfl, rfl, rfl, trivial⟩ (by decide),
    (C3_operand_reencoding sampleLimits sampleNestedOperand sampleNestedOperand_canon).2.1⟩

theorem specIndicesTokens_cons (mem : List Nat) (optok k i : Nat)
    (ix : ShaderOperandIndex ShaderOperand) (rest : List (ShaderOperandIndex ShaderOperand))
    (p : Nat) :
    specIndicesTokens mem optok (k + 1) i (ix :: rest) p =
      specIndexTokens (specReprOf optok i)
          (match ix.reg with
            | none => 0
            | some o => specOperandTokens mem o (p + specDispTokens (specReprOf optok i))) +
        specIndicesTokens mem optok k (i + 1) rest
          (p + specIndexTokens (specReprOf optok i)
            (match ix.reg with
              | none => 0
              | some o => specOperandTokens mem o (p + specDispTokens (specReprOf optok i)))) := by
  obtain ⟨d, reg⟩ := ix
  cases reg with
  | none => simp [specIndicesTokens]
  | some o => simp [specIndicesTokens]

theorem specIndicesTokens_zero (mem : List Nat) (optok i : Nat)
    (l : List (ShaderOperandIndex ShaderOperand)) (p : Nat) :
    specIndicesTokens mem optok 0 i l p = 0 := by
  cases l <;> simp [specIndicesTokens]

theorem indexRepr_spec {optok i repr : Nat} (h : indexRepr optok i = .ok repr) :
    repr = specReprOf optok i := by
  unfold indexRepr at h
  unfold specReprOf
  simp only [pure, Except.pure, throw, throwThe, MonadExceptOf.throw] at h
  split_ifs at h with h0 h1 h2
  · cases h
    simp [← h0]
  · cases h
    simp [← h1]
  · cases h
    have e0 : ¬ (i = 0) := fun e => h0 e.symm
    have e1 : ¬ (i = 1) := fun e => h1 e.symm
    simp [e0, e1]

/-- Position after one index step: the tokens of the displacement, then those
of the nested operand, `T o x` being the number of tokens that the nested
reader takes for the operand `o` at position `x`. -/
theorem readOpIndex_tokens {b : TokenBuf} {N : Nat → OpResult} {T : ShaderOperand → Nat → Nat}
    {repr i : Nat} {op op1 : ShaderOperand} {r r1 : Nat}
    (hN : ∀ x o x1, N x = .ok (o, x1) → x1 = x + T o x)
    (h : readOpIndex b N repr i op r = .ok (op1, r1)) :
    ∃ d reg, op1 = op.updIndex i (slotWrite d reg) ∧
      r1 = r + specIndexTokens repr
        (match reg with
          | none => 0
          | some o => T o (r + specDispTokens repr)) := by
  unfold readOpIndex at h
  simp only [pure, Except.pure] at h
  split_ifs at h with h0 h1 h2 h3 h4
  · simp only [bind_eq_ok] at h
    obtain ⟨⟨t, r2⟩, hr, h⟩ := h
    cases h
    obtain ⟨rfl, -⟩ := Read32_ok hr
    refine ⟨toInt32 t, none, updIndex_updIndex _ _ _ _, ?_⟩
    simp [specIndexTokens, h0]
  · simp only [bind_eq_ok] at h
    obtain ⟨⟨t, r2⟩, hr, h⟩ := h
    cases h
    obtain ⟨rfl, -⟩ := Read64_ok hr
    refine ⟨toInt64 t, none, updIndex_updIndex _ _ _ _, ?_⟩
    subst h1
    simp [specIndexTokens, SOIP_IMM32, SOIP_IMM64]
  · simp only [bind_eq_ok] at h
    obtain ⟨⟨o, r2⟩, ho, h⟩ := h
    cases h
    refine ⟨0, some o, updIndex_updIndex _ _ _ _, ?_⟩
    have hx := hN _ _ _ ho
    subst h2
    simp only [specIndexTokens, specDispTokens]
    simpa [SOIP_IMM32, SOIP_IMM64, SOIP_RELATIVE, SOIP_IMM32_PLUS_RELATIVE,
      SOIP_IMM64_PLUS_RELATIVE] using hx
  · simp only [bind_eq_ok] at h
    obtain ⟨⟨t, r2⟩, hr, ⟨o, r3⟩, ho, h⟩ := h
    cases h
    obtain ⟨rfl, -⟩ := Read32_ok hr
    refine ⟨toInt32 t, some o, ?_, ?_⟩
    · rw [updIndex_updIndex, updIndex_updIndex]
      rfl
    · have hx := hN _ _ _ ho
      subst h3
      simp only [specIndexTokens, specDispTokens]
      simp only [SOIP_IMM32, SOIP_IMM64, SOIP_RELATIVE, SOIP_IMM32_PLUS_RELATIVE,
        SOIP_IMM64_PLUS_RELATIVE] at hx ⊢
      simp only [Nat.reduceEqDiff, if_false, if_true, or_true] at hx ⊢
      omega
  · simp only [bind_eq_ok] at h
    obtain ⟨⟨t, r2⟩, hr, ⟨o, r3⟩, ho, h⟩ := h
    cases h
    obtain ⟨rfl, -⟩ := Read64_ok hr
    refine ⟨toInt64 t, some o, ?_, ?_⟩
    · rw [updIndex_updIndex, updIndex_updIndex]
      rfl
    · have hx := hN _ _ _ ho
      subst h4
      simp only [specIndexTokens, specDispTokens]
      simp only [SOIP_IMM32, SOIP_IMM64, SOIP_RELATIVE, SOIP_IMM32_PLUS_RELATIVE,
        SOIP_IMM64_PLUS_RELATIVE] at hx ⊢
      simp only [Nat.reduceEqDiff, if_false, if_true, or_true, or_false] at hx ⊢
      omega
  · cases h
    refine ⟨0, none, rfl, ?_⟩
    simp [specIndexTokens, h0, h1, h2, h3, h4]

/-- Position after the index loop, run on the slots of a newly made operand. -/
theorem readOpIndices_tokens {b : TokenBuf} {N : Nat → OpResult} {optok n : Nat}
    {f : OperandFields} {op1 : ShaderOperand} {r r1 : Nat} (hn : n ≤ 3)
    (hN : ∀ x o x1, N x = .ok (o, x1) → x1 = x + specOperandTokens b.mem o x)
    (h : readOpIndices b N optok n 0 (ShaderOperand.mk f [⟨0, none⟩, ⟨0, none⟩, ⟨0, none⟩]) r =
      .ok (op1, r1)) :
    ∃ i0 i1 i2, op1 = ShaderOperand.mk f [i0, i1, i2] ∧
      r1 = r + specIndicesTokens b.mem optok n 0 [i0, i1, i2] r := by
  have hw : ∀ (d : Int) (reg : Option ShaderOperand),
      (slotWrite d reg ⟨0, none⟩).reg = reg := by
    intro d reg
    cases reg <;> rfl
  rcases n with _ | _ | _ | _ | n
  · obtain ⟨rfl, rfl⟩ := readOpIndices_zero h
    exact ⟨_, _, _, rfl, by simp [specIndicesTokens_zero]⟩
  · obtain ⟨repr, opm, rm, hr0, h0, h⟩ := readOpIndices_succ h
    obtain ⟨rfl, rfl⟩ := readOpIndices_zero h
    obtain ⟨d0, g0, rfl, e0⟩ := readOpIndex_tokens hN h0
    refine ⟨slotWrite d0 g0 ⟨0, none⟩, ⟨0, none⟩, ⟨0, none⟩, rfl, ?_⟩
    rw [specIndicesTokens_cons, specIndicesTokens_zero, hw, ← indexRepr_spec hr0, e0]
    rfl
  · obtain ⟨repr, opm, rm, hr0, h0, h⟩ := readOpIndices_succ h
    obtain ⟨repr1, opm1, rm1, hr1, h1, h⟩ := readOpIndices_succ h
    obtain ⟨rfl, rfl⟩ := readOpIndices_zero h
    obtain ⟨d0, g0, rfl, e0⟩ := readOpIndex_tokens hN h0
    obtain ⟨d1, g1, rfl, e1⟩ := readOpIndex_tokens hN h1
    refine ⟨slotWrite d0 g0 ⟨0, none⟩, slotWrite d1 g1 ⟨0, none⟩, ⟨0, none⟩, rfl, ?_⟩
    rw [specIndicesTokens_cons, specIndicesTokens_cons, specIndicesTokens_zero, hw, hw,
      ← indexRepr_spec hr0, ← indexRepr_spec hr1, ← e0, e1, e0]
    simp only [Nat.add_assoc, Nat.add_zero]
  · obtain ⟨repr, opm, rm, hr0, h0, h⟩ := readOpIndices_succ h
    obtain ⟨repr1, opm1, rm1, hr1, h1, h⟩ := readOpIndices_succ h
    obtain ⟨repr2, opm2, rm2, hr2, h2, h⟩ := readOpIndices_succ h
    obtain ⟨rfl, rfl⟩ := readOpIndices_zero h
    obtain ⟨d0, g0, rfl, e0⟩ := readOpIndex_tokens hN h0
    obtain ⟨d1, g1, rfl, e1⟩ := readOpIndex_tokens hN h1
    obtain ⟨d2, g2, rfl, e2⟩ := readOpIndex_tokens hN h2
    refine ⟨slotWrite d0 g0 ⟨0, none⟩, slotWrite d1 g1 ⟨0, none⟩, slotWrite d2 g2 ⟨0, none⟩,
      rfl, ?_⟩
    rw [specIndicesTokens_cons, specIndicesTokens_cons, specIndicesTokens_cons,
      specIndicesTokens_zero, hw, hw, hw, ← indexRepr_spec hr0, ← indexRepr_spec hr1,
      ← indexRepr_spec hr2, ← e0, ← e1, e2, e1, e0]
    simp only [Nat.add_assoc, Nat.add_zero]
  · omega

/-- Position after the extended-token step. -/
theorem readOpExt_tokens {b : TokenBuf} {optok : Nat} {op op1 : ShaderOperand} {r r1 : Nat}
    (h : readOpExt b optok op r = .ok (op1, r1)) :
    r1 = r + (if optok_extended optok ≠ 0 then 1 else 0) := by
  unfold readOpExt at h
  split_ifs at h with he
  · simp only [bind_eq_ok] at h
    obtain ⟨⟨x, r2⟩, hx, h⟩ := h
    obtain ⟨rfl, -⟩ := Read32_ok hx
    simp only [pure, Except.pure, throw, throwThe, MonadExceptOf.throw] at h
    split_ifs at h <;> first | (cases h; done) | (cases h; rw [if_pos he])
  · cases h
    rw [if_neg he]
    rfl

theorem Read64_val {b : TokenBuf} {r r2 t : Nat} (h : Read64 b r = .ok (t, r2)) :
    ∃ lo hi, b.mem[r]? = some lo ∧ b.mem[r + 1]? = some hi ∧
      t = lo % 2 ^ 32 + hi % 2 ^ 32 * 2 ^ 32 := by
  unfold Read64 at h
  simp only [bind_eq_ok] at h
  obtain ⟨⟨lo, ra⟩, ha, ⟨hi, rb⟩, hb, h⟩ := h
  obtain ⟨rfl, -, t0, h0, rfl⟩ := Read32_ok ha
  obtain ⟨rfl, -, t1, h1, rfl⟩ := Read32_ok hb
  cases h
  exact ⟨t0, t1, h0, h1, rfl⟩

/-- Trace of the immediate loop, run on the values of a newly made operand. -/
theorem readOpImmLoop_trace {read : Nat → Except ParseError (Nat × Nat)}
    {f : OperandFields} {ixs : List (ShaderOperandIndex ShaderOperand)}
    {op1 : ShaderOperand} {r r1 : Nat} (himm : f.imm_values = [0, 0, 0, 0])
    (hc : f.comps = 0 ∨ f.comps = 1 ∨ f.comps = 4)
    (h : readOpImmLoop read f.comps 0 (ShaderOperand.mk f ixs) r = .ok (op1, r1)) :
    ∃ v0 v1 v2 v3, op1 = ShaderOperand.mk { f with imm_values := [v0, v1, v2, v3] } ixs ∧
      (f.comps = 0 → r1 = r ∧ v0 = 0 ∧ v1 = 0 ∧ v2 = 0 ∧ v3 = 0) ∧
      (f.comps = 1 → read r = .ok (v0, r1) ∧ v1 = 0 ∧ v2 = 0 ∧ v3 = 0) ∧
      (f.comps = 4 → ∃ ra rb rc, read r = .ok (v0, ra) ∧ read ra = .ok (v1, rb) ∧
        read rb = .ok (v2, rc) ∧ read rc = .ok (v3, r1)) := by
  rcases hc with hc | hc | hc
  · rw [hc] at h
    obtain ⟨rfl, rfl⟩ := readOpImmLoop_zero h
    refine ⟨0, 0, 0, 0, ?_, fun _ => ⟨rfl, rfl, rfl, rfl, rfl⟩, fun h1 => ?_, fun h1 => ?_⟩
    · rw [← himm]
    · omega
    · omega
  · rw [hc] at h
    obtain ⟨v0, rm, h0, h⟩ := readOpImmLoop_succ h
    obtain ⟨rfl, rfl⟩ := readOpImmLoop_zero h
    refine ⟨v0, 0, 0, 0, ?_, fun h1 => ?_, fun _ => ⟨h0, rfl, rfl, rfl⟩, fun h1 => ?_⟩
    · simp only [ShaderOperand.withF, ShaderOperand.f, ShaderOperand.indices, himm, List.set]
    · omega
    · omega
  · rw [hc] at h
    obtain ⟨v0, rm0, h0, h⟩ := readOpImmLoop_succ h
    obtain ⟨v1, rm1, h1, h⟩ := readOpImmLoop_succ h
    obtain ⟨v2, rm2, h2, h⟩ := readOpImmLoop_succ h
    obtain ⟨v3, rm3, h3, h⟩ := readOpImmLoop_succ h
    obtain ⟨rfl, rfl⟩ := readOpImmLoop_zero h
    refine ⟨v0, v1, v2, v3, ?_, fun h1 => ?_, fun h1 => ?_, fun _ => ⟨_, _, _, h0, h1, h2, h3⟩⟩
    · simp only [ShaderOperand.withF, ShaderOperand.f, ShaderOperand.indices, himm, List.set]
    · omega
    · omega

/-- Position and values after `readOpImm`, run on the values of a newly made
operand: the immediate values are the tokens from position `r` on. -/
theorem readOpImm_tokens {b : TokenBuf} {f : OperandFields}
    {ixs : List (ShaderOperandIndex ShaderOperand)} {op1 : ShaderOperand} {r r1 : Nat}
    (himm : f.imm_values = [0, 0, 0, 0]) (hc : f.comps = 0 ∨ f.comps = 1 ∨ f.comps = 4)
    (h : readOpImm b (ShaderOperand.mk f ixs) r = .ok (op1, r1)) :
    ∃ vs, op1 = ShaderOperand.mk { f with imm_values := vs } ixs ∧
      r1 = r + specImmTokens f.type f.comps ∧
      (SOT_IMMEDIATE32 = f.type → ∀ i, i < f.comps →
        ∃ t, b.mem[r + i]? = some t ∧ vs[i]? = some (t % 2 ^ 32)) ∧
      (SOT_IMMEDIATE64 = f.type → ∀ i, i < f.comps →
        ∃ lo hi, b.mem[r + 2 * i]? = some lo ∧ b.mem[r + 2 * i + 1]? = some hi ∧
          vs[i]? = some (lo % 2 ^ 32 + hi % 2 ^ 32 * 2 ^ 32)) ∧
      (SOT_IMMEDIATE32 ≠ f.type → SOT_IMMEDIATE64 ≠ f.type → vs = [0, 0, 0, 0]) := by
  unfold readOpImm at h
  simp only [ShaderOperand.f] at h
  split_ifs at h with h32 h64
  · obtain ⟨v0, v1, v2, v3, rfl, z0, z1, z4⟩ := readOpImmLoop_trace himm hc h
    have hm : specImmTokens f.type f.comps = f.comps := by
      unfold specImmTokens
      rw [if_pos h32]
    rw [hm]
    refine ⟨_, rfl, ?_, fun _ => ?_, fun h5 => ?_, fun hne => absurd h32 hne⟩
    · rcases hc with hc | hc | hc
      · rw [(z0 hc).1, hc]
        rfl
      · obtain ⟨rfl, -⟩ := Read32_ok (z1 hc).1
        rw [hc]
      · obtain ⟨ra, rb, rc, ha, hb, hc', hd⟩ := z4 hc
        obtain ⟨rfl, -⟩ := Read32_ok ha
        obtain ⟨rfl, -⟩ := Read32_ok hb
        obtain ⟨rfl, -⟩ := Read32_ok hc'
        obtain ⟨rfl, -⟩ := Read32_ok hd
        rw [hc]
    · intro i hi
      rcases hc with hc | hc | hc
      · omega
      · obtain ⟨-, -, t0, ht0, rfl⟩ := Read32_ok (z1 hc).1
        have : i = 0 := by omega
        subst this
        exact ⟨t0, ht0, rfl⟩
      · obtain ⟨ra, rb, rc, ha, hb, hc', hd⟩ := z4 hc
        obtain ⟨rfl, -, t0, ht0, rfl⟩ := Read32_ok ha
        obtain ⟨rfl, -, t1, ht1, rfl⟩ := Read32_ok hb
        obtain ⟨rfl, -, t2, ht2, rfl⟩ := Read32_ok hc'
        obtain ⟨rfl, -, t3, ht3, rfl⟩ := Read32_ok hd
        have : i = 0 ∨ i = 1 ∨ i = 2 ∨ i = 3 := by omega
        rcases this with rfl | rfl | rfl | rfl
        · exact ⟨t0, ht0, rfl⟩
        · exact ⟨t1, ht1, rfl⟩
        · exact ⟨t2, ht2, rfl⟩
        · exact ⟨t3, ht3, rfl⟩
    · exfalso
      rw [← h32] at h5
      revert h5
      decide
  · obtain ⟨v0, v1, v2, v3, rfl, z0, z1, z4⟩ := readOpImmLoop_trace himm hc h
    have hm : specImmTokens f.type f.comps = 2 * f.comps := by
      unfold specImmTokens
      rw [if_neg h32, if_pos h64]
    rw [hm]
    refine ⟨_, rfl, ?_, fun h4 => absurd h4 h32, fun _ => ?_, fun _ hne => absurd h64 hne⟩
    · rcases hc with hc | hc | hc
      · rw [(z0 hc).1, hc]
        rfl
      · obtain ⟨rfl, -⟩ := Read64_ok (z1 hc).1
        rw [hc]
      · obtain ⟨ra, rb, rc, ha, hb, hc', hd⟩ := z4 hc
        obtain ⟨rfl, -⟩ := Read64_ok ha
        obtain ⟨rfl, -⟩ := Read64_ok hb
        obtain ⟨rfl, -⟩ := Read64_ok hc'
        obtain ⟨rfl, -⟩ := Read64_ok hd
        rw [hc]
    · intro i hi
      rcases hc with hc | hc | hc
      · omega
      · obtain ⟨lo, hi', hlo, hhi, rfl⟩ := Read64_val (z1 hc).1
        have : i = 0 := by omega
        subst this
        exact ⟨lo, hi', hlo, hhi, rfl⟩
      · obtain ⟨ra, rb, rc, ha, hb, hc', hd⟩ := z4 hc
        obtain ⟨rfl, -⟩ := Read64_ok ha
        obtain ⟨rfl, -⟩ := Read64_ok hb
        obtain ⟨rfl, -⟩ := Read64_ok hc'
        obtain ⟨l0, u0, hl0, hu0, rfl⟩ := Read64_val ha
        obtain ⟨l1, u1, hl1, hu1, rfl⟩ := Read64_val hb
        obtain ⟨l2, u2, hl2, hu2, rfl⟩ := Read64_val hc'
        obtain ⟨l3, u3, hl3, hu3, rfl⟩ := Read64_val hd
        have : i = 0 ∨ i = 1 ∨ i = 2 ∨ i = 3 := by omega
        rcases this with rfl | rfl | rfl | rfl
        · exact ⟨l0, u0, hl0, hu0, rfl⟩
        · exact ⟨l1, u1, hl1, hu1, rfl⟩
        · exact ⟨l2, u2, hl2, hu2, rfl⟩
        · exact ⟨l3, u3, hl3, hu3, rfl⟩
  · simp only [pure, Except.pure] at h
    cases h
    have hm : specImmTokens f.type f.comps = 0 := by
      unfold specImmTokens
      rw [if_neg h32, if_neg h64]
    rw [hm]
    exact ⟨[0, 0, 0, 0], by rw [← himm], rfl, fun h4 => absurd h4 h32,
      fun h5 => absurd h5 h64, fun _ _ => rfl⟩

/-- Token consumption of `ReadOp` at every nesting depth, with the immediate
values as the last tokens consumed. -/
theorem ReadOpF_tokens (lim : Limits) (b : TokenBuf) :
    ∀ (fuel : Nat) (op : ShaderOperand) (r r1 : Nat),
      ReadOpF lim b fuel ShaderOperand.fresh r = .ok (op, r1) →
      r1 = r + specOperandTokens b.mem op r ∧
      (SOT_IMMEDIATE32 = op.f.type → ∀ i, i < op.f.comps →
        ∃ t, b.mem[r1 - op.f.comps + i]? = some t ∧ op.f.imm_values[i]? = some (t % 2 ^ 32)) ∧
      (SOT_IMMEDIATE64 = op.f.type → ∀ i, i < op.f.comps →
        ∃ lo hi, b.mem[r1 - 2 * op.f.comps + 2 * i]? = some lo ∧
          b.mem[r1 - 2 * op.f.comps + 2 * i + 1]? = some hi ∧
          op.f.imm_values[i]? = some (lo % 2 ^ 32 + hi % 2 ^ 32 * 2 ^ 32)) ∧
      (SOT_IMMEDIATE32 ≠ op.f.type → SOT_IMMEDIATE64 ≠ op.f.type →
        op.f.imm_values = [0, 0, 0, 0])
  | 0, _, _, _, h => by
    simp [ReadOpF, throw, throwThe, MonadExceptOf.throw] at h
  | fuel + 1, op, r, r1, h => by
    simp only [ReadOpF, bind_eq_ok] at h
    obtain ⟨⟨optok, ra⟩, hrd, opa, hc, ⟨opb, rb⟩, he, hrest⟩ := h
    obtain ⟨rfl, -, t0, ht0, rfl⟩ := Read32_ok hrd
    simp only at hc he
    obtain ⟨hci, -, -, hcimm, hct, hcn, hcs, -⟩ := readOpComps_ok hc
    have hsel := readOpComps_selCanon hc
    obtain ⟨hei, hec, hes, hem, hemo, het, hen, heimm⟩ := readOpExt_ok he
    have hselb : SelCanon opb.f := SelCanon_congr hsel hec hemo hes hem
    have hrb := readOpExt_tokens he
    unfold readOpRest at hrest
    simp only [bind_eq_ok] at hrest
    obtain ⟨⟨opc, rc⟩, hidx, himm⟩ := hrest
    simp only at himm
    obtain ⟨fb, ixb⟩ := opb
    obtain ⟨fa, ixa⟩ := opa
    simp only [ShaderOperand.f, ShaderOperand.indices] at hei hen heimm hselb hidx hci hcimm hcn
    have hnum : fb.num_indices = optok_num_indices (t0 % 2 ^ 32) := by rw [hen, hcn]
    have hnb : fb.num_indices ≤ 3 := by
      rw [hnum]
      exact optok_num_indices_le _
    have hib : ixb = [⟨0, none⟩, ⟨0, none⟩, ⟨0, none⟩] := by
      rw [hei, hci]
      rfl
    have himmb : fb.imm_values = [0, 0, 0, 0] := by
      rw [heimm, hcimm]
      rfl
    subst hib
    obtain ⟨i0, i1, i2, rfl, hrc⟩ := readOpIndices_tokens hnb
      (fun x o x1 hx => (ReadOpF_tokens lim b fuel o x x1 hx).1) hidx
    obtain ⟨vs, rfl, hr1, v32, v64, vno⟩ := readOpImm_tokens himmb (SelCanon_comps hselb) himm
    have hget : b.mem.getD r 0 = t0 := by
      rw [List.getD_eq_getElem?_getD, ht0]
      rfl
    refine ⟨?_, ?_, ?_, vno⟩
    · simp only [specOperandTokens, hget]
      rw [hr1, hrc, hrb]
      simp only [Nat.add_assoc]
    · intro h32 i hi
      simp only [ShaderOperand.f] at h32 hi ⊢
      have hm : specImmTokens fb.type fb.comps = fb.comps := by
        unfold specImmTokens
        rw [if_pos h32]
      rw [hm] at hr1
      have e : r1 - fb.comps + i = rc + i := by
        rw [hr1, Nat.add_sub_cancel]
      rw [e]
      exact v32 h32 i hi
    · intro h64 i hi
      simp only [ShaderOperand.f] at h64 hi ⊢
      have h32 : ¬ (SOT_IMMEDIATE32 = fb.type) := by
        intro h4
        rw [← h4] at h64
        revert h64
        decide
      have hm : specImmTokens fb.type fb.comps = 2 * fb.comps := by
        unfold specImmTokens
        rw [if_neg h32, if_pos h64]
      rw [hm] at hr1
      have e : r1 - 2 * fb.comps + 2 * i = rc + 2 * i := by
        rw [hr1, Nat.add_sub_cancel]
      rw [e]
      exact v64 h64 i hi

/-- Claim C11, operand token consumption and immediates: a successful `ReadOp`
on a newly made operand, from position `r` to position `r1`, consumes
`specOperandTokens` tokens, that is `1 + e + (sum of the c_i over the
indices) + m` with `e` the extended bit, `c_i` the count `specIndexTokens` of
index `i` for its representation and for the token count of its nested
operand, and `m = specImmTokens type comps`. For an IMMEDIATE32 operand the
values `imm_values[i]`, `i < comps`, are the last `comps` tokens consumed, in
order; for an IMMEDIATE64 operand they are the last `2 * comps` tokens taken
in pairs, low word first; for every other type no immediate value is read and
`imm_values` stays as in a newly made operand. -/
theorem C11_operand_token_consumption (lim : Limits) (b : TokenBuf) (r r1 : Nat)
    (op : ShaderOperand) (h : ReadOp lim b ShaderOperand.fresh r = .ok (op, r1)) :
    r1 = r + specOperandTokens b.mem op r ∧
    (SOT_IMMEDIATE32 = op.f.type → ∀ i, i < op.f.comps →
      ∃ t, b.mem[r1 - op.f.comps + i]? = some t ∧ op.f.imm_values[i]? = some (t % 2 ^ 32)) ∧
    (SOT_IMMEDIATE64 = op.f.type → ∀ i, i < op.f.comps →
      ∃ lo hi, b.mem[r1 - 2 * op.f.comps + 2 * i]? = some lo ∧
        b.mem[r1 - 2 * op.f.comps + 2 * i + 1]? = some hi ∧
        op.f.imm_values[i]? = some (lo % 2 ^ 32 + hi % 2 ^ 32 * 2 ^ 32)) ∧
    (SOT_IMMEDIATE32 ≠ op.f.type → SOT_IMMEDIATE64 ≠ op.f.type →
      op.f.imm_values = [0, 0, 0, 0]) :=
  ReadOpF_tokens lim b _ op r r1 h

/-- Witness for C11: the seven tokens of `sampleImmediateOperand` are one
operand: 1 operand token, no extended token, one RELATIVE index whose nested
operand takes 2 tokens, and 4 immediate values. -/
theorem C11_operand_token_consumption_witness :
    ∃ op, ReadOp sampleLimits (TokenBuf.init sampleImmediateOperand) ShaderOperand.fresh 0 =
        .ok (op, 7) ∧
      op.f.imm_values = [1, 2, 3, 4] ∧
      specOperandTokens sampleImmediateOperand op 0 = 1 + 0 + (0 + 2) + 4 ∧
      (7 = 0 + specOperandTokens (TokenBuf.init sampleImmediateOperand).mem op 0 ∧
      (SOT_IMMEDIATE32 = op.f.type → ∀ i, i < op.f.comps →
        ∃ t, (TokenBuf.init sampleImmediateOperand).mem[7 - op.f.comps + i]? = some t ∧
          op.f.imm_values[i]? = some (t % 2 ^ 32)) ∧
      (SOT_IMMEDIATE64 = op.f.type → ∀ i, i < op.f.comps →
        ∃ lo hi, (TokenBuf.init sampleImmediateOperand).mem[7 - 2 * op.f.comps + 2 * i]? =
            some lo ∧
          (TokenBuf.init sampleImmediateOperand).mem[7 - 2 * op.f.comps + 2 * i + 1]? = some hi ∧
          op.f.imm_values[i]? = some (lo % 2 ^ 32 + hi % 2 ^ 32 * 2 ^ 32)) ∧
      (SOT_IMMEDIATE32 ≠ op.f.type → SOT_IMMEDIATE64 ≠ op.f.type →
        op.f.imm_values = [0, 0, 0, 0])) := by
  refine ⟨_, rfl, rfl, rfl, ?_⟩
  exact C11_operand_token_consumption sampleLimits (TokenBuf.init sampleImmediateOperand) 0 7 _
    rfl

theorem le32_length (t : Nat) : (le32 t).length = 4 := rfl

theorem flatMap_le32_length (ws : List Nat) : (ws.flatMap le32).length = 4 * ws.length := by
  induction ws with
  | nil => rfl
  | cons w ws ih =>
    simp only [List.flatMap_cons, List.length_append, ih, le32_length, List.length_cons]
    omega

theorem flatMap_le32_get (ws : List Nat) :
    ∀ (i j : Nat), j < 4 →
      (ws.flatMap le32)[4 * i + j]? = (ws[i]?).bind (fun t => (le32 t)[j]?) := by
  induction ws with
  | nil => intro i j _; simp
  | cons w ws ih =>
    intro i j hj
    rw [List.flatMap_cons]
    cases i with
    | zero =>
      rw [List.getElem?_append_left (by rw [le32_length]; omega)]
      simp
    | succ i =>
      rw [List.getElem?_append_right (by rw [le32_length]; omega), le32_length]
      have e : 4 * (i + 1) + j - 4 = 4 * i + j := by omega
      rw [e, ih i j hj]
      simp

theorem Read32_get {b : TokenBuf} {r t : Nat} (hmem : b.mem[r]? = some t)
    (hend : r < b.tokens_end) : Read32 b r = .ok (t % 2 ^ 32, r + 1) := by
  unfold Read32
  rw [if_pos hend, hmem]

/-- Claim C12, immediate constant buffer: when the token at the position of
the loop has opcode `ImmediateConstantBuffer`, whatever its `length` field, and
is followed by a custom length word `L >= 2` that lies before the end of the
stream and by `L - 2` further tokens in the chunk, the iteration of the loop of
`ParseShader` succeeds, appends exactly one declaration, with opcode
`ImmediateConstantBuffer`, `num = L - 2` and a data blob of `4 * (L - 2)` bytes
that holds the next `L - 2` tokens (little-endian bytes of each token, in
order), appends no instruction, changes nothing else in the program and leaves
the position `L` tokens after the opcode token. -/
theorem C12_immediate_constant_buffer (lim : Limits) (b : TokenBuf) (st : PState)
    (t0 L : Nat) (hcount : SO_IMMEDIATE_CONSTANT_BUFFER < lim.SO_COUNT)
    (h0 : b.mem[st.tokens]? = some t0)
    (hop : insntok_opcode (t0 % 2 ^ 32) = SO_IMMEDIATE_CONSTANT_BUFFER)
    (h1 : b.mem[st.tokens + 1]? = some L) (hL2 : 2 ≤ L) (hL : L < 2 ^ 32)
    (hend : st.tokens + 1 < b.tokens_end) (hmem : st.tokens + L ≤ b.mem.length) :
    ∃ dcl : ShaderDecl,
      parseRecord lim b st =
        .ok { st with tokens := st.tokens + L,
                      prog := { st.prog with dcls := st.prog.dcls ++ [dcl] } } ∧
      dcl = { ShaderDecl.fresh with
        insntok := SO_IMMEDIATE_CONSTANT_BUFFER, num := L - 2,
        data := ((b.mem.drop (st.tokens + 2)).take (L - 2)).flatMap le32 } ∧
      dcl.opcode = SO_IMMEDIATE_CONSTANT_BUFFER ∧ dcl.num = L - 2 ∧
      dcl.data.length = 4 * (L - 2) ∧
      (∀ i, i < L - 2 → ∀ j, j < 4 →
        ∃ t, b.mem[st.tokens + 2 + i]? = some t ∧ dcl.data[4 * i + j]? = (le32 t)[j]?) := by
  have hcl : (L + 2 ^ 32 - 2) % 2 ^ 32 = L - 2 := by omega
  have hlen : ((b.mem.drop (st.tokens + 2)).take (L - 2)).length = L - 2 := by
    rw [List.length_take, List.length_drop]
    omega
  have hpos : (0 : Nat) < 2 ^ 32 := by norm_num
  have hlt0 : st.tokens < b.tokens_end := by omega
  refine ⟨_, ?_, rfl, ?_, rfl, ?_, ?_⟩
  · unfold parseRecord
    rw [Read32_get h0 hlt0]
    have hc : insntok_opcode (t0 % 2 ^ 32) < lim.SO_COUNT := by
      rw [hop]
      exact hcount
    have hi : SO_IMMEDIATE_CONSTANT_BUFFER = insntok_opcode (t0 % 2 ^ 32) := by
      rw [hop]
    simp only [bind, Except.bind, hc, not_true_eq_false, if_false, pure, Except.pure]
    rw [if_pos hi]
    unfold parseICB
    simp only [bind, Except.bind]
    rw [Read32_at h1 hend hL]
    simp only [hcl, Skip, pure, Except.pure]
    have hle : st.tokens + 1 + 1 + (L - 2) ≤ b.mem.length := by omega
    rw [if_neg (not_not.2 hle)]
    have e : st.tokens + 1 + 1 + (L - 2) = st.tokens + L := by omega
    rw [e]
  · show insntok_opcode SO_IMMEDIATE_CONSTANT_BUFFER = SO_IMMEDIATE_CONSTANT_BUFFER
    decide
  · show (((b.mem.drop (st.tokens + 2)).take (L - 2)).flatMap le32).length = 4 * (L - 2)
    rw [flatMap_le32_length, hlen]
  · intro i hi j hj
    have hget : ((b.mem.drop (st.tokens + 2)).take (L - 2))[i]? = b.mem[st.tokens + 2 + i]? := by
      rw [List.getElem?_take_of_lt hi, List.getElem?_drop]
    have hsome : ∃ t, b.mem[st.tokens + 2 + i]? = some t := by
      have hlt : st.tokens + 2 + i < b.mem.length := by omega
      exact ⟨b.mem[st.tokens + 2 + i], List.getElem?_eq_getElem hlt⟩
    obtain ⟨t, ht⟩ := hsome
    refine ⟨t, ht, ?_⟩
    show (((b.mem.drop (st.tokens + 2)).take (L - 2)).flatMap le32)[4 * i + j]? = (le32 t)[j]?
    rw [flatMap_le32_get _ i j hj, hget, ht]
    rfl

/-- Witness for C12 (scenario S2): in `sampleImmediateConstantBuffer` the
record at position 2 has custom length 6; the iteration appends one
declaration whose blob has 16 bytes and ends at position 8, and the whole
parse gives one declaration, with the bytes of the tokens 1, 2, 3, 4, and no
instruction. -/
theorem C12_immediate_constant_buffer_witness :
    (∃ dcl : ShaderDecl,
      parseRecord sampleLimits ⟨sampleImmediateConstantBuffer, 8⟩
          ⟨{ ShaderProgram.fresh with version := 0x00010040 }, 2, 0⟩ =
        .ok ⟨{ ShaderProgram.fresh with version := 0x00010040, dcls := [] ++ [dcl] }, 2 + 6, 0⟩ ∧
      dcl.opcode = SO_IMMEDIATE_CONSTANT_BUFFER ∧ dcl.num = 6 - 2 ∧
      dcl.data.length = 4 * (6 - 2)) ∧
    (ParseShader sampleLimits ShaderProgram.fresh sampleImmediateConstantBuffer).map
        (fun st => (st.prog.dcls.map (fun d => (d.opcode, d.num, d.data)), st.prog.insns.length,
          st.tokens)) =
      .ok ([(SO_IMMEDIATE_CONSTANT_BUFFER, 4, [1, 0, 0, 0, 2, 0, 0, 0, 3, 0, 0, 0, 4, 0, 0, 0])],
        0, 8) := by
  refine ⟨?_, rfl⟩
  obtain ⟨dcl, h1, -, h3, h4, h5, -⟩ := C12_immediate_constant_buffer sampleLimits
    ⟨sampleImmediateConstantBuffer, 8⟩ ⟨{ ShaderProgram.fresh with version := 0x00010040 }, 2, 0⟩
    0x1835 6 (by decide) rfl (by decide) rfl (by decide) (by norm_num) (by decide) (by decide)
  exact ⟨dcl, h1, h3, h4, h5⟩

/-- Fields of one decoded signature record. -/
theorem readSigParam_fields {data : List Nat} {lead : Nat} {tail : Bool} {off : Nat}
    {p : DXBCSignatureParamDesc} (h : readSigParam data lead tail off = .ok p) :
    ClassicSigRecord data (off + lead) p ∧
    (lead = 0 → p.stream = 0) ∧ (lead ≠ 0 → rd32 data off = .ok p.stream) ∧
    (tail = true → rd32 data (off + lead + 24) = .ok p.min_precision) ∧
    (tail = false → p.min_precision = 0) := by
  by_cases hl : lead = 0
  · subst hl
    cases tail
    · simp only [readSigParam, if_true, Bool.false_eq_true, if_false, bind_eq_ok, pure,
        Except.pure, Except.ok.injEq] at h
      obtain ⟨a, ha, c, hc, d, hd, e, he, f, hf, m, hm, w, hw, s, hs, q, hq, h⟩ := h
      subst h hs hq
      exact ⟨⟨ha, hc, hd, he, hf, hm, hw⟩, fun _ => rfl, fun hne => absurd rfl hne,
        fun ht => absurd ht (by decide), fun _ => rfl⟩
    · simp only [readSigParam, if_true, bind_eq_ok, pure, Except.pure, Except.ok.injEq] at h
      obtain ⟨a, ha, c, hc, d, hd, e, he, f, hf, m, hm, w, hw, s, hs, q, hq, h⟩ := h
      subst h hs
      exact ⟨⟨ha, hc, hd, he, hf, hm, hw⟩, fun _ => rfl, fun hne => absurd rfl hne,
        fun _ => hq, fun ht => absurd ht (by decide)⟩
  · cases tail
    · simp only [readSigParam, hl, Bool.false_eq_true, if_false, bind_eq_ok, pure,
        Except.pure, Except.ok.injEq] at h
      obtain ⟨a, ha, c, hc, d, hd, e, he, f, hf, m, hm, w, hw, s, hs, q, hq, h⟩ := h
      subst h hq
      exact ⟨⟨ha, hc, hd, he, hf, hm, hw⟩, fun h0 => absurd h0 hl, fun _ => hs,
        fun ht => absurd ht (by decide), fun _ => rfl⟩
    · simp only [readSigParam, hl, if_true, if_false, bind_eq_ok, pure,
        Except.pure, Except.ok.injEq] at h
      obtain ⟨a, ha, c, hc, d, hd, e, he, f, hf, m, hm, w, hw, s, hs, q, hq, h⟩ := h
      subst h
      exact ⟨⟨ha, hc, hd, he, hf, hm, hw⟩, fun h0 => absurd h0 hl, fun _ => hs,
        fun _ => hq, fun ht => absurd ht (by decide)⟩

/-- The loop over the element table: `n` parameters, parameter `i` being the
record at `off + size * i`. -/
theorem readSigParams_get {data : List Nat} {lead : Nat} {tail : Bool} {size : Nat} :
    ∀ (n off : Nat) {params : List DXBCSignatureParamDesc},
      readSigParams data lead tail size n off = .ok params →
      params.length = n ∧
      ∀ i, i < n → ∃ p, params[i]? = some p ∧
        readSigParam data lead tail (off + size * i) = .ok p
  | 0, off, params, h => by
    simp only [readSigParams, pure, Except.pure] at h
    cases h
    exact ⟨rfl, fun i hi => absurd hi (Nat.not_lt_zero i)⟩
  | n + 1, off, params, h => by
    simp only [readSigParams, bind_eq_ok] at h
    obtain ⟨p, hp, rest, hrest, h⟩ := h
    simp only [pure, Except.pure] at h
    cases h
    obtain ⟨hlen, hget⟩ := readSigParams_get n (off + size) hrest
    refine ⟨by rw [List.length_cons, hlen], ?_⟩
    intro i hi
    cases i with
    | zero => exact ⟨p, by simp, by simpa using hp⟩
    | succ i =>
      obtain ⟨q, hq, hq2⟩ := hget i (by omega)
      refine ⟨q, by simpa using hq, ?_⟩
      have e : off + size * (i + 1) = off + size + size * i := by
        rw [Nat.mul_succ]
        omega
      rw [e]
      exact hq2

/-- The element table decoded by `readSigElements`, per layout. -/
theorem readSigElements_layout {data : List Nat} {fourcc n offset : Nat}
    {params : List DXBCSignatureParamDesc}
    (h : readSigElements data fourcc n offset = .ok params) :
    params.length = n ∧
    (fourcc = FOURCC_ISGN ∨ fourcc = FOURCC_OSGN ∨ fourcc = FOURCC_PCSG →
      ∀ i, i < n → ∃ p, params[i]? = some p ∧ ClassicSigRecord data (offset + 24 * i) p ∧
        p.stream = 0 ∧ p.min_precision = 0) ∧
    (fourcc = FOURCC_OSG5 →
      ∀ i, i < n → ∃ p, params[i]? = some p ∧ rd32 data (offset + 28 * i) = .ok p.stream ∧
        ClassicSigRecord data (offset + 28 * i + 4) p ∧ p.min_precision = 0) ∧
    (fourcc = FOURCC_ISG1 ∨ fourcc = FOURCC_OSG1 →
      ∀ i, i < n → ∃ p, params[i]? = some p ∧ rd32 data (offset + 32 * i) = .ok p.stream ∧
        ClassicSigRecord data (offset + 32 * i + 4) p ∧
        rd32 data (offset + 32 * i + 28) = .ok p.min_precision) := by
  unfold readSigElements at h
  split_ifs at h with h1 h5 hbad
  · obtain ⟨hlen, hget⟩ := readSigParams_get n offset h
    refine ⟨hlen, ?_, ?_, ?_⟩
    · rintro (rfl | rfl | rfl) <;> exact absurd h1 (by decide)
    · rintro rfl
      exact absurd h1 (by decide)
    · intro _ i hi
      obtain ⟨p, hp, hrec⟩ := hget i hi
      obtain ⟨hcl, -, hs, hm, -⟩ := readSigParam_fields hrec
      exact ⟨p, hp, hs (by decide), hcl, hm rfl⟩
  · obtain ⟨hlen, hget⟩ := readSigParams_get n offset h
    refine ⟨hlen, ?_, ?_, ?_⟩
    · rintro (rfl | rfl | rfl) <;> exact absurd h5 (by decide)
    · intro _ i hi
      obtain ⟨p, hp, hrec⟩ := hget i hi
      obtain ⟨hcl, -, hs, -, hm⟩ := readSigParam_fields hrec
      exact ⟨p, hp, hs (by decide), hcl, hm rfl⟩
    · rintro (rfl | rfl) <;> exact absurd h1 (by decide)
  · obtain ⟨hlen, hget⟩ := readSigParams_get n offset h
    refine ⟨hlen, ?_, ?_, ?_⟩
    · intro _ i hi
      obtain ⟨p, hp, hrec⟩ := hget i hi
      obtain ⟨hcl, hs, -, -, hm⟩ := readSigParam_fields hrec
      exact ⟨p, hp, hcl, hs rfl, hm rfl⟩
    · rintro rfl
      exact absurd rfl h5
    · rintro (rfl | rfl)
      · exact absurd (Or.inl rfl) h1
      · exact absurd (Or.inr rfl) h1

/-- Claim C13, signature record layouts: a successful `ParseSignature` on a
chunk whose header holds the count `n` and the offset `offset` of the element
table stores exactly `n` parameters in the list selected by `fourcc`
(`params_in` for ISG1 and ISGN, `params_out` for OSG1, OSG5 and OSGN,
`params_patch` for PCSG), and parameter `i` is decoded from record `i` of the
table: for ISGN, OSGN and PCSG a record of 24 bytes holding the classic fields,
with `stream = 0` and `min_precision = 0`; for OSG5 a record of 28 bytes,
`stream` being its first word, the classic fields following, with
`min_precision = 0`; for ISG1 and OSG1 a record of 32 bytes, `stream` being its
first word and `min_precision` its last word. -/
theorem C13_signature_record_layouts (prog prog1 : ShaderProgram) (sig : DXBCChunk)
    (fourcc n : Nat) (h : ParseSignature prog sig fourcc = .ok (prog1, n)) :
    ∃ offset params, rd32 sig.data 0 = .ok n ∧ rd32 sig.data 4 = .ok offset ∧
      params.length = n ∧
      (fourcc = FOURCC_ISG1 ∨ fourcc = FOURCC_ISGN → prog1 = { prog with params_in := params }) ∧
      (fourcc = FOURCC_OSG1 ∨ fourcc = FOURCC_OSG5 ∨ fourcc = FOURCC_OSGN →
        prog1 = { prog with params_out := params }) ∧
      (fourcc = FOURCC_PCSG → prog1 = { prog with params_patch := params }) ∧
      (fourcc = FOURCC_ISGN ∨ fourcc = FOURCC_OSGN ∨ fourcc = FOURCC_PCSG →
        ∀ i, i < n → ∃ p, params[i]? = some p ∧
          ClassicSigRecord sig.data (offset + 24 * i) p ∧ p.stream = 0 ∧ p.min_precision = 0) ∧
      (fourcc = FOURCC_OSG5 →
        ∀ i, i < n → ∃ p, params[i]? = some p ∧
          rd32 sig.data (offset + 28 * i) = .ok p.stream ∧
          ClassicSigRecord sig.data (offset + 28 * i + 4) p ∧ p.min_precision = 0) ∧
      (fourcc = FOURCC_ISG1 ∨ fourcc = FOURCC_OSG1 →
        ∀ i, i < n → ∃ p, params[i]? = some p ∧
          rd32 sig.data (offset + 32 * i) = .ok p.stream ∧
          ClassicSigRecord sig.data (offset + 32 * i + 4) p ∧
          rd32 sig.data (offset + 32 * i + 28) = .ok p.min_precision) := by
  unfold ParseSignature at h
  simp only [pure, Except.pure, throw, throwThe, MonadExceptOf.throw] at h
  split_ifs at h with hbad
  swap
  · simp only [bind, Except.bind] at h
    cases h
  · simp only [bind_eq_ok] at h
    obtain ⟨u, -, offset, hoff, count, hcount, params, hparams, h⟩ := h
    cases h
    obtain ⟨hlen, hc, h5, h1⟩ := readSigElements_layout hparams
    refine ⟨offset, params, hcount, hoff, hlen, ?_, ?_, ?_, hc, h5, h1⟩
    · intro hf
      unfold storeSigParams
      rw [if_pos hf]
    · intro hf
      have hnot : ¬ (fourcc = FOURCC_ISG1 ∨ fourcc = FOURCC_ISGN) := by
        rcases hf with rfl | rfl | rfl <;> decide
      unfold storeSigParams
      rw [if_neg hnot, if_pos hf]
    · rintro rfl
      unfold storeSigParams
      rw [if_neg (by decide), if_neg (by decide)]

/-- Witness for C13 (scenario S6): the `ISG1` chunk `sampleSignatureChunk`
gives the single input parameter named `POSITION` (string at byte 40), with
semantic index 0, register 0, mask 0xF, stream 0 and minimum precision 2, the
last one being the word at byte 28 of the 32-byte record. -/
theorem C13_signature_record_layouts_witness :
    cstrAt sampleSignatureChunk.data 40 = some [80, 79, 83, 73, 84, 73, 79, 78] ∧
    ∃ offset params p,
      ParseSignature ShaderProgram.fresh sampleSignatureChunk FOURCC_ISG1 =
        .ok ({ ShaderProgram.fresh with params_in := params }, 1) ∧
      params = [⟨40, 0, 0, 3, 0, 0xF, 0, 0, 2⟩] ∧
      rd32 sampleSignatureChunk.data 4 = .ok offset ∧ params[0]? = some p ∧
      rd32 sampleSignatureChunk.data (offset + 32 * 0) = .ok p.stream ∧
      ClassicSigRecord sampleSignatureChunk.data (offset + 32 * 0 + 4) p ∧
      rd32 sampleSignatureChunk.data (offset + 32 * 0 + 28) = .ok p.min_precision := by
  have h : ParseSignature ShaderProgram.fresh sampleSignatureChunk FOURCC_ISG1 =
      .ok ({ ShaderProgram.fresh with params_in := [⟨40, 0, 0, 3, 0, 0xF, 0, 0, 2⟩] }, 1) := rfl
  obtain ⟨offset, params, -, hoff, -, hin, -, -, -, -, h1⟩ :=
    C13_signature_record_layouts ShaderProgram.fresh _ sampleSignatureChunk FOURCC_ISG1 1 h
  obtain ⟨p, hp, hs, hc, hm⟩ := h1 (Or.inl rfl) 0 (by decide)
  have hparams : params = [⟨40, 0, 0, 3, 0, 0xF, 0, 0, 2⟩] := by
    have e := congrArg ShaderProgram.params_in (hin (Or.inl rfl))
    exact e.symm
  refine ⟨by decide, offset, params, p, ?_, hparams, hoff, hp, hs, hc, hm⟩
  rw [hparams]
  exact h

theorem parseInputSignature_own (prog : ShaderProgram) (o : Option DXBCChunk)
    (h : ∀ sig, o = some sig → sig.fourcc = FOURCC_ISGN ∨ sig.fourcc = FOURCC_ISG1) :
    parseInputSignature prog o = specDecodeByOwnTag prog o := by
  cases o with
  | none => rfl
  | some sig =>
    unfold parseInputSignature specDecodeByOwnTag
    rcases h sig rfl with hf | hf
    · have h1 : ¬ (FOURCC_ISG1 = sig.fourcc) := by rw [hf]; decide
      have h2 : FOURCC_ISGN = sig.fourcc := hf.symm
      simp only [h1, if_false, h2, not_true_eq_false]
    · have h1 : FOURCC_ISG1 = sig.fourcc := hf.symm
      simp only [h1, if_true]

theorem parseOutputSignature_own (prog : ShaderProgram) (o : Option DXBCChunk)
    (h : ∀ sig, o = some sig →
      sig.fourcc = FOURCC_OSGN ∨ sig.fourcc = FOURCC_OSG5 ∨ sig.fourcc = FOURCC_OSG1) :
    parseOutputSignature prog o = specDecodeByOwnTag prog o := by
  cases o with
  | none => rfl
  | some sig =>
    unfold parseOutputSignature specDecodeByOwnTag
    rcases h sig rfl with hf | hf | hf
    · have h1 : ¬ (FOURCC_OSG1 = sig.fourcc) := by rw [hf]; decide
      have h5 : ¬ (FOURCC_OSG5 = sig.fourcc) := by rw [hf]; decide
      have h2 : FOURCC_OSGN = sig.fourcc := hf.symm
      simp only [h1, h5, if_false, h2, not_true_eq_false]
    · have h1 : ¬ (FOURCC_OSG1 = sig.fourcc) := by rw [hf]; decide
      have h5 : FOURCC_OSG5 = sig.fourcc := hf.symm
      simp only [h1, if_false, h5, if_true]
    · have h1 : FOURCC_OSG1 = sig.fourcc := hf.symm
      simp only [h1, if_true]

theorem parsePatchSignature_own (prog : ShaderProgram) (o : Option DXBCChunk)
    (h : ∀ sig, o = some sig → sig.fourcc = FOURCC_PCSG) :
    parsePatchSignature prog o = specDecodeByOwnTag prog o := by
  cases o with
  | none => rfl
  | some sig =>
    unfold parsePatchSignature specDecodeByOwnTag
    simp only [h sig rfl]

/-- Claim C14 (counterexample to the claim as stated): `PCSG` and `ISG1` are
both among the six tags. In the container `samplePatchTaggedISG1` the
patch-constant chunk is tagged `ISG1`; `Parse` succeeds and decodes it with the
classic 24-byte layout, which gives a parameter that differs from the one that
the layout of `ISG1`, the chunk's own tag, gives. In the container
`sampleInputTaggedOSG5` the input chunk is tagged `OSG5`; `Parse` fails on the
assertion and decodes nothing. -/
theorem C14_counterexample :
    sampleSignatureChunk.fourcc = FOURCC_ISG1 ∧
    (Parse sampleLimits samplePatchTaggedISG1 ShaderProgram.fresh).map
        (fun p => p.params_patch) = .ok [⟨0, 40, 0, 0, 3, 0, 0, 0, 0⟩] ∧
    readSigElements sampleSignatureChunk.data sampleSignatureChunk.fourcc 1 8 =
      .ok [⟨40, 0, 0, 3, 0, 0xF, 0, 0, 2⟩] ∧
    (specDecodeByOwnTag { ShaderProgram.fresh with version := 0x00010040 }
        (some sampleSignatureChunk)).map (fun p => (p.params_in, p.params_patch)) =
      .ok ([⟨40, 0, 0, 3, 0, 0xF, 0, 0, 2⟩], []) ∧
    (Parse sampleLimits sampleInputTaggedOSG5 ShaderProgram.fresh).map (fun p => p.params_in) =
      .error ParseError.BadMagic :=
  ⟨rfl, rfl, rfl, rfl, rfl⟩

/-- Claim C14 (amended), signature dispatch: when the input-signature chunk, if
present, is tagged `ISGN` or `ISG1`, the output-signature chunk, if present, is
tagged `OSGN`, `OSG5` or `OSG1`, and the patch-constant chunk, if present, is
tagged `PCSG`, then `Parse` decodes every present signature chunk by
`ParseSignature` under the chunk's own tag. Whatever the tags are, the
patch-constant chunk is decoded as `PCSG`, and an input chunk tagged neither
`ISG1` nor `ISGN`, like an output chunk tagged none of `OSG1`, `OSG5`, `OSGN`,
fails the assertion on the tag. -/
theorem C14_signature_dispatch (lim : Limits) (dxbc : DXBCContainer) (prog : ShaderProgram) :
    ((∀ sig, dxbc.input_signature = some sig →
        sig.fourcc = FOURCC_ISGN ∨ sig.fourcc = FOURCC_ISG1) →
      (∀ sig, dxbc.output_signature = some sig →
        sig.fourcc = FOURCC_OSGN ∨ sig.fourcc = FOURCC_OSG5 ∨ sig.fourcc = FOURCC_OSG1) →
      (∀ sig, dxbc.patch_constant_signature = some sig → sig.fourcc = FOURCC_PCSG) →
      Parse lim dxbc prog =
        (ParseShader lim prog dxbc.shader_chunk >>= fun st =>
          parseResource st.prog dxbc.resource_chunk >>= fun p =>
          specDecodeByOwnTag p dxbc.input_signature >>= fun p =>
          specDecodeByOwnTag p dxbc.output_signature >>= fun p =>
          specDecodeByOwnTag p dxbc.patch_constant_signature)) ∧
    (∀ p sig, parsePatchSignature p (some sig) =
      (ParseSignature p sig FOURCC_PCSG).map Prod.fst) ∧
    (∀ p sig, sig.fourcc ≠ FOURCC_ISG1 → sig.fourcc ≠ FOURCC_ISGN →
      parseInputSignature p (some sig) = .error ParseError.BadMagic) ∧
    (∀ p sig, sig.fourcc ≠ FOURCC_OSG1 → sig.fourcc ≠ FOURCC_OSG5 →
      sig.fourcc ≠ FOURCC_OSGN →
      parseOutputSignature p (some sig) = .error ParseError.BadMagic) := by
  refine ⟨?_, ?_, ?_, ?_⟩
  · intro hin hout hpatch
    unfold Parse
    simp only [parseInputSignature_own _ _ hin, parseOutputSignature_own _ _ hout,
      parsePatchSignature_own _ _ hpatch]
  · intro p sig
    unfold parsePatchSignature
    dsimp only
    generalize ParseSignature p sig FOURCC_PCSG = x
    cases x <;> rfl
  · intro p sig h1 h2
    unfold parseInputSignature
    have e1 : ¬ (FOURCC_ISG1 = sig.fourcc) := fun e => h1 e.symm
    have e2 : ¬ (FOURCC_ISGN = sig.fourcc) := fun e => h2 e.symm
    simp only [e1, e2, if_false, not_false_eq_true, if_true]
    rfl
  · intro p sig h1 h2 h3
    unfold parseOutputSignature
    have e1 : ¬ (FOURCC_OSG1 = sig.fourcc) := fun e => h1 e.symm
    have e2 : ¬ (FOURCC_OSG5 = sig.fourcc) := fun e => h2 e.symm
    have e3 : ¬ (FOURCC_OSGN = sig.fourcc) := fun e => h3 e.symm
    simp only [e1, e2, e3, if_false, not_false_eq_true, if_true]
    rfl

/-- Witness for C14 (as amended): in the container of scenario S6 the input
chunk is tagged `ISG1` and there is no other signature chunk; `Parse` decodes
the chunk under its own tag and yields the parameter of the scenario. -/
theorem C14_signature_dispatch_witness :
    Parse sampleLimits sampleSignatureContainer ShaderProgram.fresh =
      (ParseShader sampleLimits ShaderProgram.fresh sampleSignatureContainer.shader_chunk >>=
        fun st => parseResource st.prog sampleSignatureContainer.resource_chunk >>= fun p =>
        specDecodeByOwnTag p sampleSignatureContainer.input_signature >>= fun p =>
        specDecodeByOwnTag p sampleSignatureContainer.output_signature >>= fun p =>
        specDecodeByOwnTag p sampleSignatureContainer.patch_constant_signature) ∧
    (Parse sampleLimits sampleSignatureContainer ShaderProgram.fresh).map
        (fun p => p.params_in) = .ok [⟨40, 0, 0, 3, 0, 0xF, 0, 0, 2⟩] :=
  ⟨(C14_signature_dispatch sampleLimits sampleSignatureContainer ShaderProgram.fresh).1
      (by intro sig h; cases h; exact Or.inr rfl) (by intro sig h; cases h)
      (by intro sig h; cases h), rfl⟩

/-- Invariants of the loop of `ParseShader`: a property kept by every
iteration holds at the end of the loop. -/
theorem ParseShaderLoop_inv {lim : Limits} {b : TokenBuf} (P : PState → Prop)
    (hstep : ∀ sa sb, P sa → parseRecord lim b sa = .ok sb → P sb) :
    ∀ (fuel : Nat) {st st1 : PState} {spans : List RecordSpan},
      ParseShaderLoop lim b fuel st = .ok (st1, spans) → P st → P st1
  | 0, _, _, _, h, _ => by
    simp [ParseShaderLoop, throw, throwThe, MonadExceptOf.throw] at h
  | fuel + 1, st, st1, spans, h, hP => by
    unfold ParseShaderLoop at h
    by_cases hend : st.tokens = b.tokens_end
    · simp only [hend, if_true, pure, Except.pure] at h
      cases h
      exact hP
    · simp only [hend, if_false, bind_eq_ok] at h
      obtain ⟨st2, h2, ⟨st3, spans3⟩, h3, h⟩ := h
      simp only [pure, Except.pure] at h
      cases h
      exact ParseShaderLoop_inv P hstep fuel h3 (hstep _ _ hP h2)

/-- The loop of `ParseShader` ends at `tokens_end`. -/
theorem ParseShaderLoop_end {lim : Limits} {b : TokenBuf} :
    ∀ (fuel : Nat) {st st1 : PState} {spans : List RecordSpan},
      ParseShaderLoop lim b fuel st = .ok (st1, spans) → st1.tokens = b.tokens_end
  | 0, _, _, _, h => by
    simp [ParseShaderLoop, throw, throwThe, MonadExceptOf.throw] at h
  | fuel + 1, st, st1, spans, h => by
    unfold ParseShaderLoop at h
    by_cases hend : st.tokens = b.tokens_end
    · simp only [hend, if_true, pure, Except.pure] at h
      cases h
      exact hend
    · simp only [hend, if_false, bind_eq_ok] at h
      obtain ⟨st2, h2, ⟨st3, spans3⟩, h3, h⟩ := h
      simp only [pure, Except.pure] at h
      cases h
      exact ParseShaderLoop_end fuel h3

/-- Decomposition of a successful `ParseShaderSpans`. -/
theorem ParseShaderSpans_ok {lim : Limits} {prog : ShaderProgram} {mem : List Nat}
    {b : TokenBuf} {st : PState} {spans : List RecordSpan}
    (h : ParseShaderSpans lim prog mem = .ok (b, st, spans)) :
    ∃ v l, mem[0]? = some v ∧ mem[1]? = some l ∧ 2 ≤ mem.length ∧
      b = ⟨mem, 2 - 2 + l % 2 ^ 32⟩ ∧
      ParseShaderLoop lim b (b.tokens_end - 2 + 1)
        ⟨{ prog with version := v % 2 ^ 32 }, 2, 0⟩ = .ok (st, spans) := by
  unfold ParseShaderSpans at h
  simp only [bind_eq_ok] at h
  obtain ⟨⟨version, r1⟩, hv, ⟨lentok, r2⟩, hl, ⟨st1, spans1⟩, hloop, h⟩ := h
  simp only [pure, Except.pure] at h
  cases h
  obtain ⟨rfl, -, v, hv0, rfl⟩ := Read32_ok hv
  obtain ⟨rfl, hlt, l, hl0, rfl⟩ := Read32_ok hl
  exact ⟨v, l, hv0, hl0, hlt, rfl, hloop⟩

/-- Claim C19, stream end: when `ParseShader` succeeds, the final position is
the end computed from the header, the position after the two header tokens
minus 2 plus the length word `lentok`, that is `start + lentok` (positions
count tokens from the start of the chunk, so the start is 0); and with the
length word 2 the program is the initial one with the version set: no
declaration and no instruction is added. Moreover `ParseShader` does succeed
on every chunk of at least two tokens whose length word is 2. -/
theorem C19_stream_end (lim : Limits) (prog : ShaderProgram) (mem : List Nat) :
    (∀ b st spans, ParseShaderSpans lim prog mem = .ok (b, st, spans) →
      ∃ v l, mem[0]? = some v ∧ mem[1]? = some l ∧
        b.tokens_end = 2 - 2 + l % 2 ^ 32 ∧ b.tokens_end = 0 + l % 2 ^ 32 ∧
        st.tokens = b.tokens_end ∧
        (l % 2 ^ 32 = 2 → st.prog = { prog with version := v % 2 ^ 32 } ∧
          st.prog.dcls = prog.dcls ∧ st.prog.insns = prog.insns)) ∧
    (∀ v l, mem[0]? = some v → mem[1]? = some l → l % 2 ^ 32 = 2 →
      ParseShader lim prog mem = .ok ⟨{ prog with version := v % 2 ^ 32 }, 2, 0⟩) := by
  constructor
  · intro b st spans h
    obtain ⟨v, l, hv, hl, hlen, rfl, hloop⟩ := ParseShaderSpans_ok h
    refine ⟨v, l, hv, hl, rfl, by simp, ParseShaderLoop_end _ hloop, ?_⟩
    intro h2
    simp only [h2] at hloop
    simp only [ParseShaderLoop, if_true, pure, Except.pure] at hloop
    cases hloop
    exact ⟨rfl, rfl, rfl⟩
  · intro v l hv hl h2
    have hlen : 2 ≤ mem.length := by
      have := (List.getElem?_eq_some_iff.1 hl).1
      omega
    unfold ParseShader ParseShaderSpans
    have e0 : Read32 (TokenBuf.init mem) 0 = .ok (v % 2 ^ 32, 1) :=
      Read32_get hv (by show 0 < mem.length; omega)
    have e1 : Read32 (TokenBuf.init mem) 1 = .ok (l % 2 ^ 32, 2) :=
      Read32_get hl (by show 1 < mem.length; omega)
    simp only [bind, Except.bind, e0, e1, h2]
    simp only [ParseShaderLoop, if_true, pure, Except.pure]
    rfl

/-- Witness for C19: on the stream of scenario S1 (length word 14, four
records: two declarations, `mov`, `ret`) `ParseShader` succeeds, goes through
the records at 2, 5, 8 and 13 and ends at position 14, the end computed from
the header; on the chunk `[0x00010040, 2]`, a vertex shader 4.0 whose length
word is 2, it ends at position 2 with the initial program. -/
theorem C19_stream_end_witness :
    (∃ st, ParseShaderSpans sampleLimits ShaderProgram.fresh sampleVertexShader =
        .ok (⟨sampleVertexShader, 14⟩, st, [⟨2, 5⟩, ⟨5, 8⟩, ⟨8, 13⟩, ⟨13, 14⟩]) ∧
      st.tokens = 14 ∧ st.prog.dcls.length = 2 ∧ st.prog.insns.length = 2 ∧
      ∃ v l, sampleVertexShader[0]? = some v ∧ sampleVertexShader[1]? = some l ∧
        (⟨sampleVertexShader, 14⟩ : TokenBuf).tokens_end = 2 - 2 + l % 2 ^ 32 ∧
        (⟨sampleVertexShader, 14⟩ : TokenBuf).tokens_end = 0 + l % 2 ^ 32 ∧
        st.tokens = (⟨sampleVertexShader, 14⟩ : TokenBuf).tokens_end ∧
        (l % 2 ^ 32 = 2 →
          st.prog = { ShaderProgram.fresh with version := v % 2 ^ 32 } ∧
          st.prog.dcls = ShaderProgram.fresh.dcls ∧
          st.prog.insns = ShaderProgram.fresh.insns)) ∧
    ParseShader sampleLimits ShaderProgram.fresh [0x00010040, 2] =
      .ok ⟨{ ShaderProgram.fresh with version := 0x00010040 % 2 ^ 32 }, 2, 0⟩ :=
  ⟨⟨_, rfl, rfl, rfl, rfl,
      (C19_stream_end sampleLimits ShaderProgram.fresh sampleVertexShader).1
        ⟨sampleVertexShader, 14⟩ _ [⟨2, 5⟩, ⟨5, 8⟩, ⟨8, 13⟩, ⟨13, 14⟩] rfl⟩,
    (C19_stream_end sampleLimits ShaderProgram.fresh [0x00010040, 2]).2 0x00010040 2 rfl rfl
      (by decide)⟩

theorem insnExtChain_insntok {b : TokenBuf} :
    ∀ (fuel : Nat) {exttok : Nat} {insn insn1 : ShaderInstruction} {r r1 : Nat},
      insnExtChain b fuel exttok insn r = .ok (insn1, r1) →
      insn1.insntok = insn.insntok ∧ insn1.num = insn.num ∧ insn1.ops = insn.ops ∧
        insn1.num_ops = insn.num_ops
  | 0, _, _, _, _, _, h => by
    simp [insnExtChain, throw, throwThe, MonadExceptOf.throw] at h
  | fuel + 1, exttok, insn, insn1, r, r1, h => by
    unfold insnExtChain at h
    split_ifs at h with hext
    · simp only [bind_eq_ok] at h
      obtain ⟨⟨t, r2⟩, -, h⟩ := h
      obtain ⟨h1, h2, h3, h4⟩ := insnExtChain_insntok fuel h
      rw [h1, h2, h3, h4]
      dsimp only
      split_ifs <;> exact ⟨rfl, rfl, rfl, rfl⟩
    · simp only [pure, Except.pure] at h
      cases h
      exact ⟨rfl, rfl, rfl, rfl⟩

theorem insnPayload_insntok {b : TokenBuf} {opcode : Nat} {insn insn1 : ShaderInstruction}
    {r r1 : Nat} (h : insnPayload b opcode insn r = .ok (insn1, r1)) :
    insn1.insntok = insn.insntok ∧ insn1.ops = insn.ops ∧ insn1.num_ops = insn.num_ops ∧
    (opcode = SO_INTERFACE_CALL → ∃ t, Read32 b r = .ok (t, r1) ∧ insn1.num = t) ∧
    (opcode ≠ SO_INTERFACE_CALL → r1 = r ∧ insn1 = insn) := by
  unfold insnPayload at h
  split_ifs at h with hop
  · simp only [bind_eq_ok] at h
    obtain ⟨⟨t, r2⟩, hr, h⟩ := h
    simp only [pure, Except.pure] at h
    cases h
    exact ⟨rfl, rfl, rfl, fun _ => ⟨t, hr, rfl⟩, fun hne => absurd hop hne⟩
  · simp only [pure, Except.pure] at h
    cases h
    exact ⟨rfl, rfl, rfl, fun he => absurd he hop, fun _ => ⟨rfl, rfl⟩⟩

/-- Decomposition of a successful instruction branch. -/
theorem parseInsn_ok {lim : Limits} {b : TokenBuf} {insntok insn_end : Nat} {st st1 : PState}
    (h : parseInsn lim b insntok insn_end st = .ok st1) :
    ∃ insn0 p0 insn1 p ops,
      insnExtChain b (b.tokens_end - st.tokens + 1) insntok
        { ShaderInstruction.fresh with insntok := insntok } st.tokens = .ok (insn0, p0) ∧
      insnPayload b (insntok_opcode insntok) insn0 p0 = .ok (insn1, p) ∧
      readInsnOps lim b insn_end (insn_end - p + 1) [] p = .ok (ops, insn_end) ∧
      insn1.insntok = insntok ∧
      st1 = { st with tokens := insn_end,
                      prog := { st.prog with insns := st.prog.insns ++
                        [{ insn1 with ops := ops, num_ops := ops.length }] } } := by
  unfold parseInsn at h
  simp only [bind_eq_ok] at h
  obtain ⟨⟨insn0, p0⟩, h0, ⟨insn1, p⟩, h1, ⟨ops, r3⟩, hops, h⟩ := h
  simp only [pure, Except.pure] at h
  cases h
  obtain rfl := readInsnOps_stop _ hops
  refine ⟨insn0, p0, insn1, p, ops, h0, h1, hops, ?_, rfl⟩
  rw [(insnPayload_insntok h1).1, (insnExtChain_insntok _ h0).1]

theorem insntok_opcode_idem (t : Nat) : insntok_opcode (insntok_opcode t) = insntok_opcode t := by
  unfold insntok_opcode bits
  norm_num

/-- Dispatch of an iteration of the loop on an opcode that is neither
`ImmediateConstantBuffer` nor a declaration opcode. -/
theorem parseRecord_marker {lim : Limits} {b : TokenBuf} {st : PState} {t0 : Nat}
    (h0 : b.mem[st.tokens]? = some t0) (hend : st.tokens < b.tokens_end)
    (hcount : insntok_opcode (t0 % 2 ^ 32) < lim.SO_COUNT)
    (hhs : SO_HS_FORK_PHASE = insntok_opcode (t0 % 2 ^ 32) ∨
      SO_HS_JOIN_PHASE = insntok_opcode (t0 % 2 ^ 32) ∨
      SO_HS_CONTROL_POINT_PHASE = insntok_opcode (t0 % 2 ^ 32) ∨
      SO_HS_DECLS = insntok_opcode (t0 % 2 ^ 32)) :
    parseRecord lim b st =
      if SO_HS_DECLS = insntok_opcode (t0 % 2 ^ 32) then
        .ok { st with tokens := st.tokens + 1,
                      prog := { st.prog with dcls := st.prog.dcls ++
                        [{ ShaderDecl.fresh with insntok := insntok_opcode (t0 % 2 ^ 32) }] } }
      else
        parseInsn lim b (t0 % 2 ^ 32) (st.tokens + 1 - 1 + insntok_length (t0 % 2 ^ 32))
          { st with tokens := st.tokens + 1,
                    prog := { st.prog with dcls := st.prog.dcls ++
                      [{ ShaderDecl.fresh with insntok := insntok_opcode (t0 % 2 ^ 32) }] } } := by
  have hicb : ¬ (SO_IMMEDIATE_CONSTANT_BUFFER = insntok_opcode (t0 % 2 ^ 32)) := by
    rcases hhs with h | h | h | h <;> (rw [← h]; decide)
  have hdecl : ¬ ((insntok_opcode (t0 % 2 ^ 32) ≥ SO_DCL_RESOURCE ∧
        insntok_opcode (t0 % 2 ^ 32) ≤ SO_DCL_GLOBAL_FLAGS) ∨
      (insntok_opcode (t0 % 2 ^ 32) ≥ SO_DCL_STREAM ∧
        insntok_opcode (t0 % 2 ^ 32) ≤ SO_DCL_RESOURCE_STRUCTURED) ∨
      SO_DCL_GS_INSTANCE_COUNT = insntok_opcode (t0 % 2 ^ 32)) := by
    rcases hhs with h | h | h | h <;> (rw [← h]; decide)
  unfold parseRecord
  rw [Read32_get h0 hend]
  simp only [bind, Except.bind, hcount, not_true_eq_false, if_false, pure, Except.pure]
  rw [if_neg hicb, if_pos hhs, if_neg hdecl]

/-- Claim C20, hull-shader phase markers: on an opcode token whose opcode is
`HSForkPhase`, `HSJoinPhase`, `HSControlPointPhase` or `HSDecls` (and below
`SO_COUNT`), an iteration of the loop of `ParseShader` appends, at the end of
the declarations decoded so far, one marker declaration that is a newly made
declaration carrying only that opcode. For `HSDecls` the iteration succeeds,
appends nothing else and consumes the opcode token alone. For the three phase
opcodes the token then goes through the instruction branch: a successful
iteration appends that marker only to the declarations, and appends exactly
one instruction, whose token is the opcode token. -/
theorem C20_hull_shader_phase_markers (lim : Limits) (b : TokenBuf) (st : PState) (t0 : Nat)
    (h0 : b.mem[st.tokens]? = some t0) (hend : st.tokens < b.tokens_end)
    (hcount : insntok_opcode (t0 % 2 ^ 32) < lim.SO_COUNT) :
    ({ ShaderDecl.fresh with insntok := insntok_opcode (t0 % 2 ^ 32) } : ShaderDecl).opcode =
      insntok_opcode (t0 % 2 ^ 32) ∧
    (insntok_opcode (t0 % 2 ^ 32) = SO_HS_DECLS →
      parseRecord lim b st =
        .ok { st with tokens := st.tokens + 1,
                      prog := { st.prog with dcls := st.prog.dcls ++
                        [{ ShaderDecl.fresh with insntok := insntok_opcode (t0 % 2 ^ 32) }] } }) ∧
    (insntok_opcode (t0 % 2 ^ 32) = SO_HS_FORK_PHASE ∨
      insntok_opcode (t0 % 2 ^ 32) = SO_HS_JOIN_PHASE ∨
      insntok_opcode (t0 % 2 ^ 32) = SO_HS_CONTROL_POINT_PHASE →
      ∀ st1, parseRecord lim b st = .ok st1 →
        st1.prog.dcls = st.prog.dcls ++
          [{ ShaderDecl.fresh with insntok := insntok_opcode (t0 % 2 ^ 32) }] ∧
        ∃ insn, st1.prog.insns = st.prog.insns ++ [insn] ∧ insn.insntok = t0 % 2 ^ 32 ∧
          insn.opcode = insntok_opcode (t0 % 2 ^ 32)) := by
  refine ⟨insntok_opcode_idem _, ?_, ?_⟩
  · intro hd
    rw [parseRecord_marker h0 hend hcount (Or.inr (Or.inr (Or.inr hd.symm))), if_pos hd.symm]
  · intro hph st1 h
    have hhs : SO_HS_FORK_PHASE = insntok_opcode (t0 % 2 ^ 32) ∨
        SO_HS_JOIN_PHASE = insntok_opcode (t0 % 2 ^ 32) ∨
        SO_HS_CONTROL_POINT_PHASE = insntok_opcode (t0 % 2 ^ 32) ∨
        SO_HS_DECLS = insntok_opcode (t0 % 2 ^ 32) := by
      rcases hph with h | h | h
      · exact Or.inl h.symm
      · exact Or.inr (Or.inl h.symm)
      · exact Or.inr (Or.inr (Or.inl h.symm))
    have hnd : ¬ (SO_HS_DECLS = insntok_opcode (t0 % 2 ^ 32)) := by
      rcases hph with h | h | h <;> (rw [h]; decide)
    rw [parseRecord_marker h0 hend hcount hhs, if_neg hnd] at h
    obtain ⟨insn0, p0, insn1, p, ops, -, -, -, htok, rfl⟩ := parseInsn_ok h
    exact ⟨rfl, _, rfl, htok, by rw [ShaderInstruction.opcode, htok]⟩

/-- Witness for C20: in `sampleHullShader` the token at position 2 is
`hs_decls`; the iteration appends its marker and stops at position 3. The
whole parse gives the markers of `hs_decls` and `hs_fork_phase` as the two
declarations, and `hs_fork_phase` and `ret` as the two instructions. -/
theorem C20_hull_shader_phase_markers_witness :
    parseRecord sampleLimits ⟨sampleHullShader, 5⟩
        ⟨{ ShaderProgram.fresh with version := 0x00030050 }, 2, 0⟩ =
      .ok ⟨{ ShaderProgram.fresh with
              version := 0x00030050,
              dcls := [] ++ [{ ShaderDecl.fresh with
                insntok := insntok_opcode (0x01000071 % 2 ^ 32) }] }, 2 + 1, 0⟩ ∧
    (ParseShader sampleLimits ShaderProgram.fresh sampleHullShader).map
        (fun st => (st.prog.dcls.map (fun d => d.insntok),
          st.prog.insns.map (fun i => (i.opcode, i.num_ops)), st.tokens)) =
      .ok ([SO_HS_DECLS, SO_HS_FORK_PHASE], [(SO_HS_FORK_PHASE, 0), (62, 0)], 5) :=
  ⟨(C20_hull_shader_phase_markers sampleLimits ⟨sampleHullShader, 5⟩
      ⟨{ ShaderProgram.fresh with version := 0x00030050 }, 2, 0⟩ 0x01000071 rfl (by decide)
      (by decide)).2.1 (by decide), rfl⟩

theorem READ_OP_ANY_ok {lim : Limits} {b : TokenBuf} {dcl dcl1 : ShaderDecl} {r r1 : Nat}
    (h : READ_OP_ANY lim b dcl r = .ok (dcl1, r1)) :
    ∃ op, ReadOp lim b ShaderOperand.fresh r = .ok (op, r1) ∧ dcl1 = { dcl with op := some op } := by
  unfold READ_OP_ANY at h
  simp only [bind_eq_ok] at h
  obtain ⟨⟨op, r2⟩, hop, h⟩ := h
  simp only [pure, Except.pure] at h
  cases h
  exact ⟨op, hop, rfl⟩

/-- Frame of the payload `switch` of the declaration branch: the lists of
declarations and of instructions and the token of the declaration are kept;
the per-stream topologies and `cur_gs_stream` are changed by `DclStream` and
`DclGSOutputPrimitiveTopology` only. -/
theorem declPayload_frame {lim : Limits} {b : TokenBuf} {opcode : Nat} {dcl dcl1 : ShaderDecl}
    {st st1 : PState} (h : declPayload lim b opcode dcl st = .ok (dcl1, st1)) :
    st1.prog.insns = st.prog.insns ∧ st1.prog.dcls = st.prog.dcls ∧
    dcl1.insntok = dcl.insntok ∧
    (opcode = SO_DCL_STREAM → ∃ op r, ReadOp lim b ShaderOperand.fresh st.tokens = .ok (op, r) ∧
      dcl1.op = some op ∧
      st1.prog.gs_output_topology = st.prog.gs_output_topology ++ [SPT_Undefined] ∧
      st1.cur_gs_stream = ((op.indices.headD ⟨0, none⟩).disp % 2 ^ 32).toNat) ∧
    (opcode = SO_DCL_GS_OUTPUT_PRIMITIVE_TOPOLOGY →
      st.cur_gs_stream < st.prog.gs_output_topology.length ∧
      st1.prog.gs_output_topology = st.prog.gs_output_topology.set st.cur_gs_stream
        (dcltok_gs_output_primitive_topology dcl.insntok) ∧
      st1.cur_gs_stream = st.cur_gs_stream) ∧
    (opcode ≠ SO_DCL_STREAM → opcode ≠ SO_DCL_GS_OUTPUT_PRIMITIVE_TOPOLOGY →
      st1.prog.gs_output_topology = st.prog.gs_output_topology ∧
      st1.cur_gs_stream = st.cur_gs_stream) := by
  by_cases hs : opcode = SO_DCL_STREAM
  · subst hs
    simp only [declPayload, SO_DCL_STREAM, SO_DCL_GLOBAL_FLAGS, SO_DCL_RESOURCE, SO_DCL_SAMPLER,
      SO_DCL_INPUT, SO_DCL_INPUT_PS, SO_DCL_INPUT_SIV, SO_DCL_INPUT_SGV, SO_DCL_INPUT_PS_SIV,
      SO_DCL_INPUT_PS_SGV, SO_DCL_OUTPUT, SO_DCL_OUTPUT_SIV, SO_DCL_OUTPUT_SGV,
      SO_DCL_INDEX_RANGE, SO_DCL_TEMPS, SO_DCL_INDEXABLE_TEMP, SO_DCL_CONSTANT_BUFFER,
      SO_DCL_GS_INPUT_PRIMITIVE, SO_DCL_GS_OUTPUT_PRIMITIVE_TOPOLOGY,
      SO_DCL_MAX_OUTPUT_VERTEX_COUNT, SO_DCL_GS_INSTANCE_COUNT, SO_DCL_TESS_OUTPUT_PRIMITIVE,
      SO_DCL_TESS_PARTITIONING, SO_DCL_TESS_DOMAIN, SO_DCL_OUTPUT_CONTROL_POINT_COUNT,
      SO_DCL_INPUT_CONTROL_POINT_COUNT, SO_DCL_HS_MAX_TESSFACTOR,
      SO_DCL_HS_FORK_PHASE_INSTANCE_COUNT, SO_DCL_FUNCTION_BODY, SO_DCL_FUNCTION_TABLE,
      SO_DCL_INTERFACE, SO_DCL_THREAD_GROUP, SO_DCL_UNORDERED_ACCESS_VIEW_TYPED,
      SO_DCL_UNORDERED_ACCESS_VIEW_RAW, SO_DCL_UNORDERED_ACCESS_VIEW_STRUCTURED,
      SO_DCL_THREAD_GROUP_SHARED_MEMORY_RAW, SO_DCL_THREAD_GROUP_SHARED_MEMORY_STRUCTURED,
      SO_DCL_RESOURCE_RAW, SO_DCL_RESOURCE_STRUCTURED, Nat.reduceEqDiff, if_false, or_self,
      if_true, bind_eq_ok] at h
    obtain ⟨⟨op, r⟩, hop, h⟩ := h
    simp only [pure, Except.pure] at h
    cases h
    refine ⟨rfl, rfl, rfl, fun _ => ⟨op, r, hop, rfl, rfl, rfl⟩, fun hc => ?_, fun hc => absurd rfl hc⟩
    exact absurd hc (by decide)
  · by_cases ht : opcode = SO_DCL_GS_OUTPUT_PRIMITIVE_TOPOLOGY
    · subst ht
      simp only [declPayload, SO_DCL_STREAM, SO_DCL_GLOBAL_FLAGS, SO_DCL_RESOURCE, SO_DCL_SAMPLER,
      SO_DCL_INPUT, SO_DCL_INPUT_PS, SO_DCL_INPUT_SIV, SO_DCL_INPUT_SGV, SO_DCL_INPUT_PS_SIV,
      SO_DCL_INPUT_PS_SGV, SO_DCL_OUTPUT, SO_DCL_OUTPUT_SIV, SO_DCL_OUTPUT_SGV,
      SO_DCL_INDEX_RANGE, SO_DCL_TEMPS, SO_DCL_INDEXABLE_TEMP, SO_DCL_CONSTANT_BUFFER,
      SO_DCL_GS_INPUT_PRIMITIVE, SO_DCL_GS_OUTPUT_PRIMITIVE_TOPOLOGY,
      SO_DCL_MAX_OUTPUT_VERTEX_COUNT, SO_DCL_GS_INSTANCE_COUNT, SO_DCL_TESS_OUTPUT_PRIMITIVE,
      SO_DCL_TESS_PARTITIONING, SO_DCL_TESS_DOMAIN, SO_DCL_OUTPUT_CONTROL_POINT_COUNT,
      SO_DCL_INPUT_CONTROL_POINT_COUNT, SO_DCL_HS_MAX_TESSFACTOR,
      SO_DCL_HS_FORK_PHASE_INSTANCE_COUNT, SO_DCL_FUNCTION_BODY, SO_DCL_FUNCTION_TABLE,
      SO_DCL_INTERFACE, SO_DCL_THREAD_GROUP, SO_DCL_UNORDERED_ACCESS_VIEW_TYPED,
      SO_DCL_UNORDERED_ACCESS_VIEW_RAW, SO_DCL_UNORDERED_ACCESS_VIEW_STRUCTURED,
      SO_DCL_THREAD_GROUP_SHARED_MEMORY_RAW, SO_DCL_THREAD_GROUP_SHARED_MEMORY_STRUCTURED,
      SO_DCL_RESOURCE_RAW, SO_DCL_RESOURCE_STRUCTURED, Nat.reduceEqDiff, if_false,
        or_self, if_true] at h
      split_ifs at h with hlt
      · simp only [pure, Except.pure] at h
        cases h
        exact ⟨rfl, rfl, rfl, fun hc => absurd hc hs, fun _ => ⟨hlt, rfl, rfl⟩,
          fun _ hc => absurd rfl hc⟩
    · have key : st1.prog.insns = st.prog.insns ∧ st1.prog.dcls = st.prog.dcls ∧
          dcl1.insntok = dcl.insntok ∧
          st1.prog.gs_output_topology = st.prog.gs_output_topology ∧
          st1.cur_gs_stream = st.cur_gs_stream := by
        unfold declPayload at h
        by_cases c0 : opcode = SO_DCL_GLOBAL_FLAGS
        · rw [if_pos c0] at h
          cases h
          exact ⟨rfl, rfl, rfl, rfl, rfl⟩
        rw [if_neg c0] at h
        by_cases c1 : opcode = SO_DCL_RESOURCE
        · rw [if_pos c1] at h
          simp only [READ_OP_ANY, bind_eq_ok, pure, Except.pure, Prod.exists,
            Except.ok.injEq, Prod.mk.injEq] at h
          casesm* ∃ _, _, _ ∧ _
          subst_vars
          exact ⟨rfl, rfl, rfl, rfl, rfl⟩
        rw [if_neg c1] at h
        by_cases c2 : opcode = SO_DCL_SAMPLER
        · rw [if_pos c2] at h
          simp only [READ_OP_ANY, bind_eq_ok, pure, Except.pure, Prod.exists,
            Except.ok.injEq, Prod.mk.injEq] at h
          casesm* ∃ _, _, _ ∧ _
          subst_vars
          exact ⟨rfl, rfl, rfl, rfl, rfl⟩
        rw [if_neg c2] at h
        by_cases c3 : opcode = SO_DCL_INPUT ∨ opcode = SO_DCL_INPUT_PS
        · rw [if_pos c3] at h
          simp only [READ_OP_ANY, bind_eq_ok, pure, Except.pure, Prod.exists,
            Except.ok.injEq, Prod.mk.injEq] at h
          casesm* ∃ _, _, _ ∧ _
          subst_vars
          exact ⟨rfl, rfl, rfl, rfl, rfl⟩
        rw [if_neg c3] at h
        by_cases c4 : opcode = SO_DCL_INPUT_SIV ∨ opcode = SO_DCL_INPUT_SGV ∨
        opcode = SO_DCL_INPUT_PS_SIV ∨ opcode = SO_DCL_INPUT_PS_SGV
        · rw [if_pos c4] at h
          simp only [READ_OP_ANY, bind_eq_ok, pure, Except.pure, Prod.exists,
            Except.ok.injEq, Prod.mk.injEq] at h
          casesm* ∃ _, _, _ ∧ _
          subst_vars
          exact ⟨rfl, rfl, rfl, rfl, rfl⟩
        rw [if_neg c4] at h
        by_cases c5 : opcode = SO_DCL_OUTPUT
        · rw [if_pos c5] at h
          simp only [READ_OP_ANY, bind_eq_ok, pure, Except.pure, Prod.exists,
            Except.ok.injEq, Prod.mk.injEq] at h
          casesm* ∃ _, _, _ ∧ _
          subst_vars
          exact ⟨rfl, rfl, rfl, rfl, rfl⟩
        rw [if_neg c5] at h
        by_cases c6 : opcode = SO_DCL_OUTPUT_SIV ∨ opcode = SO_DCL_OUTPUT_SGV
        · rw [if_pos c6] at h
          simp only [READ_OP_ANY, bind_eq_ok, pure, Except.pure, Prod.exists,
            Except.ok.injEq, Prod.mk.injEq] at h
          casesm* ∃ _, _, _ ∧ _
          subst_vars
          exact ⟨rfl, rfl, rfl, rfl, rfl⟩
        rw [if_neg c6] at h
        by_cases c7 : opcode = SO_DCL_INDEX_RANGE
        · rw [if_pos c7] at h
          simp only [bind_eq_ok, pure, Except.pure, Prod.exists, throw, throwThe,
            MonadExceptOf.throw] at h
          obtain ⟨op, r, -, h⟩ := h
          by_cases hty : SOT_INPUT = op.f.type ∨ SOT_OUTPUT = op.f.type
          · simp only [hty, not_true_eq_false, if_false, bind_eq_ok, Prod.exists,
              Except.ok.injEq, Prod.mk.injEq] at h
            casesm* ∃ _, _, _ ∧ _
            subst_vars
            exact ⟨rfl, rfl, rfl, rfl, rfl⟩
          · simp only [hty, not_false_eq_true, if_true, bind, Except.bind] at h
            cases h
        rw [if_neg c7] at h
        by_cases c8 : opcode = SO_DCL_TEMPS
        · rw [if_pos c8] at h
          simp only [READ_OP_ANY, bind_eq_ok, pure, Except.pure, Prod.exists,
            Except.ok.injEq, Prod.mk.injEq] at h
          casesm* ∃ _, _, _ ∧ _
          subst_vars
          exact ⟨rfl, rfl, rfl, rfl, rfl⟩
        rw [if_neg c8] at h
        by_cases c9 : opcode = SO_DCL_INDEXABLE_TEMP
        · rw [if_pos c9] at h
          simp only [READ_OP_ANY, bind_eq_ok, pure, Except.pure, Prod.exists,
            Except.ok.injEq, Prod.mk.injEq] at h
          casesm* ∃ _, _, _ ∧ _
          subst_vars
          exact ⟨rfl, rfl, rfl, rfl, rfl⟩
        rw [if_neg c9] at h
        by_cases c10 : opcode = SO_DCL_CONSTANT_BUFFER
        · rw [if_pos c10] at h
          simp only [READ_OP_ANY, bind_eq_ok, pure, Except.pure, Prod.exists,
            Except.ok.injEq, Prod.mk.injEq] at h
          casesm* ∃ _, _, _ ∧ _
          subst_vars
          exact ⟨rfl, rfl, rfl, rfl, rfl⟩
        rw [if_neg c10] at h
        by_cases c11 : opcode = SO_DCL_GS_INPUT_PRIMITIVE
        · rw [if_pos c11] at h
          cases h
          exact ⟨rfl, rfl, rfl, rfl, rfl⟩
        rw [if_neg c11] at h
        by_cases c12 : opcode = SO_DCL_GS_OUTPUT_PRIMITIVE_TOPOLOGY
        · exact absurd c12 ht
        rw [if_neg c12] at h
        by_cases c13 : opcode = SO_DCL_MAX_OUTPUT_VERTEX_COUNT
        · rw [if_pos c13] at h
          simp only [READ_OP_ANY, bind_eq_ok, pure, Except.pure, Prod.exists,
            Except.ok.injEq, Prod.mk.injEq] at h
          casesm* ∃ _, _, _ ∧ _
          subst_vars
          exact ⟨rfl, rfl, rfl, rfl, rfl⟩
        rw [if_neg c13] at h
        by_cases c14 : opcode = SO_DCL_GS_INSTANCE_COUNT
        · rw [if_pos c14] at h
          simp only [READ_OP_ANY, bind_eq_ok, pure, Except.pure, Prod.exists,
            Except.ok.injEq, Prod.mk.injEq] at h
          casesm* ∃ _, _, _ ∧ _
          subst_vars
          exact ⟨rfl, rfl, rfl, rfl, rfl⟩
        rw [if_neg c14] at h
        by_cases c15 : opcode = SO_DCL_TESS_OUTPUT_PRIMITIVE
        · rw [if_pos c15] at h
          cases h
          exact ⟨rfl, rfl, rfl, rfl, rfl⟩
        rw [if_neg c15] at h
        by_cases c16 : opcode = SO_DCL_TESS_PARTITIONING
        · rw [if_pos c16] at h
          cases h
          exact ⟨rfl, rfl, rfl, rfl, rfl⟩
        rw [if_neg c16] at h
        by_cases c17 : opcode = SO_DCL_TESS_DOMAIN
        · rw [if_pos c17] at h
          cases h
          exact ⟨rfl, rfl, rfl, rfl, rfl⟩
        rw [if_neg c17] at h
        by_cases c18 : opcode = SO_DCL_OUTPUT_CONTROL_POINT_COUNT
        · rw [if_pos c18] at h
          cases h
          exact ⟨rfl, rfl, rfl, rfl, rfl⟩
        rw [if_neg c18] at h
        by_cases c19 : opcode = SO_DCL_INPUT_CONTROL_POINT_COUNT
        · rw [if_pos c19] at h
          cases h
          exact ⟨rfl, rfl, rfl, rfl, rfl⟩
        rw [if_neg c19] at h
        by_cases c20 : opcode = SO_DCL_HS_MAX_TESSFACTOR ∨ opcode = SO_DCL_HS_FORK_PHASE_INSTANCE_COUNT ∨
        opcode = SO_DCL_FUNCTION_BODY
        · rw [if_pos c20] at h
          simp only [READ_OP_ANY, bind_eq_ok, pure, Except.pure, Prod.exists,
            Except.ok.injEq, Prod.mk.injEq] at h
          casesm* ∃ _, _, _ ∧ _
          subst_vars
          exact ⟨rfl, rfl, rfl, rfl, rfl⟩
        rw [if_neg c20] at h
        by_cases c21 : opcode = SO_DCL_FUNCTION_TABLE
        · rw [if_pos c21] at h
          simp only [READ_OP_ANY, bind_eq_ok, pure, Except.pure, Prod.exists,
            Except.ok.injEq, Prod.mk.injEq] at h
          casesm* ∃ _, _, _ ∧ _
          subst_vars
          exact ⟨rfl, rfl, rfl, rfl, rfl⟩
        rw [if_neg c21] at h
        by_cases c22 : opcode = SO_DCL_INTERFACE
        · rw [if_pos c22] at h
          simp only [READ_OP_ANY, bind_eq_ok, pure, Except.pure, Prod.exists,
            Except.ok.injEq, Prod.mk.injEq] at h
          casesm* ∃ _, _, _ ∧ _
          subst_vars
          exact ⟨rfl, rfl, rfl, rfl, rfl⟩
        rw [if_neg c22] at h
        by_cases c23 : opcode = SO_DCL_THREAD_GROUP
        · rw [if_pos c23] at h
          simp only [READ_OP_ANY, bind_eq_ok, pure, Except.pure, Prod.exists,
            Except.ok.injEq, Prod.mk.injEq] at h
          casesm* ∃ _, _, _ ∧ _
          subst_vars
          exact ⟨rfl, rfl, rfl, rfl, rfl⟩
        rw [if_neg c23] at h
        by_cases c24 : opcode = SO_DCL_UNORDERED_ACCESS_VIEW_TYPED
        · rw [if_pos c24] at h
          simp only [READ_OP_ANY, bind_eq_ok, pure, Except.pure, Prod.exists,
            Except.ok.injEq, Prod.mk.injEq] at h
          casesm* ∃ _, _, _ ∧ _
          subst_vars
          exact ⟨rfl, rfl, rfl, rfl, rfl⟩
        rw [if_neg c24] at h
        by_cases c25 : opcode = SO_DCL_UNORDERED_ACCESS_VIEW_RAW
        · rw [if_pos c25] at h
          simp only [READ_OP_ANY, bind_eq_ok, pure, Except.pure, Prod.exists,
            Except.ok.injEq, Prod.mk.injEq] at h
          casesm* ∃ _, _, _ ∧ _
          subst_vars
          exact ⟨rfl, rfl, rfl, rfl, rfl⟩
        rw [if_neg c25] at h
        by_cases c26 : opcode = SO_DCL_UNORDERED_ACCESS_VIEW_STRUCTURED
        · rw [if_pos c26] at h
          simp only [READ_OP_ANY, bind_eq_ok, pure, Except.pure, Prod.exists,
            Except.ok.injEq, Prod.mk.injEq] at h
          casesm* ∃ _, _, _ ∧ _
          subst_vars
          exact ⟨rfl, rfl, rfl, rfl, rfl⟩
        rw [if_neg c26] at h
        by_cases c27 : opcode = SO_DCL_THREAD_GROUP_SHARED_MEMORY_RAW
        · rw [if_pos c27] at h
          simp only [READ_OP_ANY, bind_eq_ok, pure, Except.pure, Prod.exists,
            Except.ok.injEq, Prod.mk.injEq] at h
          casesm* ∃ _, _, _ ∧ _
          subst_vars
          exact ⟨rfl, rfl, rfl, rfl, rfl⟩
        rw [if_neg c27] at h
        by_cases c28 : opcode = SO_DCL_THREAD_GROUP_SHARED_MEMORY_STRUCTURED
        · rw [if_pos c28] at h
          simp only [READ_OP_ANY, bind_eq_ok, pure, Except.pure, Prod.exists,
            Except.ok.injEq, Prod.mk.injEq] at h
          casesm* ∃ _, _, _ ∧ _
          subst_vars
          exact ⟨rfl, rfl, rfl, rfl, rfl⟩
        rw [if_neg c28] at h
        by_cases c29 : opcode = SO_DCL_RESOURCE_RAW
        · rw [if_pos c29] at h
          simp only [READ_OP_ANY, bind_eq_ok, pure, Except.pure, Prod.exists,
            Except.ok.injEq, Prod.mk.injEq] at h
          casesm* ∃ _, _, _ ∧ _
          subst_vars
          exact ⟨rfl, rfl, rfl, rfl, rfl⟩
        rw [if_neg c29] at h
        by_cases c30 : opcode = SO_DCL_RESOURCE_STRUCTURED
        · rw [if_pos c30] at h
          simp only [READ_OP_ANY, bind_eq_ok, pure, Except.pure, Prod.exists,
            Except.ok.injEq, Prod.mk.injEq] at h
          casesm* ∃ _, _, _ ∧ _
          subst_vars
          exact ⟨rfl, rfl, rfl, rfl, rfl⟩
        rw [if_neg c30] at h
        by_cases c31 : opcode = SO_DCL_STREAM
        · exact absurd c31 hs
        rw [if_neg c31] at h
        cases h
      exact ⟨key.1, key.2.1, key.2.2.1, fun hc => absurd hc hs, fun hc => absurd hc ht,
        fun _ _ => key.2.2.2⟩

/-- Decomposition of a successful declaration branch. -/
theorem parseDecl_ok {lim : Limits} {b : TokenBuf} {insntok insn_end : Nat} {st st1 : PState}
    (h : parseDecl lim b insntok insn_end st = .ok st1) :
    ∃ r dcl1 st2,
      declExtChain b (b.tokens_end - st.tokens + 1) insntok st.tokens = .ok r ∧
      declPayload lim b (insntok_opcode insntok) { ShaderDecl.fresh with insntok := insntok }
        { st with tokens := r } = .ok (dcl1, st2) ∧
      st2.tokens = insn_end ∧
      st1 = { st2 with prog := { st2.prog with dcls := st2.prog.dcls ++ [dcl1] } } := by
  unfold parseDecl at h
  simp only [bind_eq_ok] at h
  obtain ⟨r, hr, ⟨dcl, st2⟩, hp, h⟩ := h
  simp only [pure, Except.pure, throw, throwThe, MonadExceptOf.throw] at h
  split_ifs at h with hne <;> simp only [bind, Except.bind] at h <;> cases h
  exact ⟨r, dcl, st2, hr, hp, hne, rfl⟩

/-- Decomposition of a successful immediate-constant-buffer branch. -/
theorem parseICB_ok {b : TokenBuf} {st st1 : PState} (h : parseICB b st = .ok st1) :
    ∃ dcl : ShaderDecl, dcl.insntok = SO_IMMEDIATE_CONSTANT_BUFFER ∧
      st1.prog = { st.prog with dcls := st.prog.dcls ++ [dcl] } ∧
      st1.cur_gs_stream = st.cur_gs_stream := by
  unfold parseICB at h
  simp only [bind_eq_ok] at h
  obtain ⟨⟨len, r⟩, hr, h⟩ := h
  simp only [pure, Except.pure, throw, throwThe, MonadExceptOf.throw] at h
  split_ifs at h with hle <;> simp only [bind, Except.bind] at h <;> cases h
  exact ⟨_, rfl, rfl, rfl⟩

/-- The four ways through one iteration of the loop of `ParseShader`. -/
theorem parseRecord_cases {lim : Limits} {b : TokenBuf} {sa sb : PState}
    (h : parseRecord lim b sa = .ok sb) :
    ∃ t0, b.mem[sa.tokens]? = some t0 ∧ sa.tokens < b.tokens_end ∧
      insntok_opcode (t0 % 2 ^ 32) < lim.SO_COUNT ∧
      ((SO_IMMEDIATE_CONSTANT_BUFFER = insntok_opcode (t0 % 2 ^ 32) ∧
          parseICB b { sa with tokens := sa.tokens + 1 } = .ok sb) ∨
       (parseDecl lim b (t0 % 2 ^ 32) (sa.tokens + insntok_length (t0 % 2 ^ 32))
          { sa with tokens := sa.tokens + 1 } = .ok sb) ∨
       (SO_HS_DECLS = insntok_opcode (t0 % 2 ^ 32) ∧
          sb = { sa with tokens := sa.tokens + 1,
                         prog := { sa.prog with dcls := sa.prog.dcls ++
                           [{ ShaderDecl.fresh with insntok := insntok_opcode (t0 % 2 ^ 32) }] } }) ∨
       (SO_HS_DECLS ≠ insntok_opcode (t0 % 2 ^ 32) ∧
          ∃ sm, parseInsn lim b (t0 % 2 ^ 32) (sa.tokens + insntok_length (t0 % 2 ^ 32)) sm =
              .ok sb ∧
            sm.tokens = sa.tokens + 1 ∧ sm.cur_gs_stream = sa.cur_gs_stream ∧
            (sm.prog = sa.prog ∨
              sm.prog = { sa.prog with dcls := sa.prog.dcls ++
                [{ ShaderDecl.fresh with insntok := insntok_opcode (t0 % 2 ^ 32) }] }))) := by
  unfold parseRecord at h
  simp only [bind_eq_ok] at h
  obtain ⟨⟨insntok, r⟩, hr, h⟩ := h
  obtain ⟨rfl, hlt, t0, ht0, rfl⟩ := Read32_ok hr
  refine ⟨t0, ht0, hlt, ?_⟩
  generalize t0 % 2 ^ 32 = insntok at h ⊢
  simp only [pure, Except.pure, throw, throwThe, MonadExceptOf.throw] at h
  have he : sa.tokens + 1 - 1 + insntok_length insntok = sa.tokens + insntok_length insntok := by
    omega
  rw [he] at h
  by_cases hcount : insntok_opcode insntok < lim.SO_COUNT
  swap
  · simp [hcount, bind, Except.bind] at h
  refine ⟨hcount, ?_⟩
  simp only [hcount, not_true_eq_false, if_false, bind, Except.bind] at h
  by_cases hicb : SO_IMMEDIATE_CONSTANT_BUFFER = insntok_opcode insntok
  · rw [if_pos hicb] at h
    exact Or.inl ⟨hicb, h⟩
  · rw [if_neg hicb] at h
    by_cases hdecl : (insntok_opcode insntok ≥ SO_DCL_RESOURCE ∧
          insntok_opcode insntok ≤ SO_DCL_GLOBAL_FLAGS) ∨
        (insntok_opcode insntok ≥ SO_DCL_STREAM ∧
          insntok_opcode insntok ≤ SO_DCL_RESOURCE_STRUCTURED) ∨
        SO_DCL_GS_INSTANCE_COUNT = insntok_opcode insntok
    · rw [if_pos hdecl] at h
      have hnm : ¬ (SO_HS_FORK_PHASE = insntok_opcode insntok ∨
          SO_HS_JOIN_PHASE = insntok_opcode insntok ∨
          SO_HS_CONTROL_POINT_PHASE = insntok_opcode insntok ∨
          SO_HS_DECLS = insntok_opcode insntok) := by
        rintro (e | e | e | e) <;> (rw [← e] at hdecl; revert hdecl; decide)
      rw [if_neg hnm] at h
      exact Or.inr (Or.inl h)
    · rw [if_neg hdecl] at h
      by_cases hhs : SO_HS_DECLS = insntok_opcode insntok
      · rw [if_pos hhs, if_pos (Or.inr (Or.inr (Or.inr hhs)))] at h
        cases h
        exact Or.inr (Or.inr (Or.inl ⟨hhs, rfl⟩))
      · rw [if_neg hhs] at h
        refine Or.inr (Or.inr (Or.inr ⟨hhs, _, h, ?_, ?_, ?_⟩))
        · split_ifs <;> rfl
        · split_ifs <;> rfl
        · split_ifs
          · exact Or.inr rfl
          · exact Or.inl rfl

theorem specOperandTokens_pos (mem : List Nat) (op : ShaderOperand) (r : Nat) :
    0 < specOperandTokens mem op r := by
  obtain ⟨f, ixs⟩ := op
  simp only [specOperandTokens]
  omega

/-- Every successful `ReadOp` on a newly made operand consumes a token. -/
theorem ReadOp_progress {lim : Limits} {b : TokenBuf} {op : ShaderOperand} {r r1 : Nat}
    (h : ReadOp lim b ShaderOperand.fresh r = .ok (op, r1)) : r < r1 := by
  have h1 := (ReadOpF_tokens lim b _ op r r1 h).1
  have h2 := specOperandTokens_pos b.mem op r
  omega

/-- The operand loop of an instruction: the operands read are those between
the start position and `insn_end`, and their number stays within `SM_MAX_OPS`. -/
theorem readInsnOps_ok {lim : Limits} {b : TokenBuf} {insn_end : Nat} :
    ∀ (fuel : Nat) {acc ops : List ShaderOperand} {r r1 : Nat},
      readInsnOps lim b insn_end fuel acc r = .ok (ops, r1) →
      acc.length ≤ lim.SM_MAX_OPS →
      ∃ more, ops = acc ++ more ∧ OperandsBetween lim b r insn_end more ∧
        ops.length ≤ lim.SM_MAX_OPS
  | 0, _, _, _, _, h, _ => by
    simp [readInsnOps, throw, throwThe, MonadExceptOf.throw] at h
  | fuel + 1, acc, ops, r, r1, h, hacc => by
    unfold readInsnOps at h
    split_ifs at h with h1 h2 h3
    · simp only [pure, Except.pure] at h
      cases h
      subst h1
      exact ⟨[], by simp, OperandsBetween.done _, hacc⟩
    · simp only [bind_eq_ok] at h
      obtain ⟨⟨op, r2⟩, hop, h⟩ := h
      have hlen : (acc ++ [op]).length ≤ lim.SM_MAX_OPS := by
        rw [List.length_append, List.length_singleton]
        omega
      obtain ⟨more, rfl, hchain, hle⟩ := readInsnOps_ok fuel h hlen
      exact ⟨op :: more, by simp, OperandsBetween.read (by omega) hop hchain, hle⟩

/-- The operand loop of an instruction fails on its assertions when more than
`SM_MAX_OPS` operands stand between the start position and `insn_end`. -/
theorem readInsnOps_overflow {lim : Limits} {b : TokenBuf} {insn_end : Nat} :
    ∀ {r : Nat} {more : List ShaderOperand}, OperandsBetween lim b r insn_end more →
      ∀ (fuel : Nat) (acc : List ShaderOperand), acc.length ≤ lim.SM_MAX_OPS →
        lim.SM_MAX_OPS < acc.length + more.length → insn_end - r + 1 ≤ fuel →
        readInsnOps lim b insn_end fuel acc r = .error ParseError.InvariantViolation := by
  intro r more hch
  induction hch with
  | done q =>
    intro fuel acc hacc hover _
    simp only [List.length_nil, Nat.add_zero] at hover
    omega
  | @read p p1 q o rest hlt hop _ ih =>
    intro fuel acc hacc hover hfuel
    cases fuel with
    | zero => omega
    | succ fuel =>
      unfold readInsnOps
      have hne : ¬ (p = q) := by omega
      rw [if_neg hne, if_neg (not_not.2 hlt)]
      by_cases hfull : acc.length < lim.SM_MAX_OPS
      · rw [if_neg (not_not.2 hfull), hop]
        simp only [bind, Except.bind]
        have hprog := ReadOp_progress hop
        refine ih fuel (acc ++ [o]) ?_ ?_ (by omega)
        · rw [List.length_append, List.length_singleton]
          omega
        · rw [List.length_append, List.length_singleton]
          simp only [List.length_cons] at hover
          omega
      · rw [if_pos hfull]
        rfl

/-- Failure of the instruction branch on an instruction with more than
`SM_MAX_OPS` operands. -/
theorem parseInsn_overflow {lim : Limits} {b : TokenBuf} {insntok insn_end : Nat} {st : PState}
    {insn0 insn1 : ShaderInstruction} {p0 p : Nat} {more : List ShaderOperand}
    (hext : insnExtChain b (b.tokens_end - st.tokens + 1) insntok
      { ShaderInstruction.fresh with insntok := insntok } st.tokens = .ok (insn0, p0))
    (hpay : insnPayload b (insntok_opcode insntok) insn0 p0 = .ok (insn1, p))
    (hch : OperandsBetween lim b p insn_end more) (hover : lim.SM_MAX_OPS < more.length) :
    parseInsn lim b insntok insn_end st = .error ParseError.InvariantViolation := by
  unfold parseInsn
  simp only [bind, Except.bind, hext, hpay]
  rw [readInsnOps_overflow hch _ [] (Nat.zero_le _) (by simpa using hover) (Nat.le_refl _)]

theorem PosMono_Read32 (b : TokenBuf) (r : Nat) : PosMono (Read32 b r) r := by
  intro a r1 h
  obtain ⟨rfl, -⟩ := Read32_ok h
  omega

theorem PosMono_ReadOp (lim : Limits) (b : TokenBuf) (r : Nat) :
    PosMono (ReadOp lim b ShaderOperand.fresh r) r := by
  intro a r1 h
  exact Nat.le_of_lt (ReadOp_progress h)

theorem PosMono_READ_OP_ANY (lim : Limits) (b : TokenBuf) (dcl : ShaderDecl) (r : Nat) :
    PosMono (READ_OP_ANY lim b dcl r) r := by
  intro a r1 h
  obtain ⟨op, hop, -⟩ := READ_OP_ANY_ok h
  exact Nat.le_of_lt (ReadOp_progress hop)

theorem PosMono_readWords (b : TokenBuf) : ∀ (n r : Nat), PosMono (readWords b n r) r
  | 0, r => by
    intro a r1 h
    simp only [readWords, pure, Except.pure] at h
    cases h
    exact Nat.le_refl _
  | n + 1, r => by
    intro a r1 h
    simp only [readWords, bind_eq_ok] at h
    obtain ⟨⟨w, r2⟩, hw, ⟨ws, r3⟩, hws, h⟩ := h
    simp only [pure, Except.pure] at h
    cases h
    have h1 := PosMono_Read32 b r _ _ hw
    have h2 := PosMono_readWords b n r2 _ _ hws
    omega

theorem TokMono_pure (d : ShaderDecl) (s : PState) (r : Nat) (h : s.tokens = r) :
    TokMono (pure (d, s)) r := by
  intro d1 s1 h1
  cases h1
  omega

theorem TokMono_bind {α : Type} {x : Except ParseError (α × Nat)}
    {f : α × Nat → Except ParseError (ShaderDecl × PState)} {r : Nat}
    (hx : PosMono x r) (hf : ∀ a r1, TokMono (f (a, r1)) r1) : TokMono (x >>= f) r := by
  intro d s h
  obtain ⟨⟨a, r1⟩, h1, h2⟩ := bind_eq_ok.1 h
  have e1 := hx a r1 h1
  have e2 := hf a r1 d s h2
  omega

theorem TokMono_error (e : ParseError) (r : Nat) :
    TokMono (Except.error e) r := by
  intro d s h
  cases h

/-- The payload `switch` of the declaration branch never moves the position
backwards. -/
theorem declPayload_mono (lim : Limits) (b : TokenBuf) (opcode : Nat) (dcl : ShaderDecl)
    (st : PState) : TokMono (declPayload lim b opcode dcl st) st.tokens := by
  unfold declPayload
  by_cases c0 : opcode = SO_DCL_GLOBAL_FLAGS
  · rw [if_pos c0]
    repeat
      first
      | exact TokMono_pure _ _ _ rfl
      | refine TokMono_bind (PosMono_Read32 _ _) (fun _ _ => ?_)
      | refine TokMono_bind (PosMono_READ_OP_ANY _ _ _ _) (fun _ _ => ?_)
      | refine TokMono_bind (PosMono_ReadOp _ _ _) (fun _ _ => ?_)
      | refine TokMono_bind (PosMono_readWords _ _ _) (fun _ _ => ?_)
  rw [if_neg c0]
  by_cases c1 : opcode = SO_DCL_RESOURCE
  · rw [if_pos c1]
    repeat
      first
      | exact TokMono_pure _ _ _ rfl
      | refine TokMono_bind (PosMono_Read32 _ _) (fun _ _ => ?_)
      | refine TokMono_bind (PosMono_READ_OP_ANY _ _ _ _) (fun _ _ => ?_)
      | refine TokMono_bind (PosMono_ReadOp _ _ _) (fun _ _ => ?_)
      | refine TokMono_bind (PosMono_readWords _ _ _) (fun _ _ => ?_)
  rw [if_neg c1]
  by_cases c2 : opcode = SO_DCL_SAMPLER
  · rw [if_pos c2]
    repeat
      first
      | exact TokMono_pure _ _ _ rfl
      | refine TokMono_bind (PosMono_Read32 _ _) (fun _ _ => ?_)
      | refine TokMono_bind (PosMono_READ_OP_ANY _ _ _ _) (fun _ _ => ?_)
      | refine TokMono_bind (PosMono_ReadOp _ _ _) (fun _ _ => ?_)
      | refine TokMono_bind (PosMono_readWords _ _ _) (fun _ _ => ?_)
  rw [if_neg c2]
  by_cases c3 : opcode = SO_DCL_INPUT ∨ opcode = SO_DCL_INPUT_PS
  · rw [if_pos c3]
    repeat
      first
      | exact TokMono_pure _ _ _ rfl
      | refine TokMono_bind (PosMono_Read32 _ _) (fun _ _ => ?_)
      | refine TokMono_bind (PosMono_READ_OP_ANY _ _ _ _) (fun _ _ => ?_)
      | refine TokMono_bind (PosMono_ReadOp _ _ _) (fun _ _ => ?_)
      | refine TokMono_bind (PosMono_readWords _ _ _) (fun _ _ => ?_)
  rw [if_neg c3]
  by_cases c4 : opcode = SO_DCL_INPUT_SIV ∨ opcode = SO_DCL_INPUT_SGV ∨
      opcode = SO_DCL_INPUT_PS_SIV ∨ opcode = SO_DCL_INPUT_PS_SGV
  · rw [if_pos c4]
    repeat
      first
      | exact TokMono_pure _ _ _ rfl
      | refine TokMono_bind (PosMono_Read32 _ _) (fun _ _ => ?_)
      | refine TokMono_bind (PosMono_READ_OP_ANY _ _ _ _) (fun _ _ => ?_)
      | refine TokMono_bind (PosMono_ReadOp _ _ _) (fun _ _ => ?_)
      | refine TokMono_bind (PosMono_readWords _ _ _) (fun _ _ => ?_)
  rw [if_neg c4]
  by_cases c5 : opcode = SO_DCL_OUTPUT
  · rw [if_pos c5]
    repeat
      first
      | exact TokMono_pure _ _ _ rfl
      | refine TokMono_bind (PosMono_Read32 _ _) (fun _ _ => ?_)
      | refine TokMono_bind (PosMono_READ_OP_ANY _ _ _ _) (fun _ _ => ?_)
      | refine TokMono_bind (PosMono_ReadOp _ _ _) (fun _ _ => ?_)
      | refine TokMono_bind (PosMono_readWords _ _ _) (fun _ _ => ?_)
  rw [if_neg c5]
  by_cases c6 : opcode = SO_DCL_OUTPUT_SIV ∨ opcode = SO_DCL_OUTPUT_SGV
  · rw [if_pos c6]
    repeat
      first
      | exact TokMono_pure _ _ _ rfl
      | refine TokMono_bind (PosMono_Read32 _ _) (fun _ _ => ?_)
      | refine TokMono_bind (PosMono_READ_OP_ANY _ _ _ _) (fun _ _ => ?_)
      | refine TokMono_bind (PosMono_ReadOp _ _ _) (fun _ _ => ?_)
      | refine TokMono_bind (PosMono_readWords _ _ _) (fun _ _ => ?_)
  rw [if_neg c6]
  by_cases c7 : opcode = SO_DCL_INDEX_RANGE
  · rw [if_pos c7]
    refine TokMono_bind (PosMono_ReadOp _ _ _) (fun op r => ?_)
    by_cases hty : SOT_INPUT = op.f.type ∨ SOT_OUTPUT = op.f.type
    · simp only [hty, not_true_eq_false, if_false, pure_bind]
      exact TokMono_bind (PosMono_Read32 _ _) (fun _ _ => TokMono_pure _ _ _ rfl)
    · simp only [hty, not_false_eq_true, if_true, throw, throwThe, MonadExceptOf.throw,
        bind, Except.bind]
      exact TokMono_error _ _
  rw [if_neg c7]
  by_cases c8 : opcode = SO_DCL_TEMPS
  · rw [if_pos c8]
    repeat
      first
      | exact TokMono_pure _ _ _ rfl
      | refine TokMono_bind (PosMono_Read32 _ _) (fun _ _ => ?_)
      | refine TokMono_bind (PosMono_READ_OP_ANY _ _ _ _) (fun _ _ => ?_)
      | refine TokMono_bind (PosMono_ReadOp _ _ _) (fun _ _ => ?_)
      | refine TokMono_bind (PosMono_readWords _ _ _) (fun _ _ => ?_)
  rw [if_neg c8]
  by_cases c9 : opcode = SO_DCL_INDEXABLE_TEMP
  · rw [if_pos c9]
    repeat
      first
      | exact TokMono_pure _ _ _ rfl
      | refine TokMono_bind (PosMono_Read32 _ _) (fun _ _ => ?_)
      | refine TokMono_bind (PosMono_READ_OP_ANY _ _ _ _) (fun _ _ => ?_)
      | refine TokMono_bind (PosMono_ReadOp _ _ _) (fun _ _ => ?_)
      | refine TokMono_bind (PosMono_readWords _ _ _) (fun _ _ => ?_)
  rw [if_neg c9]
  by_cases c10 : opcode = SO_DCL_CONSTANT_BUFFER
  · rw [if_pos c10]
    repeat
      first
      | exact TokMono_pure _ _ _ rfl
      | refine TokMono_bind (PosMono_Read32 _ _) (fun _ _ => ?_)
      | refine TokMono_bind (PosMono_READ_OP_ANY _ _ _ _) (fun _ _ => ?_)
      | refine TokMono_bind (PosMono_ReadOp _ _ _) (fun _ _ => ?_)
      | refine TokMono_bind (PosMono_readWords _ _ _) (fun _ _ => ?_)
  rw [if_neg c10]
  by_cases c11 : opcode = SO_DCL_GS_INPUT_PRIMITIVE
  · rw [if_pos c11]
    repeat
      first
      | exact TokMono_pure _ _ _ rfl
      | refine TokMono_bind (PosMono_Read32 _ _) (fun _ _ => ?_)
      | refine TokMono_bind (PosMono_READ_OP_ANY _ _ _ _) (fun _ _ => ?_)
      | refine TokMono_bind (PosMono_ReadOp _ _ _) (fun _ _ => ?_)
      | refine TokMono_bind (PosMono_readWords _ _ _) (fun _ _ => ?_)
  rw [if_neg c11]
  by_cases c12 : opcode = SO_DCL_GS_OUTPUT_PRIMITIVE_TOPOLOGY
  · rw [if_pos c12]
    split_ifs
    · exact TokMono_pure _ _ _ rfl
    · exact TokMono_error _ _
  rw [if_neg c12]
  by_cases c13 : opcode = SO_DCL_MAX_OUTPUT_VERTEX_COUNT
  · rw [if_pos c13]
    repeat
      first
      | exact TokMono_pure _ _ _ rfl
      | refine TokMono_bind (PosMono_Read32 _ _) (fun _ _ => ?_)
      | refine TokMono_bind (PosMono_READ_OP_ANY _ _ _ _) (fun _ _ => ?_)
      | refine TokMono_bind (PosMono_ReadOp _ _ _) (fun _ _ => ?_)
      | refine TokMono_bind (PosMono_readWords _ _ _) (fun _ _ => ?_)
  rw [if_neg c13]
  by_cases c14 : opcode = SO_DCL_GS_INSTANCE_COUNT
  · rw [if_pos c14]
    repeat
      first
      | exact TokMono_pure _ _ _ rfl
      | refine TokMono_bind (PosMono_Read32 _ _) (fun _ _ => ?_)
      | refine TokMono_bind (PosMono_READ_OP_ANY _ _ _ _) (fun _ _ => ?_)
      | refine TokMono_bind (PosMono_ReadOp _ _ _) (fun _ _ => ?_)
      | refine TokMono_bind (PosMono_readWords _ _ _) (fun _ _ => ?_)
  rw [if_neg c14]
  by_cases c15 : opcode = SO_DCL_TESS_OUTPUT_PRIMITIVE
  · rw [if_pos c15]
    repeat
      first
      | exact TokMono_pure _ _ _ rfl
      | refine TokMono_bind (PosMono_Read32 _ _) (fun _ _ => ?_)
      | refine TokMono_bind (PosMono_READ_OP_ANY _ _ _ _) (fun _ _ => ?_)
      | refine TokMono_bind (PosMono_ReadOp _ _ _) (fun _ _ => ?_)
      | refine TokMono_bind (PosMono_readWords _ _ _) (fun _ _ => ?_)
  rw [if_neg c15]
  by_cases c16 : opcode = SO_DCL_TESS_PARTITIONING
  · rw [if_pos c16]
    repeat
      first
      | exact TokMono_pure _ _ _ rfl
      | refine TokMono_bind (PosMono_Read32 _ _) (fun _ _ => ?_)
      | refine TokMono_bind (PosMono_READ_OP_ANY _ _ _ _) (fun _ _ => ?_)
      | refine TokMono_bind (PosMono_ReadOp _ _ _) (fun _ _ => ?_)
      | refine TokMono_bind (PosMono_readWords _ _ _) (fun _ _ => ?_)
  rw [if_neg c16]
  by_cases c17 : opcode = SO_DCL_TESS_DOMAIN
  · rw [if_pos c17]
    repeat
      first
      | exact TokMono_pure _ _ _ rfl
      | refine TokMono_bind (PosMono_Read32 _ _) (fun _ _ => ?_)
      | refine TokMono_bind (PosMono_READ_OP_ANY _ _ _ _) (fun _ _ => ?_)
      | refine TokMono_bind (PosMono_ReadOp _ _ _) (fun _ _ => ?_)
      | refine TokMono_bind (PosMono_readWords _ _ _) (fun _ _ => ?_)
  rw [if_neg c17]
  by_cases c18 : opcode = SO_DCL_OUTPUT_CONTROL_POINT_COUNT
  · rw [if_pos c18]
    repeat
      first
      | exact TokMono_pure _ _ _ rfl
      | refine TokMono_bind (PosMono_Read32 _ _) (fun _ _ => ?_)
      | refine TokMono_bind (PosMono_READ_OP_ANY _ _ _ _) (fun _ _ => ?_)
      | refine TokMono_bind (PosMono_ReadOp _ _ _) (fun _ _ => ?_)
      | refine TokMono_bind (PosMono_readWords _ _ _) (fun _ _ => ?_)
  rw [if_neg c18]
  by_cases c19 : opcode = SO_DCL_INPUT_CONTROL_POINT_COUNT
  · rw [if_pos c19]
    repeat
      first
      | exact TokMono_pure _ _ _ rfl
      | refine TokMono_bind (PosMono_Read32 _ _) (fun _ _ => ?_)
      | refine TokMono_bind (PosMono_READ_OP_ANY _ _ _ _) (fun _ _ => ?_)
      | refine TokMono_bind (PosMono_ReadOp _ _ _) (fun _ _ => ?_)
      | refine TokMono_bind (PosMono_readWords _ _ _) (fun _ _ => ?_)
  rw [if_neg c19]
  by_cases c20 : opcode = SO_DCL_HS_MAX_TESSFACTOR ∨ opcode = SO_DCL_HS_FORK_PHASE_INSTANCE_COUNT ∨
      opcode = SO_DCL_FUNCTION_BODY
  · rw [if_pos c20]
    repeat
      first
      | exact TokMono_pure _ _ _ rfl
      | refine TokMono_bind (PosMono_Read32 _ _) (fun _ _ => ?_)
      | refine TokMono_bind (PosMono_READ_OP_ANY _ _ _ _) (fun _ _ => ?_)
      | refine TokMono_bind (PosMono_ReadOp _ _ _) (fun _ _ => ?_)
      | refine TokMono_bind (PosMono_readWords _ _ _) (fun _ _ => ?_)
  rw [if_neg c20]
  by_cases c21 : opcode = SO_DCL_FUNCTION_TABLE
  · rw [if_pos c21]
    repeat
      first
      | exact TokMono_pure _ _ _ rfl
      | refine TokMono_bind (PosMono_Read32 _ _) (fun _ _ => ?_)
      | refine TokMono_bind (PosMono_READ_OP_ANY _ _ _ _) (fun _ _ => ?_)
      | refine TokMono_bind (PosMono_ReadOp _ _ _) (fun _ _ => ?_)
      | refine TokMono_bind (PosMono_readWords _ _ _) (fun _ _ => ?_)
  rw [if_neg c21]
  by_cases c22 : opcode = SO_DCL_INTERFACE
  · rw [if_pos c22]
    repeat
      first
      | exact TokMono_pure _ _ _ rfl
      | refine TokMono_bind (PosMono_Read32 _ _) (fun _ _ => ?_)
      | refine TokMono_bind (PosMono_READ_OP_ANY _ _ _ _) (fun _ _ => ?_)
      | refine TokMono_bind (PosMono_ReadOp _ _ _) (fun _ _ => ?_)
      | refine TokMono_bind (PosMono_readWords _ _ _) (fun _ _ => ?_)
  rw [if_neg c22]
  by_cases c23 : opcode = SO_DCL_THREAD_GROUP
  · rw [if_pos c23]
    repeat
      first
      | exact TokMono_pure _ _ _ rfl
      | refine TokMono_bind (PosMono_Read32 _ _) (fun _ _ => ?_)
      | refine TokMono_bind (PosMono_READ_OP_ANY _ _ _ _) (fun _ _ => ?_)
      | refine TokMono_bind (PosMono_ReadOp _ _ _) (fun _ _ => ?_)
      | refine TokMono_bind (PosMono_readWords _ _ _) (fun _ _ => ?_)
  rw [if_neg c23]
  by_cases c24 : opcode = SO_DCL_UNORDERED_ACCESS_VIEW_TYPED
  · rw [if_pos c24]
    repeat
      first
      | exact TokMono_pure _ _ _ rfl
      | refine TokMono_bind (PosMono_Read32 _ _) (fun _ _ => ?_)
      | refine TokMono_bind (PosMono_READ_OP_ANY _ _ _ _) (fun _ _ => ?_)
      | refine TokMono_bind (PosMono_ReadOp _ _ _) (fun _ _ => ?_)
      | refine TokMono_bind (PosMono_readWords _ _ _) (fun _ _ => ?_)
  rw [if_neg c24]
  by_cases c25 : opcode = SO_DCL_UNORDERED_ACCESS_VIEW_RAW
  · rw [if_pos c25]
    repeat
      first
      | exact TokMono_pure _ _ _ rfl
      | refine TokMono_bind (PosMono_Read32 _ _) (fun _ _ => ?_)
      | refine TokMono_bind (PosMono_READ_OP_ANY _ _ _ _) (fun _ _ => ?_)
      | refine TokMono_bind (PosMono_ReadOp _ _ _) (fun _ _ => ?_)
      | refine TokMono_bind (PosMono_readWords _ _ _) (fun _ _ => ?_)
  rw [if_neg c25]
  by_cases c26 : opcode = SO_DCL_UNORDERED_ACCESS_VIEW_STRUCTURED
  · rw [if_pos c26]
    repeat
      first
      | exact TokMono_pure _ _ _ rfl
      | refine TokMono_bind (PosMono_Read32 _ _) (fun _ _ => ?_)
      | refine TokMono_bind (PosMono_READ_OP_ANY _ _ _ _) (fun _ _ => ?_)
      | refine TokMono_bind (PosMono_ReadOp _ _ _) (fun _ _ => ?_)
      | refine TokMono_bind (PosMono_readWords _ _ _) (fun _ _ => ?_)
  rw [if_neg c26]
  by_cases c27 : opcode = SO_DCL_THREAD_GROUP_SHARED_MEMORY_RAW
  · rw [if_pos c27]
    repeat
      first
      | exact TokMono_pure _ _ _ rfl
      | refine TokMono_bind (PosMono_Read32 _ _) (fun _ _ => ?_)
      | refine TokMono_bind (PosMono_READ_OP_ANY _ _ _ _) (fun _ _ => ?_)
      | refine TokMono_bind (PosMono_ReadOp _ _ _) (fun _ _ => ?_)
      | refine TokMono_bind (PosMono_readWords _ _ _) (fun _ _ => ?_)
  rw [if_neg c27]
  by_cases c28 : opcode = SO_DCL_THREAD_GROUP_SHARED_MEMORY_STRUCTURED
  · rw [if_pos c28]
    repeat
      first
      | exact TokMono_pure _ _ _ rfl
      | refine TokMono_bind (PosMono_Read32 _ _) (fun _ _ => ?_)
      | refine TokMono_bind (PosMono_READ_OP_ANY _ _ _ _) (fun _ _ => ?_)
      | refine TokMono_bind (PosMono_ReadOp _ _ _) (fun _ _ => ?_)
      | refine TokMono_bind (PosMono_readWords _ _ _) (fun _ _ => ?_)
  rw [if_neg c28]
  by_cases c29 : opcode = SO_DCL_RESOURCE_RAW
  · rw [if_pos c29]
    repeat
      first
      | exact TokMono_pure _ _ _ rfl
      | refine TokMono_bind (PosMono_Read32 _ _) (fun _ _ => ?_)
      | refine TokMono_bind (PosMono_READ_OP_ANY _ _ _ _) (fun _ _ => ?_)
      | refine TokMono_bind (PosMono_ReadOp _ _ _) (fun _ _ => ?_)
      | refine TokMono_bind (PosMono_readWords _ _ _) (fun _ _ => ?_)
  rw [if_neg c29]
  by_cases c30 : opcode = SO_DCL_RESOURCE_STRUCTURED
  · rw [if_pos c30]
    repeat
      first
      | exact TokMono_pure _ _ _ rfl
      | refine TokMono_bind (PosMono_Read32 _ _) (fun _ _ => ?_)
      | refine TokMono_bind (PosMono_READ_OP_ANY _ _ _ _) (fun _ _ => ?_)
      | refine TokMono_bind (PosMono_ReadOp _ _ _) (fun _ _ => ?_)
      | refine TokMono_bind (PosMono_readWords _ _ _) (fun _ _ => ?_)
  rw [if_neg c30]
  by_cases c31 : opcode = SO_DCL_STREAM
  · rw [if_pos c31]
    repeat
      first
      | exact TokMono_pure _ _ _ rfl
      | refine TokMono_bind (PosMono_Read32 _ _) (fun _ _ => ?_)
      | refine TokMono_bind (PosMono_READ_OP_ANY _ _ _ _) (fun _ _ => ?_)
      | refine TokMono_bind (PosMono_ReadOp _ _ _) (fun _ _ => ?_)
      | refine TokMono_bind (PosMono_readWords _ _ _) (fun _ _ => ?_)
  rw [if_neg c31]
  exact TokMono_error _ _

theorem declExtChain_mono {b : TokenBuf} :
    ∀ (fuel : Nat) {exttok r r1 : Nat}, declExtChain b fuel exttok r = .ok r1 → r ≤ r1
  | 0, _, _, _, h => by
    simp [declExtChain, throw, throwThe, MonadExceptOf.throw] at h
  | fuel + 1, exttok, r, r1, h => by
    unfold declExtChain at h
    split_ifs at h with hext
    · simp only [bind_eq_ok] at h
      obtain ⟨⟨t, r2⟩, h1, h⟩ := h
      have := PosMono_Read32 b r _ _ h1
      have := declExtChain_mono fuel h
      omega
    · simp only [pure, Except.pure] at h
      cases h
      exact le_rfl

theorem insnExtChain_mono {b : TokenBuf} :
    ∀ (fuel : Nat) {exttok : Nat} {insn insn1 : ShaderInstruction} {r r1 : Nat},
      insnExtChain b fuel exttok insn r = .ok (insn1, r1) → r ≤ r1
  | 0, _, _, _, _, _, h => by
    simp [insnExtChain, throw, throwThe, MonadExceptOf.throw] at h
  | fuel + 1, exttok, insn, insn1, r, r1, h => by
    unfold insnExtChain at h
    split_ifs at h with hext
    · simp only [bind_eq_ok] at h
      obtain ⟨⟨t, r2⟩, h1, h⟩ := h
      have := PosMono_Read32 b r _ _ h1
      have := insnExtChain_mono fuel h
      omega
    · simp only [pure, Except.pure] at h
      cases h
      exact le_rfl

theorem insnPayload_mono {b : TokenBuf} {opcode : Nat} {insn insn1 : ShaderInstruction}
    {r r1 : Nat} (h : insnPayload b opcode insn r = .ok (insn1, r1)) : r ≤ r1 := by
  unfold insnPayload at h
  split_ifs at h with hc
  · simp only [bind_eq_ok] at h
    obtain ⟨⟨t, r2⟩, h1, h⟩ := h
    have := PosMono_Read32 b r _ _ h1
    simp only [pure, Except.pure] at h
    cases h
    exact this
  · simp only [pure, Except.pure] at h
    cases h
    exact le_rfl

theorem OperandsBetween_le {lim : Limits} {b : TokenBuf} {p q : Nat} {ops : List ShaderOperand}
    (h : OperandsBetween lim b p q ops) : p ≤ q := by
  induction h with
  | done q => exact le_rfl
  | read hlt _ _ _ => exact Nat.le_of_lt hlt

/-- Every record of the token stream moves the position forward and adds at
most one declaration. -/
theorem parseRecord_progress {lim : Limits} {b : TokenBuf} {sa sb : PState}
    (h : parseRecord lim b sa = .ok sb) :
    sa.tokens + 1 ≤ sb.tokens ∧ sb.prog.dcls.length ≤ sa.prog.dcls.length + 1 := by
  obtain ⟨t0, h0, hend, hcount, hc⟩ := parseRecord_cases h
  rcases hc with ⟨-, hicb⟩ | hdecl | ⟨-, rfl⟩ | ⟨-, sm, hinsn, htok, -, hprog⟩
  · unfold parseICB at hicb
    simp only [bind_eq_ok] at hicb
    obtain ⟨⟨len, r⟩, h1, hicb⟩ := hicb
    have hr := PosMono_Read32 b _ _ _ h1
    dsimp only at hicb hr
    simp only [pure, Except.pure, throw, throwThe, MonadExceptOf.throw] at hicb
    split_ifs at hicb with hle <;> simp only [bind, Except.bind] at hicb <;> cases hicb
    refine ⟨?_, ?_⟩
    · show sa.tokens + 1 ≤ Skip _ r
      unfold Skip
      omega
    · simp
  · obtain ⟨r, dcl1, st2, hext, hpay, hlast, rfl⟩ := parseDecl_ok hdecl
    have h1 := declExtChain_mono _ hext
    have h2 := declPayload_mono lim b _ _ _ _ _ hpay
    have h3 := (declPayload_frame hpay).2.1
    dsimp only at h1 h2 h3
    refine ⟨by show sa.tokens + 1 ≤ st2.tokens; omega, ?_⟩
    show (st2.prog.dcls ++ [dcl1]).length ≤ _
    rw [h3]
    simp
  · exact ⟨le_rfl, by simp⟩
  · obtain ⟨insn0, p0, insn1, p, ops, hext, hpay, hops, -, rfl⟩ := parseInsn_ok hinsn
    have h1 := insnExtChain_mono _ hext
    have h2 := insnPayload_mono hpay
    obtain ⟨more, -, hbet, -⟩ := readInsnOps_ok _ hops (Nat.zero_le _)
    have h3 := OperandsBetween_le hbet
    have h4 : sa.tokens + 1 ≤ sa.tokens + insntok_length (t0 % 2 ^ 32) := by omega
    refine ⟨h4, ?_⟩
    show sm.prog.dcls.length ≤ _
    rcases hprog with hp | hp <;> rw [hp] <;> simp

/-- One iteration of the loop of `ParseShader` on the opcode token `t0`, as the
dispatch on its opcode. -/
theorem parseRecord_eq {lim : Limits} {b : TokenBuf} {st : PState} {t0 : Nat}
    (h0 : b.mem[st.tokens]? = some t0) (hend : st.tokens < b.tokens_end)
    (hcount : insntok_opcode (t0 % 2 ^ 32) < lim.SO_COUNT) :
    parseRecord lim b st =
      if SO_IMMEDIATE_CONSTANT_BUFFER = insntok_opcode (t0 % 2 ^ 32) then
        parseICB b { st with tokens := st.tokens + 1 }
      else if (insntok_opcode (t0 % 2 ^ 32) ≥ SO_DCL_RESOURCE ∧
            insntok_opcode (t0 % 2 ^ 32) ≤ SO_DCL_GLOBAL_FLAGS) ∨
          (insntok_opcode (t0 % 2 ^ 32) ≥ SO_DCL_STREAM ∧
            insntok_opcode (t0 % 2 ^ 32) ≤ SO_DCL_RESOURCE_STRUCTURED) ∨
          SO_DCL_GS_INSTANCE_COUNT = insntok_opcode (t0 % 2 ^ 32) then
        parseDecl lim b (t0 % 2 ^ 32) (st.tokens + 1 - 1 + insntok_length (t0 % 2 ^ 32))
          { st with tokens := st.tokens + 1 }
      else if SO_HS_FORK_PHASE = insntok_opcode (t0 % 2 ^ 32) ∨
          SO_HS_JOIN_PHASE = insntok_opcode (t0 % 2 ^ 32) ∨
          SO_HS_CONTROL_POINT_PHASE = insntok_opcode (t0 % 2 ^ 32) ∨
          SO_HS_DECLS = insntok_opcode (t0 % 2 ^ 32) then
        parseRecord lim b st
      else
        parseInsn lim b (t0 % 2 ^ 32) (st.tokens + 1 - 1 + insntok_length (t0 % 2 ^ 32))
          { st with tokens := st.tokens + 1 } := by
  by_cases hicb : SO_IMMEDIATE_CONSTANT_BUFFER = insntok_opcode (t0 % 2 ^ 32)
  · rw [if_pos hicb]
    unfold parseRecord
    rw [Read32_get h0 hend]
    simp only [bind, Except.bind, hcount, not_true_eq_false, if_false, pure, Except.pure]
    rw [if_pos hicb]
  rw [if_neg hicb]
  by_cases hdecl : (insntok_opcode (t0 % 2 ^ 32) ≥ SO_DCL_RESOURCE ∧
        insntok_opcode (t0 % 2 ^ 32) ≤ SO_DCL_GLOBAL_FLAGS) ∨
      (insntok_opcode (t0 % 2 ^ 32) ≥ SO_DCL_STREAM ∧
        insntok_opcode (t0 % 2 ^ 32) ≤ SO_DCL_RESOURCE_STRUCTURED) ∨
      SO_DCL_GS_INSTANCE_COUNT = insntok_opcode (t0 % 2 ^ 32)
  · rw [if_pos hdecl]
    have hnm : ¬ (SO_HS_FORK_PHASE = insntok_opcode (t0 % 2 ^ 32) ∨
        SO_HS_JOIN_PHASE = insntok_opcode (t0 % 2 ^ 32) ∨
        SO_HS_CONTROL_POINT_PHASE = insntok_opcode (t0 % 2 ^ 32) ∨
        SO_HS_DECLS = insntok_opcode (t0 % 2 ^ 32)) := by
      rintro (e | e | e | e) <;> (rw [← e] at hdecl; revert hdecl; decide)
    unfold parseRecord
    rw [Read32_get h0 hend]
    simp only [bind, Except.bind, hcount, not_true_eq_false, if_false, pure, Except.pure]
    rw [if_neg hicb, if_neg hnm, if_pos hdecl]
  rw [if_neg hdecl]
  by_cases hhs : SO_HS_FORK_PHASE = insntok_opcode (t0 % 2 ^ 32) ∨
      SO_HS_JOIN_PHASE = insntok_opcode (t0 % 2 ^ 32) ∨
      SO_HS_CONTROL_POINT_PHASE = insntok_opcode (t0 % 2 ^ 32) ∨
      SO_HS_DECLS = insntok_opcode (t0 % 2 ^ 32)
  · rw [if_pos hhs]
  rw [if_neg hhs]
  have hd : ¬ (SO_HS_DECLS = insntok_opcode (t0 % 2 ^ 32)) := fun e => hhs (Or.inr (Or.inr (Or.inr e)))
  unfold parseRecord
  rw [Read32_get h0 hend]
  simp only [bind, Except.bind, hcount, not_true_eq_false, if_false, pure, Except.pure]
  rw [if_neg hicb, if_neg hhs, if_neg hdecl, if_neg hd]

theorem gsEvent_none (d : ShaderDecl) (h1 : insntok_opcode d.insntok ≠ SO_DCL_STREAM)
    (h2 : insntok_opcode d.insntok ≠ SO_DCL_GS_OUTPUT_PRIMITIVE_TOPOLOGY) : gsEvent d = none := by
  unfold gsEvent ShaderDecl.opcode
  rw [if_neg h1, if_neg h2]

theorem gsEvents_append (xs ys : List ShaderDecl) :
    gsEvents (xs ++ ys) = gsEvents xs ++ gsEvents ys := by
  unfold gsEvents
  exact List.filterMap_append _ _ _

theorem gsEvents_single_none {d : ShaderDecl} (h : gsEvent d = none) : gsEvents [d] = [] := by
  simp [gsEvents, List.filterMap_cons, h]

theorem gsEvents_single_some {d : ShaderDecl} {e : GsEvent} (h : gsEvent d = some e) :
    gsEvents [d] = [e] := by
  simp [gsEvents, List.filterMap_cons, h]

/-- Effect of one record on the geometry-shader stream state: the per-stream
topology list and `cur_gs_stream` after the record are those before it with
the events of the declarations that the record appended replayed on them. -/
theorem parseRecord_gs {lim : Limits} {b : TokenBuf} {sa sb : PState}
    (h : parseRecord lim b sa = .ok sb) :
    ∃ d, sb.prog.dcls = sa.prog.dcls ++ d ∧
      (sb.prog.gs_output_topology, sb.cur_gs_stream) =
        (gsEvents d).foldl gsReplay (sa.prog.gs_output_topology, sa.cur_gs_stream) := by
  obtain ⟨t0, h0, hend, hcount, -⟩ := parseRecord_cases h
  have heq := parseRecord_eq h0 hend hcount
  by_cases hicb : SO_IMMEDIATE_CONSTANT_BUFFER = insntok_opcode (t0 % 2 ^ 32)
  · rw [if_pos hicb] at heq
    rw [heq] at h
    obtain ⟨dcl, hi, hp, hc⟩ := parseICB_ok h
    refine ⟨[dcl], by rw [hp], ?_⟩
    have hn : gsEvent dcl = none := by
      apply gsEvent_none <;> rw [hi] <;> decide
    rw [gsEvents_single_none hn, hp, hc]
    rfl
  rw [if_neg hicb] at heq
  by_cases hdecl : (insntok_opcode (t0 % 2 ^ 32) ≥ SO_DCL_RESOURCE ∧
        insntok_opcode (t0 % 2 ^ 32) ≤ SO_DCL_GLOBAL_FLAGS) ∨
      (insntok_opcode (t0 % 2 ^ 32) ≥ SO_DCL_STREAM ∧
        insntok_opcode (t0 % 2 ^ 32) ≤ SO_DCL_RESOURCE_STRUCTURED) ∨
      SO_DCL_GS_INSTANCE_COUNT = insntok_opcode (t0 % 2 ^ 32)
  · rw [if_pos hdecl] at heq
    rw [heq] at h
    obtain ⟨r, dcl1, st2, hext, hpay, hlast, rfl⟩ := parseDecl_ok h
    obtain ⟨-, hd, hi, hS, hT, hO⟩ := declPayload_frame hpay
    dsimp only at hd hi hS hT hO
    refine ⟨[dcl1], by show st2.prog.dcls ++ [dcl1] = _; rw [hd], ?_⟩
    show (st2.prog.gs_output_topology, st2.cur_gs_stream) = _
    by_cases c1 : insntok_opcode (t0 % 2 ^ 32) = SO_DCL_STREAM
    · obtain ⟨op, r1, hop, hdop, htop, hcur⟩ := hS c1
      have he : gsEvent dcl1 = some (.stream ((op.indices.headD ⟨0, none⟩).disp)) := by
        unfold gsEvent ShaderDecl.opcode
        rw [hi, if_pos c1, hdop]
        rfl
      rw [gsEvents_single_some he, htop, hcur]
      rfl
    · by_cases c2 : insntok_opcode (t0 % 2 ^ 32) = SO_DCL_GS_OUTPUT_PRIMITIVE_TOPOLOGY
      · obtain ⟨hlt, htop, hcur⟩ := hT c2
        have he : gsEvent dcl1 =
            some (.topology (dcltok_gs_output_primitive_topology (t0 % 2 ^ 32))) := by
          unfold gsEvent ShaderDecl.opcode
          rw [hi, if_neg c1, if_pos c2]
        rw [gsEvents_single_some he, htop, hcur]
        rfl
      · obtain ⟨htop, hcur⟩ := hO c1 c2
        have hn : gsEvent dcl1 = none := by
          apply gsEvent_none <;> rw [hi] <;> assumption
        rw [gsEvents_single_none hn, htop, hcur]
        rfl
  rw [if_neg hdecl] at heq
  by_cases hhs : SO_HS_FORK_PHASE = insntok_opcode (t0 % 2 ^ 32) ∨
      SO_HS_JOIN_PHASE = insntok_opcode (t0 % 2 ^ 32) ∨
      SO_HS_CONTROL_POINT_PHASE = insntok_opcode (t0 % 2 ^ 32) ∨
      SO_HS_DECLS = insntok_opcode (t0 % 2 ^ 32)
  · have hm := parseRecord_marker h0 hend hcount hhs
    have hn : gsEvent { ShaderDecl.fresh with insntok := insntok_opcode (t0 % 2 ^ 32) } = none := by
      apply gsEvent_none <;>
        (show insntok_opcode (insntok_opcode (t0 % 2 ^ 32)) ≠ _
         rw [insntok_opcode_idem]
         rcases hhs with e | e | e | e <;> (rw [← e]; decide))
    refine ⟨[{ ShaderDecl.fresh with insntok := insntok_opcode (t0 % 2 ^ 32) }], ?_, ?_⟩
    · by_cases hd : SO_HS_DECLS = insntok_opcode (t0 % 2 ^ 32)
      · rw [if_pos hd, h] at hm
        cases hm
        rfl
      · rw [if_neg hd, h] at hm
        obtain ⟨insn0, p0, insn1, p, ops, -, -, -, -, rfl⟩ := parseInsn_ok hm.symm
        rfl
    · rw [gsEvents_single_none hn]
      by_cases hd : SO_HS_DECLS = insntok_opcode (t0 % 2 ^ 32)
      · rw [if_pos hd, h] at hm
        cases hm
        rfl
      · rw [if_neg hd, h] at hm
        obtain ⟨insn0, p0, insn1, p, ops, -, -, -, -, rfl⟩ := parseInsn_ok hm.symm
        rfl
  rw [if_neg hhs] at heq
  rw [heq] at h
  obtain ⟨insn0, p0, insn1, p, ops, -, -, -, -, rfl⟩ := parseInsn_ok h
  exact ⟨[], by simp, rfl⟩

theorem rd8_lt {data : List Nat} {off x : Nat} (h : rd8 data off = .ok x) : x < 256 := by
  unfold rd8 at h
  split at h
  · cases h
    exact Nat.mod_lt _ (by norm_num)
  · cases h

theorem rd16_lt {data : List Nat} {off x : Nat} (h : rd16 data off = .ok x) : x < 65536 := by
  unfold rd16 at h
  simp only [bind_eq_ok, pure, Except.pure, Except.ok.injEq] at h
  obtain ⟨b0, h0, b1, h1, rfl⟩ := h
  have := rd8_lt h0
  have := rd8_lt h1
  omega

/-- The member offset made of two 16-bit halves: shift, or and sum agree, and
the value fits 32 bits. -/
theorem member_offset_eq (h l : Nat) (hh : h < 65536) (hl : l < 65536) :
    (h * 65536) % 2 ^ 32 ||| l = (h <<< 16) ||| l ∧
      (h * 65536) % 2 ^ 32 ||| l = 65536 * h + l ∧ (h * 65536) % 2 ^ 32 ||| l < 2 ^ 32 := by
  have e0 : (2 : Nat) ^ 32 = 4294967296 := by norm_num
  have e1 : (h * 65536) % 2 ^ 32 = 2 ^ 16 * h := by
    rw [e0]
    have : (2 : Nat) ^ 16 = 65536 := by norm_num
    rw [this]
    omega
  have e2 := Nat.mul_add_lt_is_or (show l < 2 ^ 16 by norm_num; exact hl) h
  have e3 : h <<< 16 = 2 ^ 16 * h := by
    rw [Nat.shiftLeft_eq, Nat.mul_comm]
  rw [e1, e3, ← e2, e0]
  have : (2 : Nat) ^ 16 = 65536 := by norm_num
  rw [this]
  exact ⟨rfl, rfl, by omega⟩

theorem readTypeDesc_ok {data : List Nat} {t : Nat} {td : DXBCShaderTypeDesc}
    (h : readTypeDesc data t = .ok td) : TypeRecordAt data t td := by
  unfold readTypeDesc at h
  simp only [bind_eq_ok, pure, Except.pure, Except.ok.injEq] at h
  obtain ⟨c, hc, ty, hty, r, hr, co, hco, e, he, m, hm, hi, hhi, lo, hlo, rfl⟩ := h
  obtain ⟨e1, e2, e3⟩ := member_offset_eq hi lo (rd16_lt hhi) (rd16_lt hlo)
  exact ⟨hc, hty, hr, hco, he, hm, hi, lo, hhi, hlo, rd16_lt hhi, rd16_lt hlo, e1, e2, e3⟩

/-- The type record decoder succeeds on every eight readable 16-bit words, and
its member offset is `65536 * h + l`. -/
theorem readTypeDesc_total {data : List Nat} {t c ty r co e m h l : Nat}
    (hc : rd16 data t = .ok c) (hty : rd16 data (t + 2) = .ok ty)
    (hr : rd16 data (t + 4) = .ok r) (hco : rd16 data (t + 6) = .ok co)
    (he : rd16 data (t + 8) = .ok e) (hm : rd16 data (t + 10) = .ok m)
    (hh : rd16 data (t + 12) = .ok h) (hl : rd16 data (t + 14) = .ok l) :
    readTypeDesc data t = .ok ⟨c, ty, r, co, e, m, 65536 * h + l⟩ := by
  unfold readTypeDesc
  rw [hc, hty, hr, hco, he, hm, hh, hl]
  simp only [bind, Except.bind, pure, Except.pure]
  rw [(member_offset_eq h l (rd16_lt hh) (rd16_lt hl)).2.1]

theorem readVarBindings_ok {data : List Nat} {major off next : Nat} {tex : Nat × Nat × Nat × Nat}
    (h : readVarBindings data major off = .ok (tex, next)) :
    (major ≥ 5 → next = off + 40 ∧ rd32 data (off + 24) = .ok tex.1 ∧
      rd32 data (off + 28) = .ok tex.2.1 ∧ rd32 data (off + 32) = .ok tex.2.2.1 ∧
      rd32 data (off + 36) = .ok tex.2.2.2) ∧
    (¬ major ≥ 5 → next = off + 24 ∧ tex = (0, 0, 0, 0)) := by
  unfold readVarBindings at h
  split_ifs at h with hm
  · simp only [bind_eq_ok, pure, Except.pure, Except.ok.injEq, Prod.mk.injEq] at h
    obtain ⟨a, ha, b, hb, c, hc, d, hd, rfl, rfl⟩ := h
    exact ⟨fun _ => ⟨rfl, ha, hb, hc, hd⟩, fun hn => absurd hm hn⟩
  · simp only [pure, Except.pure, Except.ok.injEq, Prod.mk.injEq] at h
    obtain ⟨rfl, rfl⟩ := h
    exact ⟨fun hn => absurd hn hm, fun _ => ⟨rfl, rfl⟩⟩

/-- A successful `readVar`: the next record starts `W` words further, with
`W = 10` from major version 5 on and `W = 6` before, and the variable is the
one of the record of `W` words. -/
theorem readVar_ok {data : List Nat} {major off next : Nat} {var : DXBCShaderVariable}
    (h : readVar data major off = .ok (var, next)) :
    next = off + 4 * (if major ≥ 5 then 10 else 6) ∧
      VarRecordAt data (if major ≥ 5 then 10 else 6) off var := by
  unfold readVar at h
  simp only [bind_eq_ok] at h
  obtain ⟨n, hn, so, hso, sz, hsz, fl, hfl, t, ht, d, hd, ⟨tex, nx⟩, htex, h⟩ := h
  obtain ⟨h5, h4⟩ := readVarBindings_ok htex
  dsimp only at h
  have hW : (major ≥ 5 → nx = off + 4 * (if major ≥ 5 then 10 else 6)) ∧
      (¬ major ≥ 5 → nx = off + 4 * (if major ≥ 5 then 10 else 6)) := by
    constructor
    · intro hm
      rw [if_pos hm]
      exact (h5 hm).1
    · intro hm
      rw [if_neg hm]
      exact (h4 hm).1
  have hnx : nx = off + 4 * (if major ≥ 5 then 10 else 6) := by
    by_cases hm : major ≥ 5
    · exact hW.1 hm
    · exact hW.2 hm
  have htexW : ((if major ≥ 5 then 10 else 6) = 10 →
      rd32 data (off + 24) = .ok tex.1 ∧ rd32 data (off + 28) = .ok tex.2.1 ∧
      rd32 data (off + 32) = .ok tex.2.2.1 ∧ rd32 data (off + 36) = .ok tex.2.2.2) ∧
      ((if major ≥ 5 then 10 else 6) ≠ 10 →
        tex.1 = 0 ∧ tex.2.1 = 0 ∧ tex.2.2.1 = 0 ∧ tex.2.2.2 = 0) := by
    by_cases hm : major ≥ 5
    · rw [if_pos hm]
      exact ⟨fun _ => (h5 hm).2, fun hne => absurd rfl hne⟩
    · rw [if_neg hm]
      refine ⟨fun he => absurd he (by decide), fun _ => ?_⟩
      rw [(h4 hm).2]
      exact ⟨rfl, rfl, rfl, rfl⟩
  by_cases ht0 : t = 0
  · subst ht0
    simp only [ne_eq, not_true_eq_false, if_false, pure, Except.pure, Except.ok.injEq,
      Prod.mk.injEq] at h
    obtain ⟨rfl, rfl⟩ := h
    exact ⟨hnx, hn, hso, hsz, hfl, ⟨0, ht, rfl, fun hne => absurd rfl hne⟩, ⟨d, hd, rfl⟩,
      htexW.1, htexW.2⟩
  · rw [if_pos ht0] at h
    simp only [bind_eq_ok, pure, Except.pure, Except.ok.injEq, Prod.mk.injEq] at h
    obtain ⟨td, htd, rfl, rfl⟩ := h
    refine ⟨hnx, hn, hso, hsz, hfl, ⟨t, ht, ?_, fun _ => htd⟩, ⟨d, hd, rfl⟩, htexW.1, htexW.2⟩
    show true = decide (t ≠ 0)
    simp [ht0]

/-- A successful loop over a variable table of `n` records of `W` words that
starts at byte offset `off`: `n` variables, the `j`-th one decoded at
`off + 4 * W * j`. -/
theorem readVars_get {data : List Nat} {major : Nat} :
    ∀ (n off : Nat) {vars : List DXBCShaderVariable},
      readVars data major n off = .ok vars →
      vars.length = n ∧
        ∀ j var, vars[j]? = some var →
          readVar data major (off + 4 * (if major ≥ 5 then 10 else 6) * j) =
            .ok (var, off + 4 * (if major ≥ 5 then 10 else 6) * (j + 1))
  | 0, off, vars, h => by
    simp only [readVars, pure, Except.pure, Except.ok.injEq] at h
    subst h
    exact ⟨rfl, fun j var hj => by simp at hj⟩
  | n + 1, off, vars, h => by
    simp only [readVars, bind_eq_ok, pure, Except.pure, Except.ok.injEq] at h
    obtain ⟨⟨v0, next⟩, h0, rest, hrest, rfl⟩ := h
    obtain ⟨hnext, -⟩ := readVar_ok h0
    obtain ⟨hlen, hget⟩ := readVars_get n next hrest
    refine ⟨by simp [hlen], ?_⟩
    intro j var hj
    cases j with
    | zero =>
      rw [List.getElem?_cons_zero] at hj
      cases hj
      simp only [Nat.mul_zero, Nat.add_zero, Nat.zero_add, Nat.mul_one]
      rw [h0, hnext]
    | succ k =>
      rw [List.getElem?_cons_succ] at hj
      have := hget k var hj
      rw [hnext] at this
      have e1 : off + 4 * (if major ≥ 5 then 10 else 6) * (k + 1) =
          off + 4 * (if major ≥ 5 then 10 else 6) + 4 * (if major ≥ 5 then 10 else 6) * k := by
        ring
      have e2 : off + 4 * (if major ≥ 5 then 10 else 6) * (k + 1 + 1) =
          off + 4 * (if major ≥ 5 then 10 else 6) +
            4 * (if major ≥ 5 then 10 else 6) * (k + 1) := by
        ring
      rw [e1, e2]
      exact this

theorem readCB_ok {data : List Nat} {major off : Nat} {bs : List DXBCInputBindDesc}
    {cb : DXBCConstantBuffer} (h : readCB data major bs off = .ok cb) :
    ∃ v o, rd32 data (off + 4) = .ok v ∧ rd32 data (off + 8) = .ok o ∧
      readVars data major v o = .ok cb.vars := by
  unfold readCB at h
  simp only [bind_eq_ok, pure, Except.pure, Except.ok.injEq] at h
  obtain ⟨nm, -, v, hv, o, ho, vars, hvars, sz, -, fl, -, ty, -, bp, -, rfl⟩ := h
  exact ⟨v, o, hv, ho, hvars⟩

theorem readCBs_get {data : List Nat} {major : Nat} {bs : List DXBCInputBindDesc} :
    ∀ (n off : Nat) {cbs : List DXBCConstantBuffer},
      readCBs data major bs n off = .ok cbs →
      cbs.length = n ∧
        ∀ i cb, cbs[i]? = some cb → readCB data major bs (off + 24 * i) = .ok cb
  | 0, off, cbs, h => by
    simp only [readCBs, pure, Except.pure, Except.ok.injEq] at h
    subst h
    exact ⟨rfl, fun i cb hi => by simp at hi⟩
  | n + 1, off, cbs, h => by
    simp only [readCBs, bind_eq_ok, pure, Except.pure, Except.ok.injEq] at h
    obtain ⟨cb0, h0, rest, hrest, rfl⟩ := h
    obtain ⟨hlen, hget⟩ := readCBs_get n (off + 24) hrest
    refine ⟨by simp [hlen], ?_⟩
    intro i cb hi
    cases i with
    | zero =>
      rw [List.getElem?_cons_zero] at hi
      cases hi
      exact h0
    | succ k =>
      rw [List.getElem?_cons_succ] at hi
      have := hget k cb hi
      have e1 : off + 24 * (k + 1) = off + 24 + 24 * k := by ring
      rw [e1]
      exact this

/-- The variables after a successful `ParseCBAndResourceBinding`: record `i`
of the constant-buffer table gives the variable count `v` and the offset `o`
of the variable table, and the `j`-th variable is decoded by `readVar` at
`o + 4 * W * j`. -/
theorem ParseCBAndResourceBinding_vars {prog prog1 : ShaderProgram} {chunk : DXBCChunk}
    {num_cb : Nat} (h : ParseCBAndResourceBinding prog chunk = .ok (prog1, num_cb)) :
    ∃ cb_offset, rd32 chunk.data 4 = .ok cb_offset ∧ prog1.cbuffers.length = num_cb ∧
      ∀ i cb, prog1.cbuffers[i]? = some cb →
        ∃ v o, rd32 chunk.data (cb_offset + 24 * i + 4) = .ok v ∧
          rd32 chunk.data (cb_offset + 24 * i + 8) = .ok o ∧ cb.vars.length = v ∧
          ∀ j var, cb.vars[j]? = some var →
            readVar chunk.data (version_major prog.version)
                (o + 4 * specVarRecordWords prog.version * j) =
              .ok (var, o + 4 * specVarRecordWords prog.version * (j + 1)) := by
  obtain ⟨-, cb_offset, nb, boff, -, h4, -, -, -, hcbs⟩ := ParseCBAndResourceBinding_ok h
  obtain ⟨hlen, hget⟩ := readCBs_get _ _ hcbs
  refine ⟨cb_offset, h4, hlen, ?_⟩
  intro i cb hi
  obtain ⟨v, o, hv, ho, hvars⟩ := readCB_ok (hget i cb hi)
  obtain ⟨hvl, hvget⟩ := readVars_get _ _ hvars
  exact ⟨v, o, hv, ho, hvl, hvget⟩

/-- Claim C17, version-dependent variable record width: after a successful
`ParseCBAndResourceBinding`, the constant buffer `i`, whose record gives the
variable count `v` and the variable offset `o`, has exactly `v` variables, and
the variable `j` is the one of the record of `W` consecutive 32-bit words at
byte offset `o + 4 * W * j` of the chunk payload, where `W = 10` when
`version.major` of the parsed program is at least 5 and `W = 6` otherwise, for
every chunk payload (so whatever its `shader_model` word); `start_texture`,
`texture_size`, `start_sampler` and `sampler_size` are the words 6 to 9 when
`W = 10` and are not read when `W = 6`. -/
theorem C17_variable_record_width (prog prog1 : ShaderProgram) (chunk : DXBCChunk)
    (num_cb : Nat) (h : ParseCBAndResourceBinding prog chunk = .ok (prog1, num_cb)) :
    (specVarRecordWords prog.version = 10 ↔ version_major prog.version ≥ 5) ∧
    (specVarRecordWords prog.version = 6 ↔ ¬ version_major prog.version ≥ 5) ∧
    ∃ cb_offset, rd32 chunk.data 4 = .ok cb_offset ∧ prog1.cbuffers.length = num_cb ∧
      ∀ i cb, prog1.cbuffers[i]? = some cb →
        ∃ v o, rd32 chunk.data (cb_offset + 24 * i + 4) = .ok v ∧
          rd32 chunk.data (cb_offset + 24 * i + 8) = .ok o ∧ cb.vars.length = v ∧
          ∀ j var, cb.vars[j]? = some var →
            VarRecordAt chunk.data (specVarRecordWords prog.version)
              (o + 4 * specVarRecordWords prog.version * j) var := by
  refine ⟨?_, ?_, ?_⟩
  · unfold specVarRecordWords
    split_ifs with hm
    · exact ⟨fun _ => hm, fun _ => rfl⟩
    · exact ⟨fun he => absurd he (by decide), fun hn => absurd hn hm⟩
  · unfold specVarRecordWords
    split_ifs with hm
    · exact ⟨fun he => absurd he (by decide), fun hn => absurd hm hn⟩
    · exact ⟨fun _ => hm, fun _ => rfl⟩
  · obtain ⟨cb_offset, h4, hlen, hall⟩ := ParseCBAndResourceBinding_vars h
    refine ⟨cb_offset, h4, hlen, ?_⟩
    intro i cb hi
    obtain ⟨v, o, hv, ho, hvl, hvget⟩ := hall i cb hi
    refine ⟨v, o, hv, ho, hvl, ?_⟩
    intro j var hj
    exact (readVar_ok (hvget j var hj)).2

/-- Witness for C17: the chunk `sampleModel5Chunk`, whose `shader_model` word
is 0x0400, parsed for a program of version 5.0 (records of 10 words: the
second variable is the record at byte 120) and for a program of version 4.0
(records of 6 words: the second variable is the record at byte 104). -/
theorem C17_variable_record_width_witness :
    (ParseCBAndResourceBinding { ShaderProgram.fresh with version := 0x00010050 }
        sampleModel5Chunk).map
      (fun x => x.1.cbuffers.map (fun cb => cb.vars.map (fun v =>
        (v.var_desc.name, v.var_desc.start_offset, v.var_desc.start_texture,
          v.var_desc.sampler_size)))) = .ok [[(179, 0, 1, 4), (0, 16, 5, 8)]] ∧
    (ParseCBAndResourceBinding { ShaderProgram.fresh with version := 0x00010040 }
        sampleModel5Chunk).map
      (fun x => x.1.cbuffers.map (fun cb => cb.vars.map (fun v =>
        (v.var_desc.name, v.var_desc.start_offset, v.var_desc.start_texture,
          v.var_desc.sampler_size)))) = .ok [[(179, 0, 0, 0), (1, 2, 0, 0)]] ∧
    ∃ prog1, ParseCBAndResourceBinding { ShaderProgram.fresh with version := 0x00010050 }
        sampleModel5Chunk = .ok (prog1, 1) ∧
      ∃ cb_offset, rd32 sampleModel5Chunk.data 4 = .ok cb_offset ∧ prog1.cbuffers.length = 1 ∧
        ∀ i cb, prog1.cbuffers[i]? = some cb →
          ∃ v o, rd32 sampleModel5Chunk.data (cb_offset + 24 * i + 4) = .ok v ∧
            rd32 sampleModel5Chunk.data (cb_offset + 24 * i + 8) = .ok o ∧ cb.vars.length = v ∧
            ∀ j var, cb.vars[j]? = some var →
              VarRecordAt sampleModel5Chunk.data (specVarRecordWords 0x00010050)
                (o + 4 * specVarRecordWords 0x00010050 * j) var := by
  refine ⟨rfl, rfl, _, rfl, ?_⟩
  exact (C17_variable_record_width { ShaderProgram.fresh with version := 0x00010050 } _
    sampleModel5Chunk 1 rfl).2.2

/-- Claim C18, type-descriptor member offset: after a successful
`ParseCBAndResourceBinding`, for the variable `j` of the constant buffer `i`,
with `t` the type offset of its record (word 4), a type description is there
exactly when `t` is not zero, and then, with `h` the 7th and `l` the 8th 16-bit
word of the type record at byte offset `t` of the chunk payload, the member
offset is `(h << 16) | l = 65536 * h + l`, below `2 ^ 32`, and class, type,
rows, columns, elements and members are the 1st to 6th 16-bit words. And the
decoder of the type record gives the member offset `65536 * h + l` for all
16-bit words `h` and `l` read there. -/
theorem C18_type_descriptor_member_offset (prog prog1 : ShaderProgram) (chunk : DXBCChunk)
    (num_cb : Nat) (h : ParseCBAndResourceBinding prog chunk = .ok (prog1, num_cb)) :
    (∃ cb_offset, rd32 chunk.data 4 = .ok cb_offset ∧
      ∀ i cb j var, prog1.cbuffers[i]? = some cb → cb.vars[j]? = some var →
        ∃ o t, rd32 chunk.data (cb_offset + 24 * i + 8) = .ok o ∧
          rd32 chunk.data (o + 4 * specVarRecordWords prog.version * j + 16) = .ok t ∧
          var.has_type_desc = decide (t ≠ 0) ∧
          (t ≠ 0 → TypeRecordAt chunk.data t var.type_desc)) ∧
    (∀ (t c ty r co e m hi lo : Nat),
      rd16 chunk.data t = .ok c → rd16 chunk.data (t + 2) = .ok ty →
      rd16 chunk.data (t + 4) = .ok r → rd16 chunk.data (t + 6) = .ok co →
      rd16 chunk.data (t + 8) = .ok e → rd16 chunk.data (t + 10) = .ok m →
      rd16 chunk.data (t + 12) = .ok hi → rd16 chunk.data (t + 14) = .ok lo →
      hi < 65536 ∧ lo < 65536 ∧
        readTypeDesc chunk.data t = .ok ⟨c, ty, r, co, e, m, 65536 * hi + lo⟩) := by
  constructor
  · obtain ⟨cb_offset, h4, -, hall⟩ := ParseCBAndResourceBinding_vars h
    refine ⟨cb_offset, h4, ?_⟩
    intro i cb j var hi hj
    obtain ⟨v, o, -, ho, -, hvget⟩ := hall i cb hi
    obtain ⟨-, -, -, -, -, ⟨t, ht, hhas, htd⟩, -⟩ := readVar_ok (hvget j var hj)
    exact ⟨o, t, ho, ht, hhas, fun hne => readTypeDesc_ok (htd hne)⟩
  · intro t c ty r co e m hi lo hc hty hr hco he hm hh hl
    exact ⟨rd16_lt hh, rd16_lt hl, readTypeDesc_total hc hty hr hco he hm hh hl⟩

/-- Witness for C18: the chunk `sampleModel5Chunk`; its first variable has the
type record at byte 160, whose 7th word is `h = 0x8001` and 8th word is
`l = 0x0002`, and the member offset is `0x80010002`. -/
theorem C18_type_descriptor_member_offset_witness :
    rd16 sampleModel5Chunk.data (160 + 12) = .ok 0x8001 ∧
    rd16 sampleModel5Chunk.data (160 + 14) = .ok 0x0002 ∧
    (ParseCBAndResourceBinding { ShaderProgram.fresh with version := 0x00010050 }
        sampleModel5Chunk).map
      (fun x => x.1.cbuffers.map (fun cb => cb.vars.map (fun v =>
        (v.has_type_desc, v.type_desc)))) =
      .ok [[(true, ⟨1, 3, 4, 4, 0, 0, 0x80010002⟩), (false, DXBCShaderTypeDesc.fresh)]] ∧
    ∃ prog1, ParseCBAndResourceBinding { ShaderProgram.fresh with version := 0x00010050 }
        sampleModel5Chunk = .ok (prog1, 1) ∧
      ∃ cb_offset, rd32 sampleModel5Chunk.data 4 = .ok cb_offset ∧
        ∀ i cb j var, prog1.cbuffers[i]? = some cb → cb.vars[j]? = some var →
          ∃ o t, rd32 sampleModel5Chunk.data (cb_offset + 24 * i + 8) = .ok o ∧
            rd32 sampleModel5Chunk.data (o + 4 * specVarRecordWords 0x00010050 * j + 16) =
              .ok t ∧
            var.has_type_desc = decide (t ≠ 0) ∧
            (t ≠ 0 → TypeRecordAt sampleModel5Chunk.data t var.type_desc) := by
  refine ⟨rfl, rfl, rfl, _, rfl, ?_⟩
  exact (C18_type_descriptor_member_offset { ShaderProgram.fresh with version := 0x00010050 } _
    sampleModel5Chunk 1 rfl).1

theorem updAt_get {α : Type} (g : α → α) :
    ∀ (i : Nat) (l : List α), (updAt g i l)[i]? = (l[i]?).map g
  | i, [] => by cases i <;> rfl
  | 0, _ :: _ => by simp [updAt]
  | i + 1, x :: l => by
    simp only [updAt, List.getElem?_cons_succ]
    exact updAt_get g i l

theorem updIndex_get (op : ShaderOperand) (i : Nat)
    (g : ShaderOperandIndex ShaderOperand → ShaderOperandIndex ShaderOperand) :
    (op.updIndex i g).indices[i]? = (op.indices[i]?).map g := by
  obtain ⟨f, ixs⟩ := op
  exact updAt_get g i ixs

theorem toInt32_eq {t : Nat} (h : t < 2 ^ 32) :
    toInt32 t = if t < 2 ^ 31 then (t : Int) else (t : Int) - 2 ^ 32 := by
  unfold toInt32
  rw [Nat.mod_eq_of_lt h]

theorem toInt64_eq {t : Nat} (h : t < 2 ^ 64) :
    toInt64 t = if t < 2 ^ 63 then (t : Int) else (t : Int) - 2 ^ 64 := by
  unfold toInt64
  rw [Nat.mod_eq_of_lt h]

theorem Read64_ok2 {b : TokenBuf} {r r1 t : Nat} (h : Read64 b r = .ok (t, r1)) :
    ∃ lo hi, Read32 b r = .ok (lo, r + 1) ∧ Read32 b (r + 1) = .ok (hi, r + 2) ∧
      t = lo + 2 ^ 32 * hi ∧ r1 = r + 2 := by
  unfold Read64 at h
  simp only [bind_eq_ok, pure, Except.pure, Except.ok.injEq, Prod.mk.injEq] at h
  obtain ⟨⟨lo, p⟩, h1, ⟨hi, q⟩, h2, rfl, rfl⟩ := h
  obtain ⟨rfl, -⟩ := Read32_ok h1
  obtain ⟨rfl, -⟩ := Read32_ok h2
  exact ⟨lo, hi, h1, h2, by ring, rfl⟩

/-- Claim C21, index displacement values: after a successful index step of
`ReadOp` on the slot `i`, the displacement of the slot is, for the
representations IMM32 and IMM32+RELATIVE, the displacement token `t` read as a
two's-complement signed 32-bit integer (`t` when `t < 2^31`, `t - 2^32`
otherwise); for IMM64 and IMM64+RELATIVE, with the tokens `a` then `b`, the
value `a + 2^32 * b` read as a signed 64-bit integer; and 0 for RELATIVE. -/
theorem C21_index_displacement (b : TokenBuf) (readNested : Nat → OpResult) (repr i : Nat)
    (op op1 : ShaderOperand) (r r1 : Nat) (hi : i < op.indices.length)
    (h : readOpIndex b readNested repr i op r = .ok (op1, r1)) :
    ∃ ix, op1.indices[i]? = some ix ∧
      (repr = SOIP_IMM32 ∨ repr = SOIP_IMM32_PLUS_RELATIVE →
        ∃ t, Read32 b r = .ok (t, r + 1) ∧ t < 2 ^ 32 ∧
          ix.disp = if t < 2 ^ 31 then (t : Int) else (t : Int) - 2 ^ 32) ∧
      (repr = SOIP_IMM64 ∨ repr = SOIP_IMM64_PLUS_RELATIVE →
        ∃ a c, Read32 b r = .ok (a, r + 1) ∧ Read32 b (r + 1) = .ok (c, r + 2) ∧
          a < 2 ^ 32 ∧ c < 2 ^ 32 ∧
          ix.disp = if a + 2 ^ 32 * c < 2 ^ 63 then ((a + 2 ^ 32 * c : Nat) : Int)
            else ((a + 2 ^ 32 * c : Nat) : Int) - 2 ^ 64) ∧
      (repr = SOIP_RELATIVE → ix.disp = 0) := by
  obtain ⟨ix0, hix0⟩ : ∃ ix0, op.indices[i]? = some ix0 :=
    ⟨op.indices[i], List.getElem?_eq_getElem hi⟩
  unfold readOpIndex at h
  dsimp only at h
  by_cases c0 : repr = SOIP_IMM32
  · rw [if_pos c0] at h
    simp only [bind_eq_ok, pure, Except.pure, Except.ok.injEq, Prod.mk.injEq] at h
    obtain ⟨⟨t, p⟩, h1, rfl, rfl⟩ := h
    obtain ⟨rfl, -⟩ := Read32_ok h1
    refine ⟨_, by rw [updIndex_get, updIndex_get, hix0]; rfl, ?_, ?_, ?_⟩
    · intro _
      exact ⟨t, h1, Read32_lt h1, toInt32_eq (Read32_lt h1)⟩
    · rintro (e | e) <;> (rw [c0] at e; exact absurd e (by decide))
    · intro e
      rw [c0] at e
      exact absurd e (by decide)
  rw [if_neg c0] at h
  by_cases c1 : repr = SOIP_IMM64
  · rw [if_pos c1] at h
    simp only [bind_eq_ok, pure, Except.pure, Except.ok.injEq, Prod.mk.injEq] at h
    obtain ⟨⟨t, p⟩, h1, rfl, rfl⟩ := h
    obtain ⟨lo, hi2, e1, e2, rfl, rfl⟩ := Read64_ok2 h1
    refine ⟨_, by rw [updIndex_get, updIndex_get, hix0]; rfl, ?_, ?_, ?_⟩
    · rintro (e | e) <;> (rw [c1] at e; exact absurd e (by decide))
    · intro _
      exact ⟨lo, hi2, e1, e2, Read32_lt e1, Read32_lt e2, toInt64_eq (Read64_lt h1)⟩
    · intro e
      rw [c1] at e
      exact absurd e (by decide)
  rw [if_neg c1] at h
  by_cases c2 : repr = SOIP_RELATIVE
  · rw [if_pos c2] at h
    simp only [bind_eq_ok, pure, Except.pure, Except.ok.injEq, Prod.mk.injEq] at h
    obtain ⟨⟨reg, p⟩, h1, rfl, rfl⟩ := h
    refine ⟨_, by rw [updIndex_get, updIndex_get, hix0]; rfl, ?_, ?_, ?_⟩
    · rintro (e | e) <;> (rw [c2] at e; exact absurd e (by decide))
    · rintro (e | e) <;> (rw [c2] at e; exact absurd e (by decide))
    · intro _
      rfl
  rw [if_neg c2] at h
  by_cases c3 : repr = SOIP_IMM32_PLUS_RELATIVE
  · rw [if_pos c3] at h
    simp only [bind_eq_ok, pure, Except.pure, Except.ok.injEq, Prod.mk.injEq] at h
    obtain ⟨⟨t, p⟩, h1, ⟨reg, q⟩, h2, rfl, rfl⟩ := h
    obtain ⟨rfl, -⟩ := Read32_ok h1
    refine ⟨_, by rw [updIndex_get, updIndex_get, updIndex_get, hix0]; rfl, ?_, ?_, ?_⟩
    · intro _
      exact ⟨t, h1, Read32_lt h1, toInt32_eq (Read32_lt h1)⟩
    · rintro (e | e) <;> (rw [c3] at e; exact absurd e (by decide))
    · intro e
      rw [c3] at e
      exact absurd e (by decide)
  rw [if_neg c3] at h
  by_cases c4 : repr = SOIP_IMM64_PLUS_RELATIVE
  · rw [if_pos c4] at h
    simp only [bind_eq_ok, pure, Except.pure, Except.ok.injEq, Prod.mk.injEq] at h
    obtain ⟨⟨t, p⟩, h1, ⟨reg, q⟩, h2, rfl, rfl⟩ := h
    obtain ⟨lo, hi2, e1, e2, rfl, rfl⟩ := Read64_ok2 h1
    refine ⟨_, by rw [updIndex_get, updIndex_get, updIndex_get, hix0]; rfl, ?_, ?_, ?_⟩
    · rintro (e | e) <;> (rw [c4] at e; exact absurd e (by decide))
    · intro _
      exact ⟨lo, hi2, e1, e2, Read32_lt e1, Read32_lt e2, toInt64_eq (Read64_lt h1)⟩
    · intro e
      rw [c4] at e
      exact absurd e (by decide)
  rw [if_neg c4] at h
  simp only [pure, Except.pure, Except.ok.injEq, Prod.mk.injEq] at h
  obtain ⟨rfl, rfl⟩ := h
  refine ⟨_, by rw [updIndex_get, hix0]; rfl, ?_, ?_, ?_⟩
  · rintro (e | e)
    · exact absurd e c0
    · exact absurd e c3
  · rintro (e | e)
    · exact absurd e c1
    · exact absurd e c4
  · intro e
    exact absurd e c2

/-- Witness for C21: the operand `[0x00100000, 0xFFFFFFFF]` (one index, IMM32)
has the displacement -1; the operand `[0x00500000, 0, 0x80000000]` (one index,
IMM64, low word first) has the displacement `-2^63`; the operand
`[0x00900000, 0]` (one index, RELATIVE, nested operand `[0]`) has the
displacement 0; and the index step on the token `0xFFFFFFFF`. -/
theorem C21_index_displacement_witness :
    (ReadOp sampleLimits (TokenBuf.init [0x00100000, 0xFFFFFFFF]) ShaderOperand.fresh 0).map
        (fun x => (x.1.indices.map (fun ix => ix.disp), x.2)) = .ok ([-1, 0, 0], 2) ∧
    (ReadOp sampleLimits (TokenBuf.init [0x00500000, 0, 0x80000000]) ShaderOperand.fresh 0).map
        (fun x => (x.1.indices.map (fun ix => ix.disp), x.2)) = .ok ([-2 ^ 63, 0, 0], 3) ∧
    (ReadOp sampleLimits (TokenBuf.init [0x00900000, 0]) ShaderOperand.fresh 0).map
        (fun x => (x.1.indices.map (fun ix => ix.disp), x.2)) = .ok ([0, 0, 0], 2) ∧
    0 < ShaderOperand.fresh.indices.length ∧
    readOpIndex (TokenBuf.init [0x00100000, 0xFFFFFFFF]) (fun _ => .error ParseError.Truncated)
        SOIP_IMM32 0 ShaderOperand.fresh 1 =
      .ok (ShaderOperand.mk ShaderOperand.fresh.f [⟨-1, none⟩, ⟨0, none⟩, ⟨0, none⟩], 2) ∧
    ∃ ix, (ShaderOperand.mk ShaderOperand.fresh.f
        [⟨-1, none⟩, ⟨0, none⟩, ⟨0, none⟩]).indices[0]? = some ix ∧
      (SOIP_IMM32 = SOIP_IMM32 ∨ SOIP_IMM32 = SOIP_IMM32_PLUS_RELATIVE →
        ∃ t, Read32 (TokenBuf.init [0x00100000, 0xFFFFFFFF]) 1 = .ok (t, 1 + 1) ∧ t < 2 ^ 32 ∧
          ix.disp = if t < 2 ^ 31 then (t : Int) else (t : Int) - 2 ^ 32) ∧
      (SOIP_IMM32 = SOIP_IMM64 ∨ SOIP_IMM32 = SOIP_IMM64_PLUS_RELATIVE →
        ∃ a c, Read32 (TokenBuf.init [0x00100000, 0xFFFFFFFF]) 1 = .ok (a, 1 + 1) ∧
          Read32 (TokenBuf.init [0x00100000, 0xFFFFFFFF]) (1 + 1) = .ok (c, 1 + 2) ∧
          a < 2 ^ 32 ∧ c < 2 ^ 32 ∧
          ix.disp = if a + 2 ^ 32 * c < 2 ^ 63 then ((a + 2 ^ 32 * c : Nat) : Int)
            else ((a + 2 ^ 32 * c : Nat) : Int) - 2 ^ 64) ∧
      (SOIP_IMM32 = SOIP_RELATIVE → ix.disp = 0) :=
  ⟨rfl, rfl, rfl, by decide, rfl,
    C21_index_displacement (TokenBuf.init [0x00100000, 0xFFFFFFFF])
      (fun _ => .error ParseError.Truncated) SOIP_IMM32 0 ShaderOperand.fresh _ 1 2
      (by decide) rfl⟩

theorem opDepth_eq (op : ShaderOperand) : opDepth op = 1 + ixsDepth op.indices := by
  obtain ⟨f, ixs⟩ := op
  simp [opDepth, ShaderOperand.indices]

theorem ixsDepth_cons (x : ShaderOperandIndex ShaderOperand)
    (rest : List (ShaderOperandIndex ShaderOperand)) :
    ixsDepth (x :: rest) = max (slotDepth x) (ixsDepth rest) := by
  obtain ⟨d, reg⟩ := x
  cases reg <;> simp [ixsDepth, slotDepth]

theorem ixsDepth_updAt (g : ShaderOperandIndex ShaderOperand → ShaderOperandIndex ShaderOperand)
    (D : Nat) (hg : ∀ x, slotDepth (g x) ≤ max (slotDepth x) D) :
    ∀ (i : Nat) (l : List (ShaderOperandIndex ShaderOperand)),
      ixsDepth (updAt g i l) ≤ max (ixsDepth l) D
  | i, [] => by cases i <;> simp [updAt, ixsDepth]
  | 0, x :: l => by
    simp only [updAt, ixsDepth_cons]
    have := hg x
    omega
  | i + 1, x :: l => by
    simp only [updAt, ixsDepth_cons]
    have := ixsDepth_updAt g D hg i l
    omega

theorem updIndex_depth_disp (op : ShaderOperand) (i : Nat) (d : Int) :
    ixsDepth (op.updIndex i fun ix => { ix with disp := d }).indices ≤ ixsDepth op.indices := by
  obtain ⟨f, ixs⟩ := op
  have := ixsDepth_updAt (fun ix => { ix with disp := d }) 0
    (fun x => by simp [slotDepth]) i ixs
  simpa [ShaderOperand.updIndex, ShaderOperand.indices] using this

theorem updIndex_depth_reg (op : ShaderOperand) (i : Nat) (o : ShaderOperand) :
    ixsDepth (op.updIndex i fun ix => { ix with reg := some o }).indices ≤
      max (ixsDepth op.indices) (opDepth o) := by
  obtain ⟨f, ixs⟩ := op
  have := ixsDepth_updAt (fun ix => { ix with reg := some o }) (opDepth o)
    (fun x => by simp [slotDepth]) i ixs
  simpa [ShaderOperand.updIndex, ShaderOperand.indices] using this

theorem readOpExt_pos {b : TokenBuf} {optok : Nat} {op op1 : ShaderOperand} {r r1 : Nat}
    (h : readOpExt b optok op r = .ok (op1, r1)) :
    r ≤ r1 ∧ (r ≤ b.tokens_end → r1 ≤ b.tokens_end) := by
  unfold readOpExt at h
  split_ifs at h with he
  · simp only [bind_eq_ok] at h
    obtain ⟨⟨x, r2⟩, hx, h⟩ := h
    obtain ⟨rfl, hlt, -⟩ := Read32_ok hx
    simp only [pure, Except.pure, throw, throwThe, MonadExceptOf.throw] at h
    split_ifs at h <;> cases h <;> exact ⟨by omega, fun _ => by omega⟩
  · cases h
    exact ⟨le_rfl, fun h => h⟩

/-- Positions and depth after one index step, for a nested reader `N` whose
results lie further in the stream, before its end, and are not deeper than
the number of tokens that `N` consumed. -/
theorem readOpIndex_pos {b : TokenBuf} {N : Nat → OpResult} {repr i : Nat}
    {op op1 : ShaderOperand} {r r1 : Nat}
    (hN : ∀ x o x1, N x = .ok (o, x1) →
      x ≤ x1 ∧ x1 ≤ b.tokens_end ∧ opDepth o ≤ x1 - x)
    (h : readOpIndex b N repr i op r = .ok (op1, r1)) :
    r ≤ r1 ∧ (r ≤ b.tokens_end → r1 ≤ b.tokens_end) ∧
      ixsDepth op1.indices ≤ max (ixsDepth op.indices) (r1 - r) := by
  unfold readOpIndex at h
  dsimp only at h
  have d0 := updIndex_depth_disp op i 0
  by_cases c0 : repr = SOIP_IMM32
  · rw [if_pos c0] at h
    simp only [bind_eq_ok, pure, Except.pure, Except.ok.injEq, Prod.mk.injEq] at h
    obtain ⟨⟨t, p⟩, h1, rfl, rfl⟩ := h
    obtain ⟨rfl, hlt, -⟩ := Read32_ok h1
    have d1 := updIndex_depth_disp (op.updIndex i fun ix => { ix with disp := 0 }) i (toInt32 t)
    dsimp only at d1 ⊢
    exact ⟨by omega, fun _ => by omega, by omega⟩
  rw [if_neg c0] at h
  by_cases c1 : repr = SOIP_IMM64
  · rw [if_pos c1] at h
    simp only [bind_eq_ok, pure, Except.pure, Except.ok.injEq, Prod.mk.injEq] at h
    obtain ⟨⟨t, p⟩, h1, rfl, rfl⟩ := h
    obtain ⟨lo, hi2, e1, e2, -, rfl⟩ := Read64_ok2 h1
    obtain ⟨-, hlt, -⟩ := Read32_ok e2
    have d1 := updIndex_depth_disp (op.updIndex i fun ix => { ix with disp := 0 }) i (toInt64 t)
    dsimp only at d1 ⊢
    exact ⟨by omega, fun _ => by omega, by omega⟩
  rw [if_neg c1] at h
  by_cases c2 : repr = SOIP_RELATIVE
  · rw [if_pos c2] at h
    simp only [bind_eq_ok, pure, Except.pure, Except.ok.injEq, Prod.mk.injEq] at h
    obtain ⟨⟨reg, p⟩, h1, rfl, rfl⟩ := h
    obtain ⟨n1, n2, n3⟩ := hN _ _ _ h1
    have d1 := updIndex_depth_reg (op.updIndex i fun ix => { ix with disp := 0 }) i reg
    dsimp only at n1 n2 n3 d1 ⊢
    exact ⟨n1, fun _ => n2, by omega⟩
  rw [if_neg c2] at h
  by_cases c3 : repr = SOIP_IMM32_PLUS_RELATIVE
  · rw [if_pos c3] at h
    simp only [bind_eq_ok, pure, Except.pure, Except.ok.injEq, Prod.mk.injEq] at h
    obtain ⟨⟨t, p⟩, h1, ⟨reg, q⟩, h2, rfl, rfl⟩ := h
    obtain ⟨rfl, hlt, -⟩ := Read32_ok h1
    obtain ⟨n1, n2, n3⟩ := hN _ _ _ h2
    have d1 := updIndex_depth_disp (op.updIndex i fun ix => { ix with disp := 0 }) i (toInt32 t)
    have d2 := updIndex_depth_reg
      ((op.updIndex i fun ix => { ix with disp := 0 }).updIndex i
        fun ix => { ix with disp := toInt32 t }) i reg
    dsimp only at n1 n2 n3 d1 d2 ⊢
    exact ⟨by omega, fun _ => n2, by omega⟩
  rw [if_neg c3] at h
  by_cases c4 : repr = SOIP_IMM64_PLUS_RELATIVE
  · rw [if_pos c4] at h
    simp only [bind_eq_ok, pure, Except.pure, Except.ok.injEq, Prod.mk.injEq] at h
    obtain ⟨⟨t, p⟩, h1, ⟨reg, q⟩, h2, rfl, rfl⟩ := h
    obtain ⟨lo, hi2, e1, e2, -, rfl⟩ := Read64_ok2 h1
    obtain ⟨n1, n2, n3⟩ := hN _ _ _ h2
    have d1 := updIndex_depth_disp (op.updIndex i fun ix => { ix with disp := 0 }) i (toInt64 t)
    have d2 := updIndex_depth_reg
      ((op.updIndex i fun ix => { ix with disp := 0 }).updIndex i
        fun ix => { ix with disp := toInt64 t }) i reg
    dsimp only at n1 n2 n3 d1 d2 ⊢
    exact ⟨by omega, fun _ => n2, by omega⟩
  rw [if_neg c4] at h
  simp only [pure, Except.pure, Except.ok.injEq, Prod.mk.injEq] at h
  obtain ⟨rfl, rfl⟩ := h
  exact ⟨le_rfl, fun h => h, by omega⟩

theorem readOpIndices_pos {b : TokenBuf} {N : Nat → OpResult} {optok : Nat}
    (hN : ∀ x o x1, N x = .ok (o, x1) →
      x ≤ x1 ∧ x1 ≤ b.tokens_end ∧ opDepth o ≤ x1 - x) :
    ∀ (k i : Nat) {op op1 : ShaderOperand} {r r1 : Nat},
      readOpIndices b N optok k i op r = .ok (op1, r1) →
      r ≤ r1 ∧ (r ≤ b.tokens_end → r1 ≤ b.tokens_end) ∧
        ixsDepth op1.indices ≤ max (ixsDepth op.indices) (r1 - r)
  | 0, _, op, op1, r, r1, h => by
    simp only [readOpIndices, pure, Except.pure, Except.ok.injEq, Prod.mk.injEq] at h
    obtain ⟨rfl, rfl⟩ := h
    exact ⟨le_rfl, fun h => h, by omega⟩
  | k + 1, i, op, op1, r, r1, h => by
    simp only [readOpIndices, bind_eq_ok] at h
    obtain ⟨repr, -, ⟨op2, r2⟩, h2, h⟩ := h
    dsimp only at h
    obtain ⟨a1, a2, a3⟩ := readOpIndex_pos hN h2
    obtain ⟨b1, b2, b3⟩ := readOpIndices_pos hN k (i + 1) h
    exact ⟨by omega, fun h => b2 (a2 h), by omega⟩

theorem readOpImmLoop_pos {E : Nat} {read : Nat → Except ParseError (Nat × Nat)}
    (hread : ∀ x v x1, read x = .ok (v, x1) → x ≤ x1 ∧ x1 ≤ E) :
    ∀ (k i : Nat) {op op1 : ShaderOperand} {r r1 : Nat},
      readOpImmLoop read k i op r = .ok (op1, r1) → r ≤ r1 ∧ (r ≤ E → r1 ≤ E)
  | 0, _, op, op1, r, r1, h => by
    simp only [readOpImmLoop, pure, Except.pure, Except.ok.injEq, Prod.mk.injEq] at h
    obtain ⟨rfl, rfl⟩ := h
    exact ⟨le_rfl, fun h => h⟩
  | k + 1, i, op, op1, r, r1, h => by
    simp only [readOpImmLoop, bind_eq_ok] at h
    obtain ⟨⟨v, r2⟩, h2, h⟩ := h
    dsimp only at h
    obtain ⟨a1, a2⟩ := hread _ _ _ h2
    obtain ⟨b1, b2⟩ := readOpImmLoop_pos hread k (i + 1) h
    exact ⟨by omega, fun _ => b2 a2⟩

theorem Read32_pos {b : TokenBuf} (x v x1 : Nat) (h : Read32 b x = .ok (v, x1)) :
    x ≤ x1 ∧ x1 ≤ b.tokens_end := by
  obtain ⟨rfl, hlt, -⟩ := Read32_ok h
  omega

theorem Read64_pos {b : TokenBuf} (x v x1 : Nat) (h : Read64 b x = .ok (v, x1)) :
    x ≤ x1 ∧ x1 ≤ b.tokens_end := by
  obtain ⟨lo, hi2, e1, e2, -, rfl⟩ := Read64_ok2 h
  obtain ⟨-, hlt, -⟩ := Read32_ok e2
  omega

theorem readOpImm_pos {b : TokenBuf} {op op1 : ShaderOperand} {r r1 : Nat}
    (h : readOpImm b op r = .ok (op1, r1)) :
    r ≤ r1 ∧ (r ≤ b.tokens_end → r1 ≤ b.tokens_end) := by
  unfold readOpImm at h
  split_ifs at h
  · exact readOpImmLoop_pos Read32_pos _ _ h
  · exact readOpImmLoop_pos Read64_pos _ _ h
  · simp only [pure, Except.pure, Except.ok.injEq, Prod.mk.injEq] at h
    obtain ⟨rfl, rfl⟩ := h
    exact ⟨le_rfl, fun h => h⟩

/-- A successful `ReadOpF` on an operand without nested operand consumes at
least one token, stops before the end of the stream, and the depth of the
decoded operand tree is at most the number of tokens consumed. -/
theorem ReadOpF_pos (lim : Limits) (b : TokenBuf) :
    ∀ (fuel : Nat) (op0 op : ShaderOperand) (r r1 : Nat),
      ixsDepth op0.indices = 0 → ReadOpF lim b fuel op0 r = .ok (op, r1) →
      r < r1 ∧ r1 ≤ b.tokens_end ∧ opDepth op ≤ r1 - r
  | 0, _, _, _, _, _, h => by
    simp [ReadOpF, throw, throwThe, MonadExceptOf.throw] at h
  | fuel + 1, op0, op, r, r1, h0, h => by
    have hN : ∀ x o x1, ReadOpF lim b fuel ShaderOperand.fresh x = .ok (o, x1) →
        x ≤ x1 ∧ x1 ≤ b.tokens_end ∧ opDepth o ≤ x1 - x := by
      intro x o x1 hx
      obtain ⟨n1, n2, n3⟩ := ReadOpF_pos lim b fuel ShaderOperand.fresh o x x1 rfl hx
      exact ⟨Nat.le_of_lt n1, n2, n3⟩
    simp only [ReadOpF, bind_eq_ok] at h
    obtain ⟨⟨optok, r2⟩, h1, opa, ha, ⟨opb, r3⟩, hb, h⟩ := h
    dsimp only at ha hb h
    obtain ⟨rfl, hlt, -⟩ := Read32_ok h1
    have ia := (readOpComps_ok ha).1
    have ib := (readOpExt_ok hb).1
    obtain ⟨p1, p2⟩ := readOpExt_pos hb
    unfold readOpRest at h
    simp only [bind_eq_ok] at h
    obtain ⟨⟨opc, r4⟩, hc, h⟩ := h
    dsimp only at h hc
    obtain ⟨q1, q2, q3⟩ := readOpIndices_pos hN _ _ hc
    have id := (readOpImm_ok h).1
    obtain ⟨s1, s2⟩ := readOpImm_pos h
    rw [ib, ia, h0] at q3
    have e4 : r4 ≤ b.tokens_end := q2 (p2 (by omega))
    have e5 : r1 ≤ b.tokens_end := s2 e4
    refine ⟨by omega, e5, ?_⟩
    rw [opDepth_eq, id]
    omega

theorem bind_eq_error {ε α β : Type} {x : Except ε α} {f : α → Except ε β} {e : ε} :
    (x >>= f) = .error e ↔ x = .error e ∨ ∃ a, x = .ok a ∧ f a = .error e := by
  cases x <;> simp [bind, Except.bind]

theorem bind_congr_ok {ε α β : Type} {x : Except ε α} {f g : α → Except ε β}
    (h : ∀ a, x = .ok a → f a = g a) : (x >>= f) = (x >>= g) := by
  cases x with
  | error e => rfl
  | ok a => exact h a rfl

theorem Read32_err {b : TokenBuf} {r : Nat} {e : ParseError} (h : Read32 b r = .error e) :
    e = ParseError.Truncated ∨ (e = ParseError.OutOfBounds ∧ b.mem.length < b.tokens_end) := by
  unfold Read32 at h
  split_ifs at h with hlt
  · split at h
    · cases h
    · rename_i hnone
      cases h
      have := List.getElem?_eq_none_iff.1 hnone
      exact Or.inr ⟨rfl, by omega⟩
  · cases h
    exact Or.inl rfl

theorem Read64_err {b : TokenBuf} {r : Nat} {e : ParseError} (h : Read64 b r = .error e) :
    e = ParseError.Truncated ∨ (e = ParseError.OutOfBounds ∧ b.mem.length < b.tokens_end) := by
  unfold Read64 at h
  simp only [bind_eq_error] at h
  rcases h with h | ⟨⟨lo, p⟩, -, h | ⟨⟨hi, q⟩, -, h⟩⟩
  · exact Read32_err h
  · exact Read32_err h
  · simp only [pure, Except.pure] at h
    cases h

theorem readOpComps_err {lim : Limits} {optok : Nat} {op : ShaderOperand} {e : ParseError}
    (h : readOpComps lim optok op = .error e) :
    e = ParseError.UnknownOperandType ∨ e = ParseError.UnhandledComponents := by
  unfold readOpComps at h
  simp only [bind, Except.bind, pure, Except.pure, throw, throwThe, MonadExceptOf.throw] at h
  split_ifs at h <;> first
    | (cases h; exact Or.inl rfl)
    | (cases h; exact Or.inr rfl)

theorem readOpExt_err {b : TokenBuf} {optok : Nat} {op : ShaderOperand} {r : Nat}
    {e : ParseError} (h : readOpExt b optok op r = .error e) :
    OperandFailure b e := by
  unfold readOpExt at h
  split_ifs at h with he
  · simp only [bind_eq_error] at h
    rcases h with h | ⟨⟨x, r2⟩, -, h⟩
    · rcases Read32_err h with h | h
      · exact Or.inl h
      · exact Or.inr (Or.inl h)
    · simp only [pure, Except.pure, throw, throwThe, MonadExceptOf.throw] at h
      split_ifs at h
      cases h
      exact Or.inr (Or.inr (Or.inr (Or.inr rfl)))
  · cases h

/-- Provenance of a failure of one index step: a failed read of a token, or a
failure of the nested reader at a position that is not before the step. -/
theorem readOpIndex_err {b : TokenBuf} {N : Nat → OpResult} {repr i : Nat}
    {op : ShaderOperand} {r : Nat} {e : ParseError}
    (h : readOpIndex b N repr i op r = .error e) :
    (e = ParseError.Truncated ∨ (e = ParseError.OutOfBounds ∧ b.mem.length < b.tokens_end)) ∨
      ∃ x, r ≤ x ∧ N x = .error e := by
  unfold readOpIndex at h
  dsimp only at h
  by_cases c0 : repr = SOIP_IMM32
  · rw [if_pos c0] at h
    simp only [bind_eq_error] at h
    rcases h with h | ⟨⟨t, p⟩, -, h⟩
    · exact Or.inl (Read32_err h)
    · simp only [pure, Except.pure] at h
      cases h
  rw [if_neg c0] at h
  by_cases c1 : repr = SOIP_IMM64
  · rw [if_pos c1] at h
    simp only [bind_eq_error] at h
    rcases h with h | ⟨⟨t, p⟩, -, h⟩
    · exact Or.inl (Read64_err h)
    · simp only [pure, Except.pure] at h
      cases h
  rw [if_neg c1] at h
  by_cases c2 : repr = SOIP_RELATIVE
  · rw [if_pos c2] at h
    simp only [bind_eq_error] at h
    rcases h with h | ⟨⟨reg, p⟩, -, h⟩
    · exact Or.inr ⟨r, le_rfl, h⟩
    · simp only [pure, Except.pure] at h
      cases h
  rw [if_neg c2] at h
  by_cases c3 : repr = SOIP_IMM32_PLUS_RELATIVE
  · rw [if_pos c3] at h
    simp only [bind_eq_error] at h
    rcases h with h | ⟨⟨t, p⟩, h1, h | ⟨⟨reg, q⟩, -, h⟩⟩
    · exact Or.inl (Read32_err h)
    · obtain ⟨rfl, -⟩ := Read32_ok h1
      exact Or.inr ⟨r + 1, by omega, h⟩
    · simp only [pure, Except.pure] at h
      cases h
  rw [if_neg c3] at h
  by_cases c4 : repr = SOIP_IMM64_PLUS_RELATIVE
  · rw [if_pos c4] at h
    simp only [bind_eq_error] at h
    rcases h with h | ⟨⟨t, p⟩, h1, h | ⟨⟨reg, q⟩, -, h⟩⟩
    · exact Or.inl (Read64_err h)
    · obtain ⟨lo, hi2, -, -, -, rfl⟩ := Read64_ok2 h1
      exact Or.inr ⟨r + 2, by omega, h⟩
    · simp only [pure, Except.pure] at h
      cases h
  rw [if_neg c4] at h
  simp only [pure, Except.pure] at h
  cases h

theorem readOpIndices_err {b : TokenBuf} {N : Nat → OpResult} {optok : Nat} {e : ParseError}
    (hN : ∀ x o x1, N x = .ok (o, x1) →
      x ≤ x1 ∧ x1 ≤ b.tokens_end ∧ opDepth o ≤ x1 - x) :
    ∀ (k i : Nat) {op : ShaderOperand} {r : Nat}, i + k ≤ 3 →
      readOpIndices b N optok k i op r = .error e →
      (e = ParseError.Truncated ∨
          (e = ParseError.OutOfBounds ∧ b.mem.length < b.tokens_end)) ∨
        ∃ x, r ≤ x ∧ N x = .error e
  | 0, _, op, r, _, h => by
    simp only [readOpIndices, pure, Except.pure] at h
    cases h
  | k + 1, i, op, r, hik, h => by
    simp only [readOpIndices, bind_eq_error] at h
    rcases h with h | ⟨repr, -, h | ⟨⟨op2, r2⟩, h2, h⟩⟩
    · exfalso
      unfold indexRepr at h
      simp only [pure, Except.pure, throw, throwThe, MonadExceptOf.throw] at h
      split_ifs at h with h0 h1 h2
      omega
    · exact readOpIndex_err h
    · dsimp only at h
      obtain ⟨a1, -, -⟩ := readOpIndex_pos hN h2
      rcases readOpIndices_err hN k (i + 1) (by omega) h with h3 | ⟨x, hx, h3⟩
      · exact Or.inl h3
      · exact Or.inr ⟨x, by omega, h3⟩

theorem readOpImmLoop_err {b : TokenBuf} {read : Nat → Except ParseError (Nat × Nat)}
    {e : ParseError}
    (hread : ∀ x e, read x = .error e →
      e = ParseError.Truncated ∨ (e = ParseError.OutOfBounds ∧ b.mem.length < b.tokens_end)) :
    ∀ (k i : Nat) {op : ShaderOperand} {r : Nat},
      readOpImmLoop read k i op r = .error e →
      e = ParseError.Truncated ∨ (e = ParseError.OutOfBounds ∧ b.mem.length < b.tokens_end)
  | 0, _, op, r, h => by
    simp only [readOpImmLoop, pure, Except.pure] at h
    cases h
  | k + 1, i, op, r, h => by
    simp only [readOpImmLoop, bind_eq_error] at h
    rcases h with h | ⟨⟨v, r2⟩, -, h⟩
    · exact hread _ _ h
    · exact readOpImmLoop_err hread k (i + 1) h

theorem readOpImm_err {b : TokenBuf} {op : ShaderOperand} {r : Nat} {e : ParseError}
    (h : readOpImm b op r = .error e) :
    e = ParseError.Truncated ∨ (e = ParseError.OutOfBounds ∧ b.mem.length < b.tokens_end) := by
  unfold readOpImm at h
  split_ifs at h
  · exact readOpImmLoop_err (fun _ _ h => Read32_err h) _ _ h
  · exact readOpImmLoop_err (fun _ _ h => Read64_err h) _ _ h
  · simp only [pure, Except.pure] at h
    cases h

theorem ReadOpF_nested (lim : Limits) (b : TokenBuf) (fuel : Nat) :
    ∀ x o x1, ReadOpF lim b fuel ShaderOperand.fresh x = .ok (o, x1) →
      x ≤ x1 ∧ x1 ≤ b.tokens_end ∧ opDepth o ≤ x1 - x := by
  intro x o x1 hx
  obtain ⟨n1, n2, n3⟩ := ReadOpF_pos lim b fuel ShaderOperand.fresh o x x1 rfl hx
  exact ⟨Nat.le_of_lt n1, n2, n3⟩

/-- Kinds of failure of `ReadOpF`: those of `OperandFailure`, or the
exhaustion of the fuel, which needs a fuel that is not above the number of
tokens left before the end of the stream. -/
theorem ReadOpF_err (lim : Limits) (b : TokenBuf) :
    ∀ (fuel : Nat) (op : ShaderOperand) (r : Nat) (e : ParseError),
      ReadOpF lim b fuel op r = .error e →
      OperandFailure b e ∨ (e = ParseError.OutOfFuel ∧ fuel ≤ b.tokens_end - r)
  | 0, _, _, e, h => by
    simp only [ReadOpF, throw, throwThe, MonadExceptOf.throw] at h
    cases h
    exact Or.inr ⟨rfl, Nat.zero_le _⟩
  | fuel + 1, op, r, e, h => by
    have lift : (e = ParseError.Truncated ∨
        (e = ParseError.OutOfBounds ∧ b.mem.length < b.tokens_end)) → OperandFailure b e := by
      rintro (h | h)
      · exact Or.inl h
      · exact Or.inr (Or.inl h)
    simp only [ReadOpF, bind_eq_error] at h
    rcases h with h | ⟨⟨optok, r2⟩, h1, h | ⟨opa, ha, h | ⟨⟨opb, r3⟩, hb, h⟩⟩⟩
    · exact Or.inl (lift (Read32_err h))
    · rcases readOpComps_err h with h | h
      · exact Or.inl (Or.inr (Or.inr (Or.inl h)))
      · exact Or.inl (Or.inr (Or.inr (Or.inr (Or.inl h))))
    · exact Or.inl (readOpExt_err h)
    · dsimp only at ha hb h
      obtain ⟨rfl, hlt, -⟩ := Read32_ok h1
      obtain ⟨p1, -⟩ := readOpExt_pos hb
      have hn : opb.f.num_indices ≤ 3 := by
        rw [(readOpExt_ok hb).2.2.2.2.2.2.1, (readOpComps_ok ha).2.2.2.2.2.1]
        exact optok_num_indices_le optok
      unfold readOpRest at h
      simp only [bind_eq_error] at h
      rcases h with h | ⟨⟨opc, r4⟩, -, h⟩
      · rcases readOpIndices_err (ReadOpF_nested lim b fuel) _ _ (by omega) h with
          h3 | ⟨x, hx, h3⟩
        · exact Or.inl (lift h3)
        · rcases ReadOpF_err lim b fuel _ _ _ h3 with h4 | ⟨h4, h5⟩
          · exact Or.inl h4
          · exact Or.inr ⟨h4, by omega⟩
      · exact Or.inl (lift (readOpImm_err h))

theorem readOpIndex_congr {b : TokenBuf} {N1 N2 : Nat → OpResult} {repr i : Nat}
    {op : ShaderOperand} {r : Nat} (hx : ∀ x, r ≤ x → N1 x = N2 x) :
    readOpIndex b N1 repr i op r = readOpIndex b N2 repr i op r := by
  unfold readOpIndex
  dsimp only
  by_cases c0 : repr = SOIP_IMM32
  · rw [if_pos c0, if_pos c0]
  rw [if_neg c0, if_neg c0]
  by_cases c1 : repr = SOIP_IMM64
  · rw [if_pos c1, if_pos c1]
  rw [if_neg c1, if_neg c1]
  by_cases c2 : repr = SOIP_RELATIVE
  · rw [if_pos c2, if_pos c2, hx r le_rfl]
  rw [if_neg c2, if_neg c2]
  by_cases c3 : repr = SOIP_IMM32_PLUS_RELATIVE
  · rw [if_pos c3, if_pos c3]
    refine bind_congr_ok ?_
    rintro ⟨t, p⟩ h1
    obtain ⟨rfl, -⟩ := Read32_ok h1
    dsimp only
    rw [hx (r + 1) (by omega)]
  rw [if_neg c3, if_neg c3]
  by_cases c4 : repr = SOIP_IMM64_PLUS_RELATIVE
  · rw [if_pos c4, if_pos c4]
    refine bind_congr_ok ?_
    rintro ⟨t, p⟩ h1
    obtain ⟨lo, hi2, -, -, -, rfl⟩ := Read64_ok2 h1
    dsimp only
    rw [hx (r + 2) (by omega)]
  rw [if_neg c4, if_neg c4]

theorem readOpIndices_congr {b : TokenBuf} {N1 N2 : Nat → OpResult} {optok : Nat}
    (hN : ∀ x o x1, N1 x = .ok (o, x1) →
      x ≤ x1 ∧ x1 ≤ b.tokens_end ∧ opDepth o ≤ x1 - x) :
    ∀ (k i : Nat) (op : ShaderOperand) (r : Nat), (∀ x, r ≤ x → N1 x = N2 x) →
      readOpIndices b N1 optok k i op r = readOpIndices b N2 optok k i op r
  | 0, _, _, _, _ => rfl
  | k + 1, i, op, r, hx => by
    simp only [readOpIndices]
    refine bind_congr_ok ?_
    intro repr _
    rw [← readOpIndex_congr hx]
    refine bind_congr_ok ?_
    rintro ⟨op2, r2⟩ h2
    dsimp only
    obtain ⟨a1, -, -⟩ := readOpIndex_pos hN h2
    exact readOpIndices_congr hN k (i + 1) op2 r2 (fun x h => hx x (by omega))

/-- Every fuel above the number of tokens left before the end of the stream
gives the same result. -/
theorem ReadOpF_fuel (lim : Limits) (b : TokenBuf) :
    ∀ (f1 f2 : Nat) (op : ShaderOperand) (r : Nat),
      b.tokens_end - r < f1 → b.tokens_end - r < f2 →
      ReadOpF lim b f1 op r = ReadOpF lim b f2 op r
  | 0, _, _, _, h1, _ => absurd h1 (Nat.not_lt_zero _)
  | _ + 1, 0, _, _, _, h2 => absurd h2 (Nat.not_lt_zero _)
  | f1 + 1, f2 + 1, op, r, h1, h2 => by
    simp only [ReadOpF]
    refine bind_congr_ok ?_
    rintro ⟨optok, r2⟩ hr
    obtain ⟨rfl, hlt, -⟩ := Read32_ok hr
    dsimp only
    refine bind_congr_ok ?_
    intro opa _
    refine bind_congr_ok ?_
    rintro ⟨opb, r3⟩ hb
    dsimp only
    obtain ⟨p1, -⟩ := readOpExt_pos hb
    unfold readOpRest
    rw [readOpIndices_congr (ReadOpF_nested lim b f1) _ _ _ _
      (fun x hx => ReadOpF_fuel lim b f1 f2 ShaderOperand.fresh x (by omega) (by omega))]

theorem FuelOK_pure {α : Type} (a : α) : FuelOK (pure a : Except ParseError α) := by
  intro h
  cases h

theorem FuelOK_ok {α : Type} (a : α) : FuelOK (Except.ok a : Except ParseError α) := by
  intro h
  cases h

theorem FuelOK_error {α : Type} {e : ParseError} (he : e ≠ ParseError.OutOfFuel) :
    FuelOK (Except.error e : Except ParseError α) := by
  intro h
  cases h
  exact he rfl

theorem FuelOK_bind {α β : Type} {x : Except ParseError α} {f : α → Except ParseError β}
    (hx : FuelOK x) (hf : ∀ a, x = .ok a → FuelOK (f a)) : FuelOK (x >>= f) := by
  cases x with
  | error e =>
    intro h
    cases h
    exact hx rfl
  | ok a => exact hf a rfl

theorem FuelOK_bind2 {α β γ : Type} {x : Except ParseError (α × β)}
    {f : α × β → Except ParseError γ}
    (hx : FuelOK x) (hf : ∀ a r, FuelOK (f (a, r))) : FuelOK (x >>= f) :=
  FuelOK_bind hx (fun a _ => hf a.1 a.2)

theorem FuelOK_Read32 (b : TokenBuf) (r : Nat) : FuelOK (Read32 b r) := by
  intro h
  rcases Read32_err h with h1 | ⟨h1, -⟩ <;> cases h1

/-- The fuel given by `ReadOp` to `ReadOpF` is never exhausted. -/
theorem FuelOK_ReadOp (lim : Limits) (b : TokenBuf) (op : ShaderOperand) (r : Nat) :
    FuelOK (ReadOp lim b op r) := by
  intro h
  rcases ReadOpF_err lim b _ op r _ h with h1 | ⟨-, h1⟩
  · rcases h1 with h2 | ⟨h2, -⟩ | h2 | h2 | h2 <;> cases h2
  · omega

theorem FuelOK_READ_OP_ANY (lim : Limits) (b : TokenBuf) (dcl : ShaderDecl) (r : Nat) :
    FuelOK (READ_OP_ANY lim b dcl r) := by
  unfold READ_OP_ANY
  exact FuelOK_bind2 (FuelOK_ReadOp _ _ _ _) (fun _ _ => FuelOK_pure _)

theorem FuelOK_readWords (b : TokenBuf) : ∀ (n r : Nat), FuelOK (readWords b n r)
  | 0, r => by
    unfold readWords
    exact FuelOK_pure _
  | n + 1, r => by
    unfold readWords
    exact FuelOK_bind2 (FuelOK_Read32 _ _) (fun _ r1 =>
      FuelOK_bind2 (FuelOK_readWords b n r1) (fun _ _ => FuelOK_pure _))

/-- The payload `switch` of the declaration branch never exhausts the fuel. -/
theorem FuelOK_declPayload (lim : Limits) (b : TokenBuf) (opcode : Nat) (dcl : ShaderDecl)
    (st : PState) : FuelOK (declPayload lim b opcode dcl st) := by
  unfold declPayload
  by_cases c0 : opcode = SO_DCL_GLOBAL_FLAGS
  · rw [if_pos c0]
    repeat
      first
      | exact FuelOK_pure _
      | refine FuelOK_bind2 (FuelOK_Read32 _ _) (fun _ _ => ?_)
      | refine FuelOK_bind2 (FuelOK_READ_OP_ANY _ _ _ _) (fun _ _ => ?_)
      | refine FuelOK_bind2 (FuelOK_ReadOp _ _ _ _) (fun _ _ => ?_)
      | refine FuelOK_bind2 (FuelOK_readWords _ _ _) (fun _ _ => ?_)
  rw [if_neg c0]
  by_cases c1 : opcode = SO_DCL_RESOURCE
  · rw [if_pos c1]
    repeat
      first
      | exact FuelOK_pure _
      | refine FuelOK_bind2 (FuelOK_Read32 _ _) (fun _ _ => ?_)
      | refine FuelOK_bind2 (FuelOK_READ_OP_ANY _ _ _ _) (fun _ _ => ?_)
      | refine FuelOK_bind2 (FuelOK_ReadOp _ _ _ _) (fun _ _ => ?_)
      | refine FuelOK_bind2 (FuelOK_readWords _ _ _) (fun _ _ => ?_)
  rw [if_neg c1]
  by_cases c2 : opcode = SO_DCL_SAMPLER
  · rw [if_pos c2]
    repeat
      first
      | exact FuelOK_pure _
      | refine FuelOK_bind2 (FuelOK_Read32 _ _) (fun _ _ => ?_)
      | refine FuelOK_bind2 (FuelOK_READ_OP_ANY _ _ _ _) (fun _ _ => ?_)
      | refine FuelOK_bind2 (FuelOK_ReadOp _ _ _ _) (fun _ _ => ?_)
      | refine FuelOK_bind2 (FuelOK_readWords _ _ _) (fun _ _ => ?_)
  rw [if_neg c2]
  by_cases c3 : opcode = SO_DCL_INPUT ∨ opcode = SO_DCL_INPUT_PS
  · rw [if_pos c3]
    repeat
      first
      | exact FuelOK_pure _
      | refine FuelOK_bind2 (FuelOK_Read32 _ _) (fun _ _ => ?_)
      | refine FuelOK_bind2 (FuelOK_READ_OP_ANY _ _ _ _) (fun _ _ => ?_)
      | refine FuelOK_bind2 (FuelOK_ReadOp _ _ _ _) (fun _ _ => ?_)
      | refine FuelOK_bind2 (FuelOK_readWords _ _ _) (fun _ _ => ?_)
  rw [if_neg c3]
  by_cases c4 : opcode = SO_DCL_INPUT_SIV ∨ opcode = SO_DCL_INPUT_SGV ∨
      opcode = SO_DCL_INPUT_PS_SIV ∨ opcode = SO_DCL_INPUT_PS_SGV
  · rw [if_pos c4]
    repeat
      first
      | exact FuelOK_pure _
      | refine FuelOK_bind2 (FuelOK_Read32 _ _) (fun _ _ => ?_)
      | refine FuelOK_bind2 (FuelOK_READ_OP_ANY _ _ _ _) (fun _ _ => ?_)
      | refine FuelOK_bind2 (FuelOK_ReadOp _ _ _ _) (fun _ _ => ?_)
      | refine FuelOK_bind2 (FuelOK_readWords _ _ _) (fun _ _ => ?_)
  rw [if_neg c4]
  by_cases c5 : opcode = SO_DCL_OUTPUT
  · rw [if_pos c5]
    repeat
      first
      | exact FuelOK_pure _
      | refine FuelOK_bind2 (FuelOK_Read32 _ _) (fun _ _ => ?_)
      | refine FuelOK_bind2 (FuelOK_READ_OP_ANY _ _ _ _) (fun _ _ => ?_)
      | refine FuelOK_bind2 (FuelOK_ReadOp _ _ _ _) (fun _ _ => ?_)
      | refine FuelOK_bind2 (FuelOK_readWords _ _ _) (fun _ _ => ?_)
  rw [if_neg c5]
  by_cases c6 : opcode = SO_DCL_OUTPUT_SIV ∨ opcode = SO_DCL_OUTPUT_SGV
  · rw [if_pos c6]
    repeat
      first
      | exact FuelOK_pure _
      | refine FuelOK_bind2 (FuelOK_Read32 _ _) (fun _ _ => ?_)
      | refine FuelOK_bind2 (FuelOK_READ_OP_ANY _ _ _ _) (fun _ _ => ?_)
      | refine FuelOK_bind2 (FuelOK_ReadOp _ _ _ _) (fun _ _ => ?_)
      | refine FuelOK_bind2 (FuelOK_readWords _ _ _) (fun _ _ => ?_)
  rw [if_neg c6]
  by_cases c7 : opcode = SO_DCL_INDEX_RANGE
  · rw [if_pos c7]
    refine FuelOK_bind2 (FuelOK_ReadOp _ _ _ _) (fun op r => ?_)
    by_cases hty : SOT_INPUT = op.f.type ∨ SOT_OUTPUT = op.f.type
    · simp only [hty, not_true_eq_false, if_false, pure_bind]
      exact FuelOK_bind2 (FuelOK_Read32 _ _) (fun _ _ => FuelOK_pure _)
    · simp only [hty, not_false_eq_true, if_true, throw, throwThe, MonadExceptOf.throw,
        bind, Except.bind]
      exact FuelOK_error (by decide)
  rw [if_neg c7]
  by_cases c8 : opcode = SO_DCL_TEMPS
  · rw [if_pos c8]
    repeat
      first
      | exact FuelOK_pure _
      | refine FuelOK_bind2 (FuelOK_Read32 _ _) (fun _ _ => ?_)
      | refine FuelOK_bind2 (FuelOK_READ_OP_ANY _ _ _ _) (fun _ _ => ?_)
      | refine FuelOK_bind2 (FuelOK_ReadOp _ _ _ _) (fun _ _ => ?_)
      | refine FuelOK_bind2 (FuelOK_readWords _ _ _) (fun _ _ => ?_)
  rw [if_neg c8]
  by_cases c9 : opcode = SO_DCL_INDEXABLE_TEMP
  · rw [if_pos c9]
    repeat
      first
      | exact FuelOK_pure _
      | refine FuelOK_bind2 (FuelOK_Read32 _ _) (fun _ _ => ?_)
      | refine FuelOK_bind2 (FuelOK_READ_OP_ANY _ _ _ _) (fun _ _ => ?_)
      | refine FuelOK_bind2 (FuelOK_ReadOp _ _ _ _) (fun _ _ => ?_)
      | refine FuelOK_bind2 (FuelOK_readWords _ _ _) (fun _ _ => ?_)
  rw [if_neg c9]
  by_cases c10 : opcode = SO_DCL_CONSTANT_BUFFER
  · rw [if_pos c10]
    repeat
      first
      | exact FuelOK_pure _
      | refine FuelOK_bind2 (FuelOK_Read32 _ _) (fun _ _ => ?_)
      | refine FuelOK_bind2 (FuelOK_READ_OP_ANY _ _ _ _) (fun _ _ => ?_)
      | refine FuelOK_bind2 (FuelOK_ReadOp _ _ _ _) (fun _ _ => ?_)
      | refine FuelOK_bind2 (FuelOK_readWords _ _ _) (fun _ _ => ?_)
  rw [if_neg c10]
  by_cases c11 : opcode = SO_DCL_GS_INPUT_PRIMITIVE
  · rw [if_pos c11]
    repeat
      first
      | exact FuelOK_pure _
      | refine FuelOK_bind2 (FuelOK_Read32 _ _) (fun _ _ => ?_)
      | refine FuelOK_bind2 (FuelOK_READ_OP_ANY _ _ _ _) (fun _ _ => ?_)
      | refine FuelOK_bind2 (FuelOK_ReadOp _ _ _ _) (fun _ _ => ?_)
      | refine FuelOK_bind2 (FuelOK_readWords _ _ _) (fun _ _ => ?_)
  rw [if_neg c11]
  by_cases c12 : opcode = SO_DCL_GS_OUTPUT_PRIMITIVE_TOPOLOGY
  · rw [if_pos c12]
    split_ifs
    · exact FuelOK_pure _
    · exact FuelOK_error (by decide)
  rw [if_neg c12]
  by_cases c13 : opcode = SO_DCL_MAX_OUTPUT_VERTEX_COUNT
  · rw [if_pos c13]
    repeat
      first
      | exact FuelOK_pure _
      | refine FuelOK_bind2 (FuelOK_Read32 _ _) (fun _ _ => ?_)
      | refine FuelOK_bind2 (FuelOK_READ_OP_ANY _ _ _ _) (fun _ _ => ?_)
      | refine FuelOK_bind2 (FuelOK_ReadOp _ _ _ _) (fun _ _ => ?_)
      | refine FuelOK_bind2 (FuelOK_readWords _ _ _) (fun _ _ => ?_)
  rw [if_neg c13]
  by_cases c14 : opcode = SO_DCL_GS_INSTANCE_COUNT
  · rw [if_pos c14]
    repeat
      first
      | exact FuelOK_pure _
      | refine FuelOK_bind2 (FuelOK_Read32 _ _) (fun _ _ => ?_)
      | refine FuelOK_bind2 (FuelOK_READ_OP_ANY _ _ _ _) (fun _ _ => ?_)
      | refine FuelOK_bind2 (FuelOK_ReadOp _ _ _ _) (fun _ _ => ?_)
      | refine FuelOK_bind2 (FuelOK_readWords _ _ _) (fun _ _ => ?_)
  rw [if_neg c14]
  by_cases c15 : opcode = SO_DCL_TESS_OUTPUT_PRIMITIVE
  · rw [if_pos c15]
    repeat
      first
      | exact FuelOK_pure _
      | refine FuelOK_bind2 (FuelOK_Read32 _ _) (fun _ _ => ?_)
      | refine FuelOK_bind2 (FuelOK_READ_OP_ANY _ _ _ _) (fun _ _ => ?_)
      | refine FuelOK_bind2 (FuelOK_ReadOp _ _ _ _) (fun _ _ => ?_)
      | refine FuelOK_bind2 (FuelOK_readWords _ _ _) (fun _ _ => ?_)
  rw [if_neg c15]
  by_cases c16 : opcode = SO_DCL_TESS_PARTITIONING
  · rw [if_pos c16]
    repeat
      first
      | exact FuelOK_pure _
      | refine FuelOK_bind2 (FuelOK_Read32 _ _) (fun _ _ => ?_)
      | refine FuelOK_bind2 (FuelOK_READ_OP_ANY _ _ _ _) (fun _ _ => ?_)
      | refine FuelOK_bind2 (FuelOK_ReadOp _ _ _ _) (fun _ _ => ?_)
      | refine FuelOK_bind2 (FuelOK_readWords _ _ _) (fun _ _ => ?_)
  rw [if_neg c16]
  by_cases c17 : opcode = SO_DCL_TESS_DOMAIN
  · rw [if_pos c17]
    repeat
      first
      | exact FuelOK_pure _
      | refine FuelOK_bind2 (FuelOK_Read32 _ _) (fun _ _ => ?_)
      | refine FuelOK_bind2 (FuelOK_READ_OP_ANY _ _ _ _) (fun _ _ => ?_)
      | refine FuelOK_bind2 (FuelOK_ReadOp _ _ _ _) (fun _ _ => ?_)
      | refine FuelOK_bind2 (FuelOK_readWords _ _ _) (fun _ _ => ?_)
  rw [if_neg c17]
  by_cases c18 : opcode = SO_DCL_OUTPUT_CONTROL_POINT_COUNT
  · rw [if_pos c18]
    repeat
      first
      | exact FuelOK_pure _
      | refine FuelOK_bind2 (FuelOK_Read32 _ _) (fun _ _ => ?_)
      | refine FuelOK_bind2 (FuelOK_READ_OP_ANY _ _ _ _) (fun _ _ => ?_)
      | refine FuelOK_bind2 (FuelOK_ReadOp _ _ _ _) (fun _ _ => ?_)
      | refine FuelOK_bind2 (FuelOK_readWords _ _ _) (fun _ _ => ?_)
  rw [if_neg c18]
  by_cases c19 : opcode = SO_DCL_INPUT_CONTROL_POINT_COUNT
  · rw [if_pos c19]
    repeat
      first
      | exact FuelOK_pure _
      | refine FuelOK_bind2 (FuelOK_Read32 _ _) (fun _ _ => ?_)
      | refine FuelOK_bind2 (FuelOK_READ_OP_ANY _ _ _ _) (fun _ _ => ?_)
      | refine FuelOK_bind2 (FuelOK_ReadOp _ _ _ _) (fun _ _ => ?_)
      | refine FuelOK_bind2 (FuelOK_readWords _ _ _) (fun _ _ => ?_)
  rw [if_neg c19]
  by_cases c20 : opcode = SO_DCL_HS_MAX_TESSFACTOR ∨ opcode = SO_DCL_HS_FORK_PHASE_INSTANCE_COUNT ∨
      opcode = SO_DCL_FUNCTION_BODY
  · rw [if_pos c20]
    repeat
      first
      | exact FuelOK_pure _
      | refine FuelOK_bind2 (FuelOK_Read32 _ _) (fun _ _ => ?_)
      | refine FuelOK_bind2 (FuelOK_READ_OP_ANY _ _ _ _) (fun _ _ => ?_)
      | refine FuelOK_bind2 (FuelOK_ReadOp _ _ _ _) (fun _ _ => ?_)
      | refine FuelOK_bind2 (FuelOK_readWords _ _ _) (fun _ _ => ?_)
  rw [if_neg c20]
  by_cases c21 : opcode = SO_DCL_FUNCTION_TABLE
  · rw [if_pos c21]
    repeat
      first
      | exact FuelOK_pure _
      | refine FuelOK_bind2 (FuelOK_Read32 _ _) (fun _ _ => ?_)
      | refine FuelOK_bind2 (FuelOK_READ_OP_ANY _ _ _ _) (fun _ _ => ?_)
      | refine FuelOK_bind2 (FuelOK_ReadOp _ _ _ _) (fun _ _ => ?_)
      | refine FuelOK_bind2 (FuelOK_readWords _ _ _) (fun _ _ => ?_)
  rw [if_neg c21]
  by_cases c22 : opcode = SO_DCL_INTERFACE
  · rw [if_pos c22]
    repeat
      first
      | exact FuelOK_pure _
      | refine FuelOK_bind2 (FuelOK_Read32 _ _) (fun _ _ => ?_)
      | refine FuelOK_bind2 (FuelOK_READ_OP_ANY _ _ _ _) (fun _ _ => ?_)
      | refine FuelOK_bind2 (FuelOK_ReadOp _ _ _ _) (fun _ _ => ?_)
      | refine FuelOK_bind2 (FuelOK_readWords _ _ _) (fun _ _ => ?_)
  rw [if_neg c22]
  by_cases c23 : opcode = SO_DCL_THREAD_GROUP
  · rw [if_pos c23]
    repeat
      first
      | exact FuelOK_pure _
      | refine FuelOK_bind2 (FuelOK_Read32 _ _) (fun _ _ => ?_)
      | refine FuelOK_bind2 (FuelOK_READ_OP_ANY _ _ _ _) (fun _ _ => ?_)
      | refine FuelOK_bind2 (FuelOK_ReadOp _ _ _ _) (fun _ _ => ?_)
      | refine FuelOK_bind2 (FuelOK_readWords _ _ _) (fun _ _ => ?_)
  rw [if_neg c23]
  by_cases c24 : opcode = SO_DCL_UNORDERED_ACCESS_VIEW_TYPED
  · rw [if_pos c24]
    repeat
      first
      | exact FuelOK_pure _
      | refine FuelOK_bind2 (FuelOK_Read32 _ _) (fun _ _ => ?_)
      | refine FuelOK_bind2 (FuelOK_READ_OP_ANY _ _ _ _) (fun _ _ => ?_)
      | refine FuelOK_bind2 (FuelOK_ReadOp _ _ _ _) (fun _ _ => ?_)
      | refine FuelOK_bind2 (FuelOK_readWords _ _ _) (fun _ _ => ?_)
  rw [if_neg c24]
  by_cases c25 : opcode = SO_DCL_UNORDERED_ACCESS_VIEW_RAW
  · rw [if_pos c25]
    repeat
      first
      | exact FuelOK_pure _
      | refine FuelOK_bind2 (FuelOK_Read32 _ _) (fun _ _ => ?_)
      | refine FuelOK_bind2 (FuelOK_READ_OP_ANY _ _ _ _) (fun _ _ => ?_)
      | refine FuelOK_bind2 (FuelOK_ReadOp _ _ _ _) (fun _ _ => ?_)
      | refine FuelOK_bind2 (FuelOK_readWords _ _ _) (fun _ _ => ?_)
  rw [if_neg c25]
  by_cases c26 : opcode = SO_DCL_UNORDERED_ACCESS_VIEW_STRUCTURED
  · rw [if_pos c26]
    repeat
      first
      | exact FuelOK_pure _
      | refine FuelOK_bind2 (FuelOK_Read32 _ _) (fun _ _ => ?_)
      | refine FuelOK_bind2 (FuelOK_READ_OP_ANY _ _ _ _) (fun _ _ => ?_)
      | refine FuelOK_bind2 (FuelOK_ReadOp _ _ _ _) (fun _ _ => ?_)
      | refine FuelOK_bind2 (FuelOK_readWords _ _ _) (fun _ _ => ?_)
  rw [if_neg c26]
  by_cases c27 : opcode = SO_DCL_THREAD_GROUP_SHARED_MEMORY_RAW
  · rw [if_pos c27]
    repeat
      first
      | exact FuelOK_pure _
      | refine FuelOK_bind2 (FuelOK_Read32 _ _) (fun _ _ => ?_)
      | refine FuelOK_bind2 (FuelOK_READ_OP_ANY _ _ _ _) (fun _ _ => ?_)
      | refine FuelOK_bind2 (FuelOK_ReadOp _ _ _ _) (fun _ _ => ?_)
      | refine FuelOK_bind2 (FuelOK_readWords _ _ _) (fun _ _ => ?_)
  rw [if_neg c27]
  by_cases c28 : opcode = SO_DCL_THREAD_GROUP_SHARED_MEMORY_STRUCTURED
  · rw [if_pos c28]
    repeat
      first
      | exact FuelOK_pure _
      | refine FuelOK_bind2 (FuelOK_Read32 _ _) (fun _ _ => ?_)
      | refine FuelOK_bind2 (FuelOK_READ_OP_ANY _ _ _ _) (fun _ _ => ?_)
      | refine FuelOK_bind2 (FuelOK_ReadOp _ _ _ _) (fun _ _ => ?_)
      | refine FuelOK_bind2 (FuelOK_readWords _ _ _) (fun _ _ => ?_)
  rw [if_neg c28]
  by_cases c29 : opcode = SO_DCL_RESOURCE_RAW
  · rw [if_pos c29]
    repeat
      first
      | exact FuelOK_pure _
      | refine FuelOK_bind2 (FuelOK_Read32 _ _) (fun _ _ => ?_)
      | refine FuelOK_bind2 (FuelOK_READ_OP_ANY _ _ _ _) (fun _ _ => ?_)
      | refine FuelOK_bind2 (FuelOK_ReadOp _ _ _ _) (fun _ _ => ?_)
      | refine FuelOK_bind2 (FuelOK_readWords _ _ _) (fun _ _ => ?_)
  rw [if_neg c29]
  by_cases c30 : opcode = SO_DCL_RESOURCE_STRUCTURED
  · rw [if_pos c30]
    repeat
      first
      | exact FuelOK_pure _
      | refine FuelOK_bind2 (FuelOK_Read32 _ _) (fun _ _ => ?_)
      | refine FuelOK_bind2 (FuelOK_READ_OP_ANY _ _ _ _) (fun _ _ => ?_)
      | refine FuelOK_bind2 (FuelOK_ReadOp _ _ _ _) (fun _ _ => ?_)
      | refine FuelOK_bind2 (FuelOK_readWords _ _ _) (fun _ _ => ?_)
  rw [if_neg c30]
  by_cases c31 : opcode = SO_DCL_STREAM
  · rw [if_pos c31]
    repeat
      first
      | exact FuelOK_pure _
      | refine FuelOK_bind2 (FuelOK_Read32 _ _) (fun _ _ => ?_)
      | refine FuelOK_bind2 (FuelOK_READ_OP_ANY _ _ _ _) (fun _ _ => ?_)
      | refine FuelOK_bind2 (FuelOK_ReadOp _ _ _ _) (fun _ _ => ?_)
      | refine FuelOK_bind2 (FuelOK_readWords _ _ _) (fun _ _ => ?_)
  rw [if_neg c31]
  exact FuelOK_error (by decide)

theorem FuelOK_throw {α : Type} (e : ParseError) (he : e ≠ ParseError.OutOfFuel) :
    FuelOK (throw e : Except ParseError α) := by
  intro h
  cases h
  exact he rfl

theorem FuelOK_declExtChain (b : TokenBuf) :
    ∀ (fuel exttok r : Nat), b.tokens_end - r < fuel → FuelOK (declExtChain b fuel exttok r)
  | 0, _, _, h => absurd h (Nat.not_lt_zero _)
  | fuel + 1, exttok, r, h => by
    unfold declExtChain
    split_ifs with hext
    · refine FuelOK_bind (FuelOK_Read32 _ _) ?_
      rintro ⟨t, r1⟩ h1
      obtain ⟨rfl, hlt, -⟩ := Read32_ok h1
      exact FuelOK_declExtChain b fuel t (r + 1) (by omega)
    · exact FuelOK_pure _

theorem FuelOK_insnExtChain (b : TokenBuf) :
    ∀ (fuel exttok : Nat) (insn : ShaderInstruction) (r : Nat), b.tokens_end - r < fuel →
      FuelOK (insnExtChain b fuel exttok insn r)
  | 0, _, _, _, h => absurd h (Nat.not_lt_zero _)
  | fuel + 1, exttok, insn, r, h => by
    unfold insnExtChain
    split_ifs with hext
    · refine FuelOK_bind (FuelOK_Read32 _ _) ?_
      rintro ⟨t, r1⟩ h1
      obtain ⟨rfl, hlt, -⟩ := Read32_ok h1
      exact FuelOK_insnExtChain b fuel t _ (r + 1) (by omega)
    · exact FuelOK_pure _

theorem FuelOK_insnPayload (b : TokenBuf) (opcode : Nat) (insn : ShaderInstruction) (r : Nat) :
    FuelOK (insnPayload b opcode insn r) := by
  unfold insnPayload
  split_ifs
  · exact FuelOK_bind2 (FuelOK_Read32 _ _) (fun _ _ => FuelOK_pure _)
  · exact FuelOK_pure _

theorem FuelOK_readInsnOps (lim : Limits) (b : TokenBuf) (insn_end : Nat) :
    ∀ (fuel : Nat) (ops : List ShaderOperand) (r : Nat), insn_end - r < fuel →
      FuelOK (readInsnOps lim b insn_end fuel ops r)
  | 0, _, _, h => absurd h (Nat.not_lt_zero _)
  | fuel + 1, ops, r, h => by
    unfold readInsnOps
    have hstep : r < insn_end → FuelOK (do
        let (op, r) ← ReadOp lim b ShaderOperand.fresh r
        readInsnOps lim b insn_end fuel (ops ++ [op]) r) := by
      intro hlt
      refine FuelOK_bind (FuelOK_ReadOp _ _ _ _) ?_
      rintro ⟨op, r1⟩ hop
      have := ReadOp_progress hop
      exact FuelOK_readInsnOps lim b insn_end fuel _ r1 (by omega)
    split_ifs with h1 h2 h3
    all_goals first
      | exact FuelOK_pure _
      | exact FuelOK_throw _ (by decide)
      | exact hstep (by omega)

theorem FuelOK_parseDecl (lim : Limits) (b : TokenBuf) (insntok insn_end : Nat) (st : PState) :
    FuelOK (parseDecl lim b insntok insn_end st) := by
  unfold parseDecl
  refine FuelOK_bind (FuelOK_declExtChain b _ _ _ (by omega)) ?_
  intro r _
  refine FuelOK_bind2 (FuelOK_declPayload _ _ _ _ _) ?_
  intro dcl st1
  dsimp only
  by_cases hend : st1.tokens = insn_end
  · simp only [hend, not_true_eq_false, if_false, pure_bind]
    exact FuelOK_pure _
  · simp only [hend, not_false_eq_true, if_true, throw, throwThe, MonadExceptOf.throw,
      bind, Except.bind]
    exact FuelOK_error (by decide)

theorem FuelOK_parseInsn (lim : Limits) (b : TokenBuf) (insntok insn_end : Nat) (st : PState) :
    FuelOK (parseInsn lim b insntok insn_end st) := by
  unfold parseInsn
  refine FuelOK_bind2 (FuelOK_insnExtChain b _ _ _ _ (by omega)) ?_
  intro insn r
  refine FuelOK_bind2 (FuelOK_insnPayload _ _ _ _) ?_
  intro insn1 r1
  refine FuelOK_bind2 (FuelOK_readInsnOps lim b _ _ _ _ (by omega)) ?_
  intro ops r2
  exact FuelOK_pure _

theorem FuelOK_parseICB (b : TokenBuf) (st : PState) : FuelOK (parseICB b st) := by
  unfold parseICB
  refine FuelOK_bind2 (FuelOK_Read32 _ _) ?_
  intro len r
  dsimp only
  by_cases hle : r + (len + 2 ^ 32 - 2) % 2 ^ 32 ≤ b.mem.length
  · simp only [hle, not_true_eq_false, if_false, pure_bind]
    exact FuelOK_pure _
  · simp only [hle, not_false_eq_true, if_true, throw, throwThe, MonadExceptOf.throw,
      bind, Except.bind]
    exact FuelOK_error (by decide)

theorem FuelOK_parseRecord (lim : Limits) (b : TokenBuf) (st : PState) :
    FuelOK (parseRecord lim b st) := by
  unfold parseRecord
  refine FuelOK_bind2 (FuelOK_Read32 _ _) ?_
  intro insntok r
  dsimp only
  by_cases hcount : insntok_opcode insntok < lim.SO_COUNT
  · simp only [hcount, not_true_eq_false, if_false, pure_bind]
    split_ifs
    all_goals first
      | exact FuelOK_parseICB _ _
      | exact FuelOK_parseDecl _ _ _ _ _
      | exact FuelOK_pure _
      | exact FuelOK_parseInsn _ _ _ _ _
  · simp only [hcount, not_false_eq_true, if_true, throw, throwThe, MonadExceptOf.throw,
      bind, Except.bind]
    exact FuelOK_error (by decide)

/-- The loop of `ParseShader` never exhausts a fuel above the number of tokens
left before the end of the stream. -/
theorem FuelOK_ParseShaderLoop (lim : Limits) (b : TokenBuf) :
    ∀ (fuel : Nat) (st : PState), b.tokens_end - st.tokens < fuel →
      FuelOK (ParseShaderLoop lim b fuel st)
  | 0, _, h => absurd h (Nat.not_lt_zero _)
  | fuel + 1, st, h => by
    unfold ParseShaderLoop
    split_ifs with hend
    · exact FuelOK_pure _
    · refine FuelOK_bind (FuelOK_parseRecord _ _ _) ?_
      intro st1 h1
      obtain ⟨t0, -, hlt, -, -⟩ := parseRecord_cases h1
      obtain ⟨hp, -⟩ := parseRecord_progress h1
      exact FuelOK_bind2 (FuelOK_ParseShaderLoop lim b fuel st1 (by omega))
        (fun _ _ => FuelOK_pure _)

/-- The embedding of `ParseShader` never stops on its fuel: every result is a
program or a failure of the source. -/
theorem FuelOK_ParseShader (lim : Limits) (prog : ShaderProgram) (mem : List Nat) :
    FuelOK (ParseShader lim prog mem) := by
  have hs : FuelOK (ParseShaderSpans lim prog mem) := by
    unfold ParseShaderSpans
    refine FuelOK_bind2 (FuelOK_Read32 _ _) ?_
    intro version tokens
    refine FuelOK_bind2 (FuelOK_Read32 _ _) ?_
    intro lentok tokens1
    dsimp only
    refine FuelOK_bind2 (FuelOK_ParseShaderLoop lim _ _ _ ?_) (fun _ _ => FuelOK_pure _)
    dsimp only
    omega
  unfold ParseShader
  intro h
  apply hs
  generalize ParseShaderSpans lim prog mem = x at h
  cases x with
  | error e =>
    cases h
    rfl
  | ok v => cases h

/-- One level of `ReadOpF` consults the level below only at positions after
its own operand token. -/
theorem ReadOpF_level (lim : Limits) (b : TokenBuf) (f1 f2 : Nat) (op : ShaderOperand) (r : Nat)
    (hx : ∀ x, r < x → ReadOpF lim b f1 ShaderOperand.fresh x =
      ReadOpF lim b f2 ShaderOperand.fresh x) :
    ReadOpF lim b (f1 + 1) op r = ReadOpF lim b (f2 + 1) op r := by
  simp only [ReadOpF]
  refine bind_congr_ok ?_
  rintro ⟨optok, r2⟩ hr
  obtain ⟨rfl, hlt, -⟩ := Read32_ok hr
  dsimp only
  refine bind_congr_ok ?_
  intro opa _
  refine bind_congr_ok ?_
  rintro ⟨opb, r3⟩ hb
  dsimp only
  obtain ⟨p1, -⟩ := readOpExt_pos hb
  unfold readOpRest
  rw [readOpIndices_congr (ReadOpF_nested lim b f1) _ _ _ _ (fun x h => hx x (by omega))]

/-- Counterexample to C22 as worded: the one-token stream `[3]` holds an
operand token whose components enum is 3; `ReadOp` stops on the assertion
"Unhandled operand component type", so the decode neither returns an operand
nor fails with `Truncated`. -/
theorem C22_counterexample :
    ReadOp sampleLimits (TokenBuf.init [3]) ShaderOperand.fresh 0 =
      .error ParseError.UnhandledComponents ∧
    ¬ (∀ (lim : Limits) (b : TokenBuf) (r : Nat),
        (∃ op r1, ReadOp lim b ShaderOperand.fresh r = .ok (op, r1)) ∨
          ReadOp lim b ShaderOperand.fresh r = .error ParseError.Truncated) := by
  have h0 : ReadOp sampleLimits (TokenBuf.init [3]) ShaderOperand.fresh 0 =
      .error ParseError.UnhandledComponents := rfl
  refine ⟨h0, ?_⟩
  intro h
  rcases h sampleLimits (TokenBuf.init [3]) 0 with ⟨op, r1, h1⟩ | h1
  · rw [h0] at h1
    cases h1
  · rw [h0] at h1
    cases h1

/-- Claim C22 (as amended), termination of operand decoding: `ReadOp` is a
total function of the token stream. Every fuel above the number of tokens left
before the end of the stream gives the result of `ReadOp`, and one level of the
decoder consults the nested level only at positions after its own operand
token; `ReadOp` never stops on its fuel, and a failure is one of `Truncated`,
`UnknownOperandType`, `UnhandledComponents`, `UnknownExtendedOperand`, or a
read outside the chunk (possible only when the end of the stream lies beyond
the chunk). A successful decode of a new operand consumes at least one token,
stops before the end of the stream, and the depth of the decoded operand tree
is at most the number of tokens consumed, hence at most the number of tokens
left when `ReadOp` started. Every successful iteration of the loop of
`ParseShader` starts before the end of the stream and consumes at least one
token, and `ParseShader` never stops on its fuel. -/
theorem C22_operand_decoding_terminates (lim : Limits) (b : TokenBuf) (op0 : ShaderOperand)
    (r : Nat) :
    (∀ fuel, b.tokens_end - r < fuel → ReadOpF lim b fuel op0 r = ReadOp lim b op0 r) ∧
    (∀ f1 f2, (∀ x, r < x → ReadOpF lim b f1 ShaderOperand.fresh x =
        ReadOpF lim b f2 ShaderOperand.fresh x) →
      ReadOpF lim b (f1 + 1) op0 r = ReadOpF lim b (f2 + 1) op0 r) ∧
    ReadOp lim b op0 r ≠ .error ParseError.OutOfFuel ∧
    (∀ e, ReadOp lim b op0 r = .error e → OperandFailure b e) ∧
    (∀ op r1, ReadOp lim b ShaderOperand.fresh r = .ok (op, r1) →
      r < r1 ∧ r1 ≤ b.tokens_end ∧ opDepth op ≤ r1 - r ∧ opDepth op ≤ b.tokens_end - r) ∧
    (∀ sa sb, parseRecord lim b sa = .ok sb →
      sa.tokens < b.tokens_end ∧ sa.tokens + 1 ≤ sb.tokens) ∧
    (∀ prog mem, ParseShader lim prog mem ≠ .error ParseError.OutOfFuel) := by
  refine ⟨?_, ?_, ?_, ?_, ?_, ?_, ?_⟩
  · intro fuel hf
    exact ReadOpF_fuel lim b fuel _ op0 r hf (by omega)
  · intro f1 f2 hx
    exact ReadOpF_level lim b f1 f2 op0 r hx
  · exact FuelOK_ReadOp lim b op0 r
  · intro e he
    rcases ReadOpF_err lim b _ op0 r e he with h1 | ⟨-, h1⟩
    · exact h1
    · omega
  · intro op r1 h
    obtain ⟨h1, h2, h3⟩ := ReadOpF_pos lim b _ ShaderOperand.fresh op r r1 rfl h
    exact ⟨h1, h2, h3, by omega⟩
  · intro sa sb h
    obtain ⟨t0, -, hlt, -, -⟩ := parseRecord_cases h
    exact ⟨hlt, (parseRecord_progress h).1⟩
  · intro prog mem
    exact FuelOK_ParseShader lim prog mem

/-- Witness for C22: the three-token stream `[0x00900000, 0x00900000, 0]`, an
operand whose first index is relative to an operand whose first index is
relative to a third operand, decodes to a tree of depth 3 in 3 tokens; cut to
two tokens it fails with `Truncated`. -/
theorem C22_operand_decoding_terminates_witness :
    ReadOp sampleLimits (TokenBuf.init [0x00900000, 0x00900000]) ShaderOperand.fresh 0 =
      .error ParseError.Truncated ∧
    ∃ op, ReadOp sampleLimits (TokenBuf.init [0x00900000, 0x00900000, 0])
        ShaderOperand.fresh 0 = .ok (op, 3) ∧ opDepth op = 3 ∧
      (0 < 3 ∧ 3 ≤ (TokenBuf.init [0x00900000, 0x00900000, 0]).tokens_end ∧
        opDepth op ≤ 3 - 0 ∧
        opDepth op ≤ (TokenBuf.init [0x00900000, 0x00900000, 0]).tokens_end - 0) :=
  ⟨rfl, _, rfl, rfl,
    (C22_operand_decoding_terminates sampleLimits
      (TokenBuf.init [0x00900000, 0x00900000, 0]) ShaderOperand.fresh 0).2.2.2.2.1 _ 3 rfl⟩

/-- A loop of `ParseShader` that succeeds starts at or before the end of the
stream. -/
theorem ParseShaderLoop_start_le {lim : Limits} {b : TokenBuf} :
    ∀ (fuel : Nat) {st st1 : PState} {spans : List RecordSpan},
      ParseShaderLoop lim b fuel st = .ok (st1, spans) → st.tokens ≤ b.tokens_end
  | 0, _, _, _, h => by
    simp [ParseShaderLoop, throw, throwThe, MonadExceptOf.throw] at h
  | fuel + 1, st, st1, spans, h => by
    unfold ParseShaderLoop at h
    by_cases hend : st.tokens = b.tokens_end
    · exact Nat.le_of_eq hend
    · simp only [hend, if_false, bind_eq_ok] at h
      obtain ⟨st2, h2, -⟩ := h
      obtain ⟨t0, -, hlt, -, -⟩ := parseRecord_cases h2
      exact Nat.le_of_lt hlt

/-- Every record of a loop of `ParseShader` that succeeds ends at or before
the end of the stream. -/
theorem ParseShaderLoop_spans_le {lim : Limits} {b : TokenBuf} :
    ∀ (fuel : Nat) {st st1 : PState} {spans : List RecordSpan},
      ParseShaderLoop lim b fuel st = .ok (st1, spans) →
      ∀ sp ∈ spans, ∃ sa sb, parseRecord lim b sa = .ok sb ∧ sp = ⟨sa.tokens, sb.tokens⟩ ∧
        sb.tokens ≤ b.tokens_end
  | 0, _, _, _, h => by
    simp [ParseShaderLoop, throw, throwThe, MonadExceptOf.throw] at h
  | fuel + 1, st, st1, spans, h => by
    unfold ParseShaderLoop at h
    by_cases hend : st.tokens = b.tokens_end
    · simp only [hend, if_true, pure, Except.pure] at h
      cases h
      simp
    · simp only [hend, if_false, bind_eq_ok] at h
      obtain ⟨st2, h2, ⟨st3, spans3⟩, h3, h⟩ := h
      simp only [pure, Except.pure] at h
      cases h
      intro sp hsp
      rcases List.mem_cons.1 hsp with rfl | hsp
      · exact ⟨st, st2, h2, rfl, ParseShaderLoop_start_le fuel h3⟩
      · exact ParseShaderLoop_spans_le fuel h3 sp hsp

/-- The loop of `ParseShader` does not succeed from a position that holds an
`ImmediateConstantBuffer` token whose data, of `(L - 2) mod 2^32` tokens, go
beyond the end of the stream. -/
theorem ParseShaderLoop_icb_overrun {lim : Limits} {b : TokenBuf} (fuel : Nat) (st : PState)
    (t0 L0 : Nat) (h0 : b.mem[st.tokens]? = some t0)
    (hop : insntok_opcode (t0 % 2 ^ 32) = SO_IMMEDIATE_CONSTANT_BUFFER)
    (h1 : b.mem[st.tokens + 1]? = some L0) (hin : st.tokens ≠ b.tokens_end)
    (hover : b.tokens_end < st.tokens + 2 + (L0 % 2 ^ 32 + 2 ^ 32 - 2) % 2 ^ 32)
    (x : PState × List RecordSpan) : ParseShaderLoop lim b fuel st ≠ .ok x := by
  intro h
  cases fuel with
  | zero => simp [ParseShaderLoop, throw, throwThe, MonadExceptOf.throw] at h
  | succ fuel =>
    unfold ParseShaderLoop at h
    simp only [hin, if_false, bind_eq_ok] at h
    obtain ⟨st2, h2, ⟨st3, spans3⟩, h3, -⟩ := h
    obtain ⟨t1, ht1, -, -, hicb⟩ := parseRecord_span h2
    rw [h0] at ht1
    cases ht1
    obtain ⟨l0, hl0, htok⟩ := hicb hop
    rw [h1] at hl0
    cases hl0
    have := ParseShaderLoop_start_le fuel h3
    omega

/-- Claim C23, immediate-constant-buffer length underflow. An
`ImmediateConstantBuffer` record whose custom length word is `L` is taken with
a data length of `(L - 2) mod 2^32` tokens, without a check on `L`: when the
iteration succeeds, `num` is that number (`2^32 - 2` for `L = 0`, `2^32 - 1`
for `L = 1`) and the position moves by `2 + (L - 2) mod 2^32`. From a position
of the stream that holds such a token whose data go beyond the end of the
stream, the loop of `ParseShader` does not succeed. Hence, after a successful
`ParseShader`, every `ImmediateConstantBuffer` record of the stream has a
length word `L >= 2` and ends, `L` tokens after its opcode token, at or before
the end of the stream. -/
theorem C23_icb_length_underflow (lim : Limits) :
    (∀ (b : TokenBuf) (sa sb : PState) (t0 : Nat), parseRecord lim b sa = .ok sb →
      b.mem[sa.tokens]? = some t0 →
      insntok_opcode (t0 % 2 ^ 32) = SO_IMMEDIATE_CONSTANT_BUFFER →
      ∃ L0 dcl, b.mem[sa.tokens + 1]? = some L0 ∧ sb.prog.dcls = sa.prog.dcls ++ [dcl] ∧
        dcl.num = (L0 % 2 ^ 32 + 2 ^ 32 - 2) % 2 ^ 32 ∧
        sb.tokens = sa.tokens + 2 + (L0 % 2 ^ 32 + 2 ^ 32 - 2) % 2 ^ 32 ∧
        (L0 % 2 ^ 32 = 0 → dcl.num = 2 ^ 32 - 2) ∧
        (L0 % 2 ^ 32 = 1 → dcl.num = 2 ^ 32 - 1)) ∧
    (∀ (b : TokenBuf) (fuel : Nat) (st : PState) (t0 L0 : Nat)
        (x : PState × List RecordSpan),
      b.mem[st.tokens]? = some t0 →
      insntok_opcode (t0 % 2 ^ 32) = SO_IMMEDIATE_CONSTANT_BUFFER →
      b.mem[st.tokens + 1]? = some L0 → st.tokens ≠ b.tokens_end →
      b.tokens_end < st.tokens + 2 + (L0 % 2 ^ 32 + 2 ^ 32 - 2) % 2 ^ 32 →
      ParseShaderLoop lim b fuel st ≠ .ok x) ∧
    (∀ (prog : ShaderProgram) (mem : List Nat) (b : TokenBuf) (st : PState)
        (spans : List RecordSpan),
      ParseShaderSpans lim prog mem = .ok (b, st, spans) →
      b.tokens_end < 2 ^ 32 ∧
      ∀ sp ∈ spans, ∀ t0, mem[sp.start]? = some t0 →
        insntok_opcode (t0 % 2 ^ 32) = SO_IMMEDIATE_CONSTANT_BUFFER →
        ∃ L0, mem[sp.start + 1]? = some L0 ∧ 2 ≤ L0 % 2 ^ 32 ∧
          L0 % 2 ^ 32 - 2 ≤ b.tokens_end - (sp.start + 2) ∧
          sp.stop = sp.start + L0 % 2 ^ 32 ∧ sp.stop ≤ b.tokens_end) := by
  refine ⟨?_, ?_, ?_⟩
  · intro b sa sb t0 h h0 hop
    obtain ⟨t1, ht1, hlt, hcount, hc⟩ := parseRecord_cases h
    rw [h0] at ht1
    cases ht1
    have heq := parseRecord_eq h0 hlt hcount
    rw [if_pos hop.symm] at heq
    rw [heq] at h
    unfold parseICB at h
    simp only [bind_eq_ok] at h
    obtain ⟨⟨len, r⟩, hr, h⟩ := h
    obtain ⟨rfl, -, L0, hL0, rfl⟩ := Read32_ok hr
    simp only [pure, Except.pure, throw, throwThe, MonadExceptOf.throw] at h
    split_ifs at h with hle <;> simp only [bind, Except.bind] at h <;> cases h
    refine ⟨L0, _, hL0, rfl, rfl, ?_, ?_, ?_⟩
    · show Skip _ _ = _
      unfold Skip
      omega
    · intro hz
      show (L0 % 2 ^ 32 + 2 ^ 32 - 2) % 2 ^ 32 = 2 ^ 32 - 2
      rw [hz]
      norm_num
    · intro hz
      show (L0 % 2 ^ 32 + 2 ^ 32 - 2) % 2 ^ 32 = 2 ^ 32 - 1
      rw [hz]
      norm_num
  · intro b fuel st t0 L0 x h0 hop h1 hin hover
    exact ParseShaderLoop_icb_overrun fuel st t0 L0 h0 hop h1 hin hover x
  · intro prog mem b st spans h
    obtain ⟨v, l, -, -, -, rfl, hloop⟩ := ParseShaderSpans_ok h
    have hE : (2 - 2 + l % 2 ^ 32 : Nat) < 2 ^ 32 := by
      have := Nat.mod_lt l (show 0 < 2 ^ 32 by norm_num)
      omega
    refine ⟨hE, ?_⟩
    intro sp hsp t0 h0 hop
    obtain ⟨sa, sb, hrec, rfl, hle⟩ := ParseShaderLoop_spans_le _ hloop sp hsp
    obtain ⟨t1, ht1, -, -, hicb⟩ := parseRecord_span hrec
    dsimp only at h0 hle ht1 hicb ⊢
    rw [h0] at ht1
    cases ht1
    obtain ⟨l0, hl0, htok⟩ := hicb hop
    refine ⟨l0, hl0, ?_⟩
    have hl : l0 % 2 ^ 32 < 2 ^ 32 := Nat.mod_lt _ (by norm_num)
    have e32 : (2 : Nat) ^ 32 = 4294967296 := by norm_num
    rw [e32] at hE hl htok ⊢
    omega

/-- Witness for C23: a stream whose `ImmediateConstantBuffer` record has the
length word 0, or 1, does not parse; and a record with `L = 4` in a stream
that ends one token after the length word goes beyond the end, and the next
iteration fails in `Read32`. -/
theorem C23_icb_length_underflow_witness :
    ParseShader sampleLimits ShaderProgram.fresh [0x00010040, 4, 0x35, 0] =
      .error ParseError.OutOfBounds ∧
    ParseShader sampleLimits ShaderProgram.fresh [0x00010040, 4, 0x35, 1] =
      .error ParseError.OutOfBounds ∧
    ParseShader sampleLimits ShaderProgram.fresh [0x00010040, 5, 0x35, 4, 7, 8, 9] =
      .error ParseError.Truncated ∧
    (∀ fuel x, ParseShaderLoop sampleLimits ⟨[0x00010040, 4, 0x35, 0], 4⟩ fuel
      ⟨{ ShaderProgram.fresh with version := 0x00010040 }, 2, 0⟩ ≠ .ok x) :=
  ⟨rfl, rfl, rfl, fun fuel x =>
    (C23_icb_length_underflow sampleLimits).2.1 ⟨[0x00010040, 4, 0x35, 0], 4⟩ fuel
      ⟨{ ShaderProgram.fresh with version := 0x00010040 }, 2, 0⟩ 0x35 0 x rfl (by decide) rfl
      (by decide) (by decide)⟩

/-- Geometry-shader stream state after a successful `ParseShader`: the
per-stream list and `cur_gs_stream` are those of the start with the events of
the declarations added by the parse replayed on them. -/
theorem ParseShader_gsReplay {lim : Limits} {prog : ShaderProgram} {mem : List Nat}
    {st : PState} (h : ParseShader lim prog mem = .ok st) :
    ∃ new, st.prog.dcls = prog.dcls ++ new ∧
      (st.prog.gs_output_topology, st.cur_gs_stream) =
        (gsEvents new).foldl gsReplay (prog.gs_output_topology, 0) := by
  unfold ParseShader at h
  have hs : ∃ b spans, ParseShaderSpans lim prog mem = .ok (b, st, spans) := by
    generalize ParseShaderSpans lim prog mem = x at h
    cases x with
    | error e => cases h
    | ok v =>
      obtain ⟨b, st1, spans⟩ := v
      cases h
      exact ⟨b, spans, rfl⟩
  obtain ⟨b, spans, hs⟩ := hs
  obtain ⟨v, l, -, -, -, rfl, hloop⟩ := ParseShaderSpans_ok hs
  refine ParseShaderLoop_inv
    (fun s => ∃ new, s.prog.dcls = prog.dcls ++ new ∧
      (s.prog.gs_output_topology, s.cur_gs_stream) =
        (gsEvents new).foldl gsReplay (prog.gs_output_topology, 0))
    ?_ _ hloop ?_
  · intro sa sb hP hrec
    obtain ⟨new, hd, hrep⟩ := hP
    obtain ⟨d, hd1, hrep1⟩ := parseRecord_gs hrec
    refine ⟨new ++ d, by rw [hd1, hd, List.append_assoc], ?_⟩
    rw [hrep1, hrep, gsEvents_append, List.foldl_append]
  · exact ⟨[], by simp, rfl⟩

/-- Length of the per-stream list after the replay of the events of a list of
declarations: one slot more for each `DclStream`. -/
theorem gsReplay_length :
    ∀ (dcls : List ShaderDecl) (s : List Nat × Nat),
      ((gsEvents dcls).foldl gsReplay s).1.length =
        s.1.length + dcls.countP (fun d => decide (d.opcode = SO_DCL_STREAM))
  | [], s => by simp [gsEvents]
  | d :: ds, s => by
    have hcons : gsEvents (d :: ds) = gsEvents [d] ++ gsEvents ds :=
      gsEvents_append [d] ds
    rw [hcons, List.foldl_append, gsReplay_length ds, List.countP_cons]
    by_cases c1 : d.opcode = SO_DCL_STREAM
    · have he : gsEvent d =
          some (.stream ((d.op.getD ShaderOperand.fresh).indices.headD ⟨0, none⟩).disp) := by
        unfold gsEvent
        rw [if_pos c1]
      rw [gsEvents_single_some he]
      simp [gsReplay, c1]
      omega
    · by_cases c2 : d.opcode = SO_DCL_GS_OUTPUT_PRIMITIVE_TOPOLOGY
      · have he : gsEvent d = some (.topology (dcltok_gs_output_primitive_topology d.insntok)) := by
          unfold gsEvent
          rw [if_neg c1, if_pos c2]
        rw [gsEvents_single_some he]
        simp [gsReplay, c1]
      · have he : gsEvent d = none := by
          unfold gsEvent
          rw [if_neg c1, if_neg c2]
        rw [gsEvents_single_none he]
        simp [c1]

/-- Claim C24, store outside the per-stream list. The branch of
`DclGSOutputPrimitiveTopology` stores at the slot `cur_gs_stream` of
`gs_output_topology` without a check of the index. On the stream
`[0x00020040, 3, 0x0100285C]` (a geometry shader whose only record is a
`DclGSOutputPrimitiveTopology`), parsed into a new program, whose per-stream
list is empty, the slot is 0 and the list has no slot; on the stream
`[0x00020050, 6, 0x0300008F, 0x00110000, 5, 0x0100285C]` (`DclStream` with
index 5, then the topology) the slot is 5 and the list has one slot. In the
embedding the store outside the list is the result `OutOfBounds`, which stands
for a dereference outside a buffer and not for a failed assertion. The last
part holds: after a successful parse that started with an empty list, the
length of the list is the number of `DclStream` declarations added. -/
theorem C24_topology_store_out_of_range :
    ShaderProgram.fresh.gs_output_topology = [] ∧
    ParseShader sampleLimits ShaderProgram.fresh [0x00020040, 3, 0x0100285C] =
      .error ParseError.OutOfBounds ∧
    ParseShader sampleLimits ShaderProgram.fresh
        [0x00020050, 6, 0x0300008F, 0x00110000, 5, 0x0100285C] =
      .error ParseError.OutOfBounds ∧
    (∀ (lim : Limits) (b : TokenBuf) (dcl : ShaderDecl) (st : PState),
      ¬ st.cur_gs_stream < st.prog.gs_output_topology.length →
      declPayload lim b SO_DCL_GS_OUTPUT_PRIMITIVE_TOPOLOGY dcl st =
        .error ParseError.OutOfBounds) ∧
    (∀ (lim : Limits) (prog : ShaderProgram) (mem : List Nat) (st : PState),
      prog.gs_output_topology = [] → ParseShader lim prog mem = .ok st →
      st.prog.gs_output_topology.length =
        (st.prog.dcls.drop prog.dcls.length).countP
          (fun d => decide (d.opcode = SO_DCL_STREAM))) := by
  refine ⟨rfl, rfl, rfl, ?_, ?_⟩
  · intro lim b dcl st hlt
    unfold declPayload
    simp only [SO_DCL_GS_OUTPUT_PRIMITIVE_TOPOLOGY, SO_DCL_GLOBAL_FLAGS, SO_DCL_RESOURCE,
      SO_DCL_SAMPLER, SO_DCL_INPUT, SO_DCL_INPUT_PS, SO_DCL_INPUT_SIV, SO_DCL_INPUT_SGV,
      SO_DCL_INPUT_PS_SIV, SO_DCL_INPUT_PS_SGV, SO_DCL_OUTPUT, SO_DCL_OUTPUT_SIV,
      SO_DCL_OUTPUT_SGV, SO_DCL_INDEX_RANGE, SO_DCL_TEMPS, SO_DCL_INDEXABLE_TEMP,
      SO_DCL_CONSTANT_BUFFER, SO_DCL_GS_INPUT_PRIMITIVE]
    norm_num [hlt]
    rfl
  · intro lim prog mem st hempty h
    obtain ⟨new, hd, hrep⟩ := ParseShader_gsReplay h
    have hnew : st.prog.dcls.drop prog.dcls.length = new := by
      rw [hd]
      simp
    have hlen := gsReplay_length new (prog.gs_output_topology, 0)
    rw [← hrep, hempty] at hlen
    rw [hnew]
    simpa using hlen

theorem drop_of_get {mem : List Nat} {s t0 : Nat} (h : mem[s]? = some t0) :
    mem.drop s = t0 :: mem.drop (s + 1) := by
  obtain ⟨hlt, hget⟩ := List.getElem?_eq_some_iff.1 h
  rw [List.drop_eq_getElem_cons hlt, hget]

theorem specExtCount_set {mem : List Nat} {s t0 : Nat} (h : mem[s]? = some t0)
    (hext : insntok_extended (t0 % 2 ^ 32) ≠ 0) :
    specExtCount (mem.drop s) = 1 + specExtCount (mem.drop (s + 1)) := by
  rw [drop_of_get h]
  simp only [specExtCount]
  rw [if_pos hext]

theorem specExtCount_clear {mem : List Nat} {s t0 : Nat} (h : mem[s]? = some t0)
    (hext : ¬ insntok_extended (t0 % 2 ^ 32) ≠ 0) :
    specExtCount (mem.drop s) = 0 := by
  rw [drop_of_get h]
  simp only [specExtCount]
  rw [if_neg hext]

/-- The walk of the chain of extended tokens of an instruction ends after the
extended tokens counted from the tokens. -/
theorem insnExtChain_count {b : TokenBuf} :
    ∀ (fuel s t0 : Nat) {insn insn1 : ShaderInstruction} {r1 : Nat},
      b.mem[s]? = some t0 →
      insnExtChain b fuel (t0 % 2 ^ 32) insn (s + 1) = .ok (insn1, r1) →
      r1 = s + 1 + specExtCount (b.mem.drop s)
  | 0, _, _, _, _, _, _, h => by
    simp [insnExtChain, throw, throwThe, MonadExceptOf.throw] at h
  | fuel + 1, s, t0, insn, insn1, r1, h0, h => by
    unfold insnExtChain at h
    by_cases hext : insntok_extended (t0 % 2 ^ 32) ≠ 0
    · rw [if_pos hext] at h
      simp only [bind_eq_ok] at h
      obtain ⟨⟨t, r2⟩, hr, h⟩ := h
      obtain ⟨rfl, -, t1, ht1, rfl⟩ := Read32_ok hr
      dsimp only at h
      have := insnExtChain_count fuel (s + 1) t1 ht1 h
      rw [specExtCount_set h0 hext]
      omega
    · rw [if_neg hext] at h
      simp only [pure, Except.pure, Except.ok.injEq, Prod.mk.injEq] at h
      obtain ⟨-, rfl⟩ := h
      rw [specExtCount_clear h0 hext]

/-- The walk of the chain of extended tokens succeeds when the extended tokens
counted from the tokens lie before the end of the stream and in the chunk. -/
theorem insnExtChain_of_count {b : TokenBuf} :
    ∀ (fuel s t0 : Nat) (insn : ShaderInstruction), b.mem[s]? = some t0 →
      s + specExtCount (b.mem.drop s) < b.tokens_end →
      s + specExtCount (b.mem.drop s) < b.mem.length →
      specExtCount (b.mem.drop s) < fuel →
      ∃ insn1, insnExtChain b fuel (t0 % 2 ^ 32) insn (s + 1) =
        .ok (insn1, s + 1 + specExtCount (b.mem.drop s))
  | 0, _, _, _, _, _, _, hf => absurd hf (Nat.not_lt_zero _)
  | fuel + 1, s, t0, insn, h0, hend, hmem, hf => by
    unfold insnExtChain
    by_cases hext : insntok_extended (t0 % 2 ^ 32) ≠ 0
    · rw [if_pos hext]
      have hk := specExtCount_set h0 hext
      rw [hk] at hend hmem hf ⊢
      have hlt : s + 1 < b.mem.length := by omega
      have ht1 : b.mem[s + 1]? = some (b.mem[s + 1]) := List.getElem?_eq_getElem hlt
      rw [Read32_get ht1 (by omega)]
      simp only [bind, Except.bind]
      obtain ⟨insn1, h1⟩ := insnExtChain_of_count fuel (s + 1) (b.mem[s + 1])
        (if SEOP_SAMPLE_CONTROLS = exttok_type (b.mem[s + 1] % 2 ^ 32) then
          { insn with sample_offset := exttok_sample_offsets (b.mem[s + 1] % 2 ^ 32) }
        else if SEOP_RESOURCE_DIM = exttok_type (b.mem[s + 1] % 2 ^ 32) then
          { insn with resource_target := exttok_resource_target (b.mem[s + 1] % 2 ^ 32) }
        else if SEOP_RESOURCE_RETURN_TYPE = exttok_type (b.mem[s + 1] % 2 ^ 32) then
          { insn with
            resource_return_type := exttok_resource_return_type (b.mem[s + 1] % 2 ^ 32) }
        else insn)
        ht1 (by omega) (by omega) (by omega)
      refine ⟨insn1, ?_⟩
      rw [h1]
      congr 2
      omega
    · rw [if_neg hext, specExtCount_clear h0 hext]
      exact ⟨insn, rfl⟩

theorem specIsInsnOpcode_iff (opcode : Nat) :
    specIsInsnOpcode opcode = true ↔
      ¬ SO_IMMEDIATE_CONSTANT_BUFFER = opcode ∧
      ¬ ((opcode ≥ SO_DCL_RESOURCE ∧ opcode ≤ SO_DCL_GLOBAL_FLAGS) ∨
          (opcode ≥ SO_DCL_STREAM ∧ opcode ≤ SO_DCL_RESOURCE_STRUCTURED) ∨
          SO_DCL_GS_INSTANCE_COUNT = opcode) ∧
      ¬ SO_HS_DECLS = opcode := by
  unfold specIsInsnOpcode specIsDeclOpcode
  simp only [Bool.and_eq_true, Bool.not_eq_true', Bool.or_eq_true, decide_eq_true_eq,
    decide_eq_false_iff_not, Bool.or_eq_false_iff, Bool.and_eq_false_imp, ge_iff_le]
  constructor
  · rintro ⟨⟨h1, ⟨h2, h3⟩, h4⟩, h5⟩
    refine ⟨fun e => h1 e.symm, ?_, fun e => h5 e.symm⟩
    rintro (⟨a, c⟩ | ⟨a, c⟩ | e)
    · exact h2 a c
    · exact h3 a c
    · exact h4 e.symm
  · rintro ⟨h1, h2, h5⟩
    refine ⟨⟨fun e => h1 e.symm, ⟨fun a c => h2 (Or.inl ⟨a, c⟩),
      fun a c => h2 (Or.inr (Or.inl ⟨a, c⟩))⟩, fun e => h2 (Or.inr (Or.inr e.symm))⟩,
      fun e => h5 e.symm⟩

/-- Instructions after one iteration of the loop, by the opcode of the record:
a record that is not an instruction record leaves the instructions as they
are; an instruction record appends exactly one instruction, which carries the
opcode token and the operands of the record, and the record ends at
`insn_end`. -/
theorem parseRecord_insn_record {lim : Limits} {b : TokenBuf} {sa sb : PState}
    (h : parseRecord lim b sa = .ok sb) :
    ∃ t0, b.mem[sa.tokens]? = some t0 ∧
      ((specIsInsnOpcode (insntok_opcode (t0 % 2 ^ 32)) = false ∧
          sb.prog.insns = sa.prog.insns) ∨
       (specIsInsnOpcode (insntok_opcode (t0 % 2 ^ 32)) = true ∧
          ∃ insn, sb.prog.insns = sa.prog.insns ++ [insn] ∧
            InsnDecodedAt lim b sa.tokens insn ∧
            sb.tokens = sa.tokens + insntok_length insn.insntok ∧
            insn.num_ops = insn.ops.length ∧ insn.num_ops ≤ lim.SM_MAX_OPS)) := by
  obtain ⟨t0, h0, hlt, hcount, -⟩ := parseRecord_cases h
  refine ⟨t0, h0, ?_⟩
  by_cases hins : specIsInsnOpcode (insntok_opcode (t0 % 2 ^ 32)) = true
  · right
    refine ⟨hins, ?_⟩
    obtain ⟨hicb, hdecl, hhsd⟩ := (specIsInsnOpcode_iff _).1 hins
    have hsm : ∃ sm : PState, sm.tokens = sa.tokens + 1 ∧ sm.prog.insns = sa.prog.insns ∧
        parseInsn lim b (t0 % 2 ^ 32) (sa.tokens + 1 - 1 + insntok_length (t0 % 2 ^ 32)) sm =
          .ok sb := by
      by_cases hhs : SO_HS_FORK_PHASE = insntok_opcode (t0 % 2 ^ 32) ∨
          SO_HS_JOIN_PHASE = insntok_opcode (t0 % 2 ^ 32) ∨
          SO_HS_CONTROL_POINT_PHASE = insntok_opcode (t0 % 2 ^ 32) ∨
          SO_HS_DECLS = insntok_opcode (t0 % 2 ^ 32)
      · have hm := parseRecord_marker h0 hlt hcount hhs
        rw [if_neg hhsd] at hm
        rw [hm] at h
        refine ⟨_, ?_, ?_, h⟩ <;> rfl
      · have heq := parseRecord_eq h0 hlt hcount
        rw [if_neg hicb, if_neg hdecl, if_neg hhs] at heq
        rw [heq] at h
        refine ⟨_, ?_, ?_, h⟩ <;> rfl
    obtain ⟨sm, htok, hsmins, hp⟩ := hsm
    obtain ⟨insn0, p0, insn1, p, ops, hext, hpay, hops, hitok, rfl⟩ := parseInsn_ok hp
    obtain ⟨more, hmore, hchain, hle⟩ := readInsnOps_ok _ hops (Nat.zero_le _)
    have hmore2 : ops = more := by simpa using hmore
    subst hmore2
    rw [htok] at hext
    have hp0 := insnExtChain_count _ _ _ h0 hext
    have he : sa.tokens + 1 - 1 + insntok_length (t0 % 2 ^ 32) =
        sa.tokens + insntok_length (t0 % 2 ^ 32) := by omega
    rw [he] at hchain
    refine ⟨{ insn1 with ops := ops, num_ops := ops.length }, ?_, ?_, ?_, rfl, hle⟩
    · show sm.prog.insns ++ _ = _
      rw [hsmins]
    · refine ⟨t0, h0, hitok, ?_⟩
      show OperandsBetween lim b
        (specHeaderEnd b.mem sa.tokens (insntok_opcode insn1.insntok))
        (sa.tokens + insntok_length insn1.insntok) ops
      rw [hitok]
      unfold specHeaderEnd
      obtain ⟨-, -, -, hic, hnic⟩ := insnPayload_insntok hpay
      by_cases hop : insntok_opcode (t0 % 2 ^ 32) = SO_INTERFACE_CALL
      · obtain ⟨t, hrd, -⟩ := hic hop
        obtain ⟨rfl, -⟩ := Read32_ok hrd
        rw [if_pos hop, ← hp0]
        exact hchain
      · obtain ⟨rfl, -⟩ := hnic hop
        rw [if_neg hop, ← hp0]
        exact hchain
    · show sa.tokens + 1 - 1 + insntok_length (t0 % 2 ^ 32) =
        sa.tokens + insntok_length insn1.insntok
      rw [hitok]
      omega
  · left
    have hf : specIsInsnOpcode (insntok_opcode (t0 % 2 ^ 32)) = false := by
      cases hc : specIsInsnOpcode (insntok_opcode (t0 % 2 ^ 32))
      · rfl
      · exact absurd hc hins
    refine ⟨hf, ?_⟩
    have heq := parseRecord_eq h0 hlt hcount
    by_cases hicb : SO_IMMEDIATE_CONSTANT_BUFFER = insntok_opcode (t0 % 2 ^ 32)
    · rw [if_pos hicb] at heq
      rw [heq] at h
      obtain ⟨dcl, -, hp, -⟩ := parseICB_ok h
      rw [hp]
    rw [if_neg hicb] at heq
    by_cases hdecl : (insntok_opcode (t0 % 2 ^ 32) ≥ SO_DCL_RESOURCE ∧
          insntok_opcode (t0 % 2 ^ 32) ≤ SO_DCL_GLOBAL_FLAGS) ∨
        (insntok_opcode (t0 % 2 ^ 32) ≥ SO_DCL_STREAM ∧
          insntok_opcode (t0 % 2 ^ 32) ≤ SO_DCL_RESOURCE_STRUCTURED) ∨
        SO_DCL_GS_INSTANCE_COUNT = insntok_opcode (t0 % 2 ^ 32)
    · rw [if_pos hdecl] at heq
      rw [heq] at h
      obtain ⟨r, dcl1, st2, -, hpay, -, rfl⟩ := parseDecl_ok h
      exact (declPayload_frame hpay).1
    have hhsd : SO_HS_DECLS = insntok_opcode (t0 % 2 ^ 32) := by
      by_contra hne
      exact hins ((specIsInsnOpcode_iff _).2 ⟨hicb, hdecl, hne⟩)
    have hm := parseRecord_marker h0 hlt hcount (Or.inr (Or.inr (Or.inr hhsd)))
    rw [if_pos hhsd, h] at hm
    cases hm
    rfl

/-- Instructions of a successful loop of `ParseShader`: those of the start,
followed by one instruction for each instruction record of the stream, in
stream order. -/
theorem ParseShaderLoop_insns {lim : Limits} {b : TokenBuf} :
    ∀ (fuel : Nat) {st st1 : PState} {spans : List RecordSpan},
      ParseShaderLoop lim b fuel st = .ok (st1, spans) →
      ∃ new, st1.prog.insns = st.prog.insns ++ new ∧
        List.Forall₂
          (fun sp insn => InsnDecodedAt lim b sp.start insn ∧
            sp.stop = sp.start + insntok_length insn.insntok ∧
            insn.num_ops = insn.ops.length ∧ insn.num_ops ≤ lim.SM_MAX_OPS)
          (spans.filter (specIsInsnSpan b.mem)) new
  | 0, _, _, _, h => by
    simp [ParseShaderLoop, throw, throwThe, MonadExceptOf.throw] at h
  | fuel + 1, st, st1, spans, h => by
    unfold ParseShaderLoop at h
    by_cases hend : st.tokens = b.tokens_end
    · simp only [hend, if_true, pure, Except.pure] at h
      cases h
      exact ⟨[], by simp, by simp⟩
    · simp only [hend, if_false, bind_eq_ok] at h
      obtain ⟨st2, h2, ⟨st3, spans3⟩, h3, h⟩ := h
      simp only [pure, Except.pure] at h
      cases h
      obtain ⟨new3, hnew3, hall3⟩ := ParseShaderLoop_insns fuel h3
      obtain ⟨t0, h0, hcase⟩ := parseRecord_insn_record h2
      have hsp : specIsInsnSpan b.mem ⟨st.tokens, st2.tokens⟩ =
          specIsInsnOpcode (insntok_opcode (t0 % 2 ^ 32)) := by
        unfold specIsInsnSpan
        dsimp only
        rw [h0]
      rcases hcase with ⟨hf, hins⟩ | ⟨ht, insn, hins, hdec, hstop, hnum, hle⟩
      · refine ⟨new3, by rw [hnew3, hins], ?_⟩
        rw [List.filter_cons, hsp, hf]
        exact hall3
      · refine ⟨insn :: new3, by rw [hnew3, hins, List.append_assoc]; rfl, ?_⟩
        rw [List.filter_cons, hsp, ht]
        exact List.Forall₂.cons ⟨hdec, hstop, hnum, hle⟩ hall3

theorem OperandsBetween_first {lim : Limits} {b : TokenBuf} {p q : Nat} {o : ShaderOperand}
    {rest : List ShaderOperand} (h : OperandsBetween lim b p q (o :: rest)) :
    ∃ p1, ReadOp lim b ShaderOperand.fresh p = .ok (o, p1) := by
  cases h with
  | read _ hop _ => exact ⟨_, hop⟩

theorem ReadOp_first {lim : Limits} {b : TokenBuf} {op0 op : ShaderOperand} {r r1 : Nat}
    (h : ReadOp lim b op0 r = .ok (op, r1)) : r < b.tokens_end ∧ r < b.mem.length := by
  unfold ReadOp at h
  have hf : b.tokens_end - r + 1 = (b.tokens_end - r) + 1 := rfl
  rw [hf] at h
  simp only [ReadOpF, bind_eq_ok] at h
  obtain ⟨⟨optok, r2⟩, h1, -⟩ := h
  obtain ⟨-, hlt, t, ht, -⟩ := Read32_ok h1
  exact ⟨hlt, (List.getElem?_eq_some_iff.1 ht).1⟩

/-- An instruction record with more than `SM_MAX_OPS` operands between the end
of its header and `insn_end` makes the iteration of the loop fail on the
assertion `op_num < SM_MAX_OPS`. -/
theorem parseRecord_too_many_ops {lim : Limits} {b : TokenBuf} {st : PState} {t0 : Nat}
    {more : List ShaderOperand} (h0 : b.mem[st.tokens]? = some t0)
    (hcount : insntok_opcode (t0 % 2 ^ 32) < lim.SO_COUNT)
    (hins : specIsInsnOpcode (insntok_opcode (t0 % 2 ^ 32)) = true)
    (hch : OperandsBetween lim b (specHeaderEnd b.mem st.tokens (insntok_opcode (t0 % 2 ^ 32)))
      (st.tokens + insntok_length (t0 % 2 ^ 32)) more)
    (hover : lim.SM_MAX_OPS < more.length) :
    st.tokens < b.tokens_end ∧
      parseRecord lim b st = .error ParseError.InvariantViolation := by
  obtain ⟨hicb, hdecl, hhsd⟩ := (specIsInsnOpcode_iff _).1 hins
  have hfirst : specHeaderEnd b.mem st.tokens (insntok_opcode (t0 % 2 ^ 32)) < b.tokens_end ∧
      specHeaderEnd b.mem st.tokens (insntok_opcode (t0 % 2 ^ 32)) < b.mem.length := by
    cases more with
    | nil =>
      simp only [List.length_nil] at hover
      omega
    | cons o rest =>
      obtain ⟨p1, hop⟩ := OperandsBetween_first hch
      exact ReadOp_first hop
  obtain ⟨hp1, hp2⟩ := hfirst
  unfold specHeaderEnd at hp1 hp2 hch
  have hlt : st.tokens < b.tokens_end := by omega
  refine ⟨hlt, ?_⟩
  have key : ∀ sm : PState, sm.tokens = st.tokens + 1 →
      parseInsn lim b (t0 % 2 ^ 32) (st.tokens + 1 - 1 + insntok_length (t0 % 2 ^ 32)) sm =
        .error ParseError.InvariantViolation := by
    intro sm htok
    obtain ⟨insn0, hext0⟩ := insnExtChain_of_count (b.tokens_end - (st.tokens + 1) + 1)
      st.tokens t0 { ShaderInstruction.fresh with insntok := t0 % 2 ^ 32 } h0 (by omega)
      (by omega) (by omega)
    have hext : insnExtChain b (b.tokens_end - sm.tokens + 1) (t0 % 2 ^ 32)
        { ShaderInstruction.fresh with insntok := t0 % 2 ^ 32 } sm.tokens =
        .ok (insn0, st.tokens + 1 + specExtCount (b.mem.drop st.tokens)) := by
      rw [htok]
      exact hext0
    have he : st.tokens + 1 - 1 + insntok_length (t0 % 2 ^ 32) =
        st.tokens + insntok_length (t0 % 2 ^ 32) := by omega
    rw [he]
    by_cases hop : insntok_opcode (t0 % 2 ^ 32) = SO_INTERFACE_CALL
    · rw [if_pos hop] at hch hp1 hp2
      have hget : b.mem[st.tokens + 1 + specExtCount (b.mem.drop st.tokens)]? =
          some (b.mem[st.tokens + 1 + specExtCount (b.mem.drop st.tokens)]) :=
        List.getElem?_eq_getElem (by omega)
      have hpay : insnPayload b (insntok_opcode (t0 % 2 ^ 32)) insn0
          (st.tokens + 1 + specExtCount (b.mem.drop st.tokens)) =
          .ok ({ insn0 with
                 num := b.mem[st.tokens + 1 + specExtCount (b.mem.drop st.tokens)] % 2 ^ 32 },
            st.tokens + 1 + specExtCount (b.mem.drop st.tokens) + 1) := by
        unfold insnPayload
        rw [if_pos hop, Read32_get hget (by omega)]
        rfl
      exact parseInsn_overflow hext hpay hch hover
    · rw [if_neg hop] at hch
      have hpay : insnPayload b (insntok_opcode (t0 % 2 ^ 32)) insn0
          (st.tokens + 1 + specExtCount (b.mem.drop st.tokens)) =
          .ok (insn0, st.tokens + 1 + specExtCount (b.mem.drop st.tokens)) := by
        unfold insnPayload
        rw [if_neg hop]
        rfl
      exact parseInsn_overflow hext hpay hch hover
  by_cases hhs : SO_HS_FORK_PHASE = insntok_opcode (t0 % 2 ^ 32) ∨
      SO_HS_JOIN_PHASE = insntok_opcode (t0 % 2 ^ 32) ∨
      SO_HS_CONTROL_POINT_PHASE = insntok_opcode (t0 % 2 ^ 32) ∨
      SO_HS_DECLS = insntok_opcode (t0 % 2 ^ 32)
  · have hm := parseRecord_marker h0 hlt hcount hhs
    rw [if_neg hhsd] at hm
    rw [hm]
    exact key _ rfl
  · have heq := parseRecord_eq h0 hlt hcount
    rw [if_neg hicb, if_neg hdecl, if_neg hhs] at heq
    rw [heq]
    exact key _ rfl

/-- Claim C16, instruction operands: after a successful `ParseShader`, the
instructions of the program are those it started with, followed by one
instruction for each instruction record of the stream (a record whose opcode
is not the immediate constant buffer, a declaration or `HSDecls`), in stream
order. The instruction of the record at position `s` carries its opcode
token; its `ops` are the operands decoded one after another from the end of
the header, which is `s + 1` plus the number of extended tokens of the chain
(read from the `extended` bit of each token) plus one count word for
`InterfaceCall`, up to `insn_end = s + length`, where the record ends;
`num_ops` is their number and `num_ops <= SM_MAX_OPS`. And when more than
`SM_MAX_OPS` operands stand between the end of the header of an instruction
record and its `insn_end`, the iteration of the loop at that record fails on
its assertion, and so does the loop. -/
theorem C16_instruction_operands (lim : Limits) :
    (∀ (prog : ShaderProgram) (mem : List Nat) (b : TokenBuf) (st : PState)
        (spans : List RecordSpan), ParseShaderSpans lim prog mem = .ok (b, st, spans) →
      b.mem = mem ∧
      ∃ new, st.prog.insns = prog.insns ++ new ∧
        List.Forall₂
          (fun sp insn => InsnDecodedAt lim b sp.start insn ∧
            sp.stop = sp.start + insntok_length insn.insntok ∧
            insn.num_ops = insn.ops.length ∧ insn.num_ops ≤ lim.SM_MAX_OPS)
          (spans.filter (specIsInsnSpan mem)) new) ∧
    (∀ (b : TokenBuf) (st : PState) (t0 : Nat) (more : List ShaderOperand),
      b.mem[st.tokens]? = some t0 → insntok_opcode (t0 % 2 ^ 32) < lim.SO_COUNT →
      specIsInsnOpcode (insntok_opcode (t0 % 2 ^ 32)) = true →
      OperandsBetween lim b (specHeaderEnd b.mem st.tokens (insntok_opcode (t0 % 2 ^ 32)))
        (st.tokens + insntok_length (t0 % 2 ^ 32)) more →
      lim.SM_MAX_OPS < more.length →
      parseRecord lim b st = .error ParseError.InvariantViolation ∧
        ∀ fuel, ParseShaderLoop lim b (fuel + 1) st =
          .error ParseError.InvariantViolation) := by
  constructor
  · intro prog mem b st spans h
    obtain ⟨v, l, -, -, -, rfl, hloop⟩ := ParseShaderSpans_ok h
    exact ⟨rfl, ParseShaderLoop_insns _ hloop⟩
  · intro b st t0 more h0 hcount hins hch hover
    obtain ⟨hlt, herr⟩ := parseRecord_too_many_ops h0 hcount hins hch hover
    refine ⟨herr, ?_⟩
    intro fuel
    unfold ParseShaderLoop
    rw [if_neg (by omega), herr]
    rfl

/-- Witness for C16. Scenario S1: the minimal vertex shader has 2
declarations and 2 instructions, `mov` (opcode 54) with `num_ops = 2` and `ret`
(opcode 62) with `num_ops = 0`, for the records at 8 and 13. A `mov` record
whose length holds seven operands makes the parse fail. In the stream
`sampleExtendedInstruction` the `mov` record at 2 has a chain of two extended
tokens: its header ends at 5, its two operands stand between 5 and 9, and the
extended tokens are not among them. -/
theorem C16_instruction_operands_witness :
    (ParseShader sampleLimits ShaderProgram.fresh sampleVertexShader).map
        (fun st => (st.prog.dcls.length,
          st.prog.insns.map (fun i => (i.opcode, i.num_ops, i.ops.length)))) =
      .ok (2, [(54, 2, 2), (62, 0, 0)]) ∧
    ParseShader sampleLimits ShaderProgram.fresh sampleSevenOperands =
      .error ParseError.InvariantViolation ∧
    (ParseShader sampleLimits ShaderProgram.fresh sampleExtendedInstruction).map
        (fun st => st.prog.insns.map (fun i =>
          (i.opcode, i.num_ops, i.ops.length, i.sample_offset, i.resource_target))) =
      .ok [(54, 2, 2, [1, 0, 0], 3), (62, 0, 0, [0, 0, 0], 0)] ∧
    specHeaderEnd sampleExtendedInstruction 2 54 = 5 ∧
    specHeaderEnd sampleVertexShader 8 54 = 9 ∧
    [(⟨2, 9⟩ : RecordSpan), ⟨9, 10⟩].filter (specIsInsnSpan sampleExtendedInstruction) =
      [⟨2, 9⟩, ⟨9, 10⟩] ∧
    [(⟨2, 5⟩ : RecordSpan), ⟨5, 8⟩, ⟨8, 13⟩, ⟨13, 14⟩].filter
        (specIsInsnSpan sampleVertexShader) = [⟨8, 13⟩, ⟨13, 14⟩] ∧
    (∃ st, ParseShaderSpans sampleLimits ShaderProgram.fresh sampleExtendedInstruction =
        .ok (⟨sampleExtendedInstruction, 10⟩, st, [⟨2, 9⟩, ⟨9, 10⟩]) ∧
      (⟨sampleExtendedInstruction, 10⟩ : TokenBuf).mem = sampleExtendedInstruction ∧
      ∃ new, st.prog.insns = ShaderProgram.fresh.insns ++ new ∧
        List.Forall₂
          (fun sp insn =>
            InsnDecodedAt sampleLimits ⟨sampleExtendedInstruction, 10⟩ sp.start insn ∧
            sp.stop = sp.start + insntok_length insn.insntok ∧
            insn.num_ops = insn.ops.length ∧ insn.num_ops ≤ sampleLimits.SM_MAX_OPS)
          ([(⟨2, 9⟩ : RecordSpan), ⟨9, 10⟩].filter
            (specIsInsnSpan sampleExtendedInstruction)) new) ∧
    (∃ st, ParseShaderSpans sampleLimits ShaderProgram.fresh sampleVertexShader =
        .ok (⟨sampleVertexShader, 14⟩, st, [⟨2, 5⟩, ⟨5, 8⟩, ⟨8, 13⟩, ⟨13, 14⟩]) ∧
      (⟨sampleVertexShader, 14⟩ : TokenBuf).mem = sampleVertexShader ∧
      ∃ new, st.prog.insns = ShaderProgram.fresh.insns ++ new ∧
        List.Forall₂
          (fun sp insn =>
            InsnDecodedAt sampleLimits ⟨sampleVertexShader, 14⟩ sp.start insn ∧
            sp.stop = sp.start + insntok_length insn.insntok ∧
            insn.num_ops = insn.ops.length ∧ insn.num_ops ≤ sampleLimits.SM_MAX_OPS)
          ([(⟨2, 5⟩ : RecordSpan), ⟨5, 8⟩, ⟨8, 13⟩, ⟨13, 14⟩].filter
            (specIsInsnSpan sampleVertexShader)) new) := by
  refine ⟨rfl, rfl, rfl, by decide, by decide, by decide, by decide,
    ⟨_, rfl, ?_⟩, ⟨_, rfl, ?_⟩⟩
  · exact (C16_instruction_operands sampleLimits).1 ShaderProgram.fresh
      sampleExtendedInstruction ⟨sampleExtendedInstruction, 10⟩ _ [⟨2, 9⟩, ⟨9, 10⟩] rfl
  · exact (C16_instruction_operands sampleLimits).1 ShaderProgram.fresh sampleVertexShader
      ⟨sampleVertexShader, 14⟩ _ [⟨2, 5⟩, ⟨5, 8⟩, ⟨8, 13⟩, ⟨13, 14⟩] rfl

end DXBC
